import Mathlib

/-!
# PANDA taint processor: shadow memory, taint-op buffers and the op interpreter

A shallow embedding of `qemu/panda/taint_processor.c` and `taint_processor.h`.

* Machine integers are natural numbers; where the C arithmetic is done in a
  fixed width the reduction modulo `2^32` or `2^64` is written out.
* `assert` failures and `exit(1)` are the result `none`.
* Label sets live in a pool of cells addressed by natural numbers (pointers);
  `none` is the `NULL` pointer.  Slots of the shadow memory hold pointers, so
  two slots may refer to the same cell.
-/

namespace Panda

/-! ## Constants and types of `taint_processor.h` -/

/-- Constant `#define FUNCTIONFRAMES 2` -/
def FUNCTIONFRAMES : Nat := 2

/-- Constant `#define MAXREGSIZE 16` -/
def MAXREGSIZE : Nat := 16

/-- Modulus of `uint32_t` arithmetic. -/
abbrev U32 : Nat := 4294967296

/-- Modulus of `uint64_t` arithmetic. -/
abbrev U64 : Nat := 18446744073709551616

/-- Type `typedef uint32_t Label` -/
abbrev Label := Nat

/-- Compile-time configuration: the two preprocessor switches read by
`taint_processor.c`; the three constants of `guestarch.h`, a header that is
not part of the sources at hand; `sizeof(TaintOp)`; and three constants that
`process_insn_start_op` uses but the header at hand does not declare: the
lengths of the switch and phi arrays of an `INSN_START` and the value
`SWITCHSTEP` of `next_step`.  All are parameters. -/
structure Config where
  TARGET_X86_64 : Bool
  TAINTED_POINTER : Bool
  NUMREGS : Nat
  WORDSIZE : Nat
  NUMSPECADDRS : Nat
  SIZEOF_TAINTOP : Nat
  MAXSWITCHSTMTS : Nat
  MAXPHIBLOCKS : Nat
  SWITCHSTEP : Int
deriving DecidableEq

/-- Enumeration `typedef enum {HADDR, MADDR, IADDR, LADDR, GREG, GSPEC, UNK, CONST, RET} AddrType` -/
inductive AddrType where
  | HADDR | MADDR | IADDR | LADDR | GREG | GSPEC | UNK | CONST | RET
deriving DecidableEq

/-- Enumeration `AddrFlag`: `ZERO` is the value `0` that the fixup code stores to clear a
flag; the others are the enumerators `IRRELEVANT=-1`, `EXCEPTION=1`,
`READLOG`, `FUNCARG`. -/
inductive AddrFlag where
  | ZERO | IRRELEVANT | EXCEPTION | READLOG | FUNCARG
deriving DecidableEq

/-- Record `struct addr_struct`: the nine members of the union `val` are all
`uint64_t` at the same place, so one field `val` stands for them. -/
structure Addr where
  typ : AddrType
  val : Nat
  off : Nat
  flag : AddrFlag
deriving DecidableEq

/-! ## Label sets (`bitvector_label_set.c`, not part of the sources at hand) -/

/-- Type tag of a label set. -/
inductive LabelSetType where
  | LST_COPY | LST_COMPUTE
deriving DecidableEq

/-- Modelled from the spec: the label-set object of `bitvector_label_set.c`
(absent from the sources): a set of labels, a type tag (`none` until
`labelset_set_type` is called) and a reference count. -/
structure LabelSet where
  set : List Label
  type : Option LabelSetType
  count : Nat
deriving DecidableEq

/-- Modelled from the spec: the allocation pool of label sets of
`bitvector_label_set.c` (absent from the sources).  `cells p` is the object
at pointer `p`; `next` is the next pointer handed out by `labelset_new`.
Reclaiming storage is not modelled: a cell whose count dropped to zero keeps
its last contents. -/
structure LabelSetPool where
  cells : Nat → LabelSet
  next : Nat

/-- Modelled from the spec: `labelset_new` of `bitvector_label_set.c` (absent
from the sources), `new() → empty`, one reference held by the caller. -/
def labelset_new (h : LabelSetPool) : LabelSetPool × Nat :=
  ({ cells := Function.update h.cells h.next { set := [], type := none, count := 1 },
     next := h.next + 1 }, h.next)

/-- Modelled from the spec: `labelset_copy` of `bitvector_label_set.c` (absent
from the sources): "`copy` returns a shared view without duplicating
members"; the count of the shared object goes up by one, `NULL` stays `NULL`. -/
def labelset_copy (h : LabelSetPool) (ls : Option Nat) : LabelSetPool × Option Nat :=
  match ls with
  | none => (h, none)
  | some p =>
    let c := h.cells p
    ({ h with cells := Function.update h.cells p { c with count := c.count + 1 } }, some p)

/-- Modelled from the spec: `labelset_free` of `bitvector_label_set.c` (absent
from the sources): "`free` decrements the count and releases on zero". -/
def labelset_free (h : LabelSetPool) (ls : Option Nat) : LabelSetPool :=
  match ls with
  | none => h
  | some p =>
    let c := h.cells p
    { h with cells := Function.update h.cells p { c with count := c.count - 1 } }

/-- Modelled from the spec: `labelset_add` of `bitvector_label_set.c` (absent
from the sources), `add(ls, l)` on the object itself. -/
def labelset_add (h : LabelSetPool) (p : Nat) (l : Label) : LabelSetPool :=
  let c := h.cells p
  { h with cells := Function.update h.cells p { c with set := c.set.insert l } }

/-- Modelled from the spec: `labelset_collect` of `bitvector_label_set.c`
(absent from the sources): "`union_into(dst, src)` inserts all members of src
into dst". -/
def labelset_collect (h : LabelSetPool) (dst src : Nat) : LabelSetPool :=
  let c := h.cells dst
  { h with cells := Function.update h.cells dst { c with set := (h.cells src).set ∪ c.set } }

/-- Modelled from the spec: `labelset_is_empty` of `bitvector_label_set.c`
(absent from the sources): "an empty or absent label set is semantically
equivalent to untainted". -/
def labelset_is_empty (h : LabelSetPool) (ls : Option Nat) : Bool :=
  match ls with
  | none => true
  | some p => (h.cells p).set.isEmpty

/-- Modelled from the spec: `labelset_set_type` of `bitvector_label_set.c`
(absent from the sources). -/
def labelset_set_type (h : LabelSetPool) (p : Nat) (t : LabelSetType) : LabelSetPool :=
  let c := h.cells p
  { h with cells := Function.update h.cells p { c with type := some t } }

/-! ## Shadow directories (`shad_dir_32.c`, `shad_dir_64.c`, not part of the sources at hand) -/

/-- Modelled from the spec: the page-tree directory of `shad_dir_32.c` and
`shad_dir_64.c` (absent from the sources) as the map it represents from a
byte address to a label-set pointer, with its occupancy counter. -/
structure SdDir where
  entries : Nat → Option Nat
  occupancy : Nat

/-- Modelled from the spec: `shad_dir_new_32` / `shad_dir_new_64` (absent from
the sources): a directory without entries. -/
def shad_dir_new : SdDir := { entries := fun _ => none, occupancy := 0 }

/-- Modelled from the spec: the lookup common to `shad_dir_find_32` and
`shad_dir_find_64` (absent from the sources): "`find(addr)` returns the label
set or absent".  The result is a counted reference, as the comment above
`tp_labelset_get` says of every pointer that function returns. -/
def shad_dir_find (h : LabelSetPool) (d : SdDir) (key : Nat) : LabelSetPool × Option Nat :=
  labelset_copy h (d.entries key)

/-- Modelled from the spec: the store common to `shad_dir_add_32` and
`shad_dir_add_64` (absent from the sources): "`add(addr, ls)` stores a shared
reference, releasing any prior occupant". -/
def shad_dir_add (h : LabelSetPool) (d : SdDir) (key : Nat) (ls : Option Nat) :
    LabelSetPool × SdDir :=
  let h1 := labelset_free h (d.entries key)
  let r := labelset_copy h1 ls
  (r.1, { entries := Function.update d.entries key r.2,
          occupancy := if (d.entries key).isSome then d.occupancy else d.occupancy + 1 })

/-- Modelled from the spec: the removal common to `shad_dir_remove_32` and
`shad_dir_remove_64` (absent from the sources): "`remove(addr)` releases any
occupant and is a no-op if absent". -/
def shad_dir_remove (h : LabelSetPool) (d : SdDir) (key : Nat) : LabelSetPool × SdDir :=
  match d.entries key with
  | none => (h, d)
  | some p =>
    (labelset_free h (some p),
     { entries := Function.update d.entries key none, occupancy := d.occupancy - 1 })

/-- Function `shad_dir_find_64`: the key is a `uint64_t`. -/
def shad_dir_find_64 (h : LabelSetPool) (d : SdDir) (addr : Nat) : LabelSetPool × Option Nat :=
  shad_dir_find h d (addr % U64)

/-- Function `shad_dir_find_32`: the key is a `uint32_t`. -/
def shad_dir_find_32 (h : LabelSetPool) (d : SdDir) (addr : Nat) : LabelSetPool × Option Nat :=
  shad_dir_find h d (addr % U32)

/-- Function `shad_dir_add_64`: the key is a `uint64_t`. -/
def shad_dir_add_64 (h : LabelSetPool) (d : SdDir) (addr : Nat) (ls : Option Nat) :
    LabelSetPool × SdDir :=
  shad_dir_add h d (addr % U64) ls

/-- Function `shad_dir_add_32`: the key is a `uint32_t`. -/
def shad_dir_add_32 (h : LabelSetPool) (d : SdDir) (addr : Nat) (ls : Option Nat) :
    LabelSetPool × SdDir :=
  shad_dir_add h d (addr % U32) ls

/-- Function `shad_dir_remove_64`: the key is a `uint64_t`. -/
def shad_dir_remove_64 (h : LabelSetPool) (d : SdDir) (addr : Nat) : LabelSetPool × SdDir :=
  shad_dir_remove h d (addr % U64)

/-- Function `shad_dir_remove_32`: the key is a `uint32_t`. -/
def shad_dir_remove_32 (h : LabelSetPool) (d : SdDir) (addr : Nat) : LabelSetPool × SdDir :=
  shad_dir_remove h d (addr % U32)

/-! ## Shadow memory -/

/-- Record `struct shad_struct`, together with the pool its label-set pointers point
into.  Arrays are maps from the index to the stored pointer. -/
structure Shad where
  hd_size : Nat
  mem_size : Nat
  io_size : Nat
  num_vals : Nat
  guest_regs : Nat
  hd : SdDir
  ram : SdDir
  io : SdDir
  llv : Nat → Option Nat
  ret : Nat → Option Nat
  grv : Nat → Option Nat
  gsv : Nat → Option Nat
  ram_bitmap : Nat → Nat
  current_frame : Nat
  pool : LabelSetPool

/-- Function `get_ram_bit`: the parameter is a `uint32_t`, the byte and the result are
`uint8_t`. -/
def get_ram_bit (shad : Shad) (addr : Nat) : Nat :=
  let addr := addr % U32
  let taint_byte := shad.ram_bitmap (addr >>> 3) % 256
  (taint_byte &&& (1 <<< (addr &&& 7))) % 256

/-- Function `set_ram_bit` -/
def set_ram_bit (shad : Shad) (addr : Nat) : Shad :=
  let addr := addr % U32
  let taint_byte := shad.ram_bitmap (addr >>> 3) % 256
  let taint_byte := (taint_byte ||| (1 <<< (addr &&& 7))) % 256
  { shad with ram_bitmap := Function.update shad.ram_bitmap (addr >>> 3) taint_byte }

/-- Function `clear_ram_bit`: `~(1 << k)` is taken within the eight bits of the byte. -/
def clear_ram_bit (shad : Shad) (addr : Nat) : Shad :=
  let addr := addr % U32
  let taint_byte := shad.ram_bitmap (addr >>> 3) % 256
  let taint_byte := (taint_byte &&& (255 ^^^ (1 <<< (addr &&& 7)))) % 256
  { shad with ram_bitmap := Function.update shad.ram_bitmap (addr >>> 3) taint_byte }

/-- Function `tp_init`.  The pool starts without any label set. -/
def tp_init (cfg : Config) (hd_size mem_size io_size max_vals : Nat) : Shad :=
  { hd_size := hd_size
    mem_size := mem_size
    io_size := io_size
    num_vals := max_vals
    guest_regs := cfg.NUMREGS
    hd := shad_dir_new
    ram := shad_dir_new
    io := shad_dir_new
    llv := fun _ => none
    ret := fun _ => none
    grv := fun _ => none
    gsv := fun _ => none
    ram_bitmap := fun _ => 0
    current_frame := 0
    pool := { cells := fun _ => { set := [], type := none, count := 0 }, next := 0 } }

/-- The index `shad->num_vals*frame + a.val.la*MAXREGSIZE + a.off` into
`shad->llv`: the product of the two `uint32_t` is a `uint32_t`, the rest is
`uint64_t` arithmetic. -/
def llv_index (shad : Shad) (frame : Nat) (a : Addr) : Nat :=
  ((shad.num_vals * frame) % U32 + (a.val * MAXREGSIZE) % U64 + a.off) % U64

/-- The index `a.val.gr * WORDSIZE + a.off` into `shad->grv`. -/
def grv_index (cfg : Config) (a : Addr) : Nat :=
  (a.val * cfg.WORDSIZE + a.off) % U64

/-- The index `a.val.gs - NUMREGS + a.off` into `shad->gsv`, in `uint64_t`
arithmetic. -/
def gsv_index (cfg : Config) (a : Addr) : Nat :=
  (a.val % U64 + (U64 - cfg.NUMREGS % U64) + a.off) % U64

/-- The frame `shad->current_frame + 1` of a `FUNCARG` access, a `uint32_t`. -/
def next_frame (shad : Shad) : Nat := (shad.current_frame + 1) % U32

/-- Function `tp_labelset_get`: the pointer stored for `a` as a counted reference, or
`NULL`; `none` when an assertion fails. -/
def tp_labelset_get (cfg : Config) (shad : Shad) (a : Addr) : Option (Shad × Option Nat) :=
  match a.typ with
  | .HADDR =>
    let r := shad_dir_find_64 shad.pool shad.hd (a.val + a.off)
    some ({ shad with pool := r.1 }, r.2)
  | .MADDR =>
    if cfg.TARGET_X86_64 then
      let r := shad_dir_find_64 shad.pool shad.ram (a.val + a.off)
      some ({ shad with pool := r.1 }, r.2)
    else if get_ram_bit shad (a.val + a.off) ≠ 0 then
      let r := shad_dir_find_32 shad.pool shad.ram (a.val + a.off)
      some ({ shad with pool := r.1 }, r.2)
    else some (shad, none)
  | .IADDR =>
    let r := shad_dir_find_64 shad.pool shad.io (a.val + a.off)
    some ({ shad with pool := r.1 }, r.2)
  | .LADDR =>
    if a.flag = .FUNCARG then
      if next_frame shad < FUNCTIONFRAMES then
        let r := labelset_copy shad.pool (shad.llv (llv_index shad (next_frame shad) a))
        some ({ shad with pool := r.1 }, r.2)
      else none
    else
      if shad.current_frame < FUNCTIONFRAMES then
        let r := labelset_copy shad.pool (shad.llv (llv_index shad shad.current_frame a))
        some ({ shad with pool := r.1 }, r.2)
      else none
  | .GREG =>
    let r := labelset_copy shad.pool (shad.grv (grv_index cfg a))
    some ({ shad with pool := r.1 }, r.2)
  | .GSPEC =>
    let r := labelset_copy shad.pool (shad.gsv (gsv_index cfg a))
    some ({ shad with pool := r.1 }, r.2)
  | .CONST => some (shad, none)
  | .RET =>
    let r := labelset_copy shad.pool (shad.ret a.off)
    some ({ shad with pool := r.1 }, r.2)
  | .UNK => none

/-- Function `tp_query`: the reference obtained from `tp_labelset_get` is not given
back, so the state comes back with it. -/
def tp_query (cfg : Config) (shad : Shad) (a : Addr) : Option (Shad × Bool) :=
  match tp_labelset_get cfg shad a with
  | none => none
  | some (s1, ls) => some (s1, !(labelset_is_empty s1.pool ls))

/-- Function `tp_delete` -/
def tp_delete (cfg : Config) (shad : Shad) (a : Addr) : Option Shad :=
  match a.typ with
  | .HADDR =>
    let r := shad_dir_remove_64 shad.pool shad.hd (a.val + a.off)
    some { shad with pool := r.1, hd := r.2 }
  | .MADDR =>
    if cfg.TARGET_X86_64 then
      let r := shad_dir_remove_64 shad.pool shad.ram (a.val + a.off)
      some { shad with pool := r.1, ram := r.2 }
    else if get_ram_bit shad (a.val + a.off) ≠ 0 then
      let r := shad_dir_remove_32 shad.pool shad.ram (a.val + a.off)
      some (clear_ram_bit { shad with pool := r.1, ram := r.2 } (a.val + a.off))
    else some shad
  | .IADDR =>
    let r := shad_dir_remove_64 shad.pool shad.io (a.val + a.off)
    some { shad with pool := r.1, io := r.2 }
  | .LADDR =>
    if a.flag = .FUNCARG then
      let i := llv_index shad (next_frame shad) a
      some { shad with pool := labelset_free shad.pool (shad.llv i),
                       llv := Function.update shad.llv i none }
    else
      let i := llv_index shad shad.current_frame a
      some { shad with pool := labelset_free shad.pool (shad.llv i),
                       llv := Function.update shad.llv i none }
  | .GREG =>
    let i := grv_index cfg a
    some { shad with pool := labelset_free shad.pool (shad.grv i),
                     grv := Function.update shad.grv i none }
  | .GSPEC =>
    let i := gsv_index cfg a
    some { shad with pool := labelset_free shad.pool (shad.gsv i),
                     gsv := Function.update shad.gsv i none }
  | .RET =>
    some { shad with pool := labelset_free shad.pool (shad.ret a.off),
                     ret := Function.update shad.ret a.off none }
  | .UNK => none
  | .CONST => none

/-- Function `tp_labelset_put` -/
def tp_labelset_put (cfg : Config) (shad : Shad) (a : Addr) (ls : Option Nat) : Option Shad :=
  match tp_delete cfg shad a with
  | none => none
  | some shad =>
    match a.typ with
    | .HADDR =>
      let r := shad_dir_add_64 shad.pool shad.hd (a.val + a.off) ls
      some { shad with pool := r.1, hd := r.2 }
    | .MADDR =>
      if cfg.TARGET_X86_64 then
        let r := shad_dir_add_64 shad.pool shad.ram (a.val + a.off) ls
        some { shad with pool := r.1, ram := r.2 }
      else
        let r := shad_dir_add_32 shad.pool shad.ram (a.val + a.off) ls
        some (set_ram_bit { shad with pool := r.1, ram := r.2 } (a.val + a.off))
    | .IADDR =>
      let r := shad_dir_add_64 shad.pool shad.io (a.val + a.off) ls
      some { shad with pool := r.1, io := r.2 }
    | .LADDR =>
      let r := labelset_copy shad.pool ls
      if a.flag = .FUNCARG then
        if next_frame shad < FUNCTIONFRAMES then
          some { shad with pool := r.1,
                           llv := Function.update shad.llv (llv_index shad (next_frame shad) a) r.2 }
        else none
      else
        if shad.current_frame < FUNCTIONFRAMES then
          some { shad with pool := r.1,
                           llv := Function.update shad.llv (llv_index shad shad.current_frame a) r.2 }
        else none
    | .GREG =>
      let r := labelset_copy shad.pool ls
      some { shad with pool := r.1, grv := Function.update shad.grv (grv_index cfg a) r.2 }
    | .GSPEC =>
      let r := labelset_copy shad.pool ls
      some { shad with pool := r.1, gsv := Function.update shad.gsv (gsv_index cfg a) r.2 }
    | .RET =>
      let r := labelset_copy shad.pool ls
      some { shad with pool := r.1, ret := Function.update shad.ret a.off r.2 }
    | .UNK => none
    | .CONST => none

/-- Function `tp_label` -/
def tp_label (cfg : Config) (shad : Shad) (a : Addr) (l : Label) : Option Shad :=
  match tp_labelset_get cfg shad a with
  | none => none
  | some (shad, ls) =>
    let r : LabelSetPool × Nat :=
      match ls with
      | none =>
        let n := labelset_new shad.pool
        (labelset_set_type n.1 n.2 .LST_COPY, n.2)
      | some p => (shad.pool, p)
    let pool := labelset_add r.1 r.2 l
    match tp_labelset_put cfg { shad with pool := pool } a (some r.2) with
    | none => none
    | some shad => some { shad with pool := labelset_free shad.pool (some r.2) }

/-- Function `addrs_equal`; `none` is the failing `assert (1==0)` of the default case. -/
def addrs_equal (a b : Addr) : Option Bool :=
  if a.typ ≠ b.typ then some false
  else
    match a.typ with
    | .HADDR => some (decide ((a.val + a.off) % U64 = (b.val + b.off) % U64))
    | .MADDR => some (decide ((a.val + a.off) % U64 = (b.val + b.off) % U64))
    | .IADDR => some (decide ((a.val + a.off) % U64 = (b.val + b.off) % U64))
    | .LADDR => some (decide (a.val = b.val) && decide (a.off = b.off) && decide (a.flag = b.flag))
    | .GREG => some (decide (a.val = b.val) && decide (a.off = b.off))
    | .GSPEC => some (decide (a.val = b.val) && decide (a.off = b.off))
    | .RET => some (decide (a.off = b.off))
    | .UNK => none
    | .CONST => none

/-- Function `tp_copy` -/
def tp_copy (cfg : Config) (shad : Shad) (a b : Addr) : Option Shad :=
  match addrs_equal a b with
  | none => none
  | some true => none
  | some false =>
    match tp_labelset_get cfg shad a with
    | none => none
    | some (shad, ls_a) =>
      if labelset_is_empty shad.pool ls_a then
        match tp_delete cfg shad b with
        | none => none
        | some shad => some { shad with pool := labelset_free shad.pool ls_a }
      else
        match tp_labelset_put cfg shad b ls_a with
        | none => none
        | some shad => some { shad with pool := labelset_free shad.pool ls_a }

/-- The statement `if (ls != NULL) { labelset_collect(ls_c, ls); }` of
`tp_compute`. -/
def collect_non_null (h : LabelSetPool) (ls_c : Nat) (ls : Option Nat) : LabelSetPool :=
  match ls with
  | some p => labelset_collect h ls_c p
  | none => h

/-- Function `tp_compute` -/
def tp_compute (cfg : Config) (shad : Shad) (a b c : Addr) : Option Shad :=
  match tp_labelset_get cfg shad a with
  | none => none
  | some (shad, ls_a) =>
    match tp_labelset_get cfg shad b with
    | none => none
    | some (shad, ls_b) =>
      match tp_delete cfg shad c with
      | none => none
      | some shad =>
        if labelset_is_empty shad.pool ls_a && labelset_is_empty shad.pool ls_b then
          some shad
        else
          let n := labelset_new shad.pool
          let ls_c := n.2
          let pool := n.1
          let pool := collect_non_null pool ls_c ls_a
          let pool := collect_non_null pool ls_c ls_b
          let pool := labelset_set_type pool ls_c .LST_COMPUTE
          match tp_labelset_put cfg { shad with pool := pool } c (some ls_c) with
          | none => none
          | some shad =>
            let pool := labelset_free shad.pool ls_a
            let pool := labelset_free pool ls_b
            some { shad with pool := labelset_free pool (some ls_c) }

/-! ## Observations on a shadow state, used to state the properties -/

/-- The storage cell of the shadow memory an address designates: a directory
key or an array index, computed as `tp_labelset_get`, `tp_delete` and
`tp_labelset_put` compute it. -/
inductive Slot where
  | hd (key : Nat)
  | ram (key : Nat)
  | io (key : Nat)
  | llv (i : Nat)
  | grv (i : Nat)
  | gsv (i : Nat)
  | ret (i : Nat)
deriving DecidableEq

/-- The slot of address `a` in state `shad`; `UNK` and `CONST` have none. -/
def slot_of (cfg : Config) (shad : Shad) (a : Addr) : Option Slot :=
  match a.typ with
  | .HADDR => some (.hd ((a.val + a.off) % U64))
  | .MADDR =>
    some (.ram (if cfg.TARGET_X86_64 then (a.val + a.off) % U64 else (a.val + a.off) % U32))
  | .IADDR => some (.io ((a.val + a.off) % U64))
  | .LADDR =>
    some (.llv (llv_index shad
      (if a.flag = .FUNCARG then next_frame shad else shad.current_frame) a))
  | .GREG => some (.grv (grv_index cfg a))
  | .GSPEC => some (.gsv (gsv_index cfg a))
  | .RET => some (.ret a.off)
  | .UNK => none
  | .CONST => none

/-- A RAM slot of the 32-bit configuration has a 32-bit key. -/
def Slot.ok (cfg : Config) : Slot → Prop
  | .ram k => cfg.TARGET_X86_64 = true ∨ k < U32
  | _ => True

/-- The pointer a read finds in a slot: the stored pointer, and for 32-bit RAM
`NULL` when the bit of the presence bitmap is clear. -/
def slot_ptr (cfg : Config) (shad : Shad) : Slot → Option Nat
  | .hd k => shad.hd.entries k
  | .ram k =>
    if cfg.TARGET_X86_64 then shad.ram.entries k
    else if get_ram_bit shad k ≠ 0 then shad.ram.entries k else none
  | .io k => shad.io.entries k
  | .llv i => shad.llv i
  | .grv i => shad.grv i
  | .gsv i => shad.gsv i
  | .ret i => shad.ret i

/-- The pointer a read of address `a` finds; `NULL` for `CONST` and `UNK`. -/
def ptr_of (cfg : Config) (shad : Shad) (a : Addr) : Option Nat :=
  match slot_of cfg shad a with
  | some sl => slot_ptr cfg shad sl
  | none => none

/-- The assertions of `tp_labelset_get` hold for `a`: the type is not `UNK`
and an `LADDR` access stays within the frames. -/
def get_ok (shad : Shad) (a : Addr) : Prop :=
  a.typ ≠ .UNK ∧
  (a.typ = .LADDR →
    if a.flag = .FUNCARG then next_frame shad < FUNCTIONFRAMES
    else shad.current_frame < FUNCTIONFRAMES)

/-- The members of the label set `tp_labelset_get` returns for `a`; no member
when it returns `NULL` or fails. -/
def members (cfg : Config) (shad : Shad) (a : Addr) : List Label :=
  match tp_labelset_get cfg shad a with
  | some (s1, some p) => (s1.pool.cells p).set
  | _ => []

/-- The type tag of the label set `tp_labelset_get` returns for `a`; `none`
when it returns `NULL` or fails. -/
def type_tag (cfg : Config) (shad : Shad) (a : Addr) : Option LabelSetType :=
  match tp_labelset_get cfg shad a with
  | some (s1, some p) => (s1.pool.cells p).type
  | _ => none

/-- The value of `tp_query`, `none` when it fails. -/
def query_val (cfg : Config) (shad : Shad) (a : Addr) : Option Bool :=
  (tp_query cfg shad a).map Prod.snd

/-- An address of a tracked type whose fields are within the arrays that
`tp_init` allocates and whose frame passes the assertions of the `LADDR`
cases. -/
def in_range (cfg : Config) (shad : Shad) (a : Addr) : Prop :=
  a.val < U64 ∧ a.off < MAXREGSIZE ∧
  match a.typ with
  | .HADDR => True
  | .MADDR => True
  | .IADDR => True
  | .LADDR =>
    a.val < shad.num_vals ∧
    (if a.flag = .FUNCARG then next_frame shad < FUNCTIONFRAMES
     else shad.current_frame < FUNCTIONFRAMES)
  | .GREG => a.val < cfg.NUMREGS ∧ a.off < cfg.WORDSIZE
  | .GSPEC => cfg.NUMREGS ≤ a.val ∧ a.val - cfg.NUMREGS + a.off < cfg.NUMSPECADDRS
  | .RET => True
  | .UNK => False
  | .CONST => False

/-- The states the shadow memory can be in: the result of `tp_init`, changed
by any sequence of the five operations of the API and of assignments to
`current_frame` (made by the `CALL` and `RET` ops of the interpreter). -/
inductive Reachable (cfg : Config) : Shad → Prop where
  | init (hd_size mem_size io_size max_vals : Nat) :
      Reachable cfg (tp_init cfg hd_size mem_size io_size max_vals)
  | label {s s1 : Shad} (a : Addr) (l : Label) :
      Reachable cfg s → tp_label cfg s a l = some s1 → Reachable cfg s1
  | delete {s s1 : Shad} (a : Addr) :
      Reachable cfg s → tp_delete cfg s a = some s1 → Reachable cfg s1
  | copy {s s1 : Shad} (a b : Addr) :
      Reachable cfg s → tp_copy cfg s a b = some s1 → Reachable cfg s1
  | compute {s s1 : Shad} (a b c : Addr) :
      Reachable cfg s → tp_compute cfg s a b c = some s1 → Reachable cfg s1
  | query {s s1 : Shad} (a : Addr) (r : Bool) :
      Reachable cfg s → tp_query cfg s a = some (s1, r) → Reachable cfg s1
  | frame {s : Shad} (k : Nat) :
      Reachable cfg s → Reachable cfg { s with current_frame := k }

/-- Pools with the same members and type tag in every cell (the reference
counts may differ). -/
def same_content (h h1 : LabelSetPool) : Prop :=
  ∀ q, (h1.cells q).set = (h.cells q).set ∧ (h1.cells q).type = (h.cells q).type

/-- In the 32-bit configuration the presence bitmap agrees with the RAM
directory on every 32-bit address. -/
def bitmap_ok (cfg : Config) (shad : Shad) : Prop :=
  cfg.TARGET_X86_64 = false →
    ∀ x, x < U32 → (get_ram_bit shad x ≠ 0 ↔ shad.ram.entries x ≠ none)

/-- Invariant of the reachable states: every pointer a read can find was
handed out by the pool and its label set has a member, and the presence
bitmap agrees with the RAM directory. -/
structure Inv (cfg : Config) (shad : Shad) : Prop where
  nonempty : ∀ sl p, Slot.ok cfg sl → slot_ptr cfg shad sl = some p →
    (shad.pool.cells p).set ≠ []
  fresh : ∀ sl p, Slot.ok cfg sl → slot_ptr cfg shad sl = some p → p < shad.pool.next
  bitmap : bitmap_ok cfg shad

/-- The type of `a` is one `tp_delete` handles. -/
def del_ok (a : Addr) : Prop := a.typ ≠ .UNK ∧ a.typ ≠ .CONST

/-- The type of `a` is one `tp_labelset_put` handles and its assertions on
the frame of an `LADDR` hold. -/
def put_ok (shad : Shad) (a : Addr) : Prop := del_ok a ∧ get_ok shad a

/-- The `switch` of `tp_labelset_put`, which follows its call of `tp_delete`. -/
def put_store (cfg : Config) (shad : Shad) (a : Addr) (ls : Option Nat) : Option Shad :=
  match a.typ with
  | .HADDR =>
    let r := shad_dir_add_64 shad.pool shad.hd (a.val + a.off) ls
    some { shad with pool := r.1, hd := r.2 }
  | .MADDR =>
    if cfg.TARGET_X86_64 then
      let r := shad_dir_add_64 shad.pool shad.ram (a.val + a.off) ls
      some { shad with pool := r.1, ram := r.2 }
    else
      let r := shad_dir_add_32 shad.pool shad.ram (a.val + a.off) ls
      some (set_ram_bit { shad with pool := r.1, ram := r.2 } (a.val + a.off))
  | .IADDR =>
    let r := shad_dir_add_64 shad.pool shad.io (a.val + a.off) ls
    some { shad with pool := r.1, io := r.2 }
  | .LADDR =>
    let r := labelset_copy shad.pool ls
    if a.flag = .FUNCARG then
      if next_frame shad < FUNCTIONFRAMES then
        some { shad with pool := r.1,
                         llv := Function.update shad.llv (llv_index shad (next_frame shad) a) r.2 }
      else none
    else
      if shad.current_frame < FUNCTIONFRAMES then
        some { shad with pool := r.1,
                         llv := Function.update shad.llv (llv_index shad shad.current_frame a) r.2 }
      else none
  | .GREG =>
    let r := labelset_copy shad.pool ls
    some { shad with pool := r.1, grv := Function.update shad.grv (grv_index cfg a) r.2 }
  | .GSPEC =>
    let r := labelset_copy shad.pool ls
    some { shad with pool := r.1, gsv := Function.update shad.gsv (gsv_index cfg a) r.2 }
  | .RET =>
    let r := labelset_copy shad.pool ls
    some { shad with pool := r.1, ret := Function.update shad.ret a.off r.2 }
  | .UNK => none
  | .CONST => none

/-- State `s1` reads `v` in slot `sl` and reads every other slot as `s` does;
the frame and the register count are the same. -/
structure SlotUpd (cfg : Config) (s s1 : Shad) (sl : Slot) (v : Option Nat) : Prop where
  at_sl : slot_ptr cfg s1 sl = v
  other : ∀ sl1, Slot.ok cfg sl1 → sl1 ≠ sl → slot_ptr cfg s1 sl1 = slot_ptr cfg s sl1
  frame : s1.current_frame = s.current_frame
  nvals : s1.num_vals = s.num_vals
  bitmap : bitmap_ok cfg s → bitmap_ok cfg s1

/-- State `s1` is state `s` with the pointer `v` in slot `sl`: every other
slot reads as before, no label set changed its members or tag, and the
frame, the register count and the pool's allocation mark are the same. -/
structure Upd (cfg : Config) (s s1 : Shad) (sl : Slot) (v : Option Nat) : Prop where
  at_sl : slot_ptr cfg s1 sl = v
  other : ∀ sl1, Slot.ok cfg sl1 → sl1 ≠ sl → slot_ptr cfg s1 sl1 = slot_ptr cfg s sl1
  content : same_content s.pool s1.pool
  next : s1.pool.next = s.pool.next
  frame : s1.current_frame = s.current_frame
  nvals : s1.num_vals = s.num_vals
  bitmap : bitmap_ok cfg s → bitmap_ok cfg s1

/-! ## Taint operations and taint-op buffers -/

/-- Enumeration `TaintOpType` -/
inductive TaintOpType where
  | LABELOP | DELETEOP | COPYOP | COMPUTEOP | INSNSTARTOP | CALLOP | RETOP
deriving DecidableEq

/-- The member `insn_start` of the union in `struct taint_op_struct`.  The
arrays `switch_conds`, `switch_labels`, `phi_blocks` and `phi_vals`, which
`process_insn_start_op` reads, are missing from the header at hand; they are
lists here, and an element beyond the end of a list reads as 0. -/
structure InsnStart where
  name : String
  num_ops : Int
  flag : Int
  branch_labels : Int × Int
  switch_conds : List Int
  switch_labels : List Int
  phi_blocks : List Int
  phi_vals : List Int
deriving DecidableEq

/-- Record `struct taint_op_struct`.  The members `label`, `deletel`, `copy` and
`compute` of the union all start with the address `a`, `copy` and `compute`
continue with `b`, and `compute` ends with `c`: the fields `a`, `b`, `c` are
those shared places.  The overlap of these with `label.l`, `insn_start` and
`call` is not modelled; `call_ttb` is the address of the callee's `TaintTB`. -/
structure TaintOp where
  typ : TaintOpType
  a : Addr
  b : Addr
  c : Addr
  l : Label
  insn_start : InsnStart
  call_name : String
  call_ttb : Nat
deriving DecidableEq

/-- Record `struct taint_op_buffer_struct`.  `ptr` is the distance of the cursor from
`start` in bytes; `data` gives the record stored at a byte offset (records
are written and read whole, `sizeof(TaintOp)` bytes apart). -/
structure TaintOpBuffer where
  data : Nat → TaintOp
  max_size : Nat
  size : Nat
  ptr : Nat

/-- Function `tob_rewind` -/
def tob_rewind (buf : TaintOpBuffer) : TaintOpBuffer := { buf with ptr := 0 }

/-- Function `tob_clear` -/
def tob_clear (buf : TaintOpBuffer) : TaintOpBuffer := { buf with size := 0, ptr := 0 }

/-- Function `tob_end` -/
def tob_end (buf : TaintOpBuffer) : Bool := decide (buf.ptr ≥ buf.size)

/-- Function `tob_write` for one `TaintOp` of `sz = sizeof(TaintOp)` bytes (the call
made by `tob_op_write`): `bytes_used` is a `uint64_t`, the difference of the
assertion is taken in `uint64_t`, `size` is a `uint32_t`. -/
def tob_op_write (sz : Nat) (buf : TaintOpBuffer) (op : TaintOp) : Option TaintOpBuffer :=
  let bytes_used := buf.ptr % U64
  if (buf.max_size + (U64 - bytes_used)) % U64 ≥ sz % U32 then
    some { buf with data := Function.update buf.data buf.ptr op,
                    ptr := buf.ptr + sz % U32,
                    size := (max (buf.ptr + sz % U32) buf.size) % U32 }
  else none

/-- Function `tob_read` for one `TaintOp` of `sz = sizeof(TaintOp)` bytes (the call
made by `tob_op_read`). -/
def tob_op_read (sz : Nat) (buf : TaintOpBuffer) : Option (TaintOpBuffer × TaintOp) :=
  let bytes_used := buf.ptr % U64
  if (buf.max_size + (U64 - bytes_used)) % U64 ≥ sz % U32 then
    some ({ buf with ptr := buf.ptr + sz % U32,
                     size := (max (buf.ptr + sz % U32) buf.size) % U32 }, buf.data buf.ptr)
  else none

/-- The `N` calls of `tob_op_write`, one for each op of the list, in order. -/
def write_ops (sz : Nat) (buf : TaintOpBuffer) : List TaintOp → Option TaintOpBuffer
  | [] => some buf
  | op :: rest =>
    match tob_op_write sz buf op with
    | none => none
    | some buf1 => write_ops sz buf1 rest

/-- The `n` successive calls of `tob_op_read`; the result lists, for each call,
the value of `tob_end` before the call and the op read. -/
def read_ops (sz : Nat) (buf : TaintOpBuffer) :
    Nat → Option (TaintOpBuffer × List (Bool × TaintOp))
  | 0 => some (buf, [])
  | n + 1 =>
    match tob_op_read sz buf with
    | none => none
    | some (buf1, op) =>
      match read_ops sz buf1 n with
      | none => none
      | some (buf2, rest) => some (buf2, (tob_end buf, op) :: rest)

/-! ## The dynamic-value log (`panda_memlog.h`, not part of the sources at hand) -/

/-- Kind of a log record. -/
inductive DynValEntryType where
  | ADDRENTRY | BRANCHENTRY | SWITCHENTRY | SELECTENTRY | EXCEPTIONENTRY
deriving DecidableEq

/-- Direction of a logged memory access. -/
inductive LogOp where
  | LOAD | STORE
deriving DecidableEq

/-- Modelled from the spec: the log record `DynValEntry` of `panda_memlog.h`
(absent from the sources): `ADDRENTRY{op, addr}`, `BRANCHENTRY{taken}`,
`SWITCHENTRY{cond}`, `SELECTENTRY{taken}`, `EXCEPTIONENTRY`.  The members of
the union `entry` are separate fields, named as the code names them. -/
structure DynValEntry where
  entrytype : DynValEntryType
  memaccess_op : LogOp
  memaccess_addr : Addr
  branch_br : Bool
  switchstmt_cond : Int
  select_sel : Bool
deriving DecidableEq

/-- Modelled from the spec: the log `DynValBuffer` of `panda_memlog.h` (absent
from the sources), "a sequence, consumed strictly in order": the records and
the number of records consumed so far. -/
structure DynValBuffer where
  entries : List DynValEntry
  ptr : Nat
deriving DecidableEq

/-- Modelled from the spec: `read_dynval_buffer` of `panda_memlog.h` (absent
from the sources), preceded by the assertion of `process_insn_start_op` that
something is left to read: the next record and the advanced log. -/
def read_dynval_buffer (d : DynValBuffer) : Option (DynValEntry × DynValBuffer) :=
  match d.entries[d.ptr]? with
  | none => none
  | some e => some (e, { d with ptr := d.ptr + 1 })

/-! ## The fixup of `process_insn_start_op` -/

/-- Enumerator of `enum {RETURN, BRANCH, EXCEPT}` -/
def RETURN : Int := 0

/-- Enumerator of `enum {RETURN, BRANCH, EXCEPT}` -/
def BRANCH : Int := 1

/-- Enumerator of `enum {RETURN, BRANCH, EXCEPT}` -/
def EXCEPT : Int := 2

/-- Enumeration `InsnFlag`: `INSNREADLOG=1` -/
def INSNREADLOG : Int := 1

/-- The globals `next_step` and `taken_branch`. -/
structure Globals where
  next_step : Int
  taken_branch : Int
deriving DecidableEq

/-- Conversion of an `int` to the `uint64_t` payload of an address. -/
def int_to_u64 (x : Int) : Nat := (x % (U64 : Int)).toNat

/-- The three assignments `x.flag = 0; x.typ = t; x.val = v;` of the fixups. -/
def Addr.patch (x : Addr) (t : AddrType) (v : Nat) : Addr :=
  { x with flag := .ZERO, typ := t, val := v }

/-- The chain `if (addr.flag == IRRELEVANT) ... else if (addr.typ == GREG) ...
else if (addr.typ == GSPEC) ... else if (addr.typ == MADDR) ... else
assert(1==0)` that patches one address `x` of an op from the logged address. -/
def fix_addr (addr : Addr) (x : Addr) : Option Addr :=
  if addr.flag = .IRRELEVANT then some { x with flag := .IRRELEVANT }
  else if addr.typ = .GREG then some (x.patch .GREG addr.val)
  else if addr.typ = .GSPEC then some (x.patch .GSPEC addr.val)
  else if addr.typ = .MADDR then some (x.patch .MADDR addr.val)
  else none

/-- Body of the loop of the `"load"` fixup for the op `cur_op`. -/
def load_fix (addr : Addr) (cur_op : TaintOp) : Option TaintOp :=
  match cur_op.typ with
  | .COPYOP => (fix_addr addr cur_op.a).map (fun x => { cur_op with a := x })
  | _ => none

/-- Body of the loop of the `"store"` fixup for the op `cur_op`. -/
def store_fix (cfg : Config) (addr : Addr) (cur_op : TaintOp) : Option TaintOp :=
  match cur_op.typ with
  | .COPYOP => (fix_addr addr cur_op.b).map (fun x => { cur_op with b := x })
  | .COMPUTEOP =>
    if cfg.TAINTED_POINTER then
      if addr.flag = .IRRELEVANT then
        some { cur_op with b := { cur_op.b with flag := .IRRELEVANT },
                           c := { cur_op.c with flag := .IRRELEVANT } }
      else if cur_op.b.typ ≠ .UNK ∧ cur_op.c.typ ≠ .UNK then some cur_op
      else if addr.typ = .GREG then
        some { cur_op with b := cur_op.b.patch .GREG addr.val, c := cur_op.c.patch .GREG addr.val }
      else if addr.typ = .GSPEC then
        some { cur_op with b := cur_op.b.patch .GSPEC addr.val,
                           c := cur_op.c.patch .GSPEC addr.val }
      else if addr.typ = .MADDR then
        some { cur_op with b := cur_op.b.patch .MADDR addr.val,
                           c := cur_op.c.patch .MADDR addr.val }
      else none
    else none
  | .DELETEOP => (fix_addr addr cur_op.a).map (fun x => { cur_op with a := x })
  | _ => none

/-- Body of the loop of the `"select"` fixup for the op `cur_op`: `sel` is
the logged outcome and `labels` the `branch_labels` of the `INSN_START`.  The
code makes the assignments through the member `copy` of the union whatever
the kind of the op is; this is exact for `COPY` ops (and for the other ops
that begin with the address `a`), while on an `INSN_START` or `CALL` op among
the `num_ops` ops the bytes written belong to `insn_start` or `call`, an
overlap that `TaintOp` does not model. -/
def select_fix (sel : Bool) (labels : Int × Int) (cur_op : TaintOp) : Option TaintOp :=
  let cur_op := { cur_op with a := { cur_op.a with flag := .ZERO, typ := .LADDR } }
  let chosen := if sel then labels.2 else labels.1
  if chosen = -1 then
    some { cur_op with typ := .DELETEOP, a := { cur_op.a with val := cur_op.b.val } }
  else
    some { cur_op with a := { cur_op.a with val := int_to_u64 chosen } }

/-- The first loop of the `"phi"` fixup: the value of `phiSource` after the
search for `taken_branch` in `phi_blocks[i ...]`, `n` elements being left. -/
def phi_source (taken_branch : Int) (blocks vals : List Int) (i : Nat) : Nat → Int
  | 0 => 0
  | n + 1 =>
    if taken_branch = blocks.getD i 0 then vals.getD i 0
    else phi_source taken_branch blocks vals (i + 1) n

/-- Body of the second loop of the `"phi"` fixup for the op `cur_op`. -/
def phi_fix (addr : Addr) (phiSource : Int) (cur_op : TaintOp) : Option TaintOp :=
  match cur_op.typ with
  | .COPYOP =>
    if addr.typ = .LADDR then
      some { cur_op with a := cur_op.a.patch .LADDR (int_to_u64 phiSource) }
    else none
  | _ => none

/-- The loop of the `"switch"` fixup over `switch_conds[i ...]`, `n` elements
being left: the label of the first matching case, if there is one. -/
def switch_find (cond : Int) (conds labels : List Int) (i : Nat) : Nat → Option Int
  | 0 => none
  | n + 1 =>
    if conds.getD i 0 = cond then some (labels.getD i 0)
    else switch_find cond conds labels (i + 1) n

/-- The loop `for (i = 0; i < num_ops; i++) { ...; cur_op++; }` of a fixup:
`f` is the body, `off` the byte offset of `cur_op` and `n` the number of
iterations left; `none` when an assertion of the body fails. -/
def fix_ops (sz : Nat) (f : TaintOp → Option TaintOp) (data : Nat → TaintOp) (off : Nat) :
    Nat → Option (Nat → TaintOp)
  | 0 => some data
  | n + 1 =>
    match f (data off) with
    | none => none
    | some op => fix_ops sz f (Function.update data off op) (off + sz) n

/-- Function `process_insn_start_op`: the buffer, the log and the globals after the
fixup; `none` when an assertion fails or the process exits. -/
def process_insn_start_op (cfg : Config) (op : TaintOp) (buf : TaintOpBuffer)
    (dynval_buf : DynValBuffer) (g : Globals) :
    Option (TaintOpBuffer × DynValBuffer × Globals) :=
  if op.insn_start.flag ≠ INSNREADLOG then none
  else
    match read_dynval_buffer dynval_buf with
    | none => none
    | some (dventry, dynval_buf) =>
      if dventry.entrytype = .EXCEPTIONENTRY then
        some (buf, dynval_buf, { g with next_step := EXCEPT })
      else if op.insn_start.name = "load" then
        if dventry.entrytype ≠ .ADDRENTRY ∨ dventry.memaccess_op ≠ .LOAD then none
        else
          (fix_ops cfg.SIZEOF_TAINTOP (load_fix dventry.memaccess_addr) buf.data buf.ptr
            op.insn_start.num_ops.toNat).map
            (fun data => ({ buf with data := data }, dynval_buf, g))
      else if op.insn_start.name = "store" then
        if dventry.entrytype ≠ .ADDRENTRY ∨ dventry.memaccess_op ≠ .STORE then none
        else
          (fix_ops cfg.SIZEOF_TAINTOP (store_fix cfg dventry.memaccess_addr) buf.data buf.ptr
            op.insn_start.num_ops.toNat).map
            (fun data => ({ buf with data := data }, dynval_buf, g))
      else if op.insn_start.name = "condbranch" then
        if dventry.entrytype ≠ .BRANCHENTRY then none
        else
          let taken := if dventry.branch_br then op.insn_start.branch_labels.2
                       else op.insn_start.branch_labels.1
          some (buf, dynval_buf, { next_step := BRANCH, taken_branch := taken })
      else if op.insn_start.name = "switch" then
        if dventry.entrytype ≠ .SWITCHENTRY then none
        else
          let taken :=
            match switch_find dventry.switchstmt_cond op.insn_start.switch_conds
                op.insn_start.switch_labels 0 cfg.MAXSWITCHSTMTS with
            | some t => t
            | none => op.insn_start.switch_labels.getD 0 0
          some (buf, dynval_buf, { next_step := cfg.SWITCHSTEP, taken_branch := taken })
      else if op.insn_start.name = "select" then
        if dventry.entrytype ≠ .SELECTENTRY then none
        else
          (fix_ops cfg.SIZEOF_TAINTOP (select_fix dventry.select_sel op.insn_start.branch_labels)
            buf.data buf.ptr op.insn_start.num_ops.toNat).map
            (fun data => ({ buf with data := data }, dynval_buf, g))
      else if op.insn_start.name = "phi" then
        let phiSource := phi_source g.taken_branch op.insn_start.phi_blocks
          op.insn_start.phi_vals 0 cfg.MAXPHIBLOCKS
        (fix_ops cfg.SIZEOF_TAINTOP (phi_fix dventry.memaccess_addr phiSource)
          buf.data buf.ptr op.insn_start.num_ops.toNat).map
          (fun data => ({ buf with data := data }, dynval_buf, g))
      else some (buf, dynval_buf, g)

/-! ## Taint translation blocks and the interpreter -/

/-- Record `struct taint_bb_struct`; the buffer `ops` points to is held in place. -/
structure TaintBB where
  label : Int
  ops : TaintOpBuffer

/-- Record `struct taint_tb_struct`; `tbbs i` is the block `tbbs[i]` points to. -/
structure TaintTB where
  name : String
  numBBs : Int
  entry : TaintBB
  tbbs : Nat → TaintBB

/-- The state the interpreter works on: the shadow memory, the log, the two
globals, and the taint translation blocks by address (the `ttb` of a `CALL`
op is such an address). -/
structure Machine where
  shad : Shad
  dynval_buf : DynValBuffer
  g : Globals
  ttbs : Nat → TaintTB

/-- A pointer to the op buffer of a block: of the entry block of the
translation block at `ttb`, or of its block `tbbs[i]`. -/
inductive BufRef where
  | entry (ttb : Nat)
  | tbb (ttb : Nat) (i : Nat)
deriving DecidableEq

/-- The buffer a pointer refers to. -/
def Machine.buf (m : Machine) : BufRef → TaintOpBuffer
  | .entry t => (m.ttbs t).entry.ops
  | .tbb t i => ((m.ttbs t).tbbs i).ops

/-- Assignment through a buffer pointer. -/
def Machine.set_buf (m : Machine) (r : BufRef) (b : TaintOpBuffer) : Machine :=
  match r with
  | .entry t =>
    let tb := m.ttbs t
    { m with ttbs := Function.update m.ttbs t { tb with entry := { tb.entry with ops := b } } }
  | .tbb t i =>
    let tb := m.ttbs t
    let bb := tb.tbbs i
    let tb1 : TaintTB := { tb with tbbs := Function.update tb.tbbs i { bb with ops := b } }
    { m with ttbs := Function.update m.ttbs t tb1 }

/-- Result of running the interpreter with a bound on the number of steps. -/
inductive Outcome where
  | done (m : Machine)
  | abort
  | out_of_fuel

/-- The `for` loop of `execute_taint_ops` that looks for the block labelled
`taken_branch` among `tbbs[i ...]`, `n` blocks being left: its index. -/
def find_tbb (tb : TaintTB) (taken_branch : Int) (i : Nat) : Nat → Option Nat
  | 0 => none
  | n + 1 =>
    if (tb.tbbs i).label = taken_branch then some i
    else find_tbb tb taken_branch (i + 1) n

mutual

/-- Function `execute_taint_ops` on the translation block at address `ttb`. -/
def execute_taint_ops (cfg : Config) : Nat → Nat → Machine → Outcome
  | 0, _, _ => .out_of_fuel
  | fuel + 1, ttb, m =>
    let m := { m with g := { m.g with next_step := RETURN } }
    match tob_process cfg fuel (.entry ttb) m with
    | .done m => execute_succ cfg fuel ttb m
    | r => r

/-- The `while` loop of `execute_taint_ops`. -/
def execute_succ (cfg : Config) : Nat → Nat → Machine → Outcome
  | 0, _, _ => .out_of_fuel
  | fuel + 1, ttb, m =>
    if m.g.next_step ≠ RETURN ∧ m.g.next_step ≠ EXCEPT then
      let m := { m with g := { m.g with next_step := RETURN } }
      match find_tbb (m.ttbs ttb) m.g.taken_branch 0 ((m.ttbs ttb).numBBs - 1).toNat with
      | some i =>
        match tob_process cfg fuel (.tbb ttb i) m with
        | .done m => execute_succ cfg fuel ttb m
        | r => r
      | none => execute_succ cfg fuel ttb m
    else .done m

/-- Function `tob_process` on the buffer `buf` points to. -/
def tob_process (cfg : Config) : Nat → BufRef → Machine → Outcome
  | 0, _, _ => .out_of_fuel
  | fuel + 1, buf, m =>
    tob_process_loop cfg fuel buf (m.set_buf buf (tob_rewind (m.buf buf)))

/-- The `while` loop of `tob_process`, with the `tob_rewind` that follows it. -/
def tob_process_loop (cfg : Config) : Nat → BufRef → Machine → Outcome
  | 0, _, _ => .out_of_fuel
  | fuel + 1, buf, m =>
    if tob_end (m.buf buf) then .done (m.set_buf buf (tob_rewind (m.buf buf)))
    else
      match tob_op_read cfg.SIZEOF_TAINTOP (m.buf buf) with
      | none => .abort
      | some (b, op) =>
        let m := m.set_buf buf b
        match op.typ with
        | .LABELOP =>
          match tp_label cfg m.shad op.a op.l with
          | none => .abort
          | some shad => tob_process_loop cfg fuel buf { m with shad := shad }
        | .DELETEOP =>
          if op.a.flag = .IRRELEVANT then tob_process_loop cfg fuel buf m
          else
            match tp_delete cfg m.shad op.a with
            | none => .abort
            | some shad => tob_process_loop cfg fuel buf { m with shad := shad }
        | .COPYOP =>
          if op.a.flag = .IRRELEVANT then
            match tp_delete cfg m.shad op.b with
            | none => .abort
            | some shad => tob_process_loop cfg fuel buf { m with shad := shad }
          else if op.b.flag = .IRRELEVANT then tob_process_loop cfg fuel buf m
          else
            match tp_copy cfg m.shad op.a op.b with
            | none => .abort
            | some shad => tob_process_loop cfg fuel buf { m with shad := shad }
        | .COMPUTEOP =>
          if op.c.flag = .IRRELEVANT then tob_process_loop cfg fuel buf m
          else if cfg.TAINTED_POINTER ∧ (op.c.typ = .GREG ∨ op.c.typ = .GSPEC) then
            tob_process_loop cfg fuel buf m
          else
            match tp_compute cfg m.shad op.a op.b op.c with
            | none => .abort
            | some shad => tob_process_loop cfg fuel buf { m with shad := shad }
        | .INSNSTARTOP =>
          match process_insn_start_op cfg op (m.buf buf) m.dynval_buf m.g with
          | none => .abort
          | some (b, d, g) =>
            let m := { m.set_buf buf b with dynval_buf := d, g := g }
            if g.next_step = EXCEPT then .done m
            else tob_process_loop cfg fuel buf m
        | .CALLOP =>
          let shad := { m.shad with current_frame := (m.shad.current_frame + 1) % U32 }
          match execute_taint_ops cfg fuel op.call_ttb { m with shad := shad } with
          | .done m => tob_process_loop cfg fuel buf m
          | r => r
        | .RETOP =>
          if m.shad.current_frame > 0 then
            let shad := { m.shad with current_frame := m.shad.current_frame - 1 }
            tob_process_loop cfg fuel buf { m with shad := shad }
          else if 2147483648 ≤ m.shad.current_frame % U32 then .abort
          else tob_process_loop cfg fuel buf m

end

/-! ## Concrete inputs, used to instantiate the theorems -/

/-- A 32-bit configuration in tainted-pointer mode with 8 general registers
of 4 bytes, 10 special addresses, taint ops of 80 bytes, switch and phi
arrays of 8 elements and `SWITCHSTEP = 3`. -/
def demo_cfg : Config :=
  { TARGET_X86_64 := false, TAINTED_POINTER := true, NUMREGS := 8, WORDSIZE := 4,
    NUMSPECADDRS := 10, SIZEOF_TAINTOP := 80, MAXSWITCHSTMTS := 8, MAXPHIBLOCKS := 8,
    SWITCHSTEP := 3 }

/-- The shadow memory `tp_init(64, 65536, 64, 2000)`. -/
def demo_shad : Shad := tp_init demo_cfg 64 65536 64 2000

/-- The guest RAM address `MADDR(v, off)`. -/
def demo_maddr (v off : Nat) : Addr := { typ := .MADDR, val := v, off := off, flag := .ZERO }

/-- The IR register address `LADDR(v, off)` with flag `f`. -/
def demo_laddr (v off : Nat) (f : AddrFlag) : Addr :=
  { typ := .LADDR, val := v, off := off, flag := f }

/-- The guest register address `GREG(v, off)`. -/
def demo_greg (v off : Nat) : Addr := { typ := .GREG, val := v, off := off, flag := .ZERO }

/-- The state after `tp_label(GREG(2,0), 1)` on `demo_shad`. -/
def demo_tainted : Shad := (tp_label demo_cfg demo_shad (demo_greg 2 0) 1).getD demo_shad

/-- The state after `tp_label(MADDR(0x1000,0), 7)` on `demo_shad`. -/
def demo_ram : Shad := (tp_label demo_cfg demo_shad (demo_maddr 4096 0) 7).getD demo_shad

/-- The state after `tp_label(LADDR(5,0), 1)` and
`tp_copy(LADDR(5,0), LADDR(5,0) with FUNCARG)` on `demo_shad`, in frame 0:
the register of frame 0 and the register of frame 1 hold the same label set. -/
def demo_shared : Shad :=
  ((tp_label demo_cfg demo_shad (demo_laddr 5 0 .ZERO) 1).bind
    (fun s => tp_copy demo_cfg s (demo_laddr 5 0 .ZERO) (demo_laddr 5 0 .FUNCARG))).getD demo_shad

/-- An `INSN_START` payload without any content. -/
def demo_insn : InsnStart :=
  { name := "", num_ops := 0, flag := 0, branch_labels := (0, 0), switch_conds := [],
    switch_labels := [], phi_blocks := [], phi_vals := [] }

/-- The address `UNK` with value 0, as the lifter leaves an unresolved place. -/
def demo_unk : Addr := { typ := .UNK, val := 0, off := 0, flag := .ZERO }

/-- The op `LABEL{a, l}`. -/
def demo_label_op (a : Addr) (l : Label) : TaintOp :=
  { typ := .LABELOP, a := a, b := demo_unk, c := demo_unk, l := l, insn_start := demo_insn,
    call_name := "", call_ttb := 0 }

/-- The op `COPY{a, b}`. -/
def demo_copy_op (a b : Addr) : TaintOp :=
  { typ := .COPYOP, a := a, b := b, c := demo_unk, l := 0, insn_start := demo_insn,
    call_name := "", call_ttb := 0 }

/-- A buffer of `max_size` bytes whose memory holds `LABEL` ops of label 0 and
whose cursor and size are arbitrary before `tob_clear`. -/
def demo_buf (max_size : Nat) : TaintOpBuffer :=
  { data := fun _ => demo_label_op demo_unk 0, max_size := max_size, size := 17, ptr := 5 }

/-- The op `INSN_START("load", num_ops = 1)` with flag `INSNREADLOG`. -/
def demo_load_insn : TaintOp :=
  { typ := .INSNSTARTOP, a := demo_unk, b := demo_unk, c := demo_unk, l := 0,
    insn_start := { demo_insn with name := "load", num_ops := 1, flag := INSNREADLOG },
    call_name := "", call_ttb := 0 }

/-- Scenario S3, the op buffer: `INSN_START("load", 1)` followed by
`COPY{src = UNK, dst = LADDR(5,0)}`, 80 bytes each. -/
def demo_s3_buf : TaintOpBuffer :=
  { data := fun off =>
      if off = 0 then demo_load_insn else demo_copy_op demo_unk (demo_laddr 5 0 .ZERO),
    max_size := 160, size := 160, ptr := 0 }

/-- Scenario S3, the log record `ADDRENTRY{LOAD, MADDR(0x3000)}`. -/
def demo_s3_entry : DynValEntry :=
  { entrytype := .ADDRENTRY, memaccess_op := .LOAD, memaccess_addr := demo_maddr 12288 0,
    branch_br := false, switchstmt_cond := 0, select_sel := false }

/-- Scenario S3, the machine: `MADDR(0x3000,0)` carries label 9, the log holds
the one record, and every translation block consists of the entry block with
the buffer of the scenario. -/
def demo_s3 : Machine :=
  { shad := (tp_label demo_cfg demo_shad (demo_maddr 12288 0) 9).getD demo_shad,
    dynval_buf := { entries := [demo_s3_entry], ptr := 0 },
    g := { next_step := RETURN, taken_branch := 0 },
    ttbs := fun _ =>
      { name := "tb", numBBs := 1, entry := { label := 0, ops := demo_s3_buf },
        tbbs := fun _ => { label := 0, ops := demo_s3_buf } } }

/-! ## Observation on the outcome of a run -/

/-- The machine an outcome ends with, when the run ended. -/
def Outcome.final : Outcome → Option Machine
  | .done m => some m
  | .abort => none
  | .out_of_fuel => none

/-! ## Concrete ops, log records and machines, used to instantiate the theorems -/

/-- The op `DELETE{a}`. -/
def demo_delete_op (a : Addr) : TaintOp :=
  { typ := .DELETEOP, a := a, b := demo_unk, c := demo_unk, l := 0, insn_start := demo_insn,
    call_name := "", call_ttb := 0 }

/-- The op `COMPUTE{a, b, c}`. -/
def demo_compute_op (a b c : Addr) : TaintOp :=
  { typ := .COMPUTEOP, a := a, b := b, c := c, l := 0, insn_start := demo_insn,
    call_name := "", call_ttb := 0 }

/-- The op `INSN_START(name, num_ops)` with flag `INSNREADLOG` and the static
data `branch_labels`, `switch_conds`, `switch_labels`, `phi_blocks`, `phi_vals`. -/
def demo_insn_op (name : String) (num_ops : Int) (branch_labels : Int × Int)
    (switch_conds switch_labels phi_blocks phi_vals : List Int) : TaintOp :=
  { typ := .INSNSTARTOP, a := demo_unk, b := demo_unk, c := demo_unk, l := 0,
    insn_start := { name := name, num_ops := num_ops, flag := INSNREADLOG,
                    branch_labels := branch_labels, switch_conds := switch_conds,
                    switch_labels := switch_labels, phi_blocks := phi_blocks,
                    phi_vals := phi_vals },
    call_name := "", call_ttb := 0 }

/-- The log record `ADDRENTRY{op, addr}`. -/
def demo_addr_entry (op : LogOp) (addr : Addr) : DynValEntry :=
  { entrytype := .ADDRENTRY, memaccess_op := op, memaccess_addr := addr,
    branch_br := false, switchstmt_cond := 0, select_sel := false }

/-- A buffer of `n` records of 80 bytes holding the ops of the list in order
(the op `RET` fills the memory behind them), the cursor at byte `ptr`. -/
def demo_ops_buf (ops : List TaintOp) (ptr : Nat) : TaintOpBuffer :=
  { data := fun off =>
      if off % 80 = 0 then
        ops.getD (off / 80)
          { typ := .RETOP, a := demo_unk, b := demo_unk, c := demo_unk, l := 0,
            insn_start := demo_insn, call_name := "", call_ttb := 0 }
      else
        { typ := .RETOP, a := demo_unk, b := demo_unk, c := demo_unk, l := 0,
          insn_start := demo_insn, call_name := "", call_ttb := 0 },
    max_size := 80 * ops.length, size := 80 * ops.length, ptr := ptr }

/-- The address `RET`, the temporary of the taint model. -/
def demo_ret_addr : Addr := { typ := .RET, val := 0, off := 0, flag := .ZERO }

/-- Ops of a store: `INSN_START("store", 3)`, `COPY{LADDR(5,0), UNK}`,
`DELETE{UNK}` and `COMPUTE{LADDR(6,0), LADDR(7,0), RET}`. -/
def demo_store_ops : List TaintOp :=
  [demo_insn_op "store" 3 (0, 0) [] [] [] [],
   demo_copy_op (demo_laddr 5 0 .ZERO) demo_unk,
   demo_delete_op demo_unk,
   demo_compute_op (demo_laddr 6 0 .ZERO) (demo_laddr 7 0 .ZERO) demo_ret_addr]

/-- The log record `BRANCHENTRY{taken}`. -/
def demo_branch_entry (taken : Bool) : DynValEntry :=
  { entrytype := .BRANCHENTRY, memaccess_op := .LOAD, memaccess_addr := demo_unk,
    branch_br := taken, switchstmt_cond := 0, select_sel := false }

/-- The log record `SWITCHENTRY{cond}`. -/
def demo_switch_entry (cond : Int) : DynValEntry :=
  { entrytype := .SWITCHENTRY, memaccess_op := .LOAD, memaccess_addr := demo_unk,
    branch_br := false, switchstmt_cond := cond, select_sel := false }

/-- A machine on `demo_shad` with the given log, whose translation blocks all
consist of the entry block `entry` and of the successor blocks of the list,
each given by its label and its ops. -/
def demo_machine (log : List DynValEntry) (entry : List TaintOp)
    (succs : List (Int × List TaintOp)) : Machine :=
  { shad := demo_shad,
    dynval_buf := { entries := log, ptr := 0 },
    g := { next_step := RETURN, taken_branch := 0 },
    ttbs := fun _ =>
      { name := "tb", numBBs := succs.length + 1,
        entry := { label := 0, ops := demo_ops_buf entry 0 },
        tbbs := fun i =>
          { label := (succs.getD i (0, [])).1,
            ops := demo_ops_buf (succs.getD i (0, [])).2 0 } } }

/-- Scenario S4: the entry block issues `INSN_START("condbranch",
branch_labels = [11, 22])`, the log holds `BRANCHENTRY{taken = true}`, the
block labelled 11 labels `GREG(1,0)` with 11 and the block labelled 22 labels
`GREG(2,0)` with 22. -/
def demo_s4 : Machine :=
  demo_machine [demo_branch_entry true]
    [demo_insn_op "condbranch" 0 (11, 22) [] [] [] []]
    [(11, [demo_label_op (demo_greg 1 0) 11]), (22, [demo_label_op (demo_greg 2 0) 22])]

/-- Scenario S5: the entry block issues `INSN_START("switch", switch_conds =
[3, 5, 7], switch_labels = [40, 43, 45, 47])`, the log holds
`SWITCHENTRY{cond = 9}`, and the block labelled `40 + k` labels `GREG(k,0)`
with `40 + k`. -/
def demo_s5 : Machine :=
  demo_machine [demo_switch_entry 9]
    [demo_insn_op "switch" 0 (0, 0) [3, 5, 7] [40, 43, 45, 47] [] []]
    [(43, [demo_label_op (demo_greg 3 0) 43]), (45, [demo_label_op (demo_greg 5 0) 45]),
     (40, [demo_label_op (demo_greg 0 0) 40]), (47, [demo_label_op (demo_greg 7 0) 47])]

/-- The log record `SELECTENTRY{taken}`. -/
def demo_select_entry (taken : Bool) : DynValEntry :=
  { entrytype := .SELECTENTRY, memaccess_op := .LOAD, memaccess_addr := demo_unk,
    branch_br := false, switchstmt_cond := 0, select_sel := taken }

/-- Ops of a select of the byte 2 of a register: `INSN_START("select", 1,
branch_labels = [-1, 4])` and `COPY{UNK at offset 0, LADDR(7,2)}`. -/
def demo_select_ops : List TaintOp :=
  [demo_insn_op "select" 1 (-1, 4) [] [] [] [],
   demo_copy_op demo_unk (demo_laddr 7 2 .ZERO)]

/-- Ops of a phi: `INSN_START("phi", 1, phi_blocks = [11, 22], phi_vals =
[3, 4])` and `COPY{UNK, LADDR(9,0)}`. -/
def demo_phi_ops : List TaintOp :=
  [demo_insn_op "phi" 1 (0, 0) [] [] [11, 22] [3, 4],
   demo_copy_op demo_unk (demo_laddr 9 0 .ZERO)]

/-- The log record `EXCEPTIONENTRY`. -/
def demo_exception_entry : DynValEntry :=
  { entrytype := .EXCEPTIONENTRY, memaccess_op := .LOAD, memaccess_addr := demo_unk,
    branch_br := false, switchstmt_cond := 0, select_sel := false }

/-- Ops of the entry block of scenario S6, preceded by one `LABEL` op:
`LABEL{GREG(1,0), 5}`, `INSN_START("load", 1)`, `COPY{UNK, LADDR(5,0)}` and
`LABEL{GREG(2,0), 6}`. -/
def demo_s6_ops : List TaintOp :=
  [demo_label_op (demo_greg 1 0) 5, demo_insn_op "load" 1 (0, 0) [] [] [] [],
   demo_copy_op demo_unk (demo_laddr 5 0 .ZERO), demo_label_op (demo_greg 2 0) 6]

/-- Scenario S6: the entry block holds `demo_s6_ops`, a successor block
labelled 0 would label `GREG(3,0)`, and the log holds `EXCEPTIONENTRY`. -/
def demo_s6 : Machine :=
  demo_machine [demo_exception_entry] demo_s6_ops [(0, [demo_label_op (demo_greg 3 0) 7])]

/-- Scenario S6 when the `LABEL` op has been processed: `GREG(1,0)` carries
label 5 and the cursor of the entry block is at the `INSN_START`. -/
def demo_s6_mid : Machine :=
  { demo_s6 with
    shad := (tp_label demo_cfg demo_shad (demo_greg 1 0) 5).getD demo_shad,
    ttbs := fun _ =>
      { name := "tb", numBBs := 2,
        entry := { label := 0, ops := demo_ops_buf demo_s6_ops 80 },
        tbbs := fun _ =>
          { label := 0, ops := demo_ops_buf [demo_label_op (demo_greg 3 0) 7] 0 } } }

/-- The op `CALL{ttb}`. -/
def demo_call_op (ttb : Nat) : TaintOp :=
  { typ := .CALLOP, a := demo_unk, b := demo_unk, c := demo_unk, l := 0, insn_start := demo_insn,
    call_name := "f", call_ttb := ttb }

/-- The op `RET`. -/
def demo_ret_op : TaintOp :=
  { typ := .RETOP, a := demo_unk, b := demo_unk, c := demo_unk, l := 0, insn_start := demo_insn,
    call_name := "", call_ttb := 0 }

/-- A caller and a callee: the translation block at address 0 consists of the
op `CALL{ttb = 1}`, every other translation block of `INSN_START("load", 1)`,
`COPY{UNK, LADDR(5,0)}` and `RET`; the log holds `EXCEPTIONENTRY` and
`current_frame` is 0. -/
def demo_call : Machine :=
  { shad := demo_shad,
    dynval_buf := { entries := [demo_exception_entry], ptr := 0 },
    g := { next_step := RETURN, taken_branch := 0 },
    ttbs := fun t =>
      { name := "tb", numBBs := 1,
        entry := { label := 0,
                   ops := if t = 0 then demo_ops_buf [demo_call_op 1] 0
                          else demo_ops_buf [demo_insn_op "load" 1 (0, 0) [] [] [] [],
                            demo_copy_op demo_unk (demo_laddr 5 0 .ZERO), demo_ret_op] 0 },
        tbbs := fun _ => { label := 0, ops := demo_ops_buf [] 0 } } }

/-- A machine whose translation blocks consist of the one op `RET`, with
`current_frame = frame` and an empty log. -/
def demo_ret (frame : Nat) : Machine :=
  { demo_machine [] [demo_ret_op] [] with
    shad := { demo_shad with current_frame := frame } }

/-- The machine `demo_machine log entry succs` on the shadow state `s`. -/
def demo_machine_on (s : Shad) (log : List DynValEntry) (entry : List TaintOp)
    (succs : List (Int × List TaintOp)) : Machine :=
  { demo_machine log entry succs with shad := s }

/-- The address `UNK` flagged `IRRELEVANT`, as a fixup leaves the place of an
access to CPU state that is not tracked. -/
def demo_irrelevant : Addr := { typ := .UNK, val := 0, off := 0, flag := .IRRELEVANT }

/-- Ops that the interpreter skips: `DELETE` of an `IRRELEVANT` target,
`COPY` to an `IRRELEVANT` destination, `COMPUTE` to an `IRRELEVANT`
destination and `COMPUTE` to a guest register; the sources of the last three
are `GREG(2,0)`, and the flagged addresses have type `UNK`. -/
def demo_skipped_ops : List TaintOp :=
  [demo_delete_op demo_irrelevant,
   demo_copy_op (demo_greg 2 0) demo_irrelevant,
   demo_compute_op (demo_greg 2 0) (demo_greg 2 0) demo_irrelevant,
   demo_compute_op (demo_greg 2 0) (demo_greg 2 0) (demo_greg 3 0)]

/-- The address `CONST`. -/
def demo_const : Addr := { typ := .CONST, val := 0, off := 0, flag := .ZERO }

/-- Three levels of calls: the translation block at address 0 consists of the
op `CALL{ttb = 1}`, the one at address 1 of the op `CALL{ttb = 2}`, and every
other translation block of `LABEL{GREG(3,0), 5}`; the state is the result of
`tp_init`, with `current_frame = 0`, and the log is empty. -/
def demo_nested : Machine :=
  { shad := demo_shad,
    dynval_buf := { entries := [], ptr := 0 },
    g := { next_step := RETURN, taken_branch := 0 },
    ttbs := fun t =>
      { name := "tb", numBBs := 1,
        entry := { label := 0,
                   ops := if t = 0 then demo_ops_buf [demo_call_op 1] 0
                          else if t = 1 then demo_ops_buf [demo_call_op 2] 0
                          else demo_ops_buf [demo_label_op (demo_greg 3 0) 5] 0 },
        tbbs := fun _ => { label := 0, ops := demo_ops_buf [] 0 } } }

/-- The state after `tp_label(LADDR(250,0), 7)` in frame 0 on `demo_shad` and
one `CALL`: `current_frame` is 1, the last frame there is. -/
def demo_top : Shad :=
  { (tp_label demo_cfg demo_shad (demo_laddr 250 0 .ZERO) 7).getD demo_shad with
    current_frame := 1 }

/-- The state after `tp_label(MADDR(0x1000,0), 7)` and
`tp_copy(MADDR(0x1000,0), MADDR(0x2000,0))` on `demo_shad`. -/
def demo_copied : Shad :=
  (tp_copy demo_cfg demo_ram (demo_maddr 4096 0) (demo_maddr 8192 0)).getD demo_ram

/-- The length of the presence bitmap that `tp_init` allocates, the first
argument of `my_calloc(mem_size >> 3, 1, ...)`; `mem_size` is a `uint32_t`. -/
def ram_bitmap_len (mem_size : Nat) : Nat := (mem_size % U32) >>> 3

/-- The index `addr >> 3` at which `get_ram_bit`, `set_ram_bit` and
`clear_ram_bit` access the presence bitmap; `addr` is a `uint32_t`. -/
def ram_bitmap_index (addr : Nat) : Nat := (addr % U32) >>> 3

/-- A caller whose `CALL` is followed by further ops, and a callee that reads
the log.  The translation block at address 0 consists of `CALL{ttb = 1}` and
`LABEL{GREG(3,0), 5}`; the one at address 2 of `CALL{ttb = 1}` and
`INSN_START("condbranch", branch_labels = [0, 11])`; every other one of
`INSN_START("load", 1)`, `COPY{UNK, LADDR(5,0)}` and `RET`.  Every translation
block has one successor block, labelled 11, which labels `GREG(4,0)` with 6.
The log holds `EXCEPTIONENTRY` and then `BRANCHENTRY{taken = true}`. -/
def demo_call_label : Machine :=
  { shad := demo_shad,
    dynval_buf := { entries := [demo_exception_entry, demo_branch_entry true], ptr := 0 },
    g := { next_step := RETURN, taken_branch := 0 },
    ttbs := fun t =>
      { name := "tb", numBBs := 2,
        entry := { label := 0,
                   ops := if t = 0 then
                            demo_ops_buf [demo_call_op 1, demo_label_op (demo_greg 3 0) 5] 0
                          else if t = 2 then
                            demo_ops_buf [demo_call_op 1,
                              demo_insn_op "condbranch" 0 (0, 11) [] [] [] []] 0
                          else demo_ops_buf [demo_insn_op "load" 1 (0, 0) [] [] [] [],
                            demo_copy_op demo_unk (demo_laddr 5 0 .ZERO), demo_ret_op] 0 },
        tbbs := fun _ =>
          { label := 11, ops := demo_ops_buf [demo_label_op (demo_greg 4 0) 6] 0 } } }

/-- A callee with a select, called twice.  The translation block at address 0
consists of `CALL{ttb = 1}` and `CALL{ttb = 1}`; every other one of
`LABEL{LADDR(4,0), 9}`, `INSN_START("select", 1, branch_labels = [-1, 4])`,
`COPY{UNK, LADDR(7,0)}` and `RET`.  The log holds `SELECTENTRY{first}` and
`SELECTENTRY{true}`. -/
def demo_select_twice (first : Bool) : Machine :=
  { shad := demo_shad,
    dynval_buf := { entries := [demo_select_entry first, demo_select_entry true], ptr := 0 },
    g := { next_step := RETURN, taken_branch := 0 },
    ttbs := fun t =>
      { name := "tb", numBBs := 1,
        entry := { label := 0,
                   ops := if t = 0 then demo_ops_buf [demo_call_op 1, demo_call_op 1] 0
                          else demo_ops_buf [demo_label_op (demo_laddr 4 0 .ZERO) 9,
                            demo_insn_op "select" 1 (-1, 4) [] [] [] [],
                            demo_copy_op demo_unk (demo_laddr 7 0 .ZERO), demo_ret_op] 0 },
        tbbs := fun _ => { label := 0, ops := demo_ops_buf [] 0 } } }

/-- A log record of kind `BRANCHENTRY` or `SWITCHENTRY`. -/
def is_branch_record (e : DynValEntry) : Bool :=
  decide (e.entrytype = .BRANCHENTRY) || decide (e.entrytype = .SWITCHENTRY)

/-- The number of records of kind `BRANCHENTRY` or `SWITCHENTRY` among the
first `p` records of a log. -/
def branch_upto (entries : List DynValEntry) (p : Nat) : Nat :=
  (entries.take p).countP is_branch_record

/-- The number of records of kind `BRANCHENTRY` or `SWITCHENTRY` among the
records `entries[lo]`, ..., `entries[hi - 1]` of a log: those consumed while
the cursor of the log moves from `lo` to `hi`. -/
def branch_records (entries : List DynValEntry) (lo hi : Nat) : Nat :=
  ((entries.take hi).drop lo).countP is_branch_record

/-- The number of successor blocks the `while` loop of `execute_taint_ops`
processes: the loop `execute_succ` with a counter of its calls of
`tob_process`. -/
def succ_blocks (cfg : Config) : Nat → Nat → Machine → Nat
  | 0, _, _ => 0
  | fuel + 1, ttb, m =>
    if m.g.next_step ≠ RETURN ∧ m.g.next_step ≠ EXCEPT then
      let m := { m with g := { m.g with next_step := RETURN } }
      match find_tbb (m.ttbs ttb) m.g.taken_branch 0 ((m.ttbs ttb).numBBs - 1).toNat with
      | some i =>
        match tob_process cfg fuel (.tbb ttb i) m with
        | .done m => 1 + succ_blocks cfg fuel ttb m
        | _ => 1
      | none => succ_blocks cfg fuel ttb m
    else 0

/-- The number of successor blocks one call of `execute_taint_ops` processes. -/
def execute_blocks (cfg : Config) : Nat → Nat → Machine → Nat
  | 0, _, _ => 0
  | fuel + 1, ttb, m =>
    let m := { m with g := { m.g with next_step := RETURN } }
    match tob_process cfg fuel (.entry ttb) m with
    | .done m => succ_blocks cfg fuel ttb m
    | _ => 0

/-- A buffer of at most `n` bytes that holds no `CALL` op. -/
def buf_no_call (n : Nat) (b : TaintOpBuffer) : Prop :=
  b.max_size ≤ n ∧ ∀ x, (b.data x).typ ≠ .CALLOP

/-- A translation block without `CALL` ops: the buffer of the entry block of
the translation block at `t` and the buffers of its blocks `tbbs[i]` have at
most `n` bytes and hold no `CALL` op. -/
def no_call (n t : Nat) (m : Machine) : Prop :=
  buf_no_call n (m.ttbs t).entry.ops ∧ ∀ i, buf_no_call n ((m.ttbs t).tbbs i).ops

/-- The translation block a buffer pointer belongs to. -/
def BufRef.ttb : BufRef → Nat
  | .entry t => t
  | .tbb t _ => t

/-- What a pass over a block of the translation block at `t` keeps and
records: the translation block is still without `CALL` ops, the records of
the log are the same and its cursor has not moved back, and `next_step` is
what it was, or is `EXCEPT`, or a record of kind `BRANCHENTRY` or
`SWITCHENTRY` has been consumed. -/
structure Pass (n t : Nat) (m m1 : Machine) : Prop where
  nc : no_call n t m1
  entries : m1.dynval_buf.entries = m.dynval_buf.entries
  ptr : m.dynval_buf.ptr ≤ m1.dynval_buf.ptr
  step : m1.g.next_step = m.g.next_step ∨ m1.g.next_step = EXCEPT ∨
    branch_upto m.dynval_buf.entries m.dynval_buf.ptr + 1 ≤
      branch_upto m.dynval_buf.entries m1.dynval_buf.ptr

/-- Blocks that branch in a cycle: the entry block issues
`INSN_START("condbranch", branch_labels = [22, 11])`, the one successor block
is labelled 11, labels `GREG(1,0)` with 11 and issues the same `INSN_START`;
no block is labelled 22.  The log holds `BRANCHENTRY{true}`,
`BRANCHENTRY{true}` and `BRANCHENTRY{false}`. -/
def demo_cycle : Machine :=
  demo_machine [demo_branch_entry true, demo_branch_entry true, demo_branch_entry false]
    [demo_insn_op "condbranch" 0 (22, 11) [] [] [] []]
    [(11, [demo_label_op (demo_greg 1 0) 11,
           demo_insn_op "condbranch" 0 (22, 11) [] [] [] []])]

/-- The outcome `o` of running from machine `m` is a result whenever the
bound on the fuel `enough` holds, and a machine it ends with is related to
`m` by `Pass`. -/
def pass_from (n t : Nat) (m : Machine) (enough : Prop) (o : Outcome) : Prop :=
  (enough → o ≠ .out_of_fuel) ∧ ∀ m1, o = .done m1 → Pass n t m m1

/-- The run ended on a failed assertion. -/
def Outcome.aborted : Outcome → Bool
  | .abort => true
  | _ => false

/-- The caller and the callee of `demo_call` on the state in which
`MADDR(0x3000,0)` carries label 9, with the given log. -/
def demo_call_tainted (log : List DynValEntry) : Machine :=
  { demo_call with
    shad := (tp_label demo_cfg demo_shad (demo_maddr 12288 0) 9).getD demo_shad,
    dynval_buf := { entries := log, ptr := 0 } }

/-! ## Bits of the presence bitmap -/

theorem and_seven (x : Nat) : x &&& 7 = x % 8 := by
  have h := Nat.and_pow_two_sub_one_eq_mod x 3
  simpa using h

theorem shift_three (x : Nat) : x >>> 3 = x / 8 := by
  simp [Nat.shiftRight_eq_div_pow]

theorem byte_test (b k : Nat) (hk : k < 8) :
    ((b % 256 &&& (1 <<< k)) % 256 ≠ 0) ↔ b.testBit k = true := by
  have h256 : (256 : Nat) = 2 ^ 8 := by norm_num
  rw [Nat.one_shiftLeft, Nat.and_two_pow, h256, Nat.testBit_mod_two_pow]
  have hlt : 2 ^ k < 256 := by
    have h2 : 2 ^ k < 2 ^ 8 := Nat.pow_lt_pow_right (by norm_num) hk
    simpa using h2
  have hpos : 2 ^ k ≠ 0 := by positivity
  cases hb : b.testBit k <;> simp [hk, Nat.mod_eq_of_lt hlt, hpos]

theorem byte_set (b i j : Nat) (hj : j < 8) :
    (((b % 256) ||| (1 <<< i)) % 256).testBit j = (b.testBit j || decide (i = j)) := by
  have h256 : (256 : Nat) = 2 ^ 8 := by norm_num
  rw [Nat.one_shiftLeft, h256, Nat.testBit_mod_two_pow, Nat.testBit_or, Nat.testBit_mod_two_pow,
    Nat.testBit_two_pow]
  simp [hj]

theorem byte_clear (b i j : Nat) (hj : j < 8) :
    (((b % 256) &&& (255 ^^^ (1 <<< i))) % 256).testBit j = (b.testBit j && !decide (i = j)) := by
  have h256 : (256 : Nat) = 2 ^ 8 := by norm_num
  have h255 : (255 : Nat) = 2 ^ 8 - 1 := by norm_num
  rw [Nat.one_shiftLeft, h256, Nat.testBit_mod_two_pow, Nat.testBit_and, Nat.testBit_mod_two_pow,
    Nat.testBit_xor, h255, Nat.testBit_two_pow_sub_one, Nat.testBit_two_pow]
  simp [hj]

/-- The bit `get_ram_bit` tests, as a bit of the stored byte. -/
theorem get_ram_bit_iff (s : Shad) (x : Nat) :
    get_ram_bit s x ≠ 0 ↔ (s.ram_bitmap (x % U32 / 8)).testBit (x % U32 % 8) = true := by
  unfold get_ram_bit
  simp only [and_seven, shift_three]
  exact byte_test _ _ (Nat.mod_lt _ (by norm_num))

theorem get_ram_bit_set (s : Shad) (x y : Nat) :
    (get_ram_bit (set_ram_bit s x) y ≠ 0) ↔ (y % U32 = x % U32 ∨ get_ram_bit s y ≠ 0) := by
  rw [get_ram_bit_iff, get_ram_bit_iff]
  unfold set_ram_bit
  simp only [Function.update_apply, and_seven, shift_three]
  by_cases hq : y % U32 / 8 = x % U32 / 8
  · rw [if_pos hq, byte_set _ _ _ (Nat.mod_lt _ (by norm_num)), ← hq]
    have hiff : (x % U32 % 8 = y % U32 % 8) ↔ y % U32 = x % U32 := by omega
    simp only [Bool.or_eq_true, decide_eq_true_eq, hiff]
    tauto
  · rw [if_neg hq]
    have hne : ¬ y % U32 = x % U32 := fun h => hq (by rw [h])
    simp [hne]

theorem get_ram_bit_clear (s : Shad) (x y : Nat) :
    (get_ram_bit (clear_ram_bit s x) y ≠ 0) ↔ (y % U32 ≠ x % U32 ∧ get_ram_bit s y ≠ 0) := by
  rw [get_ram_bit_iff, get_ram_bit_iff]
  unfold clear_ram_bit
  simp only [Function.update_apply, and_seven, shift_three]
  by_cases hq : y % U32 / 8 = x % U32 / 8
  · rw [if_pos hq, byte_clear _ _ _ (Nat.mod_lt _ (by norm_num)), ← hq]
    have hiff : (x % U32 % 8 = y % U32 % 8) ↔ y % U32 = x % U32 := by omega
    simp only [Bool.and_eq_true, Bool.not_eq_true', decide_eq_false_iff_not, hiff]
    tauto
  · rw [if_neg hq]
    have hne : ¬ y % U32 = x % U32 := fun h => hq (by rw [h])
    simp [hne]

theorem get_ram_bit_congr (s s1 : Shad) (h : s1.ram_bitmap = s.ram_bitmap) (x : Nat) :
    get_ram_bit s1 x = get_ram_bit s x := by
  unfold get_ram_bit
  rw [h]

theorem get_ram_bit_mod (s : Shad) (x : Nat) : get_ram_bit s (x % U32) = get_ram_bit s x := by
  unfold get_ram_bit
  simp

/-! ## The label-set pool -/

theorem same_content_refl (h : LabelSetPool) : same_content h h := fun _ => ⟨rfl, rfl⟩

theorem same_content_trans {h h1 h2 : LabelSetPool} (a : same_content h h1)
    (b : same_content h1 h2) : same_content h h2 :=
  fun q => ⟨(b q).1.trans (a q).1, (b q).2.trans (a q).2⟩

theorem labelset_copy_snd (h : LabelSetPool) (p : Option Nat) : (labelset_copy h p).2 = p := by
  cases p <;> rfl

theorem labelset_copy_next (h : LabelSetPool) (p : Option Nat) :
    (labelset_copy h p).1.next = h.next := by
  cases p <;> rfl

theorem labelset_copy_content (h : LabelSetPool) (p : Option Nat) :
    same_content h (labelset_copy h p).1 := by
  intro q
  cases p with
  | none => exact ⟨rfl, rfl⟩
  | some p =>
    simp only [labelset_copy, Function.update_apply]
    split <;> simp_all

theorem labelset_free_next (h : LabelSetPool) (p : Option Nat) :
    (labelset_free h p).next = h.next := by
  cases p <;> rfl

theorem labelset_free_content (h : LabelSetPool) (p : Option Nat) :
    same_content h (labelset_free h p) := by
  intro q
  cases p with
  | none => exact ⟨rfl, rfl⟩
  | some p =>
    simp only [labelset_free, Function.update_apply]
    split <;> simp_all

theorem is_empty_congr {h h1 : LabelSetPool} (c : same_content h h1) (p : Option Nat) :
    labelset_is_empty h1 p = labelset_is_empty h p := by
  cases p with
  | none => rfl
  | some p => simp [labelset_is_empty, (c p).1]

/-! ## Reading a slot -/

theorem slot_ptr_pool (cfg : Config) (s : Shad) (h : LabelSetPool) (sl : Slot) :
    slot_ptr cfg { s with pool := h } sl = slot_ptr cfg s sl := by
  cases sl <;> rfl

theorem slot_of_pool (cfg : Config) (s : Shad) (h : LabelSetPool) (a : Addr) :
    slot_of cfg { s with pool := h } a = slot_of cfg s a := rfl

theorem ptr_of_pool (cfg : Config) (s : Shad) (h : LabelSetPool) (a : Addr) :
    ptr_of cfg { s with pool := h } a = ptr_of cfg s a := by
  unfold ptr_of
  rw [slot_of_pool]
  cases slot_of cfg s a <;> simp [slot_ptr_pool]

theorem slot_of_ok {cfg : Config} {s : Shad} {a : Addr} {sl : Slot}
    (h : slot_of cfg s a = some sl) : Slot.ok cfg sl := by
  rcases a with ⟨typ, val, off, flag⟩
  cases typ <;> simp only [slot_of, Option.some.injEq, reduceCtorEq] at h <;> subst h <;>
    simp only [Slot.ok]
  cases hc : cfg.TARGET_X86_64
  · right; simp only [Bool.false_eq_true, if_false]; exact Nat.mod_lt _ (by norm_num)
  · left; rfl

/-- What `tp_labelset_get` returns when its assertions hold: the pointer found
in the slot, and the state with the count of that label set raised. -/
theorem tp_labelset_get_eq (cfg : Config) (s : Shad) (a : Addr) (ok : get_ok s a) :
    tp_labelset_get cfg s a =
      some ({ s with pool := (labelset_copy s.pool (ptr_of cfg s a)).1 }, ptr_of cfg s a) := by
  rcases a with ⟨typ, val, off, flag⟩
  obtain ⟨h1, h2⟩ := ok
  cases typ <;> simp only [ne_eq, not_true_eq_false, reduceCtorEq, not_false_eq_true,
    true_implies, false_implies] at h1 h2 <;>
    simp only [tp_labelset_get, ptr_of, slot_of, slot_ptr, shad_dir_find_64, shad_dir_find_32,
      shad_dir_find, labelset_copy_snd]
  · -- MADDR
    cases hc : cfg.TARGET_X86_64
    · simp only [Bool.false_eq_true, if_false, get_ram_bit_mod]
      split
      · rfl
      · rfl
    · simp
  · -- LADDR
    by_cases hf : flag = AddrFlag.FUNCARG
    · simp only [hf, if_true] at h2 ⊢
      simp [h2]
    · simp only [hf, if_false] at h2 ⊢
      simp [h2]
  · rfl

theorem tp_labelset_get_fail (cfg : Config) (s : Shad) (a : Addr) (ok : ¬ get_ok s a) :
    tp_labelset_get cfg s a = none := by
  rcases a with ⟨typ, val, off, flag⟩
  unfold get_ok at ok
  cases typ <;> simp only [ne_eq, not_true_eq_false, reduceCtorEq, not_false_eq_true,
    true_implies, false_implies, and_true, true_and, false_and, not_not] at ok <;>
    simp only [tp_labelset_get]
  by_cases hf : flag = AddrFlag.FUNCARG
  · simp only [hf, if_true] at ok ⊢
    simp [ok]
  · simp only [hf, if_false] at ok ⊢
    simp [ok]

/-! ## Deleting and storing -/

theorem shad_dir_remove_entries (h : LabelSetPool) (d : SdDir) (k : Nat) :
    (shad_dir_remove h d k).2.entries = Function.update d.entries k none := by
  unfold shad_dir_remove
  cases hk : d.entries k with
  | none =>
    funext x
    simp only [Function.update_apply]
    split
    · next hx => rw [hx, hk]
    · rfl
  | some p => rfl

theorem shad_dir_remove_content (h : LabelSetPool) (d : SdDir) (k : Nat) :
    same_content h (shad_dir_remove h d k).1 := by
  unfold shad_dir_remove
  cases hk : d.entries k with
  | none => exact same_content_refl h
  | some p => exact labelset_free_content h (some p)

theorem shad_dir_remove_next (h : LabelSetPool) (d : SdDir) (k : Nat) :
    (shad_dir_remove h d k).1.next = h.next := by
  unfold shad_dir_remove
  cases hk : d.entries k with
  | none => rfl
  | some p => rfl

theorem shad_dir_add_entries (h : LabelSetPool) (d : SdDir) (k : Nat) (ls : Option Nat) :
    (shad_dir_add h d k ls).2.entries = Function.update d.entries k ls := by
  simp [shad_dir_add, labelset_copy_snd]

theorem shad_dir_add_content (h : LabelSetPool) (d : SdDir) (k : Nat) (ls : Option Nat) :
    same_content h (shad_dir_add h d k ls).1 :=
  same_content_trans (labelset_free_content h _) (labelset_copy_content _ _)

theorem shad_dir_add_next (h : LabelSetPool) (d : SdDir) (k : Nat) (ls : Option Nat) :
    (shad_dir_add h d k ls).1.next = h.next := by
  simp [shad_dir_add, labelset_copy_next, labelset_free_next]

theorem bitmap_ok_of_64 {cfg : Config} (hc : cfg.TARGET_X86_64 = true) (s : Shad) :
    bitmap_ok cfg s := by
  intro h
  rw [hc] at h
  cases h

/-- Function `tp_delete` on a tracked address succeeds and empties its slot. -/
theorem tp_delete_spec (cfg : Config) (s : Shad) (a : Addr) (ok : del_ok a) :
    ∃ s1 sl, tp_delete cfg s a = some s1 ∧ slot_of cfg s a = some sl ∧ Upd cfg s s1 sl none := by
  rcases a with ⟨typ, val, off, flag⟩
  obtain ⟨h1, h2⟩ := ok
  cases typ <;> simp only [ne_eq, not_true_eq_false, reduceCtorEq, not_false_eq_true] at h1 h2
  · -- HADDR
    refine ⟨_, _, rfl, rfl, ?_⟩
    constructor
    · simp [slot_ptr, shad_dir_remove_64, shad_dir_remove_entries]
    · intro sl1 _ hne
      cases sl1 <;> simp_all [slot_ptr, shad_dir_remove_64, shad_dir_remove_entries,
        Function.update_apply, get_ram_bit]
    · exact shad_dir_remove_content _ _ _
    · exact shad_dir_remove_next _ _ _
    · rfl
    · rfl
    · exact fun h => h
  · -- MADDR
    cases hc : cfg.TARGET_X86_64
    · by_cases hb : get_ram_bit s (val + off) ≠ 0
      · have e : tp_delete cfg s ⟨AddrType.MADDR, val, off, flag⟩ = some (clear_ram_bit
            { s with pool := (shad_dir_remove_32 s.pool s.ram (val + off)).1,
                     ram := (shad_dir_remove_32 s.pool s.ram (val + off)).2 } (val + off)) := by
          simp [tp_delete, hc, hb]
        refine ⟨_, _, e, rfl, ?_⟩
        constructor
        · simp only [slot_ptr, hc, Bool.false_eq_true, if_false]
          rw [if_neg]
          rw [get_ram_bit_mod, get_ram_bit_clear]
          simp
        · intro sl1 hok hne
          cases sl1 <;> try rfl
          next k =>
            have hk : k < U32 := by
              change _ ∨ _ at hok
              rcases hok with h | h
              · rw [hc] at h; cases h
              · exact h
            have hkne : k ≠ (val + off) % U32 := by
              intro h; apply hne; simp [hc, h]
            have hbit : (get_ram_bit (clear_ram_bit
                { s with pool := (shad_dir_remove_32 s.pool s.ram (val + off)).1,
                         ram := (shad_dir_remove_32 s.pool s.ram (val + off)).2 } (val + off)) k ≠ 0)
                ↔ get_ram_bit s k ≠ 0 := by
              rw [get_ram_bit_clear, Nat.mod_eq_of_lt hk]
              simp only [ne_eq, hkne, not_false_eq_true, true_and]
              exact Iff.rfl
            simp only [slot_ptr, hc, Bool.false_eq_true, if_false]
            have hent : (clear_ram_bit
                { s with pool := (shad_dir_remove_32 s.pool s.ram (val + off)).1,
                         ram := (shad_dir_remove_32 s.pool s.ram (val + off)).2 }
                  (val + off)).ram.entries k = s.ram.entries k := by
              simp [clear_ram_bit, shad_dir_remove_32, shad_dir_remove_entries,
                Function.update_apply, hkne]
            rw [hent]
            by_cases hg : get_ram_bit s k ≠ 0
            · rw [if_pos (hbit.2 hg), if_pos hg]
            · rw [if_neg (fun h => hg (hbit.1 h)), if_neg hg]
        · exact shad_dir_remove_content _ _ _
        · exact shad_dir_remove_next _ _ _
        · rfl
        · rfl
        · intro hbm _ y hy
          have hbit : (get_ram_bit (clear_ram_bit
              { s with pool := (shad_dir_remove_32 s.pool s.ram (val + off)).1,
                       ram := (shad_dir_remove_32 s.pool s.ram (val + off)).2 } (val + off)) y ≠ 0)
              ↔ (y ≠ (val + off) % U32 ∧ get_ram_bit s y ≠ 0) := by
            rw [get_ram_bit_clear, Nat.mod_eq_of_lt hy]
            exact Iff.rfl
          have hent : (clear_ram_bit
              { s with pool := (shad_dir_remove_32 s.pool s.ram (val + off)).1,
                       ram := (shad_dir_remove_32 s.pool s.ram (val + off)).2 }
                (val + off)).ram.entries y =
              if y = (val + off) % U32 then none else s.ram.entries y := by
            simp [clear_ram_bit, shad_dir_remove_32, shad_dir_remove_entries,
              Function.update_apply]
          rw [hbit, hent]
          by_cases hy2 : y = (val + off) % U32
          · simp [hy2]
          · simp only [hy2, if_false, ne_eq, not_false_eq_true, true_and]
            exact hbm hc y hy
      · have e : tp_delete cfg s ⟨AddrType.MADDR, val, off, flag⟩ = some s := by
          simp [tp_delete, hc, hb]
        refine ⟨s, _, e, rfl, ?_⟩
        constructor
        · simp only [slot_ptr, hc, Bool.false_eq_true, if_false]
          rw [if_neg]
          rw [get_ram_bit_mod]; exact hb
        · intro _ _ _; rfl
        · exact same_content_refl _
        · rfl
        · rfl
        · rfl
        · exact fun h => h
    · have e : tp_delete cfg s ⟨AddrType.MADDR, val, off, flag⟩ = some
          { s with pool := (shad_dir_remove_64 s.pool s.ram (val + off)).1,
                   ram := (shad_dir_remove_64 s.pool s.ram (val + off)).2 } := by
        simp [tp_delete, hc]
      refine ⟨_, _, e, rfl, ?_⟩
      constructor
      · simp [slot_ptr, hc, shad_dir_remove_64, shad_dir_remove_entries]
      · intro sl1 _ hne
        cases sl1 <;> simp_all [slot_ptr, shad_dir_remove_64, shad_dir_remove_entries,
          Function.update_apply, get_ram_bit]
      · exact shad_dir_remove_content _ _ _
      · exact shad_dir_remove_next _ _ _
      · rfl
      · rfl
      · exact fun _ => bitmap_ok_of_64 hc _
  · -- IADDR
    refine ⟨_, _, rfl, rfl, ?_⟩
    constructor
    · simp [slot_ptr, shad_dir_remove_64, shad_dir_remove_entries]
    · intro sl1 _ hne
      cases sl1 <;> simp_all [slot_ptr, shad_dir_remove_64, shad_dir_remove_entries,
        Function.update_apply, get_ram_bit]
    · exact shad_dir_remove_content _ _ _
    · exact shad_dir_remove_next _ _ _
    · rfl
    · rfl
    · exact fun h => h
  · -- LADDR
    by_cases hf : flag = AddrFlag.FUNCARG
    · subst hf
      refine ⟨_, _, rfl, rfl, ?_⟩
      constructor
      · simp [slot_ptr]
      · intro sl1 _ hne
        cases sl1 <;> simp_all [slot_ptr, Function.update_apply, get_ram_bit]
      · exact labelset_free_content _ _
      · exact labelset_free_next _ _
      · rfl
      · rfl
      · exact fun h => h
    · have e : tp_delete cfg s ⟨AddrType.LADDR, val, off, flag⟩ = some
          { s with pool := labelset_free s.pool
                     (s.llv (llv_index s s.current_frame ⟨AddrType.LADDR, val, off, flag⟩)),
                   llv := Function.update s.llv
                     (llv_index s s.current_frame ⟨AddrType.LADDR, val, off, flag⟩) none } := by
        simp [tp_delete, hf]
      have e2 : slot_of cfg s ⟨AddrType.LADDR, val, off, flag⟩ =
          some (Slot.llv (llv_index s s.current_frame ⟨AddrType.LADDR, val, off, flag⟩)) := by
        simp [slot_of, hf]
      refine ⟨_, _, e, e2, ?_⟩
      constructor
      · simp [slot_ptr]
      · intro sl1 _ hne
        cases sl1 <;> simp_all [slot_ptr, Function.update_apply, get_ram_bit]
      · exact labelset_free_content _ _
      · exact labelset_free_next _ _
      · rfl
      · rfl
      · exact fun h => h
  all_goals
    refine ⟨_, _, rfl, rfl, ?_⟩
    constructor
    · simp [slot_ptr]
    · intro sl1 _ hne
      cases sl1 <;> simp_all [slot_ptr, Function.update_apply, get_ram_bit]
    · exact labelset_free_content _ _
    · exact labelset_free_next _ _
    · rfl
    · rfl
    · exact fun h => h

theorem tp_labelset_put_eq (cfg : Config) (s : Shad) (a : Addr) (ls : Option Nat) :
    tp_labelset_put cfg s a ls = (tp_delete cfg s a).bind (fun s1 => put_store cfg s1 a ls) := by
  unfold tp_labelset_put put_store
  cases tp_delete cfg s a <;> rfl

/-- The `switch` of `tp_labelset_put` stores the pointer in the slot of `a`. -/
theorem put_store_spec (cfg : Config) (s : Shad) (a : Addr) (p : Option Nat) (ok : put_ok s a)
    (hp : p ≠ none) :
    ∃ s1 sl, put_store cfg s a p = some s1 ∧ slot_of cfg s a = some sl ∧ Upd cfg s s1 sl p := by
  rcases a with ⟨typ, val, off, flag⟩
  obtain ⟨⟨h1, h2⟩, _, h3⟩ := ok
  cases typ <;> simp only [ne_eq, not_true_eq_false, reduceCtorEq, not_false_eq_true,
    true_implies] at h1 h2 h3
  · -- HADDR
    refine ⟨_, _, rfl, rfl, ?_⟩
    constructor
    · simp [slot_ptr, shad_dir_add_64, shad_dir_add_entries]
    · intro sl1 _ hne
      cases sl1 <;> simp_all [slot_ptr, shad_dir_add_64, shad_dir_add_entries,
        Function.update_apply, get_ram_bit]
    · exact shad_dir_add_content _ _ _ _
    · exact shad_dir_add_next _ _ _ _
    · rfl
    · rfl
    · exact fun h => h
  · -- MADDR
    cases hc : cfg.TARGET_X86_64
    · have e : put_store cfg s ⟨AddrType.MADDR, val, off, flag⟩ p = some (set_ram_bit
          { s with pool := (shad_dir_add_32 s.pool s.ram (val + off) p).1,
                   ram := (shad_dir_add_32 s.pool s.ram (val + off) p).2 } (val + off)) := by
        simp [put_store, hc]
      refine ⟨_, _, e, rfl, ?_⟩
      constructor
      · simp only [slot_ptr, hc, Bool.false_eq_true, if_false]
        rw [if_pos]
        · simp [set_ram_bit, shad_dir_add_32, shad_dir_add_entries]
        · rw [get_ram_bit_mod, get_ram_bit_set]
          left; rfl
      · intro sl1 hok hne
        cases sl1 <;> try rfl
        next k =>
          have hk : k < U32 := by
            change _ ∨ _ at hok
            rcases hok with h | h
            · rw [hc] at h; cases h
            · exact h
          have hkne : k ≠ (val + off) % U32 := by
            intro h; apply hne; simp [hc, h]
          have hbit : (get_ram_bit (set_ram_bit
              { s with pool := (shad_dir_add_32 s.pool s.ram (val + off) p).1,
                       ram := (shad_dir_add_32 s.pool s.ram (val + off) p).2 } (val + off)) k ≠ 0)
              ↔ get_ram_bit s k ≠ 0 := by
            rw [get_ram_bit_set, Nat.mod_eq_of_lt hk]
            simp only [ne_eq, hkne, false_or]
            exact Iff.rfl
          simp only [slot_ptr, hc, Bool.false_eq_true, if_false]
          have hent : (set_ram_bit
              { s with pool := (shad_dir_add_32 s.pool s.ram (val + off) p).1,
                       ram := (shad_dir_add_32 s.pool s.ram (val + off) p).2 }
                (val + off)).ram.entries k = s.ram.entries k := by
            simp [set_ram_bit, shad_dir_add_32, shad_dir_add_entries,
              Function.update_apply, hkne]
          rw [hent]
          by_cases hg : get_ram_bit s k ≠ 0
          · rw [if_pos (hbit.2 hg), if_pos hg]
          · rw [if_neg (fun h => hg (hbit.1 h)), if_neg hg]
      · exact shad_dir_add_content _ _ _ _
      · exact shad_dir_add_next _ _ _ _
      · rfl
      · rfl
      · intro hbm _ y hy
        obtain ⟨p0, rfl⟩ := Option.ne_none_iff_exists'.mp hp
        have hbit : (get_ram_bit (set_ram_bit
            { s with pool := (shad_dir_add_32 s.pool s.ram (val + off) (some p0)).1,
                     ram := (shad_dir_add_32 s.pool s.ram (val + off) (some p0)).2 } (val + off)) y ≠ 0)
            ↔ (y = (val + off) % U32 ∨ get_ram_bit s y ≠ 0) := by
          rw [get_ram_bit_set, Nat.mod_eq_of_lt hy]
          exact Iff.rfl
        have hent : (set_ram_bit
            { s with pool := (shad_dir_add_32 s.pool s.ram (val + off) (some p0)).1,
                     ram := (shad_dir_add_32 s.pool s.ram (val + off) (some p0)).2 }
              (val + off)).ram.entries y =
            if y = (val + off) % U32 then some p0 else s.ram.entries y := by
          simp [set_ram_bit, shad_dir_add_32, shad_dir_add_entries,
            Function.update_apply]
        rw [hbit, hent]
        by_cases hy2 : y = (val + off) % U32
        · simp [hy2]
        · simp only [hy2, if_false, false_or]
          exact hbm hc y hy
    · have e : put_store cfg s ⟨AddrType.MADDR, val, off, flag⟩ p = some
          { s with pool := (shad_dir_add_64 s.pool s.ram (val + off) p).1,
                   ram := (shad_dir_add_64 s.pool s.ram (val + off) p).2 } := by
        simp [put_store, hc]
      refine ⟨_, _, e, rfl, ?_⟩
      constructor
      · simp [slot_ptr, hc, shad_dir_add_64, shad_dir_add_entries]
      · intro sl1 _ hne
        cases sl1 <;> simp_all [slot_ptr, shad_dir_add_64, shad_dir_add_entries,
          Function.update_apply, get_ram_bit]
      · exact shad_dir_add_content _ _ _ _
      · exact shad_dir_add_next _ _ _ _
      · rfl
      · rfl
      · exact fun _ => bitmap_ok_of_64 hc _
  · -- IADDR
    refine ⟨_, _, rfl, rfl, ?_⟩
    constructor
    · simp [slot_ptr, shad_dir_add_64, shad_dir_add_entries]
    · intro sl1 _ hne
      cases sl1 <;> simp_all [slot_ptr, shad_dir_add_64, shad_dir_add_entries,
        Function.update_apply, get_ram_bit]
    · exact shad_dir_add_content _ _ _ _
    · exact shad_dir_add_next _ _ _ _
    · rfl
    · rfl
    · exact fun h => h
  · -- LADDR
    by_cases hf : flag = AddrFlag.FUNCARG
    · subst hf
      simp only [if_true] at h3
      have e : put_store cfg s ⟨AddrType.LADDR, val, off, AddrFlag.FUNCARG⟩ p = some
          { s with pool := (labelset_copy s.pool p).1,
                   llv := Function.update s.llv
                     (llv_index s (next_frame s) ⟨AddrType.LADDR, val, off, AddrFlag.FUNCARG⟩)
                     (labelset_copy s.pool p).2 } := by
        simp [put_store, h3]
      refine ⟨_, _, e, rfl, ?_⟩
      constructor
      · simp [slot_ptr, labelset_copy_snd]
      · intro sl1 _ hne
        cases sl1 <;> simp_all [slot_ptr, Function.update_apply, get_ram_bit]
      · exact labelset_copy_content _ _
      · exact labelset_copy_next _ _
      · rfl
      · rfl
      · exact fun h => h
    · simp only [hf, if_false] at h3
      have e : put_store cfg s ⟨AddrType.LADDR, val, off, flag⟩ p = some
          { s with pool := (labelset_copy s.pool p).1,
                   llv := Function.update s.llv
                     (llv_index s s.current_frame ⟨AddrType.LADDR, val, off, flag⟩)
                     (labelset_copy s.pool p).2 } := by
        simp [put_store, hf, h3]
      have e2 : slot_of cfg s ⟨AddrType.LADDR, val, off, flag⟩ =
          some (Slot.llv (llv_index s s.current_frame ⟨AddrType.LADDR, val, off, flag⟩)) := by
        simp [slot_of, hf]
      refine ⟨_, _, e, e2, ?_⟩
      constructor
      · simp [slot_ptr, labelset_copy_snd]
      · intro sl1 _ hne
        cases sl1 <;> simp_all [slot_ptr, Function.update_apply, get_ram_bit]
      · exact labelset_copy_content _ _
      · exact labelset_copy_next _ _
      · rfl
      · rfl
      · exact fun h => h
  all_goals
    refine ⟨_, _, rfl, rfl, ?_⟩
    constructor
    · simp [slot_ptr, labelset_copy_snd]
    · intro sl1 _ hne
      cases sl1 <;> simp_all [slot_ptr, Function.update_apply, get_ram_bit]
    · exact labelset_copy_content _ _
    · exact labelset_copy_next _ _
    · rfl
    · rfl
    · exact fun h => h

/-! ## Composing the steps -/

theorem Upd.slots {cfg : Config} {s s1 : Shad} {sl : Slot} {v : Option Nat}
    (u : Upd cfg s s1 sl v) : SlotUpd cfg s s1 sl v :=
  ⟨u.at_sl, u.other, u.frame, u.nvals, u.bitmap⟩

theorem slot_of_congr (cfg : Config) {s s1 : Shad} (hf : s1.current_frame = s.current_frame)
    (hn : s1.num_vals = s.num_vals) (a : Addr) : slot_of cfg s1 a = slot_of cfg s a := by
  unfold slot_of llv_index next_frame
  rw [hf, hn]

theorem get_ok_congr {s s1 : Shad} (hf : s1.current_frame = s.current_frame) (a : Addr) :
    get_ok s1 a ↔ get_ok s a := by
  unfold get_ok next_frame
  rw [hf]

theorem put_ok_congr {s s1 : Shad} (hf : s1.current_frame = s.current_frame) (a : Addr) :
    put_ok s1 a ↔ put_ok s a := by
  unfold put_ok
  rw [get_ok_congr hf]

theorem Upd.trans {cfg : Config} {s s1 s2 : Shad} {sl : Slot} {v w : Option Nat}
    (u : Upd cfg s s1 sl v) (u2 : Upd cfg s1 s2 sl w) : Upd cfg s s2 sl w where
  at_sl := u2.at_sl
  other := fun sl1 ok ne => (u2.other sl1 ok ne).trans (u.other sl1 ok ne)
  content := same_content_trans u.content u2.content
  next := u2.next.trans u.next
  frame := u2.frame.trans u.frame
  nvals := u2.nvals.trans u.nvals
  bitmap := fun h => u2.bitmap (u.bitmap h)

/-- Function `tp_labelset_put` on a tracked address whose frame is in range succeeds
and stores the pointer in the slot of the address. -/
theorem tp_labelset_put_spec (cfg : Config) (s : Shad) (a : Addr) (p : Option Nat)
    (ok : put_ok s a) (hp : p ≠ none) :
    ∃ s1 sl, tp_labelset_put cfg s a p = some s1 ∧ slot_of cfg s a = some sl ∧
      Upd cfg s s1 sl p := by
  obtain ⟨s1, sl, e1, e2, u1⟩ := tp_delete_spec cfg s a ok.1
  obtain ⟨s2, sl2, e3, e4, u2⟩ := put_store_spec cfg s1 a p ((put_ok_congr u1.frame a).2 ok) hp
  rw [slot_of_congr cfg u1.frame u1.nvals, e2] at e4
  cases e4
  exact ⟨s2, sl, by rw [tp_labelset_put_eq, e1]; exact e3, e2, u1.trans u2⟩

theorem ptr_of_at {cfg : Config} {s s1 : Shad} {sl : Slot} {v : Option Nat} {a : Addr}
    (u : SlotUpd cfg s s1 sl v) (h : slot_of cfg s a = some sl) : ptr_of cfg s1 a = v := by
  unfold ptr_of
  rw [slot_of_congr cfg u.frame u.nvals, h]
  exact u.at_sl

theorem ptr_of_other {cfg : Config} {s s1 : Shad} {sl : Slot} {v : Option Nat} {b : Addr}
    (u : SlotUpd cfg s s1 sl v) (h : slot_of cfg s b ≠ some sl) :
    ptr_of cfg s1 b = ptr_of cfg s b := by
  unfold ptr_of
  rw [slot_of_congr cfg u.frame u.nvals]
  cases hb : slot_of cfg s b with
  | none => rfl
  | some slb =>
    exact u.other slb (slot_of_ok hb) (fun e => h (by rw [hb, e]))

theorem members_eq (cfg : Config) (s : Shad) (a : Addr) (ok : get_ok s a) :
    members cfg s a = ((ptr_of cfg s a).map (fun p => (s.pool.cells p).set)).getD [] := by
  unfold members
  rw [tp_labelset_get_eq cfg s a ok]
  cases hp : ptr_of cfg s a with
  | none => rfl
  | some p => simp [(labelset_copy_content s.pool (some p) p).1]

theorem type_tag_eq (cfg : Config) (s : Shad) (a : Addr) (ok : get_ok s a) :
    type_tag cfg s a = (ptr_of cfg s a).bind (fun p => (s.pool.cells p).type) := by
  unfold type_tag
  rw [tp_labelset_get_eq cfg s a ok]
  cases hp : ptr_of cfg s a with
  | none => rfl
  | some p => simp [(labelset_copy_content s.pool (some p) p).2]

theorem tp_query_eq (cfg : Config) (s : Shad) (a : Addr) (ok : get_ok s a) :
    tp_query cfg s a =
      some ({ s with pool := (labelset_copy s.pool (ptr_of cfg s a)).1 },
            !(labelset_is_empty s.pool (ptr_of cfg s a))) := by
  unfold tp_query
  rw [tp_labelset_get_eq cfg s a ok]
  simp [is_empty_congr (labelset_copy_content s.pool (ptr_of cfg s a))]

theorem query_val_eq (cfg : Config) (s : Shad) (a : Addr) (ok : get_ok s a) :
    query_val cfg s a = some (!(members cfg s a).isEmpty) := by
  unfold query_val
  rw [tp_query_eq cfg s a ok, members_eq cfg s a ok]
  cases hp : ptr_of cfg s a <;> simp [labelset_is_empty]

/-! ## The operations of the API -/

theorem cells_add (h : LabelSetPool) (p : Nat) (l : Label) (q : Nat) :
    ((labelset_add h p l).cells q).set =
        (if q = p then (h.cells p).set.insert l else (h.cells q).set) ∧
      ((labelset_add h p l).cells q).type = (h.cells q).type := by
  simp only [labelset_add, Function.update_apply]
  split
  · next e => subst e; exact ⟨rfl, rfl⟩
  · exact ⟨rfl, rfl⟩

theorem tp_label_spec (cfg : Config) (s : Shad) (a : Addr) (l : Label) (ok : put_ok s a) :
    ∃ s1 sl p, tp_label cfg s a l = some s1 ∧ slot_of cfg s a = some sl ∧
      SlotUpd cfg s s1 sl (some p) ∧
      p = (ptr_of cfg s a).getD s.pool.next ∧
      s1.pool.next = (if ptr_of cfg s a = none then s.pool.next + 1 else s.pool.next) ∧
      (s1.pool.cells p).set = (members cfg s a).insert l ∧
      (s1.pool.cells p).type =
        (if ptr_of cfg s a = none then some .LST_COPY else (s.pool.cells p).type) ∧
      (∀ q, q ≠ p → (s1.pool.cells q).set = (s.pool.cells q).set ∧
        (s1.pool.cells q).type = (s.pool.cells q).type) := by
  have hg := tp_labelset_get_eq cfg s a ok.2
  have hm := members_eq cfg s a ok.2
  unfold tp_label
  rw [hg]
  cases hp : ptr_of cfg s a with
  | none =>
    rw [hp] at hm
    simp only [labelset_copy]
    obtain ⟨s3, sl, e3, e4, u⟩ := tp_labelset_put_spec cfg
      { s with pool := (labelset_add
          (labelset_set_type (labelset_new s.pool).1 (labelset_new s.pool).2 .LST_COPY)
          (labelset_new s.pool).2 l) } a (some (labelset_new s.pool).2)
      ((put_ok_congr rfl a).2 ok) (by simp)
    rw [e3]
    refine ⟨_, sl, s.pool.next, rfl, e4, ⟨?_, ?_, u.frame, u.nvals, fun h => u.bitmap h⟩,
      rfl, ?_, ?_, ?_, ?_⟩
    · rw [slot_ptr_pool]; exact u.at_sl
    · intro sl1 ok1 ne1
      rw [slot_ptr_pool, u.other sl1 ok1 ne1, slot_ptr_pool]
    · simp only [labelset_free_next, u.next]
      simp [labelset_add, labelset_set_type, labelset_new]
    · rw [(labelset_free_content _ _ _).1, (u.content _).1, hm]
      simp [labelset_add, labelset_set_type, labelset_new]
    · rw [(labelset_free_content _ _ _).2, (u.content _).2]
      simp [labelset_add, labelset_set_type, labelset_new]
    · intro q hq
      rw [(labelset_free_content _ _ _).1, (u.content _).1, (labelset_free_content _ _ _).2,
        (u.content _).2]
      simp [labelset_add, labelset_set_type, labelset_new, Function.update_apply, hq]
  | some p =>
    rw [hp] at hm
    simp only
    obtain ⟨s3, sl, e3, e4, u⟩ := tp_labelset_put_spec cfg
      { s with pool := labelset_add (labelset_copy s.pool (some p)).1 p l } a (some p)
      ((put_ok_congr rfl a).2 ok) (by simp)
    rw [e3]
    refine ⟨_, sl, p, rfl, e4, ⟨?_, ?_, u.frame, u.nvals, fun h => u.bitmap h⟩,
      rfl, ?_, ?_, ?_, ?_⟩
    · rw [slot_ptr_pool]; exact u.at_sl
    · intro sl1 ok1 ne1
      rw [slot_ptr_pool, u.other sl1 ok1 ne1, slot_ptr_pool, slot_ptr_pool]
    · simp only [labelset_free_next, u.next]
      simp [labelset_add, labelset_copy]
    · rw [(labelset_free_content _ _ _).1, (u.content _).1, hm]
      simp [(cells_add _ _ _ _).1, (labelset_copy_content s.pool (some p) p).1]
    · rw [(labelset_free_content _ _ _).2, (u.content _).2]
      simp [(cells_add _ _ _ _).2, (labelset_copy_content s.pool (some p) p).2]
    · intro q hq
      rw [(labelset_free_content _ _ _).1, (u.content _).1, (labelset_free_content _ _ _).2,
        (u.content _).2]
      simp [(cells_add _ _ _ _).1, (cells_add _ _ _ _).2, hq,
        (labelset_copy_content s.pool (some p) q).1, (labelset_copy_content s.pool (some p) q).2]

theorem addrs_equal_of_slots (cfg : Config) (s : Shad) (a b : Addr) (ha : del_ok a)
    (hne : slot_of cfg s a ≠ slot_of cfg s b) : addrs_equal a b = some false := by
  unfold addrs_equal
  by_cases ht : a.typ = b.typ
  · rcases a with ⟨ta, va, oa, fa⟩
    rcases b with ⟨tb, vb, ob, fb⟩
    obtain ⟨h1, h2⟩ := ha
    simp only at ht
    subst ht
    cases ta <;> simp only [ne_eq, not_true_eq_false, reduceCtorEq, not_false_eq_true] at h1 h2 <;>
      simp only [slot_of, ne_eq, Option.some.injEq, Slot.hd.injEq, Slot.ram.injEq, Slot.io.injEq,
        Slot.llv.injEq, Slot.grv.injEq, Slot.gsv.injEq, Slot.ret.injEq] at hne <;>
      rw [if_neg (not_not.mpr rfl)] <;>
      simp only [Option.some.injEq, decide_eq_false_iff_not,
        Bool.and_eq_false_imp, Bool.and_eq_true, decide_eq_true_eq, and_imp]
    · exact hne
    · intro h
      apply hne
      cases hc : cfg.TARGET_X86_64
      · simp only [Bool.false_eq_true, if_false]
        have e1 : (va + oa) % U32 = (va + oa) % U64 % U32 :=
          (Nat.mod_mod_of_dvd _ (by norm_num)).symm
        have e2 : (vb + ob) % U32 = (vb + ob) % U64 % U32 :=
          (Nat.mod_mod_of_dvd _ (by norm_num)).symm
        rw [e1, e2, h]
      · simpa using h
    · exact hne
    · intro hv ho hf
      apply hne
      subst hv; subst ho; subst hf
      rfl
    · intro hv ho
      apply hne
      subst hv; subst ho
      rfl
    · intro hv ho
      apply hne
      subst hv; subst ho
      rfl
    · exact hne
  · simp [ht]

theorem tp_copy_spec (cfg : Config) (s : Shad) (a b : Addr)
    (heq : addrs_equal a b = some false) (oka : get_ok s a) (okb : put_ok s b) :
    ∃ s1 slb, tp_copy cfg s a b = some s1 ∧ slot_of cfg s b = some slb ∧
      Upd cfg s s1 slb
        (if labelset_is_empty s.pool (ptr_of cfg s a) then none else ptr_of cfg s a) := by
  have hg := tp_labelset_get_eq cfg s a oka
  unfold tp_copy
  rw [heq]
  simp only
  rw [hg]
  simp only [is_empty_congr (labelset_copy_content s.pool (ptr_of cfg s a))]
  have cc := labelset_copy_content s.pool (ptr_of cfg s a)
  have cn := labelset_copy_next s.pool (ptr_of cfg s a)
  by_cases he : labelset_is_empty s.pool (ptr_of cfg s a) = true
  · simp only [he, if_true]
    obtain ⟨s2, slb, e2, e3, u⟩ := tp_delete_spec cfg
      { s with pool := (labelset_copy s.pool (ptr_of cfg s a)).1 } b okb.1
    rw [e2]
    refine ⟨_, slb, rfl, e3, ?_⟩
    constructor
    · rw [slot_ptr_pool]; exact u.at_sl
    · intro sl1 ok1 ne1
      rw [slot_ptr_pool, u.other sl1 ok1 ne1, slot_ptr_pool]
    · exact same_content_trans cc (same_content_trans u.content (labelset_free_content _ _))
    · simp only [labelset_free_next, u.next, cn]
    · exact u.frame
    · exact u.nvals
    · exact fun h => u.bitmap h
  · simp only [he, if_false]
    obtain ⟨s2, slb, e2, e3, u⟩ := tp_labelset_put_spec cfg
      { s with pool := (labelset_copy s.pool (ptr_of cfg s a)).1 } b (ptr_of cfg s a)
      ((put_ok_congr rfl b).2 okb)
      (by intro h; rw [h] at he; exact he rfl)
    rw [e2]
    refine ⟨_, slb, rfl, e3, ?_⟩
    constructor
    · rw [slot_ptr_pool]; exact u.at_sl
    · intro sl1 ok1 ne1
      rw [slot_ptr_pool, u.other sl1 ok1 ne1, slot_ptr_pool]
    · exact same_content_trans cc (same_content_trans u.content (labelset_free_content _ _))
    · simp only [labelset_free_next, u.next, cn]
    · exact u.frame
    · exact u.nvals
    · exact fun h => u.bitmap h

/-- The pool after `tp_compute` has built the new label set: the new cell
holds the union with tag `COMPUTE`, the other cells are as before. -/
theorem compute_pool (h : LabelSetPool) (pa pb : Option Nat)
    (ha : ∀ p, pa = some p → p < h.next) (hb : ∀ p, pb = some p → p < h.next) :
    ((labelset_set_type (collect_non_null (collect_non_null (labelset_new h).1 (labelset_new h).2 pa) (labelset_new h).2 pb) (labelset_new h).2 .LST_COMPUTE).cells h.next).set =
        (pb.map (fun p => (h.cells p).set)).getD [] ∪
          ((pa.map (fun p => (h.cells p).set)).getD [] ∪ []) ∧
      ((labelset_set_type (collect_non_null (collect_non_null (labelset_new h).1 (labelset_new h).2 pa) (labelset_new h).2 pb) (labelset_new h).2 .LST_COMPUTE).cells h.next).type =
        some .LST_COMPUTE ∧
      (labelset_set_type (collect_non_null (collect_non_null (labelset_new h).1 (labelset_new h).2 pa) (labelset_new h).2 pb) (labelset_new h).2 .LST_COMPUTE).next = h.next + 1 ∧
      ∀ q, q ≠ h.next →
        ((labelset_set_type (collect_non_null (collect_non_null (labelset_new h).1 (labelset_new h).2 pa) (labelset_new h).2 pb) (labelset_new h).2 .LST_COMPUTE).cells q).set = (h.cells q).set ∧
        ((labelset_set_type (collect_non_null (collect_non_null (labelset_new h).1 (labelset_new h).2 pa) (labelset_new h).2 pb) (labelset_new h).2 .LST_COMPUTE).cells q).type =
          (h.cells q).type := by
  cases pa with
  | none =>
    cases pb with
    | none =>
      simp only [collect_non_null, labelset_set_type, labelset_new, Function.update_apply]
      refine ⟨by simp, by simp, trivial, ?_⟩
      intro q hq
      simp [hq]
    | some p =>
      have hp : p ≠ h.next := Nat.ne_of_lt (hb p rfl)
      simp only [collect_non_null, labelset_set_type, labelset_collect, labelset_new, Function.update_apply]
      refine ⟨by simp [hp], by simp, trivial, ?_⟩
      intro q hq
      simp [hq]
  | some p0 =>
    have hp0 : p0 ≠ h.next := Nat.ne_of_lt (ha p0 rfl)
    cases pb with
    | none =>
      simp only [collect_non_null, labelset_set_type, labelset_collect, labelset_new, Function.update_apply]
      refine ⟨by simp [hp0], by simp, trivial, ?_⟩
      intro q hq
      simp [hq]
    | some p =>
      have hp : p ≠ h.next := Nat.ne_of_lt (hb p rfl)
      simp only [collect_non_null, labelset_set_type, labelset_collect, labelset_new, Function.update_apply]
      refine ⟨by simp [hp, hp0], by simp, trivial, ?_⟩
      intro q hq
      simp [hq]

theorem is_empty_members (cfg : Config) (s : Shad) (a : Addr) (ok : get_ok s a) :
    labelset_is_empty s.pool (ptr_of cfg s a) = (members cfg s a).isEmpty := by
  rw [members_eq cfg s a ok]
  cases ptr_of cfg s a <;> rfl

theorem tp_compute_spec (cfg : Config) (s : Shad) (a b c : Addr)
    (oka : get_ok s a) (okb : get_ok s b) (okc : put_ok s c)
    (fa : ∀ p, ptr_of cfg s a = some p → p < s.pool.next)
    (fb : ∀ p, ptr_of cfg s b = some p → p < s.pool.next) :
    ∃ s1 slc, tp_compute cfg s a b c = some s1 ∧ slot_of cfg s c = some slc ∧
      (((members cfg s a).isEmpty && (members cfg s b).isEmpty) = true →
        Upd cfg s s1 slc none) ∧
      (((members cfg s a).isEmpty && (members cfg s b).isEmpty) = false →
        SlotUpd cfg s s1 slc (some s.pool.next) ∧ s1.pool.next = s.pool.next + 1 ∧
        (s1.pool.cells s.pool.next).set = members cfg s b ∪ (members cfg s a ∪ []) ∧
        (s1.pool.cells s.pool.next).type = some .LST_COMPUTE ∧
        ∀ q, q ≠ s.pool.next → (s1.pool.cells q).set = (s.pool.cells q).set ∧
          (s1.pool.cells q).type = (s.pool.cells q).type) := by
  have hga := tp_labelset_get_eq cfg s a oka
  have hgb := tp_labelset_get_eq cfg { s with pool := (labelset_copy s.pool (ptr_of cfg s a)).1 } b
    ((get_ok_congr rfl b).2 okb)
  rw [ptr_of_pool cfg s _ b] at hgb
  obtain ⟨sd, slc, ed, es, ud⟩ := tp_delete_spec cfg
    { s with pool := (labelset_copy (labelset_copy s.pool (ptr_of cfg s a)).1 (ptr_of cfg s b)).1 }
    c okc.1
  have csd : same_content s.pool sd.pool :=
    same_content_trans (labelset_copy_content _ _)
      (same_content_trans (labelset_copy_content _ _) ud.content)
  have nsd : sd.pool.next = s.pool.next := by
    rw [ud.next]
    simp only [labelset_copy_next]
  have ea : labelset_is_empty sd.pool (ptr_of cfg s a) = (members cfg s a).isEmpty := by
    rw [is_empty_congr csd, is_empty_members cfg s a oka]
  have eb : labelset_is_empty sd.pool (ptr_of cfg s b) = (members cfg s b).isEmpty := by
    rw [is_empty_congr csd, is_empty_members cfg s b okb]
  have uds : SlotUpd cfg s sd slc none :=
    ⟨ud.at_sl, fun sl1 ok1 ne1 => (ud.other sl1 ok1 ne1).trans (slot_ptr_pool _ _ _ _),
      ud.frame, ud.nvals, fun h => ud.bitmap h⟩
  unfold tp_compute
  rw [hga]
  simp only
  rw [hgb]
  simp only
  rw [ed]
  simp only [ea, eb]
  cases hcond : ((members cfg s a).isEmpty && (members cfg s b).isEmpty) with
  | true =>
    simp only [if_true]
    refine ⟨sd, slc, rfl, es, fun _ => ⟨uds.at_sl, uds.other, csd, nsd, ud.frame, ud.nvals, uds.bitmap⟩, ?_⟩
    intro h
    first | exact h.elim | cases h
  | false =>
    simp only [Bool.false_eq_true, if_false]
    have cp := compute_pool sd.pool (ptr_of cfg s a) (ptr_of cfg s b)
      (fun p hp => by rw [nsd]; exact fa p hp) (fun p hp => by rw [nsd]; exact fb p hp)
    obtain ⟨s3, slc3, e3, es3, u3⟩ := tp_labelset_put_spec cfg
      { sd with pool := (labelset_set_type (collect_non_null (collect_non_null
          (labelset_new sd.pool).1 (labelset_new sd.pool).2 (ptr_of cfg s a))
          (labelset_new sd.pool).2 (ptr_of cfg s b)) (labelset_new sd.pool).2 .LST_COMPUTE) }
      c (some (labelset_new sd.pool).2) ((put_ok_congr ud.frame c).2 okc) (by simp)
    have es3b : slc3 = slc := by
      have h3 : slot_of cfg sd c = some slc3 := es3
      have h4 : slot_of cfg s c = some slc := es
      rw [slot_of_congr cfg uds.frame uds.nvals, h4] at h3
      exact (Option.some.inj h3).symm
    subst es3b
    rw [e3]
    have hn : (labelset_new sd.pool).2 = s.pool.next := nsd
    have hma : ((ptr_of cfg s a).map (fun p => (sd.pool.cells p).set)).getD [] =
        members cfg s a := by
      rw [members_eq cfg s a oka]
      cases ptr_of cfg s a with
      | none => rfl
      | some p => simp [(csd p).1]
    have hmb : ((ptr_of cfg s b).map (fun p => (sd.pool.cells p).set)).getD [] =
        members cfg s b := by
      rw [members_eq cfg s b okb]
      cases ptr_of cfg s b with
      | none => rfl
      | some p => simp [(csd p).1]
    rw [hma, hmb, nsd] at cp
    refine ⟨_, slc3, rfl, es, (fun h => h.elim), fun _ => ?_⟩
    refine ⟨⟨?_, ?_, ?_, ?_, fun h => u3.bitmap (uds.bitmap h)⟩, ?_, ?_, ?_, ?_⟩
    · rw [slot_ptr_pool, u3.at_sl, hn]
    · intro sl1 ok1 ne1
      rw [slot_ptr_pool, u3.other sl1 ok1 ne1, slot_ptr_pool]
      exact uds.other sl1 ok1 ne1
    · exact u3.frame.trans ud.frame
    · exact u3.nvals.trans ud.nvals
    · simp only [labelset_free_next, u3.next]
      exact cp.2.2.1
    · rw [(labelset_free_content _ _ _).1, (labelset_free_content _ _ _).1,
        (labelset_free_content _ _ _).1, (u3.content _).1]
      exact cp.1
    · rw [(labelset_free_content _ _ _).2, (labelset_free_content _ _ _).2,
        (labelset_free_content _ _ _).2, (u3.content _).2]
      exact cp.2.1
    · intro q hq
      rw [(labelset_free_content _ _ _).1, (labelset_free_content _ _ _).1,
        (labelset_free_content _ _ _).1, (u3.content _).1,
        (labelset_free_content _ _ _).2, (labelset_free_content _ _ _).2,
        (labelset_free_content _ _ _).2, (u3.content _).2]
      have h4 := cp.2.2.2 q hq
      exact ⟨h4.1.trans (csd q).1, h4.2.trans (csd q).2⟩

/-! ## The invariant of the reachable states -/

theorem Inv.of_slots {cfg : Config} {s s1 : Shad} (i : Inv cfg s) (hb : bitmap_ok cfg s1)
    (hn : s.pool.next ≤ s1.pool.next)
    (h : ∀ sl1 q, Slot.ok cfg sl1 → slot_ptr cfg s1 sl1 = some q →
      ((s1.pool.cells q).set ≠ [] ∧ q < s1.pool.next) ∨
      (slot_ptr cfg s sl1 = some q ∧ (s1.pool.cells q).set = (s.pool.cells q).set)) :
    Inv cfg s1 where
  nonempty := by
    intro sl1 q ok1 hq
    rcases h sl1 q ok1 hq with h1 | h1
    · exact h1.1
    · rw [h1.2]; exact i.nonempty sl1 q ok1 h1.1
  fresh := by
    intro sl1 q ok1 hq
    rcases h sl1 q ok1 hq with h1 | h1
    · exact h1.2
    · exact Nat.lt_of_lt_of_le (i.fresh sl1 q ok1 h1.1) hn
  bitmap := hb

theorem Inv.upd {cfg : Config} {s s1 : Shad} {sl : Slot} {v : Option Nat} (i : Inv cfg s)
    (u : Upd cfg s s1 sl v)
    (hv : ∀ p, v = some p → (s.pool.cells p).set ≠ [] ∧ p < s.pool.next) : Inv cfg s1 := by
  refine i.of_slots (u.bitmap i.bitmap) (Nat.le_of_eq u.next.symm) ?_
  intro sl1 q ok1 hq
  by_cases hs : sl1 = sl
  · subst hs
    rw [u.at_sl] at hq
    left
    rw [(u.content q).1, u.next]
    exact hv q hq
  · right
    rw [u.other sl1 ok1 hs] at hq
    exact ⟨hq, (u.content q).1⟩

theorem Inv.grow {cfg : Config} {s s1 : Shad} {sl : Slot} {p : Nat} (i : Inv cfg s)
    (u : SlotUpd cfg s s1 sl (some p))
    (hp : (s1.pool.cells p).set ≠ [] ∧ p < s1.pool.next)
    (hn : s.pool.next ≤ s1.pool.next)
    (hc : ∀ q, q ≠ p → (s1.pool.cells q).set = (s.pool.cells q).set) : Inv cfg s1 := by
  refine i.of_slots (u.bitmap i.bitmap) hn ?_
  intro sl1 q ok1 hq
  by_cases hqp : q = p
  · subst hqp
    exact Or.inl hp
  · right
    by_cases hs : sl1 = sl
    · subst hs
      rw [u.at_sl] at hq
      exact absurd (Option.some.inj hq).symm hqp
    · rw [u.other sl1 ok1 hs] at hq
      exact ⟨hq, hc q hqp⟩

theorem get_ram_bit_init (cfg : Config) (a b c d x : Nat) :
    get_ram_bit (tp_init cfg a b c d) x = 0 := by
  simp [get_ram_bit, tp_init]

theorem slot_ptr_init (cfg : Config) (a b c d : Nat) (sl : Slot) :
    slot_ptr cfg (tp_init cfg a b c d) sl = none := by
  cases sl <;> simp [slot_ptr, tp_init, shad_dir_new]

theorem Inv.init (cfg : Config) (a b c d : Nat) : Inv cfg (tp_init cfg a b c d) where
  nonempty := by
    intro sl p _ h
    rw [slot_ptr_init] at h
    cases h
  fresh := by
    intro sl p _ h
    rw [slot_ptr_init] at h
    cases h
  bitmap := by
    intro _ x _
    rw [get_ram_bit_init]
    simp [tp_init, shad_dir_new]

theorem in_range_put_ok {cfg : Config} {s : Shad} {a : Addr} (h : in_range cfg s a) :
    put_ok s a := by
  rcases a with ⟨typ, val, off, flag⟩
  obtain ⟨_, _, h3⟩ := h
  cases typ <;> simp only [] at h3 <;>
    simp only [put_ok, del_ok, get_ok, ne_eq, reduceCtorEq, not_false_eq_true, and_self,
      false_implies, true_and, true_implies, and_true]
  exact h3.2

theorem put_ok_of_frame {s s1 : Shad} {a : Addr} (h : put_ok s a)
    (hf : s1.current_frame = s.current_frame) : put_ok s1 a :=
  (put_ok_congr hf a).2 h

theorem Inv.ptr_nonempty {cfg : Config} {s : Shad} (i : Inv cfg s) {a : Addr} {p : Nat}
    (h : ptr_of cfg s a = some p) : (s.pool.cells p).set ≠ [] ∧ p < s.pool.next := by
  unfold ptr_of at h
  cases hs : slot_of cfg s a with
  | none => rw [hs] at h; cases h
  | some sl =>
    rw [hs] at h
    exact ⟨i.nonempty sl p (slot_of_ok hs) h, i.fresh sl p (slot_of_ok hs) h⟩

theorem Inv.label {cfg : Config} {s s1 : Shad} {a : Addr} {l : Label} (i : Inv cfg s)
    (h : tp_label cfg s a l = some s1) : Inv cfg s1 := by
  by_cases ok : put_ok s a
  · obtain ⟨s2, sl, p, e, _, u, hp, hn, hset, _, hoth⟩ := tp_label_spec cfg s a l ok
    rw [e] at h
    cases h
    refine i.grow u ⟨?_, ?_⟩ ?_ (fun q hq => (hoth q hq).1)
    · rw [hset]
      intro hh
      have hmem : l ∈ (members cfg s a).insert l := List.mem_insert_self l _
      rw [hh] at hmem
      cases hmem
    · rw [hn, hp]
      cases hq : ptr_of cfg s a with
      | none => simp
      | some q => simpa using (i.ptr_nonempty hq).2
    · rw [hn]
      split <;> omega
  · exfalso
    unfold tp_label at h
    by_cases okg : get_ok s a
    · rw [tp_labelset_get_eq cfg s a okg] at h
      have hd : ¬ del_ok a := fun hd => ok ⟨hd, okg⟩
      have hnone : ∀ (s0 : Shad) (q : Option Nat), tp_labelset_put cfg s0 a q = none := by
        intro s0 q
        rw [tp_labelset_put_eq]
        rcases a with ⟨typ, val, off, flag⟩
        cases typ <;> first
          | (exfalso; apply hd; simp [del_ok]; done)
          | rfl
      simp only [hnone] at h
      cases h
    · rw [tp_labelset_get_fail cfg s a okg] at h
      cases h

theorem tp_delete_fail (cfg : Config) (s : Shad) (a : Addr) (h : ¬ del_ok a) :
    tp_delete cfg s a = none := by
  rcases a with ⟨typ, val, off, flag⟩
  cases typ <;> first
    | (exfalso; apply h; simp [del_ok]; done)
    | rfl

theorem tp_labelset_put_fail (cfg : Config) (s : Shad) (a : Addr) (q : Option Nat)
    (h : ¬ put_ok s a) : tp_labelset_put cfg s a q = none := by
  rw [tp_labelset_put_eq]
  by_cases hd : del_ok a
  · obtain ⟨s1, sl, e, _, u⟩ := tp_delete_spec cfg s a hd
    rw [e]
    have hg : ¬ get_ok s1 a := fun hg => h ⟨hd, (get_ok_congr u.frame a).1 hg⟩
    rcases a with ⟨typ, val, off, flag⟩
    unfold get_ok at hg
    cases typ <;> simp only [ne_eq, not_true_eq_false, reduceCtorEq, not_false_eq_true,
      true_implies, false_implies, and_true, true_and, false_and, not_not] at hg <;>
      simp only [Option.bind, put_store]
    by_cases hf : flag = AddrFlag.FUNCARG
    · simp only [hf, if_true] at hg ⊢
      simp [hg]
    · simp only [hf, if_false] at hg ⊢
      simp [hg]
  · rw [tp_delete_fail cfg s a hd]
    rfl

theorem Inv.delete {cfg : Config} {s s1 : Shad} {a : Addr} (i : Inv cfg s)
    (h : tp_delete cfg s a = some s1) : Inv cfg s1 := by
  by_cases hd : del_ok a
  · obtain ⟨s2, sl, e, _, u⟩ := tp_delete_spec cfg s a hd
    rw [e] at h
    cases h
    exact i.upd u (fun p hp => by cases hp)
  · rw [tp_delete_fail cfg s a hd] at h
    cases h

theorem Inv.put {cfg : Config} {s s1 : Shad} {a : Addr} {p : Nat} (i : Inv cfg s)
    (hp : (s.pool.cells p).set ≠ [] ∧ p < s.pool.next)
    (h : tp_labelset_put cfg s a (some p) = some s1) : Inv cfg s1 := by
  by_cases ok : put_ok s a
  · obtain ⟨s2, sl, e, _, u⟩ := tp_labelset_put_spec cfg s a (some p) ok (by simp)
    rw [e] at h
    cases h
    exact i.upd u (fun q hq => by cases hq; exact hp)
  · rw [tp_labelset_put_fail cfg s a _ ok] at h
    cases h

theorem Inv.pool {cfg : Config} {s : Shad} (i : Inv cfg s) (h : LabelSetPool)
    (hc : ∀ q, q < s.pool.next → (h.cells q).set = (s.pool.cells q).set)
    (hn : s.pool.next ≤ h.next) : Inv cfg { s with pool := h } := by
  refine i.of_slots (fun x => i.bitmap x) hn ?_
  intro sl1 q ok1 hq
  right
  rw [slot_ptr_pool] at hq
  exact ⟨hq, hc q (i.fresh sl1 q ok1 hq)⟩

theorem Inv.pool_same {cfg : Config} {s : Shad} (i : Inv cfg s) (h : LabelSetPool)
    (hc : same_content s.pool h) (hn : h.next = s.pool.next) : Inv cfg { s with pool := h } :=
  i.pool h (fun q _ => (hc q).1) (Nat.le_of_eq hn.symm)

theorem Inv.get {cfg : Config} {s s1 : Shad} {a : Addr} {p : Option Nat} (i : Inv cfg s)
    (h : tp_labelset_get cfg s a = some (s1, p)) :
    Inv cfg s1 ∧ p = ptr_of cfg s a ∧ same_content s.pool s1.pool ∧
      s1.pool.next = s.pool.next := by
  by_cases ok : get_ok s a
  · rw [tp_labelset_get_eq cfg s a ok] at h
    cases h
    exact ⟨i.pool_same _ (labelset_copy_content _ _) (labelset_copy_next _ _), rfl,
      labelset_copy_content _ _, labelset_copy_next _ _⟩
  · rw [tp_labelset_get_fail cfg s a ok] at h
    cases h

theorem Inv.query {cfg : Config} {s s1 : Shad} {a : Addr} {r : Bool} (i : Inv cfg s)
    (h : tp_query cfg s a = some (s1, r)) : Inv cfg s1 := by
  unfold tp_query at h
  cases hg : tp_labelset_get cfg s a with
  | none => rw [hg] at h; cases h
  | some x =>
    obtain ⟨s2, p⟩ := x
    rw [hg] at h
    cases h
    exact (i.get hg).1

theorem Inv.frame {cfg : Config} {s : Shad} (i : Inv cfg s) (k : Nat) :
    Inv cfg { s with current_frame := k } := by
  refine i.of_slots (fun x => i.bitmap x) (Nat.le_refl _) ?_
  intro sl1 q _ hq
  right
  have e : slot_ptr cfg { s with current_frame := k } sl1 = slot_ptr cfg s sl1 := by
    cases sl1 <;> rfl
  rw [e] at hq
  exact ⟨hq, rfl⟩

theorem Inv.copy {cfg : Config} {s s1 : Shad} {a b : Addr} (i : Inv cfg s)
    (h : tp_copy cfg s a b = some s1) : Inv cfg s1 := by
  unfold tp_copy at h
  split at h
  · cases h
  · cases h
  · split at h
    · cases h
    · next s2 ls_a hg =>
      obtain ⟨i2, hp, hc, hn⟩ := i.get hg
      split at h
      · split at h
        · cases h
        · next s3 hd =>
          cases h
          have i3 := i2.delete hd
          exact i3.pool_same _ (labelset_free_content _ _) (labelset_free_next _ _)
      · next hne =>
        split at h
        · cases h
        · next s3 hput =>
          cases h
          cases ls_a with
          | none => exact absurd rfl hne
          | some p =>
            have hv : (s2.pool.cells p).set ≠ [] ∧ p < s2.pool.next := by
              have h0 := i.ptr_nonempty hp.symm
              rw [(hc p).1, hn]
              exact h0
            have i3 := i2.put hv hput
            exact i3.pool_same _ (labelset_free_content _ _) (labelset_free_next _ _)

theorem is_empty_eq (h : LabelSetPool) (p : Option Nat) :
    labelset_is_empty h p = ((p.map (fun q => (h.cells q).set)).getD []).isEmpty := by
  cases p <;> rfl

theorem union_ne_nil {α : Type} [DecidableEq α] (x y : List α)
    (h : (x.isEmpty && y.isEmpty) = false) : y ∪ (x ∪ []) ≠ [] := by
  intro hn
  have hx : x = [] := by
    cases x with
    | nil => rfl
    | cons a t =>
      have hm : a ∈ y ∪ ((a :: t) ∪ []) := by simp
      rw [hn] at hm
      cases hm
  have hy : y = [] := by
    cases y with
    | nil => rfl
    | cons a t =>
      have hm : a ∈ (a :: t) ∪ (x ∪ []) := by simp
      rw [hn] at hm
      cases hm
  subst hx; subst hy
  simp at h

theorem Inv.compute {cfg : Config} {s s1 : Shad} {a b c : Addr} (i : Inv cfg s)
    (h : tp_compute cfg s a b c = some s1) : Inv cfg s1 := by
  unfold tp_compute at h
  split at h
  · cases h
  · next s2 ls_a hga =>
    obtain ⟨i2, hpa, hca, hna⟩ := i.get hga
    split at h
    · cases h
    · next s3 ls_b hgb =>
      obtain ⟨i3, hpb, hcb, hnb⟩ := i2.get hgb
      split at h
      · cases h
      · next s4 hd =>
        have i4 := i3.delete hd
        split at h
        · cases h
          exact i4
        · next hcond =>
          dsimp only at h
          split at h
          · cases h
          · next s5 hput =>
            cases h
            -- the pointers read from a and b were handed out before
            have hd_ok : del_ok c := by
              by_contra hh
              rw [tp_delete_fail cfg s3 c hh] at hd
              cases hd
            obtain ⟨s4b, slc, e4, _, u4⟩ := tp_delete_spec cfg s3 c hd_ok
            rw [e4] at hd
            cases hd
            have fa : ∀ p, ls_a = some p → p < s4.pool.next := by
              intro p hp
              rw [u4.next, hnb, hna]
              rw [hp] at hpa
              exact (i.ptr_nonempty hpa.symm).2
            have fb : ∀ p, ls_b = some p → p < s4.pool.next := by
              intro p hp
              rw [u4.next, hnb]
              rw [hp] at hpb
              exact (i2.ptr_nonempty hpb.symm).2
            have cp := compute_pool s4.pool ls_a ls_b fa fb
            have hne : (((ls_a.map (fun q => (s4.pool.cells q).set)).getD []).isEmpty &&
                ((ls_b.map (fun q => (s4.pool.cells q).set)).getD []).isEmpty) = false := by
              rw [← is_empty_eq, ← is_empty_eq]
              exact Bool.eq_false_iff.mpr hcond
            have i5a := i4.pool _ (fun q hq => (cp.2.2.2 q (Nat.ne_of_lt hq)).1)
              (by rw [cp.2.2.1]; exact Nat.le_succ _)
            have i5 := i5a.put
              ⟨ne_of_eq_of_ne cp.1 (union_ne_nil _ _ hne),
                lt_of_lt_of_eq (Nat.lt_succ_self _) cp.2.2.1.symm⟩ hput
            refine i5.pool_same _ ?_ ?_
            · exact same_content_trans (labelset_free_content _ _)
                (same_content_trans (labelset_free_content _ _) (labelset_free_content _ _))
            · simp only [labelset_free_next]

/-- Every reachable state satisfies the invariant. -/
theorem Reachable.inv {cfg : Config} {s : Shad} (h : Reachable cfg s) : Inv cfg s := by
  induction h with
  | init a b c d => exact Inv.init cfg a b c d
  | label a l _ e ih => exact ih.label e
  | delete a _ e ih => exact ih.delete e
  | copy a b _ e ih => exact ih.copy e
  | compute a b c _ e ih => exact ih.compute e
  | query a r _ e ih => exact ih.query e
  | frame k _ ih => exact ih.frame k

/-! ## The concrete states are reachable -/

theorem demo_tainted_reachable : Reachable demo_cfg demo_tainted :=
  Reachable.label (demo_greg 2 0) 1 (Reachable.init 64 65536 64 2000)
    (rfl : tp_label demo_cfg demo_shad (demo_greg 2 0) 1 = some demo_tainted)

theorem demo_ram_reachable : Reachable demo_cfg demo_ram :=
  Reachable.label (demo_maddr 4096 0) 7 (Reachable.init 64 65536 64 2000)
    (rfl : tp_label demo_cfg demo_shad (demo_maddr 4096 0) 7 = some demo_ram)

theorem demo_shared_reachable : Reachable demo_cfg demo_shared :=
  Reachable.copy (demo_laddr 5 0 .ZERO) (demo_laddr 5 0 .FUNCARG)
    (Reachable.label (demo_laddr 5 0 .ZERO) 1 (Reachable.init 64 65536 64 2000)
      (rfl : tp_label demo_cfg demo_shad (demo_laddr 5 0 .ZERO) 1 =
        some ((tp_label demo_cfg demo_shad (demo_laddr 5 0 .ZERO) 1).getD demo_shad)))
    (rfl : tp_copy demo_cfg ((tp_label demo_cfg demo_shad (demo_laddr 5 0 .ZERO) 1).getD demo_shad)
      (demo_laddr 5 0 .ZERO) (demo_laddr 5 0 .FUNCARG) = some demo_shared)

theorem demo_s3_reachable : Reachable demo_cfg demo_s3.shad :=
  Reachable.label (demo_maddr 12288 0) 9 (Reachable.init 64 65536 64 2000)
    (rfl : tp_label demo_cfg demo_shad (demo_maddr 12288 0) 9 = some demo_s3.shad)

/-! ## Claims about the shadow-memory API -/

theorem in_range_frame {cfg : Config} {s s1 : Shad} {a : Addr} (h : in_range cfg s a)
    (hf : s1.current_frame = s.current_frame) (hn : s1.num_vals = s.num_vals) :
    in_range cfg s1 a := by
  unfold in_range next_frame at *
  rw [hf, hn]
  exact h

theorem query_false_iff (cfg : Config) (s : Shad) (a : Addr) (ok : get_ok s a) :
    (∃ s2, tp_query cfg s a = some (s2, false)) ↔ members cfg s a = [] := by
  rw [tp_query_eq cfg s a ok, is_empty_members cfg s a ok]
  cases h : members cfg s a <;> simp

theorem query_true_iff (cfg : Config) (s : Shad) (a : Addr) (ok : get_ok s a) :
    (∃ s2, tp_query cfg s a = some (s2, true)) ↔ members cfg s a ≠ [] := by
  rw [tp_query_eq cfg s a ok, is_empty_members cfg s a ok]
  cases h : members cfg s a <;> simp

theorem Inv.members_nil {cfg : Config} {s : Shad} (i : Inv cfg s) {a : Addr} (ok : get_ok s a) :
    members cfg s a = [] ↔ ptr_of cfg s a = none := by
  rw [members_eq cfg s a ok]
  cases h : ptr_of cfg s a with
  | none => simp
  | some p => simpa using (i.ptr_nonempty h).1

/-- C1. In a reachable state, for an in-range address `a` of a tracked type and
a label `l`: `tp_label(a,l)` succeeds; afterwards `tp_query(a)` is true, the
members of `a`'s label set are those it had before plus `l`, and the type tag
is `COPY` if `tp_query(a)` was false before and is unchanged if it was true. -/
theorem C1_label_creates_taint (cfg : Config) (s : Shad) (a : Addr) (l : Label)
    (hr : Reachable cfg s) (ha : in_range cfg s a) :
    ∃ s1, tp_label cfg s a l = some s1 ∧
      (∃ s2, tp_query cfg s1 a = some (s2, true)) ∧
      (∀ x, x ∈ members cfg s1 a ↔ (x ∈ members cfg s a ∨ x = l)) ∧
      ((∃ s2, tp_query cfg s a = some (s2, false)) →
        type_tag cfg s1 a = some LabelSetType.LST_COPY) ∧
      ((∃ s2, tp_query cfg s a = some (s2, true)) →
        type_tag cfg s1 a = type_tag cfg s a) := by
  have i := hr.inv
  have ok := in_range_put_ok ha
  obtain ⟨s1, sl, p, e, hsl, u, hp, hn, hset, htype, hoth⟩ := tp_label_spec cfg s a l ok
  have ok1 : get_ok s1 a := (get_ok_congr u.frame a).2 ok.2
  have hptr : ptr_of cfg s1 a = some p := ptr_of_at u hsl
  have hm : members cfg s1 a = (members cfg s a).insert l := by
    rw [members_eq cfg s1 a ok1, hptr]
    exact hset
  have ht : type_tag cfg s1 a =
      if ptr_of cfg s a = none then some LabelSetType.LST_COPY else (s.pool.cells p).type := by
    rw [type_tag_eq cfg s1 a ok1, hptr]
    exact htype
  refine ⟨s1, e, ?_, ?_, ?_, ?_⟩
  · rw [query_true_iff cfg s1 a ok1, hm]
    intro hh
    have hmem : l ∈ (members cfg s a).insert l := List.mem_insert_self l _
    rw [hh] at hmem
    cases hmem
  · intro x
    rw [hm, List.mem_insert_iff]
    tauto
  · intro hq
    rw [query_false_iff cfg s a ok.2, i.members_nil ok.2] at hq
    rw [ht, if_pos hq]
  · intro hq
    rw [query_true_iff cfg s a ok.2, Ne, i.members_nil ok.2] at hq
    rw [ht, if_neg hq, type_tag_eq cfg s a ok.2]
    cases hpa : ptr_of cfg s a with
    | none => exact absurd hpa hq
    | some q =>
      rw [hpa] at hp
      simp only [Option.getD_some] at hp
      subst hp
      rfl

/-- C1 at the initial state of a 32-bit configuration, for guest RAM byte
`0x1000` and label 7. -/
theorem C1_label_creates_taint_witness :
    Reachable demo_cfg demo_shad ∧ in_range demo_cfg demo_shad (demo_maddr 4096 0) ∧
    ∃ s1, tp_label demo_cfg demo_shad (demo_maddr 4096 0) 7 = some s1 ∧
      (∃ s2, tp_query demo_cfg s1 (demo_maddr 4096 0) = some (s2, true)) ∧
      (∀ x, x ∈ members demo_cfg s1 (demo_maddr 4096 0) ↔
        (x ∈ members demo_cfg demo_shad (demo_maddr 4096 0) ∨ x = 7)) ∧
      ((∃ s2, tp_query demo_cfg demo_shad (demo_maddr 4096 0) = some (s2, false)) →
        type_tag demo_cfg s1 (demo_maddr 4096 0) = some LabelSetType.LST_COPY) ∧
      ((∃ s2, tp_query demo_cfg demo_shad (demo_maddr 4096 0) = some (s2, true)) →
        type_tag demo_cfg s1 (demo_maddr 4096 0) =
          type_tag demo_cfg demo_shad (demo_maddr 4096 0)) :=
  ⟨Reachable.init 64 65536 64 2000, ⟨by decide, by decide, trivial⟩,
    C1_label_creates_taint demo_cfg demo_shad (demo_maddr 4096 0) 7
      (Reachable.init 64 65536 64 2000) ⟨by decide, by decide, trivial⟩⟩

theorem update_none_self (f : Nat → Option Nat) (i : Nat) (h : f i = none) :
    Function.update f i none = f := by
  rw [← h]
  exact Function.update_eq_self i f

theorem shad_dir_remove_absent (h : LabelSetPool) (d : SdDir) (k : Nat)
    (hk : d.entries k = none) : shad_dir_remove h d k = (h, d) := by
  unfold shad_dir_remove
  rw [hk]

/-- Function `tp_delete` changes nothing when a read of the address finds no label set
and the presence bitmap agrees with the RAM directory. -/
theorem tp_delete_noop (cfg : Config) (s : Shad) (a : Addr) (ok : del_ok a)
    (hb : bitmap_ok cfg s) (hp : ptr_of cfg s a = none) : tp_delete cfg s a = some s := by
  rcases a with ⟨typ, val, off, flag⟩
  obtain ⟨h1, h2⟩ := ok
  cases typ <;> simp only [ne_eq, not_true_eq_false, reduceCtorEq, not_false_eq_true] at h1 h2 <;>
    simp only [ptr_of, slot_of, slot_ptr] at hp
  · simp [tp_delete, shad_dir_remove_64, shad_dir_remove_absent _ _ _ hp]
  · cases hc : cfg.TARGET_X86_64
    · simp only [hc, Bool.false_eq_true, if_false] at hp
      have hbit : get_ram_bit s (val + off) = 0 := by
        by_contra hne
        have h3 := (hb hc ((val + off) % U32) (Nat.mod_lt _ (by norm_num))).1
          (by rw [get_ram_bit_mod]; exact hne)
        rw [if_pos (by rw [get_ram_bit_mod]; exact hne)] at hp
        exact h3 hp
      simp [tp_delete, hc, hbit]
    · simp only [hc, if_true] at hp
      simp [tp_delete, hc, shad_dir_remove_64, shad_dir_remove_absent _ _ _ hp]
  · simp [tp_delete, shad_dir_remove_64, shad_dir_remove_absent _ _ _ hp]
  · by_cases hf : flag = AddrFlag.FUNCARG
    · simp only [hf, if_true] at hp
      simp [tp_delete, hf, hp, labelset_free, update_none_self _ _ hp]
    · simp only [hf, if_false] at hp
      simp [tp_delete, hf, hp, labelset_free, update_none_self _ _ hp]
  · simp [tp_delete, hp, labelset_free, update_none_self _ _ hp]
  · simp [tp_delete, hp, labelset_free, update_none_self _ _ hp]
  · simp [tp_delete, hp, labelset_free, update_none_self _ _ hp]

/-- C2. In a reachable state, for an in-range address `a` of a tracked type:
`tp_delete(a)` succeeds and afterwards `tp_query(a)` is false; when
`tp_query(a)` was already false the state is unchanged. -/
theorem C2_delete_untaints (cfg : Config) (s : Shad) (a : Addr)
    (hr : Reachable cfg s) (ha : in_range cfg s a) :
    ∃ s1, tp_delete cfg s a = some s1 ∧
      (∃ s2, tp_query cfg s1 a = some (s2, false)) ∧
      ((∃ s2, tp_query cfg s a = some (s2, false)) → s1 = s) := by
  have i := hr.inv
  have ok := in_range_put_ok ha
  obtain ⟨s1, sl, e, hsl, u⟩ := tp_delete_spec cfg s a ok.1
  have ok1 : get_ok s1 a := (get_ok_congr u.frame a).2 ok.2
  refine ⟨s1, e, ?_, ?_⟩
  · rw [query_false_iff cfg s1 a ok1, members_eq cfg s1 a ok1, ptr_of_at u.slots hsl]
    rfl
  · intro hq
    rw [query_false_iff cfg s a ok.2, i.members_nil ok.2] at hq
    rw [tp_delete_noop cfg s a ok.1 i.bitmap hq] at e
    exact (Option.some.inj e).symm

/-- C2 at the state in which guest RAM byte `0x1000` carries label 7, for
that byte. -/
theorem C2_delete_untaints_witness :
    Reachable demo_cfg demo_ram ∧ in_range demo_cfg demo_ram (demo_maddr 4096 0) ∧
    ∃ s1, tp_delete demo_cfg demo_ram (demo_maddr 4096 0) = some s1 ∧
      (∃ s2, tp_query demo_cfg s1 (demo_maddr 4096 0) = some (s2, false)) ∧
      ((∃ s2, tp_query demo_cfg demo_ram (demo_maddr 4096 0) = some (s2, false)) →
        s1 = demo_ram) :=
  ⟨demo_ram_reachable, ⟨by decide, by decide, trivial⟩,
    C2_delete_untaints demo_cfg demo_ram (demo_maddr 4096 0)
      demo_ram_reachable ⟨by decide, by decide, trivial⟩⟩

/-- The effect of `tp_copy` between two different slots on a state that
satisfies the invariant: `b` now reads the pointer `a` reads, `a` reads it as
before, and no label set changed. -/
theorem tp_copy_moves (cfg : Config) (s : Shad) (a b : Addr)
    (i : Inv cfg s) (ha : in_range cfg s a) (hb : in_range cfg s b)
    (hne : slot_of cfg s a ≠ slot_of cfg s b) :
    ∃ s1, tp_copy cfg s a b = some s1 ∧
      ptr_of cfg s1 b = ptr_of cfg s a ∧ ptr_of cfg s1 a = ptr_of cfg s a ∧
      same_content s.pool s1.pool ∧ s1.current_frame = s.current_frame ∧
      s1.num_vals = s.num_vals := by
  have oka := in_range_put_ok ha
  have okb := in_range_put_ok hb
  have heq := addrs_equal_of_slots cfg s a b oka.1 hne
  obtain ⟨s1, slb, e, hsl, u⟩ := tp_copy_spec cfg s a b heq oka.2 okb
  have hpb := ptr_of_at u.slots hsl
  have hpa : ptr_of cfg s1 a = ptr_of cfg s a :=
    ptr_of_other u.slots (fun h => hne (by rw [h, hsl]))
  have hv : (if labelset_is_empty s.pool (ptr_of cfg s a) then none else ptr_of cfg s a) =
      ptr_of cfg s a := by
    split
    · next he =>
      rw [is_empty_members cfg s a oka.2] at he
      have hnil : members cfg s a = [] := by
        cases hm : members cfg s a with
        | nil => rfl
        | cons x t => rw [hm] at he; cases he
      exact ((i.members_nil oka.2).1 hnil).symm
    · rfl
  rw [hv] at hpb
  exact ⟨s1, e, hpb, hpa, u.content, u.frame, u.nvals⟩

theorem members_congr (cfg : Config) {s s1 : Shad} {a b : Addr} (oka : get_ok s a)
    (okb : get_ok s1 b) (hp : ptr_of cfg s1 b = ptr_of cfg s a)
    (hc : same_content s.pool s1.pool) :
    members cfg s1 b = members cfg s a ∧ type_tag cfg s1 b = type_tag cfg s a := by
  rw [members_eq cfg s1 b okb, members_eq cfg s a oka, type_tag_eq cfg s1 b okb,
    type_tag_eq cfg s a oka, hp]
  cases ptr_of cfg s a with
  | none => exact ⟨rfl, rfl⟩
  | some p => simp [(hc p).1, (hc p).2]

/-- C3. In a reachable state, for in-range tracked addresses `a` and `b` that
resolve to different slots: `tp_copy(a,b)` succeeds; afterwards `b`'s label
set has the members and the type tag `a`'s had, `b` is untainted if `a` was,
and `a`'s own members and type tag are unchanged. -/
theorem C3_copy_semantics (cfg : Config) (s : Shad) (a b : Addr)
    (hr : Reachable cfg s) (ha : in_range cfg s a) (hb : in_range cfg s b)
    (hne : slot_of cfg s a ≠ slot_of cfg s b) :
    ∃ s1, tp_copy cfg s a b = some s1 ∧
      members cfg s1 b = members cfg s a ∧
      type_tag cfg s1 b = type_tag cfg s a ∧
      ((∃ s2, tp_query cfg s a = some (s2, false)) →
        ∃ s3, tp_query cfg s1 b = some (s3, false)) ∧
      members cfg s1 a = members cfg s a ∧
      type_tag cfg s1 a = type_tag cfg s a := by
  have oka := (in_range_put_ok ha).2
  have okb := (in_range_put_ok hb).2
  obtain ⟨s1, e, hpb, hpa, hc, hf, _⟩ := tp_copy_moves cfg s a b hr.inv ha hb hne
  have oka1 : get_ok s1 a := (get_ok_congr hf a).2 oka
  have okb1 : get_ok s1 b := (get_ok_congr hf b).2 okb
  have hb1 := members_congr cfg oka okb1 hpb hc
  have ha1 := members_congr cfg oka oka1 hpa hc
  refine ⟨s1, e, hb1.1, hb1.2, ?_, ha1.1, ha1.2⟩
  intro hq
  rw [query_false_iff cfg s a oka] at hq
  rw [query_false_iff cfg s1 b okb1, hb1.1]
  exact hq

/-- C3 at the state in which general register 2 carries label 1: copy from
that register to guest RAM byte `0x2000`. -/
theorem C3_copy_semantics_witness :
    Reachable demo_cfg demo_tainted ∧ in_range demo_cfg demo_tainted (demo_greg 2 0) ∧
    in_range demo_cfg demo_tainted (demo_maddr 8192 0) ∧
    slot_of demo_cfg demo_tainted (demo_greg 2 0) ≠
      slot_of demo_cfg demo_tainted (demo_maddr 8192 0) ∧
    ∃ s1, tp_copy demo_cfg demo_tainted (demo_greg 2 0) (demo_maddr 8192 0) = some s1 ∧
      members demo_cfg s1 (demo_maddr 8192 0) = members demo_cfg demo_tainted (demo_greg 2 0) ∧
      type_tag demo_cfg s1 (demo_maddr 8192 0) =
        type_tag demo_cfg demo_tainted (demo_greg 2 0) ∧
      ((∃ s2, tp_query demo_cfg demo_tainted (demo_greg 2 0) = some (s2, false)) →
        ∃ s3, tp_query demo_cfg s1 (demo_maddr 8192 0) = some (s3, false)) ∧
      members demo_cfg s1 (demo_greg 2 0) = members demo_cfg demo_tainted (demo_greg 2 0) ∧
      type_tag demo_cfg s1 (demo_greg 2 0) = type_tag demo_cfg demo_tainted (demo_greg 2 0) :=
  ⟨demo_tainted_reachable, ⟨by decide, by decide, by decide, by decide⟩,
    ⟨by decide, by decide, trivial⟩, by decide,
    C3_copy_semantics demo_cfg demo_tainted (demo_greg 2 0) (demo_maddr 8192 0)
      demo_tainted_reachable ⟨by decide, by decide, by decide, by decide⟩
      ⟨by decide, by decide, trivial⟩ (by decide)⟩

/-- The result of `tp_compute` on a state that satisfies the invariant,
whether or not the destination is one of the sources. -/
theorem tp_compute_result (cfg : Config) (s : Shad) (a b c : Addr) (i : Inv cfg s)
    (oka : get_ok s a) (okb : get_ok s b) (okc : put_ok s c) :
    ∃ s1, tp_compute cfg s a b c = some s1 ∧ get_ok s1 c ∧
      (∀ x, x ∈ members cfg s1 c ↔ (x ∈ members cfg s a ∨ x ∈ members cfg s b)) ∧
      (members cfg s1 c ≠ [] → type_tag cfg s1 c = some LabelSetType.LST_COMPUTE) := by
  obtain ⟨s1, slc, e, hsl, h1, h2⟩ := tp_compute_spec cfg s a b c oka okb okc
    (fun p hp => (i.ptr_nonempty hp).2) (fun p hp => (i.ptr_nonempty hp).2)
  cases hcond : ((members cfg s a).isEmpty && (members cfg s b).isEmpty) with
  | true =>
    have u := h1 hcond
    have okc1 : get_ok s1 c := (get_ok_congr u.frame c).2 okc.2
    have hm : members cfg s1 c = [] := by
      rw [members_eq cfg s1 c okc1, ptr_of_at u.slots hsl]
      rfl
    have hab : members cfg s a = [] ∧ members cfg s b = [] := by
      simpa [List.isEmpty_iff] using hcond
    refine ⟨s1, e, okc1, ?_, ?_⟩
    · intro x
      rw [hm, hab.1, hab.2]
      simp
    · intro hne
      exact absurd hm hne
  | false =>
    obtain ⟨u, _, hset, htype, _⟩ := h2 hcond
    have okc1 : get_ok s1 c := (get_ok_congr u.frame c).2 okc.2
    have hp := ptr_of_at u hsl
    refine ⟨s1, e, okc1, ?_, ?_⟩
    · intro x
      rw [members_eq cfg s1 c okc1, hp]
      simp only [Option.map_some', Option.getD_some]
      rw [hset]
      simp only [List.mem_union_iff, List.not_mem_nil, or_false]
      tauto
    · intro _
      rw [type_tag_eq cfg s1 c okc1, hp]
      exact htype

/-- C4. In a reachable state, for in-range tracked addresses `a`, `b`, `c`
with `c` in a different slot than `a` and `b`: `tp_compute(a,b,c)` succeeds;
afterwards the members of `c` are exactly the members `a` or `b` had; when
there is such a member the type tag of `c` is `COMPUTE`; when `tp_query` was
false for both `a` and `b` it is false for `c`. -/
theorem C4_compute_is_union (cfg : Config) (s : Shad) (a b c : Addr)
    (hr : Reachable cfg s) (ha : in_range cfg s a) (hb : in_range cfg s b)
    (hc : in_range cfg s c)
    (_hca : slot_of cfg s c ≠ slot_of cfg s a) (_hcb : slot_of cfg s c ≠ slot_of cfg s b) :
    ∃ s1, tp_compute cfg s a b c = some s1 ∧
      (∀ x, x ∈ members cfg s1 c ↔ (x ∈ members cfg s a ∨ x ∈ members cfg s b)) ∧
      ((∃ x, x ∈ members cfg s a ∨ x ∈ members cfg s b) →
        type_tag cfg s1 c = some LabelSetType.LST_COMPUTE) ∧
      ((∃ s2, tp_query cfg s a = some (s2, false)) →
        (∃ s2, tp_query cfg s b = some (s2, false)) →
        ∃ s3, tp_query cfg s1 c = some (s3, false)) := by
  have oka := in_range_put_ok ha
  have okb := in_range_put_ok hb
  obtain ⟨s1, e, okc1, hm, ht⟩ :=
    tp_compute_result cfg s a b c hr.inv oka.2 okb.2 (in_range_put_ok hc)
  refine ⟨s1, e, hm, ?_, ?_⟩
  · rintro ⟨x, hx⟩
    apply ht
    intro hnil
    have hx1 := (hm x).2 hx
    rw [hnil] at hx1
    cases hx1
  · intro hqa hqb
    rw [query_false_iff cfg s a oka.2] at hqa
    rw [query_false_iff cfg s b okb.2] at hqb
    rw [query_false_iff cfg s1 c okc1]
    cases hmc : members cfg s1 c with
    | nil => rfl
    | cons x t =>
      have hx : x ∈ members cfg s1 c := by rw [hmc]; exact List.mem_cons_self x t
      rw [hm x, hqa, hqb] at hx
      simp at hx

/-- C4 at the state in which general register 2 carries label 1: compute from
that register and guest RAM byte `0x1000` into guest RAM byte `0x2000`. -/
theorem C4_compute_is_union_witness :
    Reachable demo_cfg demo_tainted ∧ in_range demo_cfg demo_tainted (demo_greg 2 0) ∧
    in_range demo_cfg demo_tainted (demo_maddr 4096 0) ∧
    in_range demo_cfg demo_tainted (demo_maddr 8192 0) ∧
    slot_of demo_cfg demo_tainted (demo_maddr 8192 0) ≠
      slot_of demo_cfg demo_tainted (demo_greg 2 0) ∧
    slot_of demo_cfg demo_tainted (demo_maddr 8192 0) ≠
      slot_of demo_cfg demo_tainted (demo_maddr 4096 0) ∧
    ∃ s1, tp_compute demo_cfg demo_tainted (demo_greg 2 0) (demo_maddr 4096 0)
        (demo_maddr 8192 0) = some s1 ∧
      (∀ x, x ∈ members demo_cfg s1 (demo_maddr 8192 0) ↔
        (x ∈ members demo_cfg demo_tainted (demo_greg 2 0) ∨
          x ∈ members demo_cfg demo_tainted (demo_maddr 4096 0))) ∧
      ((∃ x, x ∈ members demo_cfg demo_tainted (demo_greg 2 0) ∨
          x ∈ members demo_cfg demo_tainted (demo_maddr 4096 0)) →
        type_tag demo_cfg s1 (demo_maddr 8192 0) = some LabelSetType.LST_COMPUTE) ∧
      ((∃ s2, tp_query demo_cfg demo_tainted (demo_greg 2 0) = some (s2, false)) →
        (∃ s2, tp_query demo_cfg demo_tainted (demo_maddr 4096 0) = some (s2, false)) →
        ∃ s3, tp_query demo_cfg s1 (demo_maddr 8192 0) = some (s3, false)) :=
  ⟨demo_tainted_reachable, ⟨by decide, by decide, by decide, by decide⟩,
    ⟨by decide, by decide, trivial⟩, ⟨by decide, by decide, trivial⟩, by decide, by decide,
    C4_compute_is_union demo_cfg demo_tainted (demo_greg 2 0) (demo_maddr 4096 0)
      (demo_maddr 8192 0) demo_tainted_reachable ⟨by decide, by decide, by decide, by decide⟩
      ⟨by decide, by decide, trivial⟩ ⟨by decide, by decide, trivial⟩ (by decide) (by decide)⟩

/-- C5. In a reachable state, for in-range tracked addresses `a` and `b` and a
destination `c` equal to `a` or to `b` (or both): `tp_compute(a,b,c)`
succeeds; afterwards the members of `c` are exactly the members `a` or `b`
had before the call, and when there is such a member the type tag of `c` is
`COMPUTE`. -/
theorem C5_compute_dest_is_source (cfg : Config) (s : Shad) (a b c : Addr)
    (hr : Reachable cfg s) (ha : in_range cfg s a) (hb : in_range cfg s b)
    (hc : c = a ∨ c = b) :
    ∃ s1, tp_compute cfg s a b c = some s1 ∧
      (∀ x, x ∈ members cfg s1 c ↔ (x ∈ members cfg s a ∨ x ∈ members cfg s b)) ∧
      ((∃ x, x ∈ members cfg s a ∨ x ∈ members cfg s b) →
        type_tag cfg s1 c = some LabelSetType.LST_COMPUTE) := by
  have oka := in_range_put_ok ha
  have okb := in_range_put_ok hb
  have okc : put_ok s c := by
    rcases hc with h | h <;> rw [h]
    · exact oka
    · exact okb
  obtain ⟨s1, e, _, hm, ht⟩ := tp_compute_result cfg s a b c hr.inv oka.2 okb.2 okc
  refine ⟨s1, e, hm, ?_⟩
  rintro ⟨x, hx⟩
  apply ht
  intro hnil
  have hx1 := (hm x).2 hx
  rw [hnil] at hx1
  cases hx1

/-- C5 at the state in which general register 2 carries label 1: compute from
that register and guest RAM byte `0x1000` into the register itself. -/
theorem C5_compute_dest_is_source_witness :
    Reachable demo_cfg demo_tainted ∧ in_range demo_cfg demo_tainted (demo_greg 2 0) ∧
    in_range demo_cfg demo_tainted (demo_maddr 4096 0) ∧
    (demo_greg 2 0 = demo_greg 2 0 ∨ demo_greg 2 0 = demo_maddr 4096 0) ∧
    ∃ s1, tp_compute demo_cfg demo_tainted (demo_greg 2 0) (demo_maddr 4096 0)
        (demo_greg 2 0) = some s1 ∧
      (∀ x, x ∈ members demo_cfg s1 (demo_greg 2 0) ↔
        (x ∈ members demo_cfg demo_tainted (demo_greg 2 0) ∨
          x ∈ members demo_cfg demo_tainted (demo_maddr 4096 0))) ∧
      ((∃ x, x ∈ members demo_cfg demo_tainted (demo_greg 2 0) ∨
          x ∈ members demo_cfg demo_tainted (demo_maddr 4096 0)) →
        type_tag demo_cfg s1 (demo_greg 2 0) = some LabelSetType.LST_COMPUTE) :=
  ⟨demo_tainted_reachable, ⟨by decide, by decide, by decide, by decide⟩,
    ⟨by decide, by decide, trivial⟩, Or.inl rfl,
    C5_compute_dest_is_source demo_cfg demo_tainted (demo_greg 2 0) (demo_maddr 4096 0)
      (demo_greg 2 0) demo_tainted_reachable ⟨by decide, by decide, by decide, by decide⟩
      ⟨by decide, by decide, trivial⟩ (Or.inl rfl)⟩

/-- C6. In every state, for an in-range tracked address `a` and a label
`l`: `tp_label(a,l)` succeeds twice in a row, and at every address the label
set (members and type tag) after the second call is the one after the first. -/
theorem C6_label_idempotent (cfg : Config) (s : Shad) (a : Addr) (l : Label)
    (ha : in_range cfg s a) :
    ∃ s1 s2, tp_label cfg s a l = some s1 ∧ tp_label cfg s1 a l = some s2 ∧
      ∀ b, members cfg s2 b = members cfg s1 b ∧ type_tag cfg s2 b = type_tag cfg s1 b := by
  have ok := in_range_put_ok ha
  obtain ⟨s1, sl, p, e, hsl, u, hp, hn, hset, htype, hoth⟩ := tp_label_spec cfg s a l ok
  have ok1 : put_ok s1 a := put_ok_of_frame ok u.frame
  have hptr : ptr_of cfg s1 a = some p := ptr_of_at u hsl
  have hsl1 : slot_of cfg s1 a = some sl := by
    rw [slot_of_congr cfg u.frame u.nvals]; exact hsl
  obtain ⟨s2, sl2, p2, e2, hsl2, u2, hp2, hn2, hset2, htype2, hoth2⟩ :=
    tp_label_spec cfg s1 a l ok1
  rw [hsl1] at hsl2
  cases hsl2
  rw [hptr] at hp2 htype2
  simp only [Option.getD_some] at hp2
  subst hp2
  simp only [reduceCtorEq, if_false] at htype2
  have hm1 : members cfg s1 a = (s1.pool.cells p2).set := by
    rw [members_eq cfg s1 a ok1.2, hptr]; rfl
  have hl : l ∈ (s1.pool.cells p2).set := by
    rw [hset]; exact List.mem_insert_self l _
  rw [hm1, List.insert_of_mem hl] at hset2
  have hcells : ∀ q, (s2.pool.cells q).set = (s1.pool.cells q).set ∧
      (s2.pool.cells q).type = (s1.pool.cells q).type := by
    intro q
    by_cases hq : q = p2
    · subst hq; exact ⟨hset2, htype2⟩
    · exact hoth2 q hq
  have hptrs : ∀ b, ptr_of cfg s2 b = ptr_of cfg s1 b := by
    intro b
    by_cases hb : slot_of cfg s1 b = some sl
    · rw [ptr_of_at u2 hb]
      unfold ptr_of
      rw [hb]
      exact u.at_sl.symm
    · exact ptr_of_other u2 hb
  refine ⟨s1, s2, e, e2, ?_⟩
  intro b
  by_cases okb : get_ok s1 b
  · have okb2 : get_ok s2 b := (get_ok_congr u2.frame b).2 okb
    rw [members_eq cfg s2 b okb2, members_eq cfg s1 b okb, type_tag_eq cfg s2 b okb2,
      type_tag_eq cfg s1 b okb, hptrs b]
    cases ptr_of cfg s1 b with
    | none => exact ⟨rfl, rfl⟩
    | some q => simp [(hcells q).1, (hcells q).2]
  · have okb2 : ¬ get_ok s2 b := fun h => okb ((get_ok_congr u2.frame b).1 h)
    simp [members, type_tag, tp_labelset_get_fail cfg s1 b okb,
      tp_labelset_get_fail cfg s2 b okb2]

/-- C6 at the state in which general register 2 carries label 1, for guest
RAM byte `0x1000` and label 7. -/
theorem C6_label_idempotent_witness :
    in_range demo_cfg demo_tainted (demo_maddr 4096 0) ∧
    ∃ s1 s2, tp_label demo_cfg demo_tainted (demo_maddr 4096 0) 7 = some s1 ∧
      tp_label demo_cfg s1 (demo_maddr 4096 0) 7 = some s2 ∧
      ∀ b, members demo_cfg s2 b = members demo_cfg s1 b ∧
        type_tag demo_cfg s2 b = type_tag demo_cfg s1 b :=
  ⟨⟨by decide, by decide, trivial⟩,
    C6_label_idempotent demo_cfg demo_tainted (demo_maddr 4096 0) 7
      ⟨by decide, by decide, trivial⟩⟩

/-- C7 fails on the code.  In frame 0, after `tp_label(LADDR(5,0), 1)` and
`tp_copy(LADDR(5,0), LADDR(5,0) with FUNCARG)`, the state is reachable and in
range, register 5 of frame 0 has the members `[1]`, and
`tp_label(LADDR(5,0) with FUNCARG, 2)` succeeds; afterwards register 5 of
frame 0 has the members `[2, 1]`: label 2, written to the callee's frame, is
observable in the caller's frame (while frame 1 shows it as intended). -/
theorem C7_frame_isolation_broken_by_sharing :
    Reachable demo_cfg demo_shared ∧ demo_shared.current_frame = 0 ∧
    in_range demo_cfg demo_shared (demo_laddr 5 0 .FUNCARG) ∧
    members demo_cfg demo_shared (demo_laddr 5 0 .ZERO) = [1] ∧
    (tp_label demo_cfg demo_shared (demo_laddr 5 0 .FUNCARG) 2).map
      (fun s1 => (members demo_cfg s1 (demo_laddr 5 0 .ZERO),
        members demo_cfg { s1 with current_frame := 1 } (demo_laddr 5 0 .ZERO))) =
      some ([2, 1], [2, 1]) :=
  ⟨demo_shared_reachable, rfl, ⟨by decide, by decide, by decide, by decide⟩, by decide,
    by decide⟩

/-- C8. In the 32-bit configuration, in every reachable state and for every
32-bit RAM address `x`: the RAM directory holds an entry for `x` if and only
if `get_ram_bit` finds bit `x` of the presence bitmap set. -/
theorem C8_bitmap_consistency (cfg : Config) (s : Shad) (x : Nat)
    (h32 : cfg.TARGET_X86_64 = false) (hr : Reachable cfg s) (hx : x < U32) :
    (s.ram.entries x).isSome = true ↔ get_ram_bit s x ≠ 0 := by
  rw [hr.inv.bitmap h32 x hx, Option.isSome_iff_ne_none]

/-- C8 at the state in which guest RAM byte `0x1000` carries label 7, for
that address. -/
theorem C8_bitmap_consistency_witness :
    demo_cfg.TARGET_X86_64 = false ∧ Reachable demo_cfg demo_ram ∧ 4096 < U32 ∧
    ((demo_ram.ram.entries 4096).isSome = true ↔ get_ram_bit demo_ram 4096 ≠ 0) :=
  ⟨rfl, demo_ram_reachable, by decide,
    C8_bitmap_consistency demo_cfg demo_ram 4096 rfl demo_ram_reachable (by decide)⟩

/-! ## Claims about the taint-op buffer -/

theorem write_ops_spec (sz : Nat) (hsz : 0 < sz) (ops : List TaintOp) :
    ∀ (buf : TaintOpBuffer) (k : Nat),
      buf.ptr = k * sz → buf.size = k * sz → buf.max_size < U32 →
      (k + ops.length) * sz ≤ buf.max_size →
      ∃ buf1, write_ops sz buf ops = some buf1 ∧
        buf1.ptr = (k + ops.length) * sz ∧ buf1.size = (k + ops.length) * sz ∧
        buf1.max_size = buf.max_size ∧
        (∀ i, i < k → buf1.data (i * sz) = buf.data (i * sz)) ∧
        (∀ i (h : i < ops.length), buf1.data ((k + i) * sz) = ops.get ⟨i, h⟩) := by
  induction ops with
  | nil =>
    intro buf k hp hs _ _
    exact ⟨buf, rfl, by simpa using hp, by simpa using hs, rfl, fun _ _ => rfl,
      fun i h => absurd h (Nat.not_lt_zero i)⟩
  | cons op rest ih =>
    intro buf k hp hs hm hfit
    simp only [List.length_cons] at hfit
    have h1 : (k + 1) * sz ≤ buf.max_size := by
      have : (k + 1) * sz ≤ (k + (rest.length + 1)) * sz :=
        Nat.mul_le_mul_right sz (by omega)
      omega
    have hk : (k + 1) * sz = k * sz + sz := by ring
    have hU32 : U32 = 4294967296 := rfl
    have hU64 : U64 = 18446744073709551616 := rfl
    have hszlt : sz < U32 := by
      have : sz ≤ (k + 1) * sz := Nat.le_mul_of_pos_left sz (by omega)
      omega
    have hw : tob_op_write sz buf op = some
        { buf with data := Function.update buf.data buf.ptr op,
                   ptr := (k + 1) * sz, size := (k + 1) * sz } := by
      unfold tob_op_write
      have e1 : sz % U32 = sz := Nat.mod_eq_of_lt hszlt
      have e2 : buf.ptr % U64 = buf.ptr := Nat.mod_eq_of_lt (by omega)
      have e3 : (buf.max_size + (U64 - buf.ptr)) % U64 = buf.max_size - buf.ptr := by
        have : buf.max_size + (U64 - buf.ptr) = (buf.max_size - buf.ptr) + U64 := by omega
        rw [this, Nat.add_mod_right, Nat.mod_eq_of_lt (by omega)]
      simp only [e1, e2, e3]
      rw [if_pos (by omega)]
      have e4 : max (buf.ptr + sz) buf.size % U32 = (k + 1) * sz := by
        rw [hp, hs, hk, Nat.max_eq_left (by omega), Nat.mod_eq_of_lt (by omega)]
      rw [e4, hp, ← hk]
    obtain ⟨buf1, e, hp1, hs1, hm1, hold, hnew⟩ := ih
      { buf with data := Function.update buf.data buf.ptr op,
                 ptr := (k + 1) * sz, size := (k + 1) * sz } (k + 1) rfl rfl hm
      (by simp only; have : k + 1 + rest.length = k + (rest.length + 1) := by omega
          rw [this]; exact hfit)
    refine ⟨buf1, ?_, ?_, ?_, hm1, ?_, ?_⟩
    · simp only [write_ops, hw]
      exact e
    · rw [hp1]; simp only [List.length_cons]; congr 1; omega
    · rw [hs1]; simp only [List.length_cons]; congr 1; omega
    · intro i hi
      rw [hold i (by omega)]
      simp only
      rw [Function.update_noteq]
      rw [hp]
      intro h
      have := Nat.eq_of_mul_eq_mul_right hsz h
      omega
    · intro i hi
      cases i with
      | zero =>
        rw [Nat.add_zero, hold k (by omega)]
        simp only [List.get_eq_getElem, List.getElem_cons_zero]
        rw [hp, Function.update_same]
      | succ j =>
        have hj : j < rest.length := by simpa using hi
        have := hnew j hj
        have e5 : k + (j + 1) = k + 1 + j := by omega
        rw [e5, this]
        simp

theorem read_ops_spec (sz : Nat) (hsz : 0 < sz) (ops : List TaintOp) :
    ∀ (buf : TaintOpBuffer) (k : Nat),
      buf.ptr = k * sz → buf.size = (k + ops.length) * sz → buf.max_size < U32 →
      (k + ops.length) * sz ≤ buf.max_size →
      (∀ i (h : i < ops.length), buf.data ((k + i) * sz) = ops.get ⟨i, h⟩) →
      ∃ buf1, read_ops sz buf ops.length = some (buf1, ops.map (fun o => (false, o))) ∧
        tob_end buf1 = true := by
  induction ops with
  | nil =>
    intro buf k hp hs _ _ _
    refine ⟨buf, rfl, ?_⟩
    simp only [List.length_nil, Nat.add_zero] at hs
    simp [tob_end, hp, hs]
  | cons op rest ih =>
    intro buf k hp hs hm hfit hdata
    simp only [List.length_cons] at hfit hs
    have h1 : (k + 1) * sz ≤ buf.max_size := by
      have : (k + 1) * sz ≤ (k + (rest.length + 1)) * sz :=
        Nat.mul_le_mul_right sz (by omega)
      omega
    have h2 : (k + 1) * sz ≤ buf.size := by
      rw [hs]; exact Nat.mul_le_mul_right sz (by omega)
    have hk : (k + 1) * sz = k * sz + sz := by ring
    have hU32 : U32 = 4294967296 := rfl
    have hU64 : U64 = 18446744073709551616 := rfl
    have hszlt : sz < U32 := by
      have : sz ≤ (k + 1) * sz := Nat.le_mul_of_pos_left sz (by omega)
      omega
    have hr : tob_op_read sz buf = some ({ buf with ptr := (k + 1) * sz }, op) := by
      unfold tob_op_read
      have e1 : sz % U32 = sz := Nat.mod_eq_of_lt hszlt
      have e2 : buf.ptr % U64 = buf.ptr := Nat.mod_eq_of_lt (by omega)
      have e3 : (buf.max_size + (U64 - buf.ptr)) % U64 = buf.max_size - buf.ptr := by
        have : buf.max_size + (U64 - buf.ptr) = (buf.max_size - buf.ptr) + U64 := by omega
        rw [this, Nat.add_mod_right, Nat.mod_eq_of_lt (by omega)]
      simp only [e1, e2, e3]
      rw [if_pos (by omega)]
      have e4 : max (buf.ptr + sz) buf.size % U32 = buf.size := by
        rw [hp, ← hk, Nat.max_eq_right h2, Nat.mod_eq_of_lt (by omega)]
      have e5 : buf.data buf.ptr = op := by
        have := hdata 0 (by simp)
        simpa [hp] using this
      rw [e4, e5, hp, ← hk]
    have hend : tob_end buf = false := by
      simp only [tob_end, decide_eq_false_iff_not, ge_iff_le, not_le]
      omega
    obtain ⟨buf1, e, hfin⟩ := ih { buf with ptr := (k + 1) * sz } (k + 1) rfl
      (by simp only; rw [hs]; congr 1; omega) hm
      (by simp only; have : k + 1 + rest.length = k + (rest.length + 1) := by omega
          rw [this]; exact hfit)
      (by
        intro i hi
        have := hdata (i + 1) (by simpa using hi)
        have e6 : k + 1 + i = k + (i + 1) := by omega
        simp only
        rw [e6, this]
        simp)
    refine ⟨buf1, ?_, hfin⟩
    simp only [List.length_cons, read_ops, hr, e, List.map_cons, hend]

/-- C9. For a record size `sz > 0`, a buffer whose `max_size` is a `uint32_t`
and a list of ops whose total size `N * sz` fits in `max_size`: after
`tob_clear`, the `N` calls of `tob_op_write` succeed, and after `tob_rewind`
`N` calls of `tob_op_read` succeed and return the written ops in the written
order, `tob_end` being false before each of them and true after the last. -/
theorem C9_op_buffer_round_trip (sz : Nat) (buf : TaintOpBuffer) (ops : List TaintOp)
    (hsz : 0 < sz) (hmax : buf.max_size < U32) (hfit : ops.length * sz ≤ buf.max_size) :
    ∃ buf1 buf2, write_ops sz (tob_clear buf) ops = some buf1 ∧
      read_ops sz (tob_rewind buf1) ops.length =
        some (buf2, ops.map (fun o => (false, o))) ∧
      tob_end buf2 = true := by
  obtain ⟨buf1, e, _, hs1, hm1, _, hnew⟩ := write_ops_spec sz hsz ops (tob_clear buf) 0
    (by simp [tob_clear]) (by simp [tob_clear]) hmax (by simpa [tob_clear] using hfit)
  obtain ⟨buf2, e2, hend⟩ := read_ops_spec sz hsz ops (tob_rewind buf1) 0
    (by simp [tob_rewind]) (by simpa [tob_rewind] using hs1)
    (by simp only [tob_rewind, hm1]; exact hmax)
    (by simp only [tob_rewind, hm1, Nat.zero_add]; exact hfit)
    (by intro i hi; simpa [tob_rewind] using hnew i hi)
  exact ⟨buf1, buf2, e, e2, hend⟩

/-- C9 for records of 80 bytes, a buffer of 240 bytes and the two ops
`LABEL{MADDR(0x1000,0), 7}`, `COPY{GREG(2,0), MADDR(0x2000,0)}`. -/
theorem C9_op_buffer_round_trip_witness :
    0 < 80 ∧ (demo_buf 240).max_size < U32 ∧
    [demo_label_op (demo_maddr 4096 0) 7,
      demo_copy_op (demo_greg 2 0) (demo_maddr 8192 0)].length * 80 ≤ (demo_buf 240).max_size ∧
    ∃ buf1 buf2, write_ops 80 (tob_clear (demo_buf 240))
        [demo_label_op (demo_maddr 4096 0) 7,
          demo_copy_op (demo_greg 2 0) (demo_maddr 8192 0)] = some buf1 ∧
      read_ops 80 (tob_rewind buf1)
          [demo_label_op (demo_maddr 4096 0) 7,
            demo_copy_op (demo_greg 2 0) (demo_maddr 8192 0)].length =
        some (buf2, [demo_label_op (demo_maddr 4096 0) 7,
          demo_copy_op (demo_greg 2 0) (demo_maddr 8192 0)].map (fun o => (false, o))) ∧
      tob_end buf2 = true :=
  ⟨by decide, by decide, by decide,
    C9_op_buffer_round_trip 80 (demo_buf 240)
      [demo_label_op (demo_maddr 4096 0) 7, demo_copy_op (demo_greg 2 0) (demo_maddr 8192 0)]
      (by decide) (by decide) (by decide)⟩

/-! ## Claims about the fixup and the interpreter -/

/-- The loop of a fixup whose body succeeds on each of the `n` ops: every one
of them is replaced by the result of the body, no other record changes. -/
theorem fix_ops_spec (sz : Nat) (hsz : 0 < sz) (f : TaintOp → Option TaintOp) (n : Nat) :
    ∀ (data : Nat → TaintOp) (off : Nat),
      (∀ i, i < n → (f (data (off + i * sz))).isSome = true) →
      ∃ data1, fix_ops sz f data off n = some data1 ∧
        (∀ i, i < n → some (data1 (off + i * sz)) = f (data (off + i * sz))) ∧
        (∀ x, (∀ i, i < n → x ≠ off + i * sz) → data1 x = data x) := by
  induction n with
  | zero =>
    intro data off _
    exact ⟨data, rfl, fun i h => absurd h (Nat.not_lt_zero i), fun _ _ => rfl⟩
  | succ n ih =>
    intro data off hall
    have h0 := hall 0 (Nat.succ_pos n)
    simp only [Nat.zero_mul, Nat.add_zero] at h0
    obtain ⟨op1, e1⟩ := Option.isSome_iff_exists.mp h0
    have hkeep : ∀ i, i < n →
        Function.update data off op1 (off + sz + i * sz) = data (off + (i + 1) * sz) := by
      intro i _
      have e : off + sz + i * sz = off + (i + 1) * sz := by ring
      rw [e, Function.update_noteq]
      have : 0 < (i + 1) * sz := Nat.mul_pos (Nat.succ_pos i) hsz
      omega
    obtain ⟨data1, e2, hnew, hold⟩ := ih (Function.update data off op1) (off + sz)
      (by
        intro i hi
        rw [hkeep i hi]
        exact hall (i + 1) (Nat.succ_lt_succ hi))
    refine ⟨data1, ?_, ?_, ?_⟩
    · simp only [fix_ops, e1]
      exact e2
    · intro i hi
      cases i with
      | zero =>
        simp only [Nat.zero_mul, Nat.add_zero]
        rw [hold off, Function.update_same, e1]
        intro j _
        have : 0 < (j + 1) * sz := Nat.mul_pos (Nat.succ_pos j) hsz
        have e : off + sz + j * sz = off + (j + 1) * sz := by ring
        omega
      | succ j =>
        have hj : j < n := Nat.lt_of_succ_lt_succ hi
        have := hnew j hj
        rw [hkeep j hj] at this
        have e : off + (j + 1) * sz = off + sz + j * sz := by ring
        rw [e]
        rw [e] at this
        exact this
    · intro x hx
      rw [hold x]
      · rw [Function.update_noteq]
        have := hx 0 (Nat.succ_pos n)
        simpa using this
      · intro i hi
        have := hx (i + 1) (Nat.succ_lt_succ hi)
        have e : off + sz + i * sz = off + (i + 1) * sz := by ring
        rw [e]
        exact this

theorem load_fix_copy (addr : Addr) (cur : TaintOp) (hc : cur.typ = .COPYOP)
    (ha : addr.flag = .IRRELEVANT ∨ addr.typ = .GREG ∨ addr.typ = .GSPEC ∨ addr.typ = .MADDR) :
    load_fix addr cur = some { cur with a :=
      if addr.flag = .IRRELEVANT then { cur.a with flag := .IRRELEVANT }
      else { cur.a with typ := addr.typ, val := addr.val, flag := .ZERO } } := by
  unfold load_fix fix_addr Addr.patch
  rw [hc]
  by_cases h1 : addr.flag = .IRRELEVANT
  · simp [h1]
  · rcases ha with h | h | h | h
    · exact absurd h h1
    · simp [h1, h]
    · simp [h1, h]
    · simp [h1, h]

/-- The `"load"` fixup on a buffer: the patch of the `num_ops` ops that follow
the cursor. -/
theorem load_fixup_patch (cfg : Config) (op : TaintOp) (buf : TaintOpBuffer)
    (d : DynValBuffer) (g : Globals) (e : DynValEntry)
    (hsz : 0 < cfg.SIZEOF_TAINTOP)
    (hname : op.insn_start.name = "load") (hflag : op.insn_start.flag = INSNREADLOG)
    (hrec : d.entries[d.ptr]? = some e) (hkind : e.entrytype = .ADDRENTRY)
    (hop : e.memaccess_op = .LOAD)
    (haddr : e.memaccess_addr.flag = .IRRELEVANT ∨ e.memaccess_addr.typ = .GREG ∨
      e.memaccess_addr.typ = .GSPEC ∨ e.memaccess_addr.typ = .MADDR)
    (hcopy : ∀ i, i < op.insn_start.num_ops.toNat →
      (buf.data (buf.ptr + i * cfg.SIZEOF_TAINTOP)).typ = .COPYOP) :
    ∃ data1, process_insn_start_op cfg op buf d g =
        some ({ buf with data := data1 }, { d with ptr := d.ptr + 1 }, g) ∧
      (∀ i, i < op.insn_start.num_ops.toNat →
        data1 (buf.ptr + i * cfg.SIZEOF_TAINTOP) =
          { buf.data (buf.ptr + i * cfg.SIZEOF_TAINTOP) with a :=
            if e.memaccess_addr.flag = .IRRELEVANT then
              { (buf.data (buf.ptr + i * cfg.SIZEOF_TAINTOP)).a with flag := .IRRELEVANT }
            else
              { (buf.data (buf.ptr + i * cfg.SIZEOF_TAINTOP)).a with
                typ := e.memaccess_addr.typ, val := e.memaccess_addr.val, flag := .ZERO } }) ∧
      (∀ x, (∀ i, i < op.insn_start.num_ops.toNat → x ≠ buf.ptr + i * cfg.SIZEOF_TAINTOP) →
        data1 x = buf.data x) := by
  obtain ⟨data1, e1, hnew, hold⟩ := fix_ops_spec cfg.SIZEOF_TAINTOP hsz
    (load_fix e.memaccess_addr) op.insn_start.num_ops.toNat buf.data buf.ptr
    (by
      intro i hi
      rw [load_fix_copy _ _ (hcopy i hi) haddr]
      rfl)
  refine ⟨data1, ?_, ?_, hold⟩
  · unfold process_insn_start_op read_dynval_buffer
    rw [hrec]
    simp [hname, hflag, hkind, hop, e1]
  · intro i hi
    have h := hnew i hi
    rw [load_fix_copy _ _ (hcopy i hi) haddr] at h
    exact Option.some.inj h

theorem Machine.buf_set_buf (m : Machine) (r : BufRef) (b : TaintOpBuffer) :
    (m.set_buf r b).buf r = b := by
  cases r <;> simp [Machine.set_buf, Machine.buf]

theorem Machine.set_buf_shad (m : Machine) (r : BufRef) (b : TaintOpBuffer) :
    (m.set_buf r b).shad = m.shad := by
  cases r <;> rfl

theorem Machine.set_buf_log (m : Machine) (r : BufRef) (b : TaintOpBuffer) :
    (m.set_buf r b).dynval_buf = m.dynval_buf := by
  cases r <;> rfl

theorem Machine.set_buf_g (m : Machine) (r : BufRef) (b : TaintOpBuffer) :
    (m.set_buf r b).g = m.g := by
  cases r <;> rfl

/-- Function `tob_op_read` within the written part of a buffer: the record under the
cursor, the cursor one record further, `size` as before. -/
theorem tob_op_read_within (sz : Nat) (buf : TaintOpBuffer) (hm : buf.max_size < U32)
    (h1 : buf.ptr + sz ≤ buf.size) (h2 : buf.size ≤ buf.max_size) :
    tob_op_read sz buf = some ({ buf with ptr := buf.ptr + sz }, buf.data buf.ptr) := by
  have hU32 : U32 = 4294967296 := rfl
  have hU64 : U64 = 18446744073709551616 := rfl
  unfold tob_op_read
  have e1 : sz % U32 = sz := Nat.mod_eq_of_lt (by omega)
  have e2 : buf.ptr % U64 = buf.ptr := Nat.mod_eq_of_lt (by omega)
  have e3 : (buf.max_size + (U64 - buf.ptr)) % U64 = buf.max_size - buf.ptr := by
    have : buf.max_size + (U64 - buf.ptr) = (buf.max_size - buf.ptr) + U64 := by omega
    rw [this, Nat.add_mod_right, Nat.mod_eq_of_lt (by omega)]
  have e4 : max (buf.ptr + sz) buf.size % U32 = buf.size := by
    rw [Nat.max_eq_right h1, Nat.mod_eq_of_lt (by omega)]
  simp only [e1, e2, e3, e4]
  rw [if_pos (by omega)]

/-- One iteration of the loop of `tob_process` at the end of the buffer. -/
theorem loop_at_end (cfg : Config) (f : Nat) (r : BufRef) (m : Machine)
    (hend : tob_end (m.buf r) = true) :
    tob_process_loop cfg (f + 1) r m = .done (m.set_buf r (tob_rewind (m.buf r))) := by
  simp only [tob_process_loop, hend, if_true]

/-- One iteration of the loop of `tob_process` on an `INSN_START` whose fixup
does not read an exception. -/
theorem loop_insn_start (cfg : Config) (f : Nat) (r : BufRef) (m : Machine)
    (b b2 : TaintOpBuffer) (op : TaintOp) (d : DynValBuffer) (g : Globals)
    (hend : tob_end (m.buf r) = false)
    (hread : tob_op_read cfg.SIZEOF_TAINTOP (m.buf r) = some (b, op))
    (ht : op.typ = .INSNSTARTOP)
    (hfix : process_insn_start_op cfg op b m.dynval_buf m.g = some (b2, d, g))
    (hg : g.next_step ≠ EXCEPT) :
    tob_process_loop cfg (f + 1) r m =
      tob_process_loop cfg f r { (m.set_buf r b).set_buf r b2 with dynval_buf := d, g := g } := by
  simp only [tob_process_loop, hend, hread, ht, Machine.buf_set_buf, Machine.set_buf_log,
    Machine.set_buf_g, hfix, hg, Bool.false_eq_true, if_false]

/-- One iteration of the loop of `tob_process` on a `COPY` op neither side of
which is flagged `IRRELEVANT`. -/
theorem loop_copy (cfg : Config) (f : Nat) (r : BufRef) (m : Machine)
    (b : TaintOpBuffer) (op : TaintOp) (s1 : Shad)
    (hend : tob_end (m.buf r) = false)
    (hread : tob_op_read cfg.SIZEOF_TAINTOP (m.buf r) = some (b, op))
    (ht : op.typ = .COPYOP) (ha : op.a.flag ≠ .IRRELEVANT) (hb : op.b.flag ≠ .IRRELEVANT)
    (hc : tp_copy cfg m.shad op.a op.b = some s1) :
    tob_process_loop cfg (f + 1) r m =
      tob_process_loop cfg f r { m.set_buf r b with shad := s1 } := by
  simp only [tob_process_loop, hend, hread, ht, ha, hb, Machine.set_buf_shad, hc,
    Bool.false_eq_true, if_false]

theorem Machine.buf_with (m : Machine) (r : BufRef) (s : Shad) (d : DynValBuffer)
    (g : Globals) : Machine.buf { m with shad := s, dynval_buf := d, g := g } r = m.buf r := by
  cases r <;> rfl

/-- Running `"load"` with one `COPY` op: the entry block of the translation
block at `t` holds `INSN_START("load", 1)` and a `COPY`, the next log record
is `ADDRENTRY{LOAD, addr}`; `execute_taint_ops` ends, consumes the record and
gives the destination the label set of the patched source. -/
theorem load_fixup_exec (cfg : Config) (m : Machine) (t : Nat) (e : DynValEntry) (fuel : Nat)
    (hsz : 0 < cfg.SIZEOF_TAINTOP)
    (hsize : (m.ttbs t).entry.ops.size = 2 * cfg.SIZEOF_TAINTOP)
    (hmax : (m.ttbs t).entry.ops.max_size < U32)
    (hfit : 2 * cfg.SIZEOF_TAINTOP ≤ (m.ttbs t).entry.ops.max_size)
    (h0 : ((m.ttbs t).entry.ops.data 0).typ = .INSNSTARTOP)
    (hname : ((m.ttbs t).entry.ops.data 0).insn_start.name = "load")
    (hflag : ((m.ttbs t).entry.ops.data 0).insn_start.flag = INSNREADLOG)
    (hnum : ((m.ttbs t).entry.ops.data 0).insn_start.num_ops = 1)
    (h1 : ((m.ttbs t).entry.ops.data cfg.SIZEOF_TAINTOP).typ = .COPYOP)
    (hdst : ((m.ttbs t).entry.ops.data cfg.SIZEOF_TAINTOP).b.flag ≠ .IRRELEVANT)
    (hrec : m.dynval_buf.entries[m.dynval_buf.ptr]? = some e)
    (hkind : e.entrytype = .ADDRENTRY) (hop : e.memaccess_op = .LOAD)
    (hrel : e.memaccess_addr.flag ≠ .IRRELEVANT)
    (htyp : e.memaccess_addr.typ = .GREG ∨ e.memaccess_addr.typ = .GSPEC ∨
      e.memaccess_addr.typ = .MADDR)
    (hr : Reachable cfg m.shad)
    (hsrc : in_range cfg m.shad
      { ((m.ttbs t).entry.ops.data cfg.SIZEOF_TAINTOP).a with
        typ := e.memaccess_addr.typ, val := e.memaccess_addr.val, flag := .ZERO })
    (hb : in_range cfg m.shad ((m.ttbs t).entry.ops.data cfg.SIZEOF_TAINTOP).b)
    (hne : slot_of cfg m.shad
        { ((m.ttbs t).entry.ops.data cfg.SIZEOF_TAINTOP).a with
          typ := e.memaccess_addr.typ, val := e.memaccess_addr.val, flag := .ZERO } ≠
      slot_of cfg m.shad ((m.ttbs t).entry.ops.data cfg.SIZEOF_TAINTOP).b) :
    ∃ m1, execute_taint_ops cfg (fuel + 5) t m = .done m1 ∧
      m1.dynval_buf.ptr = m.dynval_buf.ptr + 1 ∧
      members cfg m1.shad ((m.ttbs t).entry.ops.data cfg.SIZEOF_TAINTOP).b =
        members cfg m.shad
          { ((m.ttbs t).entry.ops.data cfg.SIZEOF_TAINTOP).a with
            typ := e.memaccess_addr.typ, val := e.memaccess_addr.val, flag := .ZERO } ∧
      type_tag cfg m1.shad ((m.ttbs t).entry.ops.data cfg.SIZEOF_TAINTOP).b =
        type_tag cfg m.shad
          { ((m.ttbs t).entry.ops.data cfg.SIZEOF_TAINTOP).a with
            typ := e.memaccess_addr.typ, val := e.memaccess_addr.val, flag := .ZERO } := by
  generalize hbuf : (m.ttbs t).entry.ops = buf0 at *
  generalize hsrcdef : ({ (buf0.data cfg.SIZEOF_TAINTOP).a with
      typ := e.memaccess_addr.typ, val := e.memaccess_addr.val, flag := AddrFlag.ZERO } : Addr) =
    src at *
  have hU32 : U32 = 4294967296 := rfl
  -- the copy and its effect on the shadow memory
  obtain ⟨s1, ecopy, hpb, _, hc, hf, _⟩ :=
    tp_copy_moves cfg m.shad src (buf0.data cfg.SIZEOF_TAINTOP).b hr.inv hsrc hb hne
  have hres := members_congr cfg (in_range_put_ok hsrc).2
    ((get_ok_congr hf _).2 (in_range_put_ok hb).2) hpb hc
  -- first iteration: the INSN_START
  have hread0 : tob_op_read cfg.SIZEOF_TAINTOP (tob_rewind buf0) =
      some ({ buf0 with ptr := cfg.SIZEOF_TAINTOP }, buf0.data 0) := by
    have h := tob_op_read_within cfg.SIZEOF_TAINTOP (tob_rewind buf0) hmax
      (by simp only [tob_rewind]; omega) (by simp only [tob_rewind]; omega)
    simpa [tob_rewind] using h
  obtain ⟨data1, efix, hnew, _⟩ := load_fixup_patch cfg (buf0.data 0)
    { buf0 with ptr := cfg.SIZEOF_TAINTOP } m.dynval_buf
    { m.g with next_step := RETURN } e hsz hname hflag hrec hkind hop (Or.inr htyp)
    (by
      intro i hi
      rw [hnum] at hi
      have : i = 0 := by
        have : (1 : Int).toNat = 1 := rfl
        omega
      subst this
      simpa using h1)
  have hpatched : data1 cfg.SIZEOF_TAINTOP =
      { buf0.data cfg.SIZEOF_TAINTOP with a := src } := by
    have h := hnew 0 (by rw [hnum]; decide)
    simp only [Nat.zero_mul, Nat.add_zero, if_neg hrel] at h
    rw [h, ← hsrcdef]
  -- second iteration: the patched COPY
  generalize hb1 : ({ buf0 with data := data1, ptr := cfg.SIZEOF_TAINTOP } : TaintOpBuffer) =
    b1 at *
  have hb1d : b1.data = data1 ∧ b1.ptr = cfg.SIZEOF_TAINTOP ∧ b1.size = buf0.size ∧
      b1.max_size = buf0.max_size := by
    rw [← hb1]
    exact ⟨rfl, rfl, rfl, rfl⟩
  have hread1 : tob_op_read cfg.SIZEOF_TAINTOP b1 =
      some ({ b1 with ptr := b1.ptr + cfg.SIZEOF_TAINTOP }, b1.data b1.ptr) :=
    tob_op_read_within cfg.SIZEOF_TAINTOP b1 (by rw [hb1d.2.2.2]; exact hmax)
      (by rw [hb1d.2.1, hb1d.2.2.1]; omega) (by rw [hb1d.2.2.1, hb1d.2.2.2]; omega)
  have hop1 : b1.data b1.ptr = { buf0.data cfg.SIZEOF_TAINTOP with a := src } := by
    rw [hb1d.1, hb1d.2.1, hpatched]
  rw [hop1] at hread1
  have hsrcflag : src.flag ≠ AddrFlag.IRRELEVANT := by
    rw [← hsrcdef]
    simp
  have hend0 : tob_end (tob_rewind buf0) = false := by
    simp only [tob_end, tob_rewind, decide_eq_false_iff_not, ge_iff_le, not_le]
    omega
  have hend1 : tob_end b1 = false := by
    simp only [tob_end, decide_eq_false_iff_not, ge_iff_le, not_le]
    rw [hb1d.2.1, hb1d.2.2.1]
    omega
  have hend2 : tob_end { b1 with ptr := b1.ptr + cfg.SIZEOF_TAINTOP } = true := by
    simp only [tob_end, decide_eq_true_eq, ge_iff_le]
    rw [hb1d.2.2.1, hb1d.2.1]
    omega
  have hne_ret : RETURN ≠ EXCEPT := by decide
  have hexec : ∃ m1, execute_taint_ops cfg (fuel + 5) t m = .done m1 ∧ m1.shad = s1 ∧
      m1.dynval_buf.ptr = m.dynval_buf.ptr + 1 := by
    have hm0 : Machine.buf { m with g := { m.g with next_step := RETURN } } (.entry t) = buf0 :=
      hbuf
    generalize ho : execute_taint_ops cfg (fuel + 5) t m = o
    simp only [execute_taint_ops, tob_process] at ho
    rw [hm0] at ho
    rw [loop_insn_start cfg (fuel + 2) (.entry t) _ { buf0 with ptr := cfg.SIZEOF_TAINTOP }
      b1 (buf0.data 0) { m.dynval_buf with ptr := m.dynval_buf.ptr + 1 }
      { m.g with next_step := RETURN }
      (by rw [Machine.buf_set_buf]; exact hend0)
      (by rw [Machine.buf_set_buf]; exact hread0) h0
      (by rw [Machine.set_buf_log, Machine.set_buf_g]; exact efix) hne_ret] at ho
    rw [loop_copy cfg (fuel + 1) (.entry t) _ { b1 with ptr := b1.ptr + cfg.SIZEOF_TAINTOP }
      { buf0.data cfg.SIZEOF_TAINTOP with a := src } s1
      (by rw [Machine.buf_with, Machine.buf_set_buf]; exact hend1)
      (by rw [Machine.buf_with, Machine.buf_set_buf]; exact hread1) h1 hsrcflag hdst
      (by simpa only [Machine.set_buf_shad] using ecopy)] at ho
    rw [loop_at_end cfg fuel (.entry t) _
      (by rw [Machine.buf_with, Machine.buf_set_buf]; exact hend2)] at ho
    simp only [execute_succ, Machine.set_buf_g, ne_eq, not_true_eq_false, false_and,
      if_false] at ho
    subst ho
    exact ⟨_, rfl, by simp only [Machine.set_buf_shad], by simp only [Machine.set_buf_log]⟩
  obtain ⟨m1, em, hs, hl⟩ := hexec
  refine ⟨m1, em, hl, ?_, ?_⟩
  · rw [hs]; exact hres.1
  · rw [hs]; exact hres.2

/-- C10. Load fixup, for records of `sz = sizeof(TaintOp) > 0` bytes.

Patch: for an `INSN_START` named `"load"` (flag `INSNREADLOG`) with count
`num_ops`, a log whose next record is `ADDRENTRY{LOAD, addr}` with `addr.flag`
`IRRELEVANT` or `addr.typ` one of `GREG`, `GSPEC`, `MADDR`, and `num_ops`
following ops that are all `COPY`: the fixup succeeds, consumes the record and
leaves cursor and globals alone; each of the `num_ops` ops keeps its
destination and every other field, and its source gets the flag `IRRELEVANT`
if `addr.flag` is `IRRELEVANT` and otherwise `addr`'s type and payload with
the flag cleared; no other record of the buffer changes.

Execution: when the entry block holds `INSN_START("load", 1)` and one `COPY`
whose destination is an in-range tracked address not flagged `IRRELEVANT`, the
logged flag is not `IRRELEVANT`, the shadow state is reachable and the patched
source is in range and in another slot than the destination, then
`execute_taint_ops` ends (any fuel from 5 on), has consumed the record, and the
destination has the members and the type tag that the logged address (at the
byte offset of the op's source) had before. -/
theorem C10_load_fixup (cfg : Config) (op : TaintOp) (buf : TaintOpBuffer)
    (d : DynValBuffer) (g : Globals) (e : DynValEntry)
    (m : Machine) (t : Nat) (e2 : DynValEntry) (fuel : Nat)
    (hsz : 0 < cfg.SIZEOF_TAINTOP)
    (hname : op.insn_start.name = "load") (hflag : op.insn_start.flag = INSNREADLOG)
    (hrec : d.entries[d.ptr]? = some e) (hkind : e.entrytype = .ADDRENTRY)
    (hop : e.memaccess_op = .LOAD)
    (haddr : e.memaccess_addr.flag = .IRRELEVANT ∨ e.memaccess_addr.typ = .GREG ∨
      e.memaccess_addr.typ = .GSPEC ∨ e.memaccess_addr.typ = .MADDR)
    (hcopy : ∀ i, i < op.insn_start.num_ops.toNat →
      (buf.data (buf.ptr + i * cfg.SIZEOF_TAINTOP)).typ = .COPYOP)
    (hsize : (m.ttbs t).entry.ops.size = 2 * cfg.SIZEOF_TAINTOP)
    (hmax : (m.ttbs t).entry.ops.max_size < U32)
    (hfit : 2 * cfg.SIZEOF_TAINTOP ≤ (m.ttbs t).entry.ops.max_size)
    (h0 : ((m.ttbs t).entry.ops.data 0).typ = .INSNSTARTOP)
    (hname2 : ((m.ttbs t).entry.ops.data 0).insn_start.name = "load")
    (hflag2 : ((m.ttbs t).entry.ops.data 0).insn_start.flag = INSNREADLOG)
    (hnum : ((m.ttbs t).entry.ops.data 0).insn_start.num_ops = 1)
    (h1 : ((m.ttbs t).entry.ops.data cfg.SIZEOF_TAINTOP).typ = .COPYOP)
    (hdst : ((m.ttbs t).entry.ops.data cfg.SIZEOF_TAINTOP).b.flag ≠ .IRRELEVANT)
    (hrec2 : m.dynval_buf.entries[m.dynval_buf.ptr]? = some e2)
    (hkind2 : e2.entrytype = .ADDRENTRY) (hop2 : e2.memaccess_op = .LOAD)
    (hrel : e2.memaccess_addr.flag ≠ .IRRELEVANT)
    (htyp : e2.memaccess_addr.typ = .GREG ∨ e2.memaccess_addr.typ = .GSPEC ∨
      e2.memaccess_addr.typ = .MADDR)
    (hr : Reachable cfg m.shad)
    (hsrc : in_range cfg m.shad
      { ((m.ttbs t).entry.ops.data cfg.SIZEOF_TAINTOP).a with
        typ := e2.memaccess_addr.typ, val := e2.memaccess_addr.val, flag := .ZERO })
    (hb : in_range cfg m.shad ((m.ttbs t).entry.ops.data cfg.SIZEOF_TAINTOP).b)
    (hne : slot_of cfg m.shad
        { ((m.ttbs t).entry.ops.data cfg.SIZEOF_TAINTOP).a with
          typ := e2.memaccess_addr.typ, val := e2.memaccess_addr.val, flag := .ZERO } ≠
      slot_of cfg m.shad ((m.ttbs t).entry.ops.data cfg.SIZEOF_TAINTOP).b) :
    (∃ data1, process_insn_start_op cfg op buf d g =
        some ({ buf with data := data1 }, { d with ptr := d.ptr + 1 }, g) ∧
      (∀ i, i < op.insn_start.num_ops.toNat →
        data1 (buf.ptr + i * cfg.SIZEOF_TAINTOP) =
          { buf.data (buf.ptr + i * cfg.SIZEOF_TAINTOP) with a :=
            if e.memaccess_addr.flag = .IRRELEVANT then
              { (buf.data (buf.ptr + i * cfg.SIZEOF_TAINTOP)).a with flag := .IRRELEVANT }
            else
              { (buf.data (buf.ptr + i * cfg.SIZEOF_TAINTOP)).a with
                typ := e.memaccess_addr.typ, val := e.memaccess_addr.val, flag := .ZERO } }) ∧
      (∀ x, (∀ i, i < op.insn_start.num_ops.toNat → x ≠ buf.ptr + i * cfg.SIZEOF_TAINTOP) →
        data1 x = buf.data x)) ∧
    (∃ m1, execute_taint_ops cfg (fuel + 5) t m = .done m1 ∧
      m1.dynval_buf.ptr = m.dynval_buf.ptr + 1 ∧
      members cfg m1.shad ((m.ttbs t).entry.ops.data cfg.SIZEOF_TAINTOP).b =
        members cfg m.shad
          { ((m.ttbs t).entry.ops.data cfg.SIZEOF_TAINTOP).a with
            typ := e2.memaccess_addr.typ, val := e2.memaccess_addr.val, flag := .ZERO } ∧
      type_tag cfg m1.shad ((m.ttbs t).entry.ops.data cfg.SIZEOF_TAINTOP).b =
        type_tag cfg m.shad
          { ((m.ttbs t).entry.ops.data cfg.SIZEOF_TAINTOP).a with
            typ := e2.memaccess_addr.typ, val := e2.memaccess_addr.val, flag := .ZERO }) := by
  constructor
  · exact load_fixup_patch cfg op buf d g e hsz hname hflag hrec hkind hop haddr hcopy
  · exact load_fixup_exec cfg m t e2 fuel hsz hsize hmax hfit h0 hname2 hflag2 hnum h1 hdst
      hrec2 hkind2 hop2 hrel htyp hr hsrc hb hne

/-- C10 on scenario S3: the fixup of the buffer positioned after the
`INSN_START` patches the `COPY` at offset 80, and `execute_taint_ops` on the
scenario ends with `LADDR(5,0)` holding exactly the set `{9}`. -/
theorem C10_load_fixup_witness :
    (∃ data1, process_insn_start_op demo_cfg demo_load_insn { demo_s3_buf with ptr := 80 }
        { entries := [demo_s3_entry], ptr := 0 } { next_step := RETURN, taken_branch := 0 } =
        some ({ demo_s3_buf with data := data1, ptr := 80 },
          { entries := [demo_s3_entry], ptr := 1 }, { next_step := RETURN, taken_branch := 0 }) ∧
      data1 80 = demo_copy_op (demo_maddr 12288 0) (demo_laddr 5 0 .ZERO)) ∧
    (∃ m1, execute_taint_ops demo_cfg 5 0 demo_s3 = .done m1 ∧ m1.dynval_buf.ptr = 1 ∧
      members demo_cfg m1.shad (demo_laddr 5 0 .ZERO) = [9] ∧
      type_tag demo_cfg m1.shad (demo_laddr 5 0 .ZERO) = some .LST_COPY) := by
  have h := C10_load_fixup demo_cfg demo_load_insn { demo_s3_buf with ptr := 80 }
    { entries := [demo_s3_entry], ptr := 0 } { next_step := RETURN, taken_branch := 0 }
    demo_s3_entry demo_s3 0 demo_s3_entry 0
    (by decide) rfl rfl rfl rfl rfl (by decide)
    (by
      intro i hi
      have hi0 : i = 0 := by
        have h1 : demo_load_insn.insn_start.num_ops.toNat = 1 := rfl
        omega
      subst hi0
      rfl)
    rfl (by decide) (by decide) rfl rfl rfl rfl rfl (by decide) rfl rfl rfl (by decide)
    (by decide) demo_s3_reachable ⟨by decide, by decide, trivial⟩
    ⟨by decide, by decide, by decide, by decide⟩ (by decide)
  obtain ⟨⟨data1, e1, hnew, _⟩, ⟨m1, e2, hl, hm, ht⟩⟩ := h
  refine ⟨⟨data1, e1, ?_⟩, ⟨m1, e2, hl, ?_, ?_⟩⟩
  · have h80 := hnew 0 (by decide)
    exact h80
  · exact Eq.trans hm (by decide)
  · exact Eq.trans ht (by decide)

/-! ## Claims about the store fixup -/

theorem fix_addr_ok (addr x : Addr)
    (ha : addr.flag = .IRRELEVANT ∨ addr.typ = .GREG ∨ addr.typ = .GSPEC ∨ addr.typ = .MADDR) :
    fix_addr addr x = some
      (if addr.flag = .IRRELEVANT then { x with flag := .IRRELEVANT }
       else { x with typ := addr.typ, val := addr.val, flag := .ZERO }) := by
  unfold fix_addr Addr.patch
  by_cases h1 : addr.flag = .IRRELEVANT
  · simp [h1]
  · rcases ha with h | h | h | h
    · exact absurd h h1
    · simp [h1, h]
    · simp [h1, h]
    · simp [h1, h]

theorem store_fix_copy (cfg : Config) (addr : Addr) (cur : TaintOp) (hc : cur.typ = .COPYOP)
    (ha : addr.flag = .IRRELEVANT ∨ addr.typ = .GREG ∨ addr.typ = .GSPEC ∨ addr.typ = .MADDR) :
    store_fix cfg addr cur = some { cur with b :=
      if addr.flag = .IRRELEVANT then { cur.b with flag := .IRRELEVANT }
      else { cur.b with typ := addr.typ, val := addr.val, flag := .ZERO } } := by
  unfold store_fix
  rw [hc]
  simp only [fix_addr_ok addr cur.b ha, Option.map_some']

theorem store_fix_delete (cfg : Config) (addr : Addr) (cur : TaintOp)
    (hc : cur.typ = .DELETEOP)
    (ha : addr.flag = .IRRELEVANT ∨ addr.typ = .GREG ∨ addr.typ = .GSPEC ∨ addr.typ = .MADDR) :
    store_fix cfg addr cur = some { cur with a :=
      if addr.flag = .IRRELEVANT then { cur.a with flag := .IRRELEVANT }
      else { cur.a with typ := addr.typ, val := addr.val, flag := .ZERO } } := by
  unfold store_fix
  rw [hc]
  simp only [fix_addr_ok addr cur.a ha, Option.map_some']

theorem store_fix_compute (cfg : Config) (addr : Addr) (cur : TaintOp)
    (hc : cur.typ = .COMPUTEOP) (htp : cfg.TAINTED_POINTER = true)
    (ha : addr.flag = .IRRELEVANT ∨ addr.typ = .GREG ∨ addr.typ = .GSPEC ∨ addr.typ = .MADDR) :
    store_fix cfg addr cur = some
      (if addr.flag = .IRRELEVANT then
        { cur with b := { cur.b with flag := .IRRELEVANT },
                   c := { cur.c with flag := .IRRELEVANT } }
       else if cur.b.typ ≠ .UNK ∧ cur.c.typ ≠ .UNK then cur
       else
        { cur with b := { cur.b with typ := addr.typ, val := addr.val, flag := .ZERO },
                   c := { cur.c with typ := addr.typ, val := addr.val, flag := .ZERO } }) := by
  unfold store_fix Addr.patch
  rw [hc]
  simp only [htp, if_true]
  by_cases h1 : addr.flag = .IRRELEVANT
  · simp [h1]
  · by_cases h2 : cur.b.typ ≠ .UNK ∧ cur.c.typ ≠ .UNK
    · simp only [if_neg h1, if_pos h2]
    · simp only [if_neg h1, if_neg h2]
      rcases ha with h | h | h | h
      · exact absurd h h1
      · simp [h]
      · simp [h]
      · simp [h]

/-- The `"store"` fixup on a buffer whose `num_ops` ops after the cursor are
`COPY`, `DELETE` or (in tainted-pointer mode) `COMPUTE` ops: it succeeds,
consumes the record, and replaces each of these ops by the result of the loop
body; no other record of the buffer changes. -/
theorem store_fixup_patch (cfg : Config) (op : TaintOp) (buf : TaintOpBuffer)
    (d : DynValBuffer) (g : Globals) (e : DynValEntry)
    (hsz : 0 < cfg.SIZEOF_TAINTOP)
    (hname : op.insn_start.name = "store") (hflag : op.insn_start.flag = INSNREADLOG)
    (hrec : d.entries[d.ptr]? = some e) (hkind : e.entrytype = .ADDRENTRY)
    (hop : e.memaccess_op = .STORE)
    (haddr : e.memaccess_addr.flag = .IRRELEVANT ∨ e.memaccess_addr.typ = .GREG ∨
      e.memaccess_addr.typ = .GSPEC ∨ e.memaccess_addr.typ = .MADDR)
    (hops : ∀ i, i < op.insn_start.num_ops.toNat →
      (buf.data (buf.ptr + i * cfg.SIZEOF_TAINTOP)).typ = .COPYOP ∨
      (buf.data (buf.ptr + i * cfg.SIZEOF_TAINTOP)).typ = .DELETEOP ∨
      ((buf.data (buf.ptr + i * cfg.SIZEOF_TAINTOP)).typ = .COMPUTEOP ∧
        cfg.TAINTED_POINTER = true)) :
    ∃ data1, process_insn_start_op cfg op buf d g =
        some ({ buf with data := data1 }, { d with ptr := d.ptr + 1 }, g) ∧
      (∀ i, i < op.insn_start.num_ops.toNat →
        some (data1 (buf.ptr + i * cfg.SIZEOF_TAINTOP)) =
          store_fix cfg e.memaccess_addr (buf.data (buf.ptr + i * cfg.SIZEOF_TAINTOP))) ∧
      (∀ x, (∀ i, i < op.insn_start.num_ops.toNat → x ≠ buf.ptr + i * cfg.SIZEOF_TAINTOP) →
        data1 x = buf.data x) := by
  obtain ⟨data1, e1, hnew, hold⟩ := fix_ops_spec cfg.SIZEOF_TAINTOP hsz
    (store_fix cfg e.memaccess_addr) op.insn_start.num_ops.toNat buf.data buf.ptr
    (by
      intro i hi
      rcases hops i hi with h | h | ⟨h, htp⟩
      · rw [store_fix_copy _ _ _ h haddr]; rfl
      · rw [store_fix_delete _ _ _ h haddr]; rfl
      · rw [store_fix_compute _ _ _ h htp haddr]; rfl)
  refine ⟨data1, ?_, hnew, hold⟩
  unfold process_insn_start_op read_dynval_buffer
  rw [hrec]
  simp [hname, hflag, hkind, hop, e1]

/-- C11. Store fixup of `COPY` and `DELETE`, for records of
`sz = sizeof(TaintOp) > 0` bytes.  For an `INSN_START` named `"store"` (flag
`INSNREADLOG`) with count `num_ops`, a log whose next record is
`ADDRENTRY{STORE, addr}` with `addr.flag` `IRRELEVANT` or `addr.typ` one of
`GREG`, `GSPEC`, `MADDR`, and `num_ops` following ops each of which is a
`COPY`, a `DELETE` or (in tainted-pointer mode) a `COMPUTE`: the fixup
succeeds, consumes the record and leaves cursor and globals alone; each `COPY`
among the `num_ops` ops keeps its source and every other field, and its
destination gets only the flag `IRRELEVANT` if `addr.flag` is `IRRELEVANT` and
otherwise `addr`'s type and payload with the flag cleared; each `DELETE` among
them gets its target set in the same way; no record outside the `num_ops` ops
changes. -/
theorem C11_store_fixup_copy_delete (cfg : Config) (op : TaintOp) (buf : TaintOpBuffer)
    (d : DynValBuffer) (g : Globals) (e : DynValEntry)
    (hsz : 0 < cfg.SIZEOF_TAINTOP)
    (hname : op.insn_start.name = "store") (hflag : op.insn_start.flag = INSNREADLOG)
    (hrec : d.entries[d.ptr]? = some e) (hkind : e.entrytype = .ADDRENTRY)
    (hop : e.memaccess_op = .STORE)
    (haddr : e.memaccess_addr.flag = .IRRELEVANT ∨ e.memaccess_addr.typ = .GREG ∨
      e.memaccess_addr.typ = .GSPEC ∨ e.memaccess_addr.typ = .MADDR)
    (hops : ∀ i, i < op.insn_start.num_ops.toNat →
      (buf.data (buf.ptr + i * cfg.SIZEOF_TAINTOP)).typ = .COPYOP ∨
      (buf.data (buf.ptr + i * cfg.SIZEOF_TAINTOP)).typ = .DELETEOP ∨
      ((buf.data (buf.ptr + i * cfg.SIZEOF_TAINTOP)).typ = .COMPUTEOP ∧
        cfg.TAINTED_POINTER = true)) :
    ∃ data1, process_insn_start_op cfg op buf d g =
        some ({ buf with data := data1 }, { d with ptr := d.ptr + 1 }, g) ∧
      (∀ i, i < op.insn_start.num_ops.toNat →
        (buf.data (buf.ptr + i * cfg.SIZEOF_TAINTOP)).typ = .COPYOP →
        data1 (buf.ptr + i * cfg.SIZEOF_TAINTOP) =
          { buf.data (buf.ptr + i * cfg.SIZEOF_TAINTOP) with b :=
            if e.memaccess_addr.flag = .IRRELEVANT then
              { (buf.data (buf.ptr + i * cfg.SIZEOF_TAINTOP)).b with flag := .IRRELEVANT }
            else
              { (buf.data (buf.ptr + i * cfg.SIZEOF_TAINTOP)).b with
                typ := e.memaccess_addr.typ, val := e.memaccess_addr.val, flag := .ZERO } }) ∧
      (∀ i, i < op.insn_start.num_ops.toNat →
        (buf.data (buf.ptr + i * cfg.SIZEOF_TAINTOP)).typ = .DELETEOP →
        data1 (buf.ptr + i * cfg.SIZEOF_TAINTOP) =
          { buf.data (buf.ptr + i * cfg.SIZEOF_TAINTOP) with a :=
            if e.memaccess_addr.flag = .IRRELEVANT then
              { (buf.data (buf.ptr + i * cfg.SIZEOF_TAINTOP)).a with flag := .IRRELEVANT }
            else
              { (buf.data (buf.ptr + i * cfg.SIZEOF_TAINTOP)).a with
                typ := e.memaccess_addr.typ, val := e.memaccess_addr.val, flag := .ZERO } }) ∧
      (∀ x, (∀ i, i < op.insn_start.num_ops.toNat → x ≠ buf.ptr + i * cfg.SIZEOF_TAINTOP) →
        data1 x = buf.data x) := by
  obtain ⟨data1, e1, hnew, hold⟩ :=
    store_fixup_patch cfg op buf d g e hsz hname hflag hrec hkind hop haddr hops
  refine ⟨data1, e1, ?_, ?_, hold⟩
  · intro i hi hc
    have h := hnew i hi
    rw [store_fix_copy _ _ _ hc haddr] at h
    exact Option.some.inj h
  · intro i hi hc
    have h := hnew i hi
    rw [store_fix_delete _ _ _ hc haddr] at h
    exact Option.some.inj h

theorem demo_store_ops_typ (i : Nat) (hi : i < 3) :
    ((demo_ops_buf demo_store_ops 80).data (80 + i * 80)).typ = .COPYOP ∨
    ((demo_ops_buf demo_store_ops 80).data (80 + i * 80)).typ = .DELETEOP ∨
    (((demo_ops_buf demo_store_ops 80).data (80 + i * 80)).typ = .COMPUTEOP ∧
      demo_cfg.TAINTED_POINTER = true) := by
  match i, hi with
  | 0, _ => exact Or.inl rfl
  | 1, _ => exact Or.inr (Or.inl rfl)
  | 2, _ => exact Or.inr (Or.inr ⟨rfl, rfl⟩)

/-- C11 on the ops of a store, `INSN_START("store", 3)` followed by
`COPY{LADDR(5,0), UNK}`, `DELETE{UNK}` and a `COMPUTE`, with the log record
`ADDRENTRY{STORE, MADDR(0x3000)}`: the destination of the `COPY` and the
target of the `DELETE` become `MADDR(0x3000)` with the flag cleared. -/
theorem C11_store_fixup_copy_delete_witness :
    ∃ data1, process_insn_start_op demo_cfg (demo_insn_op "store" 3 (0, 0) [] [] [] [])
        (demo_ops_buf demo_store_ops 80)
        { entries := [demo_addr_entry .STORE (demo_maddr 12288 0)], ptr := 0 }
        { next_step := RETURN, taken_branch := 0 } =
        some ({ demo_ops_buf demo_store_ops 80 with data := data1 },
          { entries := [demo_addr_entry .STORE (demo_maddr 12288 0)], ptr := 1 },
          { next_step := RETURN, taken_branch := 0 }) ∧
      data1 80 = demo_copy_op (demo_laddr 5 0 .ZERO) (demo_maddr 12288 0) ∧
      data1 160 = demo_delete_op (demo_maddr 12288 0) ∧
      data1 0 = demo_insn_op "store" 3 (0, 0) [] [] [] [] := by
  obtain ⟨data1, e1, hcopy, hdel, hold⟩ := C11_store_fixup_copy_delete demo_cfg
    (demo_insn_op "store" 3 (0, 0) [] [] [] []) (demo_ops_buf demo_store_ops 80)
    { entries := [demo_addr_entry .STORE (demo_maddr 12288 0)], ptr := 0 }
    { next_step := RETURN, taken_branch := 0 } (demo_addr_entry .STORE (demo_maddr 12288 0))
    (by decide) rfl rfl rfl rfl rfl (by decide) (fun i hi => demo_store_ops_typ i hi)
  refine ⟨data1, e1, ?_, ?_, ?_⟩
  · exact hcopy 0 (by decide) rfl
  · exact hdel 1 (by decide) rfl
  · rw [hold 0]
    · rfl
    · intro i _
      show 0 ≠ 80 + i * 80
      omega

theorem Machine.set_buf_set_buf (m : Machine) (r : BufRef) (a b : TaintOpBuffer) :
    (m.set_buf r a).set_buf r b = m.set_buf r b := by
  cases r <;> simp [Machine.set_buf]

theorem Machine.set_buf_with (m : Machine) (r : BufRef) (b : TaintOpBuffer)
    (d : DynValBuffer) (g : Globals) :
    { m.set_buf r b with dynval_buf := d, g := g } =
      Machine.set_buf { m with dynval_buf := d, g := g } r b := by
  cases r <;> rfl

theorem Machine.ttbs_set_buf_entry (m : Machine) (t : Nat) (b : TaintOpBuffer) :
    (m.set_buf (.entry t) b).ttbs t =
      { m.ttbs t with entry := { (m.ttbs t).entry with ops := b } } := by
  simp [Machine.set_buf]

theorem find_tbb_entry (tb : TaintTB) (x : TaintBB) (taken : Int) (n : Nat) :
    ∀ k, find_tbb { tb with entry := x } taken k n = find_tbb tb taken k n := by
  induction n with
  | zero => intro k; rfl
  | succ n ih =>
    intro k
    simp only [find_tbb]
    rw [ih]

/-- The loop of `execute_taint_ops` over the successor blocks finds the first
block labelled `taken`. -/
theorem find_tbb_first (tb : TaintTB) (taken : Int) (i : Nat) :
    ∀ n k, k ≤ i → i < k + n → (tb.tbbs i).label = taken →
      (∀ j, k ≤ j → j < i → (tb.tbbs j).label ≠ taken) →
      find_tbb tb taken k n = some i := by
  intro n
  induction n with
  | zero => intro k h1 h2; omega
  | succ n ih =>
    intro k h1 h2 hl hfirst
    simp only [find_tbb]
    by_cases hk : k = i
    · subst hk
      rw [if_pos hl]
    · rw [if_neg (hfirst k (Nat.le_refl k) (by omega))]
      exact ih (k + 1) (by omega) (by omega) hl
        (fun j hj1 hj2 => hfirst j (by omega) hj2)

/-- One iteration of the loop of `execute_taint_ops` that finds the block to
run. -/
theorem succ_step (cfg : Config) (f t : Nat) (m : Machine) (i : Nat)
    (h1 : m.g.next_step ≠ RETURN) (h2 : m.g.next_step ≠ EXCEPT)
    (hfind : find_tbb (m.ttbs t) m.g.taken_branch 0 ((m.ttbs t).numBBs - 1).toNat = some i) :
    execute_succ cfg (f + 1) t m =
      match tob_process cfg f (.tbb t i) { m with g := { m.g with next_step := RETURN } } with
      | .done m3 => execute_succ cfg f t m3
      | r => r := by
  simp only [execute_succ, h1, h2, ne_eq, not_false_eq_true, and_self, if_true, hfind]

/-- The loop of `execute_taint_ops` ends when `next_step` is `RETURN` or
`EXCEPT`. -/
theorem succ_stop (cfg : Config) (f t : Nat) (m : Machine)
    (h : m.g.next_step = RETURN ∨ m.g.next_step = EXCEPT) :
    execute_succ cfg (f + 1) t m = .done m := by
  rcases h with h | h <;> simp [execute_succ, h]

/-- Running a translation block whose entry block consists of one
`INSN_START` that only redirects control (the fixup leaves the buffer alone
and sets `next_step` to a value other than `RETURN` and `EXCEPT`): after the
entry block, `execute_taint_ops` processes the successor block found for
`taken_branch` and goes on with the loop over the successors. -/
theorem branch_exec (cfg : Config) (m : Machine) (t fuel : Nat) (d1 : DynValBuffer)
    (g1 : Globals) (i : Nat)
    (hsz : 0 < cfg.SIZEOF_TAINTOP)
    (hsize : (m.ttbs t).entry.ops.size = cfg.SIZEOF_TAINTOP)
    (hmax : (m.ttbs t).entry.ops.max_size < U32)
    (hfit : cfg.SIZEOF_TAINTOP ≤ (m.ttbs t).entry.ops.max_size)
    (h0 : ((m.ttbs t).entry.ops.data 0).typ = .INSNSTARTOP)
    (hfix : ∀ b, process_insn_start_op cfg ((m.ttbs t).entry.ops.data 0) b m.dynval_buf
      { m.g with next_step := RETURN } = some (b, d1, g1))
    (h1 : g1.next_step ≠ RETURN) (h2 : g1.next_step ≠ EXCEPT)
    (hfind : find_tbb (m.ttbs t) g1.taken_branch 0 ((m.ttbs t).numBBs - 1).toNat = some i) :
    execute_taint_ops cfg (fuel + 4) t m =
      match tob_process cfg (fuel + 2) (.tbb t i)
        { m.set_buf (.entry t) (tob_rewind (m.ttbs t).entry.ops) with
          dynval_buf := d1, g := { g1 with next_step := RETURN } } with
      | .done m3 => execute_succ cfg (fuel + 2) t m3
      | r => r := by
  generalize hbuf : (m.ttbs t).entry.ops = buf0 at *
  have hU32 : U32 = 4294967296 := rfl
  have hread0 : tob_op_read cfg.SIZEOF_TAINTOP (tob_rewind buf0) =
      some ({ buf0 with ptr := cfg.SIZEOF_TAINTOP }, buf0.data 0) := by
    have h := tob_op_read_within cfg.SIZEOF_TAINTOP (tob_rewind buf0) hmax
      (by simp only [tob_rewind]; omega) (by simp only [tob_rewind]; omega)
    simpa [tob_rewind] using h
  have hend0 : tob_end (tob_rewind buf0) = false := by
    simp only [tob_end, tob_rewind, decide_eq_false_iff_not, ge_iff_le, not_le]
    omega
  have hend1 : tob_end { buf0 with ptr := cfg.SIZEOF_TAINTOP } = true := by
    simp only [tob_end, decide_eq_true_eq, ge_iff_le]
    omega
  have hm0 : Machine.buf { m with g := { m.g with next_step := RETURN } } (.entry t) = buf0 :=
    hbuf
  simp only [execute_taint_ops, tob_process]
  rw [hm0]
  rw [loop_insn_start cfg (fuel + 1) (.entry t) _ { buf0 with ptr := cfg.SIZEOF_TAINTOP }
    { buf0 with ptr := cfg.SIZEOF_TAINTOP } (buf0.data 0) d1 g1
    (by rw [Machine.buf_set_buf]; exact hend0)
    (by rw [Machine.buf_set_buf]; exact hread0) h0
    (by rw [Machine.set_buf_log, Machine.set_buf_g]; exact hfix _) h2]
  rw [loop_at_end cfg fuel (.entry t) _
    (by rw [Machine.buf_with, Machine.buf_set_buf]; exact hend1)]
  show execute_succ cfg (fuel + 2 + 1) t _ = _
  rw [succ_step cfg (fuel + 2) t _ i
    (by rw [Machine.set_buf_g]; exact h1) (by rw [Machine.set_buf_g]; exact h2)]
  · simp only [Machine.set_buf_set_buf, Machine.set_buf_with, Machine.buf_set_buf]
    rfl
  · simp only [Machine.set_buf_set_buf, Machine.set_buf_with, Machine.buf_set_buf,
      Machine.set_buf_g, Machine.ttbs_set_buf_entry, find_tbb_entry]
    exact hfind

/-- The `"condbranch"` fixup: it consumes the record `BRANCHENTRY{taken}`,
leaves the buffer alone and sets the two globals. -/
theorem condbranch_fixup (cfg : Config) (op : TaintOp) (buf : TaintOpBuffer)
    (d : DynValBuffer) (g : Globals) (e : DynValEntry)
    (hname : op.insn_start.name = "condbranch") (hflag : op.insn_start.flag = INSNREADLOG)
    (hrec : d.entries[d.ptr]? = some e) (hkind : e.entrytype = .BRANCHENTRY) :
    process_insn_start_op cfg op buf d g =
      some (buf, { d with ptr := d.ptr + 1 },
        { next_step := BRANCH,
          taken_branch := if e.branch_br then op.insn_start.branch_labels.2
                          else op.insn_start.branch_labels.1 }) := by
  unfold process_insn_start_op read_dynval_buffer
  rw [hrec]
  simp [hname, hflag, hkind]

/-- C13. Condbranch fixup.

Fixup: for an `INSN_START` named `"condbranch"` (flag `INSNREADLOG`) with
`branch_labels = [f, t]` and a log whose next record is `BRANCHENTRY{taken}`,
`process_insn_start_op` consumes the record, leaves the buffer alone, sets
`taken_branch` to `t` if `taken` is true and to `f` if it is false, and sets
`next_step` to `BRANCH`.

Execution: when the entry block of the translation block consists of that one
`INSN_START` and `i` is the first of the `numBBs - 1` successor blocks whose
label is that value, `execute_taint_ops` (any fuel from 4 on) is, after the
entry block, the processing of the block `tbbs[i]`, in the state the fixup
left and with `next_step` reset to `RETURN`, followed by the rest of the loop
over the successors. -/
theorem C13_condbranch_fixup (cfg : Config) (op : TaintOp) (buf : TaintOpBuffer)
    (d : DynValBuffer) (g : Globals) (e : DynValEntry)
    (m : Machine) (t fuel : Nat) (e2 : DynValEntry) (i : Nat)
    (hname : op.insn_start.name = "condbranch") (hflag : op.insn_start.flag = INSNREADLOG)
    (hrec : d.entries[d.ptr]? = some e) (hkind : e.entrytype = .BRANCHENTRY)
    (hsz : 0 < cfg.SIZEOF_TAINTOP)
    (hsize : (m.ttbs t).entry.ops.size = cfg.SIZEOF_TAINTOP)
    (hmax : (m.ttbs t).entry.ops.max_size < U32)
    (hfit : cfg.SIZEOF_TAINTOP ≤ (m.ttbs t).entry.ops.max_size)
    (h0 : ((m.ttbs t).entry.ops.data 0).typ = .INSNSTARTOP)
    (hname2 : ((m.ttbs t).entry.ops.data 0).insn_start.name = "condbranch")
    (hflag2 : ((m.ttbs t).entry.ops.data 0).insn_start.flag = INSNREADLOG)
    (hrec2 : m.dynval_buf.entries[m.dynval_buf.ptr]? = some e2)
    (hkind2 : e2.entrytype = .BRANCHENTRY)
    (hi : i < ((m.ttbs t).numBBs - 1).toNat)
    (hlab : ((m.ttbs t).tbbs i).label =
      if e2.branch_br then ((m.ttbs t).entry.ops.data 0).insn_start.branch_labels.2
      else ((m.ttbs t).entry.ops.data 0).insn_start.branch_labels.1)
    (hfirst : ∀ j, j < i → ((m.ttbs t).tbbs j).label ≠
      if e2.branch_br then ((m.ttbs t).entry.ops.data 0).insn_start.branch_labels.2
      else ((m.ttbs t).entry.ops.data 0).insn_start.branch_labels.1) :
    process_insn_start_op cfg op buf d g =
      some (buf, { d with ptr := d.ptr + 1 },
        { next_step := BRANCH,
          taken_branch := if e.branch_br then op.insn_start.branch_labels.2
                          else op.insn_start.branch_labels.1 }) ∧
    execute_taint_ops cfg (fuel + 4) t m =
      match tob_process cfg (fuel + 2) (.tbb t i)
        { m.set_buf (.entry t) (tob_rewind (m.ttbs t).entry.ops) with
          dynval_buf := { m.dynval_buf with ptr := m.dynval_buf.ptr + 1 },
          g := { next_step := RETURN,
                 taken_branch :=
                   if e2.branch_br then ((m.ttbs t).entry.ops.data 0).insn_start.branch_labels.2
                   else ((m.ttbs t).entry.ops.data 0).insn_start.branch_labels.1 } } with
      | .done m3 => execute_succ cfg (fuel + 2) t m3
      | r => r := by
  refine ⟨condbranch_fixup cfg op buf d g e hname hflag hrec hkind, ?_⟩
  exact branch_exec cfg m t fuel { m.dynval_buf with ptr := m.dynval_buf.ptr + 1 }
    { next_step := BRANCH,
      taken_branch :=
        if e2.branch_br then ((m.ttbs t).entry.ops.data 0).insn_start.branch_labels.2
        else ((m.ttbs t).entry.ops.data 0).insn_start.branch_labels.1 } i
    hsz hsize hmax hfit h0
    (fun b => condbranch_fixup cfg _ b _ _ e2 hname2 hflag2 hrec2 hkind2)
    (show BRANCH ≠ RETURN by decide) (show BRANCH ≠ EXCEPT by decide)
    (find_tbb_first _ _ i _ 0 (Nat.zero_le i) (by omega) hlab (fun j _ hj => hfirst j hj))

/-- C13 on scenario S4: with `branch_labels = [11, 22]` and
`BRANCHENTRY{taken = true}` the fixup sets `taken_branch` to 22, and
`execute_taint_ops` runs the block labelled 22 (which labels `GREG(2,0)`) and
not the block labelled 11 (which would label `GREG(1,0)`). -/
theorem C13_condbranch_fixup_witness :
    process_insn_start_op demo_cfg (demo_insn_op "condbranch" 0 (11, 22) [] [] [] [])
        (demo_buf 80) { entries := [demo_branch_entry true], ptr := 0 }
        { next_step := RETURN, taken_branch := 0 } =
      some (demo_buf 80, { entries := [demo_branch_entry true], ptr := 1 },
        { next_step := BRANCH, taken_branch := 22 }) ∧
    (execute_taint_ops demo_cfg 7 0 demo_s4).final.map
        (fun m1 => (m1.dynval_buf.ptr, members demo_cfg m1.shad (demo_greg 2 0),
          members demo_cfg m1.shad (demo_greg 1 0))) = some (1, [22], []) := by
  have h := C13_condbranch_fixup demo_cfg (demo_insn_op "condbranch" 0 (11, 22) [] [] [] [])
    (demo_buf 80) { entries := [demo_branch_entry true], ptr := 0 }
    { next_step := RETURN, taken_branch := 0 } (demo_branch_entry true)
    demo_s4 0 3 (demo_branch_entry true) 1
    rfl rfl rfl rfl (by decide) rfl (by decide) (by decide) rfl rfl rfl rfl rfl (by decide) rfl
    (by
      intro j hj
      have hj0 : j = 0 := by omega
      subst hj0
      decide)
  refine ⟨h.1, ?_⟩
  refine Eq.trans (congrArg (fun o => (Outcome.final o).map
    (fun m1 => (m1.dynval_buf.ptr, members demo_cfg m1.shad (demo_greg 2 0),
      members demo_cfg m1.shad (demo_greg 1 0)))) h.2) ?_
  decide

/-- The loop of the `"switch"` fixup stops at the first case equal to `cond`. -/
theorem switch_find_first (cond : Int) (conds labels : List Int) (i : Nat) :
    ∀ n k, k ≤ i → i < k + n → conds.getD i 0 = cond →
      (∀ j, k ≤ j → j < i → conds.getD j 0 ≠ cond) →
      switch_find cond conds labels k n = some (labels.getD i 0) := by
  intro n
  induction n with
  | zero => intro k h1 h2; omega
  | succ n ih =>
    intro k h1 h2 hc hfirst
    simp only [switch_find]
    by_cases hk : k = i
    · subst hk
      rw [if_pos hc]
    · rw [if_neg (hfirst k (Nat.le_refl k) (by omega))]
      exact ih (k + 1) (by omega) (by omega) hc
        (fun j hj1 hj2 => hfirst j (by omega) hj2)

/-- The loop of the `"switch"` fixup finds nothing when no case equals `cond`. -/
theorem switch_find_none (cond : Int) (conds labels : List Int) :
    ∀ n k, (∀ j, k ≤ j → j < k + n → conds.getD j 0 ≠ cond) →
      switch_find cond conds labels k n = none := by
  intro n
  induction n with
  | zero => intro k _; rfl
  | succ n ih =>
    intro k hall
    simp only [switch_find]
    rw [if_neg (hall k (Nat.le_refl k) (by omega))]
    exact ih (k + 1) (fun j hj1 hj2 => hall j (by omega) (by omega))

/-- The value the `"switch"` fixup gives `taken_branch`: the label of the
first case equal to `cond`, and `switch_labels[0]` when there is none. -/
theorem switch_taken (cfg : Config) (cond : Int) (conds labels : List Int) (tk : Int)
    (htk : (∃ k, k < cfg.MAXSWITCHSTMTS ∧ conds.getD k 0 = cond ∧
        (∀ j, j < k → conds.getD j 0 ≠ cond) ∧ tk = labels.getD k 0) ∨
      ((∀ k, k < cfg.MAXSWITCHSTMTS → conds.getD k 0 ≠ cond) ∧ tk = labels.getD 0 0)) :
    (match switch_find cond conds labels 0 cfg.MAXSWITCHSTMTS with
      | some x => x
      | none => labels.getD 0 0) = tk := by
  rcases htk with ⟨k, hk, hc, hfirst, e⟩ | ⟨hall, e⟩
  · rw [switch_find_first cond conds labels k cfg.MAXSWITCHSTMTS 0 (Nat.zero_le k) (by omega) hc
      (fun j _ hj => hfirst j hj)]
    exact e.symm
  · rw [switch_find_none cond conds labels cfg.MAXSWITCHSTMTS 0
      (fun j _ hj => hall j (by omega))]
    exact e.symm

/-- The `"switch"` fixup: it consumes the record `SWITCHENTRY{cond}`, leaves
the buffer alone and sets the two globals. -/
theorem switch_fixup (cfg : Config) (op : TaintOp) (buf : TaintOpBuffer)
    (d : DynValBuffer) (g : Globals) (e : DynValEntry) (tk : Int)
    (hname : op.insn_start.name = "switch") (hflag : op.insn_start.flag = INSNREADLOG)
    (hrec : d.entries[d.ptr]? = some e) (hkind : e.entrytype = .SWITCHENTRY)
    (htk : (∃ k, k < cfg.MAXSWITCHSTMTS ∧
        op.insn_start.switch_conds.getD k 0 = e.switchstmt_cond ∧
        (∀ j, j < k → op.insn_start.switch_conds.getD j 0 ≠ e.switchstmt_cond) ∧
        tk = op.insn_start.switch_labels.getD k 0) ∨
      ((∀ k, k < cfg.MAXSWITCHSTMTS →
          op.insn_start.switch_conds.getD k 0 ≠ e.switchstmt_cond) ∧
        tk = op.insn_start.switch_labels.getD 0 0)) :
    process_insn_start_op cfg op buf d g =
      some (buf, { d with ptr := d.ptr + 1 },
        { next_step := cfg.SWITCHSTEP, taken_branch := tk }) := by
  have h := switch_taken cfg e.switchstmt_cond op.insn_start.switch_conds
    op.insn_start.switch_labels tk htk
  unfold process_insn_start_op read_dynval_buffer
  rw [hrec]
  simp [hname, hflag, hkind, -List.getD_eq_getElem?_getD]
  exact h

/-- C14. Switch fixup; `switch_conds[i]` and `switch_labels[i]` are the
elements of the arrays of `MAXSWITCHSTMTS` entries of the `INSN_START`, and
`SWITCHSTEP`, which the sources at hand do not define, is a value of
`next_step` other than `RETURN` and `EXCEPT`.

Fixup: for an `INSN_START` named `"switch"` (flag `INSNREADLOG`) and a log
whose next record is `SWITCHENTRY{cond}`, `process_insn_start_op` consumes the
record, leaves the buffer alone, sets `next_step` to `SWITCHSTEP` and sets
`taken_branch` to `switch_labels[k]` for the lowest index `k` with
`switch_conds[k] == cond`, and to `switch_labels[0]` when no index matches.

Execution: when the entry block of the translation block consists of that one
`INSN_START`, `tk` is the value just described and `i` is the first of the
`numBBs - 1` successor blocks whose label is `tk`, `execute_taint_ops` (any
fuel from 4 on) is, after the entry block, the processing of the block
`tbbs[i]`, in the state the fixup left and with `next_step` reset to `RETURN`,
followed by the rest of the loop over the successors. -/
theorem C14_switch_fixup (cfg : Config) (op : TaintOp) (buf : TaintOpBuffer)
    (d : DynValBuffer) (g : Globals) (e : DynValEntry)
    (m : Machine) (t fuel : Nat) (e2 : DynValEntry) (tk : Int) (i : Nat)
    (hname : op.insn_start.name = "switch") (hflag : op.insn_start.flag = INSNREADLOG)
    (hrec : d.entries[d.ptr]? = some e) (hkind : e.entrytype = .SWITCHENTRY)
    (hstep1 : cfg.SWITCHSTEP ≠ RETURN) (hstep2 : cfg.SWITCHSTEP ≠ EXCEPT)
    (hsz : 0 < cfg.SIZEOF_TAINTOP)
    (hsize : (m.ttbs t).entry.ops.size = cfg.SIZEOF_TAINTOP)
    (hmax : (m.ttbs t).entry.ops.max_size < U32)
    (hfit : cfg.SIZEOF_TAINTOP ≤ (m.ttbs t).entry.ops.max_size)
    (h0 : ((m.ttbs t).entry.ops.data 0).typ = .INSNSTARTOP)
    (hname2 : ((m.ttbs t).entry.ops.data 0).insn_start.name = "switch")
    (hflag2 : ((m.ttbs t).entry.ops.data 0).insn_start.flag = INSNREADLOG)
    (hrec2 : m.dynval_buf.entries[m.dynval_buf.ptr]? = some e2)
    (hkind2 : e2.entrytype = .SWITCHENTRY)
    (htk : (∃ k, k < cfg.MAXSWITCHSTMTS ∧
        ((m.ttbs t).entry.ops.data 0).insn_start.switch_conds.getD k 0 = e2.switchstmt_cond ∧
        (∀ j, j < k →
          ((m.ttbs t).entry.ops.data 0).insn_start.switch_conds.getD j 0 ≠ e2.switchstmt_cond) ∧
        tk = ((m.ttbs t).entry.ops.data 0).insn_start.switch_labels.getD k 0) ∨
      ((∀ k, k < cfg.MAXSWITCHSTMTS →
          ((m.ttbs t).entry.ops.data 0).insn_start.switch_conds.getD k 0 ≠ e2.switchstmt_cond) ∧
        tk = ((m.ttbs t).entry.ops.data 0).insn_start.switch_labels.getD 0 0))
    (hi : i < ((m.ttbs t).numBBs - 1).toNat)
    (hlab : ((m.ttbs t).tbbs i).label = tk)
    (hfirst : ∀ j, j < i → ((m.ttbs t).tbbs j).label ≠ tk) :
    (∃ tk1, process_insn_start_op cfg op buf d g =
        some (buf, { d with ptr := d.ptr + 1 },
          { next_step := cfg.SWITCHSTEP, taken_branch := tk1 }) ∧
      (∀ k, k < cfg.MAXSWITCHSTMTS →
        op.insn_start.switch_conds.getD k 0 = e.switchstmt_cond →
        (∀ j, j < k → op.insn_start.switch_conds.getD j 0 ≠ e.switchstmt_cond) →
        tk1 = op.insn_start.switch_labels.getD k 0) ∧
      ((∀ k, k < cfg.MAXSWITCHSTMTS →
          op.insn_start.switch_conds.getD k 0 ≠ e.switchstmt_cond) →
        tk1 = op.insn_start.switch_labels.getD 0 0)) ∧
    execute_taint_ops cfg (fuel + 4) t m =
      match tob_process cfg (fuel + 2) (.tbb t i)
        { m.set_buf (.entry t) (tob_rewind (m.ttbs t).entry.ops) with
          dynval_buf := { m.dynval_buf with ptr := m.dynval_buf.ptr + 1 },
          g := { next_step := RETURN, taken_branch := tk } } with
      | .done m3 => execute_succ cfg (fuel + 2) t m3
      | r => r := by
  constructor
  · refine ⟨match switch_find e.switchstmt_cond op.insn_start.switch_conds
        op.insn_start.switch_labels 0 cfg.MAXSWITCHSTMTS with
      | some x => x
      | none => op.insn_start.switch_labels.getD 0 0, ?_, ?_, ?_⟩
    · unfold process_insn_start_op read_dynval_buffer
      rw [hrec]
      simp [hname, hflag, hkind, -List.getD_eq_getElem?_getD]
    · intro k hk hc hfst
      exact switch_taken cfg _ _ _ _ (Or.inl ⟨k, hk, hc, hfst, rfl⟩)
    · intro hall
      exact switch_taken cfg _ _ _ _ (Or.inr ⟨hall, rfl⟩)
  · exact branch_exec cfg m t fuel { m.dynval_buf with ptr := m.dynval_buf.ptr + 1 }
      { next_step := cfg.SWITCHSTEP, taken_branch := tk } i
      hsz hsize hmax hfit h0
      (fun b => switch_fixup cfg _ b _ _ e2 tk hname2 hflag2 hrec2 hkind2 htk)
      hstep1 hstep2
      (find_tbb_first _ _ i _ 0 (Nat.zero_le i) (by omega) hlab (fun j _ hj => hfirst j hj))

/-- C14 on scenario S5: with `switch_conds = [3, 5, 7]`, `switch_labels =
[40, 43, 45, 47]` and `SWITCHENTRY{cond = 9}` the fixup sets `taken_branch` to
the default label 40, and `execute_taint_ops` runs the block labelled 40
(which labels `GREG(0,0)`) and none of the blocks labelled 43, 45 and 47. -/
theorem C14_switch_fixup_witness :
    process_insn_start_op demo_cfg
        (demo_insn_op "switch" 0 (0, 0) [3, 5, 7] [40, 43, 45, 47] [] [])
        (demo_buf 80) { entries := [demo_switch_entry 9], ptr := 0 }
        { next_step := RETURN, taken_branch := 0 } =
      some (demo_buf 80, { entries := [demo_switch_entry 9], ptr := 1 },
        { next_step := demo_cfg.SWITCHSTEP, taken_branch := 40 }) ∧
    (execute_taint_ops demo_cfg 7 0 demo_s5).final.map
        (fun m1 => (members demo_cfg m1.shad (demo_greg 0 0),
          members demo_cfg m1.shad (demo_greg 3 0), members demo_cfg m1.shad (demo_greg 5 0),
          members demo_cfg m1.shad (demo_greg 7 0))) = some ([40], [], [], []) := by
  have h := C14_switch_fixup demo_cfg
    (demo_insn_op "switch" 0 (0, 0) [3, 5, 7] [40, 43, 45, 47] [] [])
    (demo_buf 80) { entries := [demo_switch_entry 9], ptr := 0 }
    { next_step := RETURN, taken_branch := 0 } (demo_switch_entry 9)
    demo_s5 0 3 (demo_switch_entry 9) 40 2
    rfl rfl rfl rfl (by decide) (by decide) (by decide) rfl (by decide) (by decide)
    rfl rfl rfl rfl rfl (Or.inr ⟨by decide, rfl⟩) (by decide) rfl
    (by
      intro j hj
      match j, hj with
      | 0, _ => decide
      | 1, _ => decide)
  obtain ⟨⟨tk1, e1, _, hdef⟩, hx⟩ := h
  constructor
  · rw [e1, hdef (by decide)]
    rfl
  · refine Eq.trans (congrArg (fun o => (Outcome.final o).map
      (fun m1 => (members demo_cfg m1.shad (demo_greg 0 0),
        members demo_cfg m1.shad (demo_greg 3 0), members demo_cfg m1.shad (demo_greg 5 0),
        members demo_cfg m1.shad (demo_greg 7 0)))) hx) ?_
    decide

/-! ## Claims about the select and phi fixups -/

/-- The body of the loop of the `"select"` fixup never fails; its result. -/
theorem select_fix_eq (sel : Bool) (labels : Int × Int) (cur : TaintOp) :
    select_fix sel labels cur = some
      (if (if sel then labels.2 else labels.1) = -1 then
        { cur with typ := .DELETEOP,
                   a := { typ := .LADDR, val := cur.b.val, off := cur.a.off, flag := .ZERO } }
       else
        { cur with a := { typ := .LADDR, val := int_to_u64 (if sel then labels.2 else labels.1),
                          off := cur.a.off, flag := .ZERO } }) := by
  unfold select_fix
  dsimp only
  by_cases h : (if sel then labels.2 else labels.1) = -1
  · rw [if_pos h, if_pos h]
  · rw [if_neg h, if_neg h]

/-- C15, as amended.  Select fixup, for records of `sz = sizeof(TaintOp) > 0`
bytes.  For an `INSN_START` named `"select"` (flag `INSNREADLOG`) with
`branch_labels` and count `num_ops`, and a log whose next record is
`SELECTENTRY{taken}`, let `s = branch_labels[taken ? 1 : 0]`.  The fixup
succeeds, consumes the record and leaves cursor and globals alone, and each
of the `num_ops` ops that follow (the `COPY` ops of the select) is patched as
follows.  If `s` is not `-1` the op keeps its kind and its destination, and
its source becomes `LADDR` with value `s` and cleared flag, at the offset the
source had.  If `s` is `-1` the op becomes a `DELETE` whose target is `LADDR`
with cleared flag, the value of the copy's destination and the offset of the
copy's source: this is the copy's destination address when the destination is
an `LADDR` without flag at the same offset as the source.  No record outside
the `num_ops` ops changes. -/
theorem C15_select_fixup (cfg : Config) (op : TaintOp) (buf : TaintOpBuffer)
    (d : DynValBuffer) (g : Globals) (e : DynValEntry)
    (hsz : 0 < cfg.SIZEOF_TAINTOP)
    (hname : op.insn_start.name = "select") (hflag : op.insn_start.flag = INSNREADLOG)
    (hrec : d.entries[d.ptr]? = some e) (hkind : e.entrytype = .SELECTENTRY) :
    ∃ data1, process_insn_start_op cfg op buf d g =
        some ({ buf with data := data1 }, { d with ptr := d.ptr + 1 }, g) ∧
      (∀ i, i < op.insn_start.num_ops.toNat →
        (if e.select_sel then op.insn_start.branch_labels.2
          else op.insn_start.branch_labels.1) ≠ -1 →
        data1 (buf.ptr + i * cfg.SIZEOF_TAINTOP) =
          { buf.data (buf.ptr + i * cfg.SIZEOF_TAINTOP) with
            a := { typ := .LADDR,
                   val := int_to_u64 (if e.select_sel then op.insn_start.branch_labels.2
                                      else op.insn_start.branch_labels.1),
                   off := (buf.data (buf.ptr + i * cfg.SIZEOF_TAINTOP)).a.off,
                   flag := .ZERO } }) ∧
      (∀ i, i < op.insn_start.num_ops.toNat →
        (if e.select_sel then op.insn_start.branch_labels.2
          else op.insn_start.branch_labels.1) = -1 →
        data1 (buf.ptr + i * cfg.SIZEOF_TAINTOP) =
          { buf.data (buf.ptr + i * cfg.SIZEOF_TAINTOP) with
            typ := .DELETEOP,
            a := { typ := .LADDR,
                   val := (buf.data (buf.ptr + i * cfg.SIZEOF_TAINTOP)).b.val,
                   off := (buf.data (buf.ptr + i * cfg.SIZEOF_TAINTOP)).a.off,
                   flag := .ZERO } } ∧
        ((buf.data (buf.ptr + i * cfg.SIZEOF_TAINTOP)).b.typ = .LADDR →
          (buf.data (buf.ptr + i * cfg.SIZEOF_TAINTOP)).b.flag = .ZERO →
          (buf.data (buf.ptr + i * cfg.SIZEOF_TAINTOP)).a.off =
            (buf.data (buf.ptr + i * cfg.SIZEOF_TAINTOP)).b.off →
          (data1 (buf.ptr + i * cfg.SIZEOF_TAINTOP)).a =
            (buf.data (buf.ptr + i * cfg.SIZEOF_TAINTOP)).b)) ∧
      (∀ x, (∀ i, i < op.insn_start.num_ops.toNat → x ≠ buf.ptr + i * cfg.SIZEOF_TAINTOP) →
        data1 x = buf.data x) := by
  obtain ⟨data1, e1, hnew, hold⟩ := fix_ops_spec cfg.SIZEOF_TAINTOP hsz
    (select_fix e.select_sel op.insn_start.branch_labels) op.insn_start.num_ops.toNat
    buf.data buf.ptr
    (by
      intro i _
      rw [select_fix_eq]
      rfl)
  refine ⟨data1, ?_, ?_, ?_, hold⟩
  · unfold process_insn_start_op read_dynval_buffer
    rw [hrec]
    simp [hname, hflag, hkind, e1]
  · intro i hi hs
    have h := hnew i hi
    rw [select_fix_eq, if_neg hs] at h
    exact Option.some.inj h
  · intro i hi hs
    have h := hnew i hi
    rw [select_fix_eq, if_pos hs] at h
    have h2 := Option.some.inj h
    refine ⟨h2, ?_⟩
    intro ht hf ho
    rw [h2]
    cases hb : (buf.data (buf.ptr + i * cfg.SIZEOF_TAINTOP)).b with
    | mk typ val off flag =>
      rw [hb] at ht hf ho
      simp only at ht hf ho
      simp only [ht, hf, ho, hb]

/-- C15, as amended, on `INSN_START("select", 1, branch_labels = [-1, 4])`
followed by `COPY{UNK at offset 0, LADDR(7,2)}`: with `SELECTENTRY{taken =
true}` the source becomes `LADDR(4)`, and with `SELECTENTRY{taken = false}`
the op becomes `DELETE{LADDR(7,0)}`. -/
theorem C15_select_fixup_witness :
    (∃ data1, process_insn_start_op demo_cfg (demo_insn_op "select" 1 (-1, 4) [] [] [] [])
        (demo_ops_buf demo_select_ops 80) { entries := [demo_select_entry true], ptr := 0 }
        { next_step := RETURN, taken_branch := 0 } =
        some ({ demo_ops_buf demo_select_ops 80 with data := data1 },
          { entries := [demo_select_entry true], ptr := 1 },
          { next_step := RETURN, taken_branch := 0 }) ∧
      data1 80 = demo_copy_op (demo_laddr 4 0 .ZERO) (demo_laddr 7 2 .ZERO)) ∧
    (∃ data1, process_insn_start_op demo_cfg (demo_insn_op "select" 1 (-1, 4) [] [] [] [])
        (demo_ops_buf demo_select_ops 80) { entries := [demo_select_entry false], ptr := 0 }
        { next_step := RETURN, taken_branch := 0 } =
        some ({ demo_ops_buf demo_select_ops 80 with data := data1 },
          { entries := [demo_select_entry false], ptr := 1 },
          { next_step := RETURN, taken_branch := 0 }) ∧
      data1 80 = { demo_delete_op (demo_laddr 7 0 .ZERO) with b := demo_laddr 7 2 .ZERO }) := by
  constructor
  · obtain ⟨data1, e1, hcopy, _, _⟩ := C15_select_fixup demo_cfg
      (demo_insn_op "select" 1 (-1, 4) [] [] [] []) (demo_ops_buf demo_select_ops 80)
      { entries := [demo_select_entry true], ptr := 0 }
      { next_step := RETURN, taken_branch := 0 } (demo_select_entry true)
      (by decide) rfl rfl rfl rfl
    exact ⟨data1, e1, hcopy 0 (by decide) (by decide)⟩
  · obtain ⟨data1, e1, _, hdel, _⟩ := C15_select_fixup demo_cfg
      (demo_insn_op "select" 1 (-1, 4) [] [] [] []) (demo_ops_buf demo_select_ops 80)
      { entries := [demo_select_entry false], ptr := 0 }
      { next_step := RETURN, taken_branch := 0 } (demo_select_entry false)
      (by decide) rfl rfl rfl rfl
    exact ⟨data1, e1, (hdel 0 (by decide) (by decide)).1⟩

/-- C15 fails on the code.  With `branch_labels = [-1, 4]`, the record
`SELECTENTRY{taken = false}` and the op `COPY{UNK at offset 0, LADDR(7,2)}`,
the op becomes a `DELETE` whose target is `LADDR(7,0)`: it has the offset of
the copy's source, not the offset 2 of the copy's destination. -/
theorem C15_counterexample :
    ((demo_ops_buf demo_select_ops 80).data 80).typ = .COPYOP ∧
    ((demo_ops_buf demo_select_ops 80).data 80).b = demo_laddr 7 2 .ZERO ∧
    (process_insn_start_op demo_cfg (demo_insn_op "select" 1 (-1, 4) [] [] [] [])
        (demo_ops_buf demo_select_ops 80) { entries := [demo_select_entry false], ptr := 0 }
        { next_step := RETURN, taken_branch := 0 }).map
        (fun r => ((r.1.data 80).typ, (r.1.data 80).a)) =
      some (.DELETEOP, demo_laddr 7 0 .ZERO) ∧
    demo_laddr 7 0 .ZERO ≠ ((demo_ops_buf demo_select_ops 80).data 80).b := by
  refine ⟨by decide, by decide, by decide, by decide⟩

/-- The first loop of the `"phi"` fixup stops at the first block equal to
`taken_branch`. -/
theorem phi_source_first (taken : Int) (blocks vals : List Int) (i : Nat) :
    ∀ n k, k ≤ i → i < k + n → blocks.getD i 0 = taken →
      (∀ j, k ≤ j → j < i → blocks.getD j 0 ≠ taken) →
      phi_source taken blocks vals k n = vals.getD i 0 := by
  intro n
  induction n with
  | zero => intro k h1 h2; omega
  | succ n ih =>
    intro k h1 h2 hc hfirst
    simp only [phi_source]
    by_cases hk : k = i
    · subst hk
      rw [if_pos hc.symm]
    · rw [if_neg (fun h => hfirst k (Nat.le_refl k) (by omega) h.symm)]
      exact ih (k + 1) (by omega) (by omega) hc
        (fun j hj1 hj2 => hfirst j (by omega) hj2)

/-- The loop of a fixup fails when its body fails on one of the `n` ops. -/
theorem fix_ops_fail (sz : Nat) (hsz : 0 < sz) (f : TaintOp → Option TaintOp) (n : Nat) :
    ∀ (data : Nat → TaintOp) (off : Nat),
      (∃ i, i < n ∧ f (data (off + i * sz)) = none) →
      fix_ops sz f data off n = none := by
  induction n with
  | zero =>
    intro data off h
    obtain ⟨i, hi, _⟩ := h
    exact absurd hi (Nat.not_lt_zero i)
  | succ n ih =>
    intro data off h
    obtain ⟨i, hi, hf⟩ := h
    simp only [fix_ops]
    cases h0 : f (data off) with
    | none => rfl
    | some op1 =>
      simp only
      cases i with
      | zero =>
        simp only [Nat.zero_mul, Nat.add_zero] at hf
        rw [hf] at h0
        exact absurd h0 (by simp)
      | succ j =>
        apply ih
        refine ⟨j, Nat.lt_of_succ_lt_succ hi, ?_⟩
        have e : off + sz + j * sz = off + (j + 1) * sz := by ring
        rw [e, Function.update_noteq]
        · exact hf
        · have : 0 < (j + 1) * sz := Nat.mul_pos (Nat.succ_pos j) hsz
          omega

theorem phi_fix_copy (addr : Addr) (phiSource : Int) (cur : TaintOp)
    (hc : cur.typ = .COPYOP) (ha : addr.typ = .LADDR) :
    phi_fix addr phiSource cur = some
      { cur with a := { cur.a with typ := .LADDR, val := int_to_u64 phiSource, flag := .ZERO } } := by
  unfold phi_fix Addr.patch
  rw [hc]
  simp only [ha, if_true]

theorem phi_fix_other (addr : Addr) (phiSource : Int) (cur : TaintOp)
    (hc : cur.typ ≠ .COPYOP) : phi_fix addr phiSource cur = none := by
  unfold phi_fix
  cases h : cur.typ <;> simp_all

/-- What `process_insn_start_op` does for the name `"phi"` once it has read a
record that is not an `EXCEPTIONENTRY`. -/
theorem phi_fixup_eq (cfg : Config) (op : TaintOp) (buf : TaintOpBuffer)
    (d : DynValBuffer) (g : Globals) (e : DynValEntry)
    (hname : op.insn_start.name = "phi") (hflag : op.insn_start.flag = INSNREADLOG)
    (hrec : d.entries[d.ptr]? = some e) (hne : e.entrytype ≠ .EXCEPTIONENTRY) :
    process_insn_start_op cfg op buf d g =
      (fix_ops cfg.SIZEOF_TAINTOP
        (phi_fix e.memaccess_addr
          (phi_source g.taken_branch op.insn_start.phi_blocks op.insn_start.phi_vals 0
            cfg.MAXPHIBLOCKS))
        buf.data buf.ptr op.insn_start.num_ops.toNat).map
        (fun data => ({ buf with data := data }, { d with ptr := d.ptr + 1 }, g)) := by
  unfold process_insn_start_op read_dynval_buffer
  rw [hrec]
  simp [hname, hflag, hne]

/-- Function `process_insn_start_op` fails when the log holds no further record. -/
theorem fixup_log_empty (cfg : Config) (op : TaintOp) (buf : TaintOpBuffer)
    (d : DynValBuffer) (g : Globals) (hrec : d.entries[d.ptr]? = none) :
    process_insn_start_op cfg op buf d g = none := by
  unfold process_insn_start_op read_dynval_buffer
  rw [hrec]
  simp

/-- Function `process_insn_start_op` fails when the flag of the op is not `INSNREADLOG`. -/
theorem fixup_flag (cfg : Config) (op : TaintOp) (buf : TaintOpBuffer)
    (d : DynValBuffer) (g : Globals) (hflag : op.insn_start.flag ≠ INSNREADLOG) :
    process_insn_start_op cfg op buf d g = none := by
  unfold process_insn_start_op
  rw [if_pos hflag]

/-- The fixup on an `EXCEPTIONENTRY`, whatever the name of the `INSN_START`:
the record is consumed, `next_step` becomes `EXCEPT`, and the buffer is left
as it is. -/
theorem exception_fixup (cfg : Config) (op : TaintOp) (buf : TaintOpBuffer)
    (d : DynValBuffer) (g : Globals) (e : DynValEntry)
    (hflag : op.insn_start.flag = INSNREADLOG)
    (hrec : d.entries[d.ptr]? = some e) (hkind : e.entrytype = .EXCEPTIONENTRY) :
    process_insn_start_op cfg op buf d g =
      some (buf, { d with ptr := d.ptr + 1 }, { g with next_step := EXCEPT }) := by
  unfold process_insn_start_op read_dynval_buffer
  rw [hrec]
  simp [hflag, hkind]

/-- C16, as amended.  Phi fixup patch, for records of `sz = sizeof(TaintOp) >
0` bytes; `phi_blocks[i]` and `phi_vals[i]` are the elements of the arrays of
the `INSN_START`.  For an `INSN_START` named `"phi"` (flag `INSNREADLOG`) with
count `num_ops` and `i` the lowest index such that `phi_blocks[i]` equals the
current `taken_branch`, `process_insn_start_op` first reads a record of the
log.

When the log holds no further record, the fixup fails on an assertion.  When
the record is `EXCEPTIONENTRY`, no op is patched and `next_step` is set to
`EXCEPT`.

When the record is of another kind: if the `num_ops` ops that follow are all
`COPY` ops and the address type of the record is `LADDR`, the fixup succeeds
and leaves cursor and globals alone, each of these ops keeps its destination
and every other field, and its source becomes `LADDR` with value `phi_vals[i]`
(converted to the unsigned payload) and cleared flag; no other record of the
buffer changes.  If they are all `COPY` ops, there is at least one, and the
address type of the record is not `LADDR`, the fixup fails on an assertion.
If one of the `num_ops` ops is not a `COPY`, the fixup fails on an assertion. -/
theorem C16_phi_fixup_patch (cfg : Config) (op : TaintOp) (buf : TaintOpBuffer)
    (d : DynValBuffer) (g : Globals) (i : Nat)
    (hsz : 0 < cfg.SIZEOF_TAINTOP)
    (hname : op.insn_start.name = "phi") (hflag : op.insn_start.flag = INSNREADLOG)
    (hi : i < cfg.MAXPHIBLOCKS)
    (hblock : op.insn_start.phi_blocks.getD i 0 = g.taken_branch)
    (hfirst : ∀ j, j < i → op.insn_start.phi_blocks.getD j 0 ≠ g.taken_branch) :
    (d.entries[d.ptr]? = none → process_insn_start_op cfg op buf d g = none) ∧
    (∀ e, d.entries[d.ptr]? = some e →
      (e.entrytype = .EXCEPTIONENTRY →
        process_insn_start_op cfg op buf d g =
          some (buf, { d with ptr := d.ptr + 1 }, { g with next_step := EXCEPT })) ∧
      (e.entrytype ≠ .EXCEPTIONENTRY →
        ((∀ k, k < op.insn_start.num_ops.toNat →
            (buf.data (buf.ptr + k * cfg.SIZEOF_TAINTOP)).typ = .COPYOP) →
          e.memaccess_addr.typ = .LADDR →
          ∃ data1, process_insn_start_op cfg op buf d g =
              some ({ buf with data := data1 }, { d with ptr := d.ptr + 1 }, g) ∧
            (∀ k, k < op.insn_start.num_ops.toNat →
              data1 (buf.ptr + k * cfg.SIZEOF_TAINTOP) =
                { buf.data (buf.ptr + k * cfg.SIZEOF_TAINTOP) with a :=
                  { (buf.data (buf.ptr + k * cfg.SIZEOF_TAINTOP)).a with
                    typ := .LADDR, val := int_to_u64 (op.insn_start.phi_vals.getD i 0),
                    flag := .ZERO } }) ∧
            (∀ x, (∀ k, k < op.insn_start.num_ops.toNat →
                x ≠ buf.ptr + k * cfg.SIZEOF_TAINTOP) →
              data1 x = buf.data x)) ∧
        ((∀ k, k < op.insn_start.num_ops.toNat →
            (buf.data (buf.ptr + k * cfg.SIZEOF_TAINTOP)).typ = .COPYOP) →
          e.memaccess_addr.typ ≠ .LADDR → 0 < op.insn_start.num_ops.toNat →
          process_insn_start_op cfg op buf d g = none) ∧
        ((∃ k, k < op.insn_start.num_ops.toNat ∧
            (buf.data (buf.ptr + k * cfg.SIZEOF_TAINTOP)).typ ≠ .COPYOP) →
          process_insn_start_op cfg op buf d g = none))) := by
  refine ⟨fun h => fixup_log_empty cfg op buf d g h, fun e hrec => ⟨fun hkind =>
    exception_fixup cfg op buf d g e hflag hrec hkind, fun hne => ?_⟩⟩
  have hsrc : phi_source g.taken_branch op.insn_start.phi_blocks op.insn_start.phi_vals 0
      cfg.MAXPHIBLOCKS = op.insn_start.phi_vals.getD i 0 :=
    phi_source_first _ _ _ i cfg.MAXPHIBLOCKS 0 (Nat.zero_le i) (by omega) hblock
      (fun j _ hj => hfirst j hj)
  rw [phi_fixup_eq cfg op buf d g e hname hflag hrec hne, hsrc]
  refine ⟨?_, ?_, ?_⟩
  · intro hcopy hL
    obtain ⟨data1, e1, hnew, hold⟩ := fix_ops_spec cfg.SIZEOF_TAINTOP hsz
      (phi_fix e.memaccess_addr (op.insn_start.phi_vals.getD i 0))
      op.insn_start.num_ops.toNat buf.data buf.ptr
      (by
        intro k hk
        rw [phi_fix_copy _ _ _ (hcopy k hk) hL]
        rfl)
    refine ⟨data1, ?_, ?_, hold⟩
    · rw [e1]
      rfl
    · intro k hk
      have h := hnew k hk
      rw [phi_fix_copy _ _ _ (hcopy k hk) hL] at h
      exact Option.some.inj h
  · intro hcopy hL hpos
    rw [fix_ops_fail cfg.SIZEOF_TAINTOP hsz _ _ buf.data buf.ptr
      ⟨0, hpos, by
        unfold phi_fix
        rw [hcopy 0 hpos]
        simp only [if_neg hL]⟩]
    rfl
  · intro hbad
    obtain ⟨k, hk, hty⟩ := hbad
    rw [fix_ops_fail cfg.SIZEOF_TAINTOP hsz _ _ buf.data buf.ptr
      ⟨k, hk, phi_fix_other _ _ _ hty⟩]
    rfl

/-- C16, as amended, on `INSN_START("phi", 1, phi_blocks = [11, 22], phi_vals
= [3, 4])` followed by `COPY{UNK, LADDR(9,0)}`, with `taken_branch = 22` and a
record whose address type is `LADDR`: the source of the `COPY` becomes
`LADDR(4)`. -/
theorem C16_phi_fixup_patch_witness :
    ∃ data1, process_insn_start_op demo_cfg (demo_insn_op "phi" 1 (0, 0) [] [] [11, 22] [3, 4])
        (demo_ops_buf demo_phi_ops 80)
        { entries := [demo_addr_entry .LOAD (demo_laddr 0 0 .ZERO)], ptr := 0 }
        { next_step := RETURN, taken_branch := 22 } =
        some ({ demo_ops_buf demo_phi_ops 80 with data := data1 },
          { entries := [demo_addr_entry .LOAD (demo_laddr 0 0 .ZERO)], ptr := 1 },
          { next_step := RETURN, taken_branch := 22 }) ∧
      data1 80 = demo_copy_op (demo_laddr 4 0 .ZERO) (demo_laddr 9 0 .ZERO) := by
  have h := C16_phi_fixup_patch demo_cfg (demo_insn_op "phi" 1 (0, 0) [] [] [11, 22] [3, 4])
    (demo_ops_buf demo_phi_ops 80)
    { entries := [demo_addr_entry .LOAD (demo_laddr 0 0 .ZERO)], ptr := 0 }
    { next_step := RETURN, taken_branch := 22 } 1
    (by decide) rfl rfl (by decide) rfl
    (by
      intro j hj
      have hj0 : j = 0 := by omega
      subst hj0
      decide)
  obtain ⟨data1, e1, hnew, _⟩ :=
    ((h.2 (demo_addr_entry .LOAD (demo_laddr 0 0 .ZERO)) rfl).2 (by decide)).1
    (by
      intro k hk
      have hk0 : k = 0 := by
        have h1 : (demo_insn_op "phi" 1 (0, 0) [] [] [11, 22] [3, 4]).insn_start.num_ops.toNat
          = 1 := rfl
        omega
      subst hk0
      rfl)
    rfl
  exact ⟨data1, e1, hnew 0 (by decide)⟩

/-- C16 fails on the code.  `INSN_START("phi", 1, phi_blocks = [11, 22],
phi_vals = [3, 4])` is followed by `COPY{UNK, LADDR(9,0)}` and `taken_branch`
is 22, so that `phi_vals[1] = 4` is the value of the claim.  When the next
record of the log is `EXCEPTIONENTRY`, the fixup returns with the `COPY` as
it was, its source still `UNK`, and `next_step = EXCEPT`; when the record has
the address type `MADDR`, and when the log holds no record, the fixup fails
on an assertion although the op is a `COPY`.  The source becomes `LADDR(4)`
when the record has the address type `LADDR`. -/
theorem C16_counterexample :
    (process_insn_start_op demo_cfg (demo_insn_op "phi" 1 (0, 0) [] [] [11, 22] [3, 4])
        (demo_ops_buf demo_phi_ops 80) { entries := [demo_exception_entry], ptr := 0 }
        { next_step := RETURN, taken_branch := 22 }).map
      (fun r => (r.1.data 80, r.2.2.next_step)) =
      some (demo_copy_op demo_unk (demo_laddr 9 0 .ZERO), EXCEPT) ∧
    (process_insn_start_op demo_cfg (demo_insn_op "phi" 1 (0, 0) [] [] [11, 22] [3, 4])
        (demo_ops_buf demo_phi_ops 80)
        { entries := [demo_addr_entry .STORE (demo_maddr 4096 0)], ptr := 0 }
        { next_step := RETURN, taken_branch := 22 }).isNone = true ∧
    (process_insn_start_op demo_cfg (demo_insn_op "phi" 1 (0, 0) [] [] [11, 22] [3, 4])
        (demo_ops_buf demo_phi_ops 80) { entries := [], ptr := 0 }
        { next_step := RETURN, taken_branch := 22 }).isNone = true ∧
    (process_insn_start_op demo_cfg (demo_insn_op "phi" 1 (0, 0) [] [] [11, 22] [3, 4])
        (demo_ops_buf demo_phi_ops 80)
        { entries := [demo_addr_entry .LOAD (demo_laddr 0 0 .ZERO)], ptr := 0 }
        { next_step := RETURN, taken_branch := 22 }).map
      (fun r => (r.1.data 80, r.2.2.next_step)) =
      some (demo_copy_op (demo_laddr 4 0 .ZERO) (demo_laddr 9 0 .ZERO), RETURN) := by
  refine ⟨by decide, by decide, by decide, by decide⟩

theorem phi_fix_congr (a1 a2 : Addr) (phiSource : Int)
    (h : a1.typ = .LADDR ↔ a2.typ = .LADDR) :
    phi_fix a1 phiSource = phi_fix a2 phiSource := by
  funext cur
  unfold phi_fix
  by_cases h1 : a1.typ = .LADDR
  · simp only [h1, h.mp h1]
  · have h2 : ¬ a2.typ = .LADDR := fun h2 => h1 (h.mpr h2)
    simp only [h1, h2]

/-- C17, as amended.  The phi fixup reads one dynamic-log record, as the
fixup of every `INSN_START` does.  For an `INSN_START` named `"phi"`:
whenever `process_insn_start_op` returns, the log held a next record and the
cursor of the log has advanced by exactly one record; when the log holds no
further record the fixup fails on an assertion; and for two logs whose next
records are not `EXCEPTIONENTRY` and agree on whether the address type of the
record is `LADDR`, the patched buffer and the globals are the same, so that
beyond this the result depends only on the op, the buffer and the last
`taken_branch`. -/
theorem C17_phi_fixup_reads_log (cfg : Config) (op : TaintOp) (buf : TaintOpBuffer)
    (g : Globals) (hname : op.insn_start.name = "phi") :
    (∀ d b d1 g1, process_insn_start_op cfg op buf d g = some (b, d1, g1) →
      d.ptr < d.entries.length ∧ d1 = { d with ptr := d.ptr + 1 }) ∧
    (∀ d, d.entries[d.ptr]? = none → process_insn_start_op cfg op buf d g = none) ∧
    (∀ d d2 e e2, d.entries[d.ptr]? = some e → d2.entries[d2.ptr]? = some e2 →
      e.entrytype ≠ .EXCEPTIONENTRY → e2.entrytype ≠ .EXCEPTIONENTRY →
      (e.memaccess_addr.typ = .LADDR ↔ e2.memaccess_addr.typ = .LADDR) →
      (process_insn_start_op cfg op buf d g).map (fun r => (r.1, r.2.2)) =
        (process_insn_start_op cfg op buf d2 g).map (fun r => (r.1, r.2.2))) := by
  refine ⟨?_, fun d h => fixup_log_empty cfg op buf d g h, ?_⟩
  · intro d b d1 g1 h
    by_cases hflag : op.insn_start.flag = INSNREADLOG
    · cases hrec : d.entries[d.ptr]? with
      | none =>
        rw [fixup_log_empty cfg op buf d g hrec] at h
        exact absurd h (by simp)
      | some e =>
        have hlen : d.ptr < d.entries.length := by
          by_contra hc
          rw [List.getElem?_eq_none (Nat.le_of_not_lt hc)] at hrec
          exact absurd hrec (by simp)
        refine ⟨hlen, ?_⟩
        by_cases hne : e.entrytype = .EXCEPTIONENTRY
        · rw [exception_fixup cfg op buf d g e hflag hrec hne] at h
          simp only [Option.some.injEq, Prod.mk.injEq] at h
          exact h.2.1.symm
        · rw [phi_fixup_eq cfg op buf d g e hname hflag hrec hne] at h
          cases hf : fix_ops cfg.SIZEOF_TAINTOP
              (phi_fix e.memaccess_addr
                (phi_source g.taken_branch op.insn_start.phi_blocks op.insn_start.phi_vals 0
                  cfg.MAXPHIBLOCKS))
              buf.data buf.ptr op.insn_start.num_ops.toNat with
          | none =>
            rw [hf] at h
            exact absurd h (by simp)
          | some data =>
            rw [hf] at h
            simp only [Option.map_some', Option.some.injEq, Prod.mk.injEq] at h
            exact h.2.1.symm
    · rw [fixup_flag cfg op buf d g hflag] at h
      exact absurd h (by simp)
  · intro d d2 e e2 hrec hrec2 hne hne2 hiff
    by_cases hflag : op.insn_start.flag = INSNREADLOG
    · rw [phi_fixup_eq cfg op buf d g e hname hflag hrec hne,
        phi_fixup_eq cfg op buf d2 g e2 hname hflag hrec2 hne2,
        phi_fix_congr e.memaccess_addr e2.memaccess_addr _ hiff]
      simp only [Option.map_map]
      rfl
    · rw [fixup_flag cfg op buf d g hflag, fixup_flag cfg op buf d2 g hflag]

/-- C17, as amended, on `INSN_START("phi", 1, phi_blocks = [11, 22], phi_vals
= [3, 4])` followed by one `COPY`, with `taken_branch = 22`: the fixup on the
log holding one `LADDR` record leaves the cursor of the log at 1, and the
fixup on the empty log fails. -/
theorem C17_phi_fixup_reads_log_witness :
    (process_insn_start_op demo_cfg (demo_insn_op "phi" 1 (0, 0) [] [] [11, 22] [3, 4])
        (demo_ops_buf demo_phi_ops 80)
        { entries := [demo_addr_entry .LOAD (demo_laddr 0 0 .ZERO)], ptr := 0 }
        { next_step := RETURN, taken_branch := 22 }).map (fun r => r.2.1) =
      some { entries := [demo_addr_entry .LOAD (demo_laddr 0 0 .ZERO)], ptr := 1 } ∧
    process_insn_start_op demo_cfg (demo_insn_op "phi" 1 (0, 0) [] [] [11, 22] [3, 4])
        (demo_ops_buf demo_phi_ops 80) { entries := [], ptr := 0 }
        { next_step := RETURN, taken_branch := 22 } = none := by
  have h := C17_phi_fixup_reads_log demo_cfg (demo_insn_op "phi" 1 (0, 0) [] [] [11, 22] [3, 4])
    (demo_ops_buf demo_phi_ops 80) { next_step := RETURN, taken_branch := 22 } rfl
  refine ⟨?_, h.2.1 { entries := [], ptr := 0 } rfl⟩
  cases hp : process_insn_start_op demo_cfg (demo_insn_op "phi" 1 (0, 0) [] [] [11, 22] [3, 4])
      (demo_ops_buf demo_phi_ops 80)
      { entries := [demo_addr_entry .LOAD (demo_laddr 0 0 .ZERO)], ptr := 0 }
      { next_step := RETURN, taken_branch := 22 } with
  | none =>
    have hs : (process_insn_start_op demo_cfg
        (demo_insn_op "phi" 1 (0, 0) [] [] [11, 22] [3, 4]) (demo_ops_buf demo_phi_ops 80)
        { entries := [demo_addr_entry .LOAD (demo_laddr 0 0 .ZERO)], ptr := 0 }
        { next_step := RETURN, taken_branch := 22 }).isSome = true := by decide
    rw [hp] at hs
    exact absurd hs (by simp)
  | some r =>
    obtain ⟨b, d1, g1⟩ := r
    have h1 := (h.1 _ b d1 g1 hp).2
    simp only [Option.map_some']
    rw [h1]

/-- C17 fails on the code.  Processing `INSN_START("phi", 1, ...)` with a log
of one record whose address type is `LADDR` moves the cursor of the log from
0 to 1; and the result depends on the contents of the log: on that log the
fixup succeeds, on the empty log and on a log whose record has the address
type `MADDR` it fails on an assertion. -/
theorem C17_counterexample :
    (process_insn_start_op demo_cfg (demo_insn_op "phi" 1 (0, 0) [] [] [11, 22] [3, 4])
        (demo_ops_buf demo_phi_ops 80)
        { entries := [demo_addr_entry .LOAD (demo_laddr 0 0 .ZERO)], ptr := 0 }
        { next_step := RETURN, taken_branch := 22 }).map (fun r => r.2.1.ptr) = some 1 ∧
    process_insn_start_op demo_cfg (demo_insn_op "phi" 1 (0, 0) [] [] [11, 22] [3, 4])
        (demo_ops_buf demo_phi_ops 80) { entries := [], ptr := 0 }
        { next_step := RETURN, taken_branch := 22 } = none ∧
    process_insn_start_op demo_cfg (demo_insn_op "phi" 1 (0, 0) [] [] [11, 22] [3, 4])
        (demo_ops_buf demo_phi_ops 80)
        { entries := [demo_addr_entry .LOAD (demo_maddr 12288 0)], ptr := 0 }
        { next_step := RETURN, taken_branch := 22 } = none := by
  refine ⟨by decide, rfl, rfl⟩

/-! ## Claims about exceptions, calls and returns -/

theorem tob_op_read_data (sz : Nat) (buf b : TaintOpBuffer) (op : TaintOp)
    (h : tob_op_read sz buf = some (b, op)) : b.data = buf.data ∧ op = buf.data buf.ptr := by
  unfold tob_op_read at h
  dsimp only at h
  split at h
  · simp only [Option.some.injEq, Prod.mk.injEq] at h
    exact ⟨by rw [← h.1], h.2.symm⟩
  · exact absurd h (by simp)

/-- One iteration of the loop of `tob_process` on an `INSN_START` whose fixup
reads an `EXCEPTIONENTRY`: `tob_process` returns at once. -/
theorem loop_exception (cfg : Config) (f : Nat) (r : BufRef) (m : Machine)
    (b : TaintOpBuffer) (op : TaintOp) (e : DynValEntry)
    (hend : tob_end (m.buf r) = false)
    (hread : tob_op_read cfg.SIZEOF_TAINTOP (m.buf r) = some (b, op))
    (ht : op.typ = .INSNSTARTOP) (hflag : op.insn_start.flag = INSNREADLOG)
    (hrec : m.dynval_buf.entries[m.dynval_buf.ptr]? = some e)
    (hkind : e.entrytype = .EXCEPTIONENTRY) :
    tob_process_loop cfg (f + 1) r m =
      .done { m.set_buf r b with
        dynval_buf := { m.dynval_buf with ptr := m.dynval_buf.ptr + 1 },
        g := { m.g with next_step := EXCEPT } } := by
  have hfix := exception_fixup cfg op b m.dynval_buf m.g e hflag hrec hkind
  simp only [tob_process_loop, hend, hread, ht, Machine.buf_set_buf, Machine.set_buf_log,
    Machine.set_buf_g, hfix, Bool.false_eq_true, if_false, if_true, Machine.set_buf_set_buf]

/-- C18. Exception terminates the pass at once.  Let the loop of
`tob_process` on the buffer `r` be at an `INSN_START` op (of any name, flag
`INSNREADLOG`) in the state `m`, which is the state the ops before the
`INSN_START` have produced, and let the next record of the log be
`EXCEPTIONENTRY`.  Then the fixup consumes the record, sets `next_step` to
`EXCEPT` and returns the buffer as it is (no op is patched); `tob_process`
returns at once, whatever follows in the buffer: the cursor stays right
behind the `INSN_START`, the records of the buffer are as before and the
shadow state is exactly `m.shad`; and the loop of `execute_taint_ops` over the
successor blocks ends without processing any block. -/
theorem C18_exception_terminates (cfg : Config) (m : Machine) (r : BufRef)
    (b : TaintOpBuffer) (op : TaintOp) (e : DynValEntry) (f t f2 : Nat)
    (hend : tob_end (m.buf r) = false)
    (hread : tob_op_read cfg.SIZEOF_TAINTOP (m.buf r) = some (b, op))
    (ht : op.typ = .INSNSTARTOP) (hflag : op.insn_start.flag = INSNREADLOG)
    (hrec : m.dynval_buf.entries[m.dynval_buf.ptr]? = some e)
    (hkind : e.entrytype = .EXCEPTIONENTRY) :
    process_insn_start_op cfg op b m.dynval_buf m.g =
      some (b, { m.dynval_buf with ptr := m.dynval_buf.ptr + 1 },
        { m.g with next_step := EXCEPT }) ∧
    ∃ m1, tob_process_loop cfg (f + 1) r m = .done m1 ∧
      m1.shad = m.shad ∧ m1.g.next_step = EXCEPT ∧
      m1.dynval_buf.ptr = m.dynval_buf.ptr + 1 ∧
      m1.buf r = b ∧ (m1.buf r).data = (m.buf r).data ∧
      execute_succ cfg (f2 + 1) t m1 = .done m1 := by
  refine ⟨exception_fixup cfg op b m.dynval_buf m.g e hflag hrec hkind, _,
    loop_exception cfg f r m b op e hend hread ht hflag hrec hkind, ?_, rfl, rfl, ?_, ?_, ?_⟩
  · exact Machine.set_buf_shad m r b
  · rw [Machine.buf_with, Machine.buf_set_buf]
  · rw [Machine.buf_with, Machine.buf_set_buf]
    exact (tob_op_read_data _ _ _ _ hread).1
  · exact succ_stop cfg f2 t _ (Or.inr rfl)

/-- C18 on scenario S6.  In the state reached when the `LABEL` op that
precedes `INSN_START("load", 1)` has been processed, `tob_process` returns at
once with `next_step = EXCEPT`, the shadow state of that moment and the `COPY`
op unpatched; and `execute_taint_ops` on the scenario ends with the label 5 of
the first op on `GREG(1,0)`, nothing on the destination `LADDR(5,0)` of the
`COPY`, nothing on `GREG(2,0)` (the op after the `COPY`) and nothing on
`GREG(3,0)` (the successor block). -/
theorem C18_exception_terminates_witness :
    (∃ m1, tob_process_loop demo_cfg 1 (.entry 0) demo_s6_mid = .done m1 ∧
      m1.shad = demo_s6_mid.shad ∧ m1.g.next_step = EXCEPT ∧ m1.dynval_buf.ptr = 1 ∧
      (m1.buf (.entry 0)).ptr = 160 ∧
      (m1.buf (.entry 0)).data 160 = demo_copy_op demo_unk (demo_laddr 5 0 .ZERO) ∧
      execute_succ demo_cfg 1 0 m1 = .done m1) ∧
    (execute_taint_ops demo_cfg 8 0 demo_s6).final.map
        (fun m1 => (m1.g.next_step, m1.dynval_buf.ptr,
          [members demo_cfg m1.shad (demo_greg 1 0),
           members demo_cfg m1.shad (demo_laddr 5 0 .ZERO),
           members demo_cfg m1.shad (demo_greg 2 0),
           members demo_cfg m1.shad (demo_greg 3 0)])) = some (EXCEPT, 1, [[5], [], [], []]) := by
  obtain ⟨_, m1, e1, hs, hg, hl, hb, hd, hx⟩ := C18_exception_terminates demo_cfg demo_s6_mid
    (.entry 0) { demo_ops_buf demo_s6_ops 160 with size := 320 }
    (demo_insn_op "load" 1 (0, 0) [] [] [] []) demo_exception_entry 0 0 0
    (by decide) rfl rfl rfl rfl rfl
  refine ⟨⟨m1, e1, hs, hg, hl, ?_, ?_, hx⟩, by decide⟩
  · rw [hb]
    rfl
  · rw [hd]
    rfl

theorem Machine.ttbs_set_buf_entry_ne (m : Machine) (t c : Nat) (b : TaintOpBuffer)
    (h : c ≠ t) : (m.set_buf (.entry t) b).ttbs c = m.ttbs c := by
  simp [Machine.set_buf, Function.update_noteq h]

theorem Machine.buf_set_buf_entry_ne (m : Machine) (t c : Nat) (b : TaintOpBuffer)
    (h : c ≠ t) : (m.set_buf (.entry c) b).buf (.entry t) = m.buf (.entry t) := by
  simp [Machine.set_buf, Machine.buf, Function.update_noteq (Ne.symm h)]

theorem Machine.set_buf_with_shad (m : Machine) (r : BufRef) (b : TaintOpBuffer) (s : Shad) :
    { m.set_buf r b with shad := s } = Machine.set_buf { m with shad := s } r b := by
  cases r <;> rfl

/-- One iteration of the loop of `tob_process` on a `CALL` op. -/
theorem loop_call (cfg : Config) (f : Nat) (r : BufRef) (m : Machine)
    (b : TaintOpBuffer) (op : TaintOp)
    (hend : tob_end (m.buf r) = false)
    (hread : tob_op_read cfg.SIZEOF_TAINTOP (m.buf r) = some (b, op))
    (ht : op.typ = .CALLOP) :
    tob_process_loop cfg (f + 1) r m =
      match execute_taint_ops cfg f op.call_ttb
        { m.set_buf r b with
          shad := { m.shad with current_frame := (m.shad.current_frame + 1) % U32 } } with
      | .done m2 => tob_process_loop cfg f r m2
      | o => o := by
  simp only [tob_process_loop, hend, hread, ht, Machine.set_buf_shad, Bool.false_eq_true,
    if_false]

/-- Running a translation block whose entry block begins with an `INSN_START`
when the next record of the log is `EXCEPTIONENTRY`: `execute_taint_ops` ends
with `next_step = EXCEPT`, the record consumed and the cursor of the entry
block behind the `INSN_START`; nothing else has changed. -/
theorem exec_exception (cfg : Config) (m : Machine) (c fuel : Nat) (e : DynValEntry)
    (hsz : 0 < cfg.SIZEOF_TAINTOP)
    (hsize : cfg.SIZEOF_TAINTOP ≤ (m.ttbs c).entry.ops.size)
    (hfit : (m.ttbs c).entry.ops.size ≤ (m.ttbs c).entry.ops.max_size)
    (hmax : (m.ttbs c).entry.ops.max_size < U32)
    (h0 : ((m.ttbs c).entry.ops.data 0).typ = .INSNSTARTOP)
    (hflag : ((m.ttbs c).entry.ops.data 0).insn_start.flag = INSNREADLOG)
    (hrec : m.dynval_buf.entries[m.dynval_buf.ptr]? = some e)
    (hkind : e.entrytype = .EXCEPTIONENTRY) :
    execute_taint_ops cfg (fuel + 3) c m =
      .done { m.set_buf (.entry c) { (m.ttbs c).entry.ops with ptr := cfg.SIZEOF_TAINTOP } with
        dynval_buf := { m.dynval_buf with ptr := m.dynval_buf.ptr + 1 },
        g := { m.g with next_step := EXCEPT } } := by
  generalize hbuf : (m.ttbs c).entry.ops = buf0 at *
  have hread0 : tob_op_read cfg.SIZEOF_TAINTOP (tob_rewind buf0) =
      some ({ buf0 with ptr := cfg.SIZEOF_TAINTOP }, buf0.data 0) := by
    have h := tob_op_read_within cfg.SIZEOF_TAINTOP (tob_rewind buf0) hmax
      (by simp only [tob_rewind]; omega) (by simp only [tob_rewind]; omega)
    simpa [tob_rewind] using h
  have hend0 : tob_end (tob_rewind buf0) = false := by
    simp only [tob_end, tob_rewind, decide_eq_false_iff_not, ge_iff_le, not_le]
    omega
  have hm0 : Machine.buf { m with g := { m.g with next_step := RETURN } } (.entry c) = buf0 :=
    hbuf
  simp only [execute_taint_ops, tob_process]
  rw [hm0]
  rw [loop_exception cfg fuel (.entry c) _ { buf0 with ptr := cfg.SIZEOF_TAINTOP }
    (buf0.data 0) e
    (by rw [Machine.buf_set_buf]; exact hend0)
    (by rw [Machine.buf_set_buf]; exact hread0) h0 hflag
    (by rw [Machine.set_buf_log]; exact hrec) hkind]
  show execute_succ cfg (fuel + 1 + 1) c _ = _
  rw [succ_stop cfg (fuel + 1) c _ (Or.inr rfl)]
  simp only [Machine.set_buf_set_buf, Machine.set_buf_log, Machine.set_buf_g]
  rfl

/-- An exception read by the first op of a translation block, in the
translation block that is executed and in one entered through a `CALL`.  Let
the entry block of the translation block at `c` begin with an `INSN_START`
(flag `INSNREADLOG`) and let the next record of the log be `EXCEPTIONENTRY`.
`execute_taint_ops` on `c` ends with `next_step = EXCEPT` and with the shadow
state unchanged.  When the entry block of the translation block at `t`
consists of the one op `CALL{ttb = c}`, `execute_taint_ops` on `t` ends with
`next_step = EXCEPT` and with `current_frame` one more than before the
execute (modulo `2^32`): the increment of the `CALL` is not undone. -/
theorem exception_in_callee_frame (cfg : Config) (m : Machine) (t c fuel : Nat)
    (e : DynValEntry)
    (hsz : 0 < cfg.SIZEOF_TAINTOP)
    (hsize : cfg.SIZEOF_TAINTOP ≤ (m.ttbs c).entry.ops.size)
    (hfit : (m.ttbs c).entry.ops.size ≤ (m.ttbs c).entry.ops.max_size)
    (hmax : (m.ttbs c).entry.ops.max_size < U32)
    (h0 : ((m.ttbs c).entry.ops.data 0).typ = .INSNSTARTOP)
    (hflag : ((m.ttbs c).entry.ops.data 0).insn_start.flag = INSNREADLOG)
    (hrec : m.dynval_buf.entries[m.dynval_buf.ptr]? = some e)
    (hkind : e.entrytype = .EXCEPTIONENTRY)
    (htc : c ≠ t)
    (hsizet : (m.ttbs t).entry.ops.size = cfg.SIZEOF_TAINTOP)
    (hmaxt : (m.ttbs t).entry.ops.max_size < U32)
    (hfitt : cfg.SIZEOF_TAINTOP ≤ (m.ttbs t).entry.ops.max_size)
    (hcall : ((m.ttbs t).entry.ops.data 0).typ = .CALLOP)
    (httb : ((m.ttbs t).entry.ops.data 0).call_ttb = c) :
    (∃ m1, execute_taint_ops cfg (fuel + 3) c m = .done m1 ∧
      m1.g.next_step = EXCEPT ∧ m1.shad = m.shad) ∧
    (∃ m1, execute_taint_ops cfg (fuel + 6) t m = .done m1 ∧
      m1.g.next_step = EXCEPT ∧
      m1.shad = { m.shad with current_frame := (m.shad.current_frame + 1) % U32 }) := by
  constructor
  · exact ⟨_, exec_exception cfg m c fuel e hsz hsize hfit hmax h0 hflag hrec hkind, rfl,
      Machine.set_buf_shad _ _ _⟩
  · generalize hbuf : (m.ttbs t).entry.ops = buf0 at hsizet hmaxt hfitt hcall httb
    have hU32 : U32 = 4294967296 := rfl
    have hread0 : tob_op_read cfg.SIZEOF_TAINTOP (tob_rewind buf0) =
        some ({ buf0 with ptr := cfg.SIZEOF_TAINTOP }, buf0.data 0) := by
      have h := tob_op_read_within cfg.SIZEOF_TAINTOP (tob_rewind buf0) hmaxt
        (by simp only [tob_rewind]; omega) (by simp only [tob_rewind]; omega)
      simpa [tob_rewind] using h
    have hend0 : tob_end (tob_rewind buf0) = false := by
      simp only [tob_end, tob_rewind, decide_eq_false_iff_not, ge_iff_le, not_le]
      omega
    have hend1 : tob_end { buf0 with ptr := cfg.SIZEOF_TAINTOP } = true := by
      simp only [tob_end, decide_eq_true_eq, ge_iff_le]
      omega
    have hm0 : Machine.buf { m with g := { m.g with next_step := RETURN } } (.entry t) = buf0 :=
      hbuf
    have e1 : execute_taint_ops cfg (fuel + 6) t m =
        match (match execute_taint_ops cfg (fuel + 3) c
            (Machine.set_buf
              { m with shad := { m.shad with current_frame := (m.shad.current_frame + 1) % U32 },
                       g := { m.g with next_step := RETURN } }
              (.entry t) { buf0 with ptr := cfg.SIZEOF_TAINTOP }) with
          | .done m2 => tob_process_loop cfg (fuel + 3) (.entry t) m2
          | o => o) with
        | .done m3 => execute_succ cfg (fuel + 5) t m3
        | r => r := by
      simp only [execute_taint_ops, tob_process]
      rw [hm0]
      rw [loop_call cfg (fuel + 3) (.entry t) _ { buf0 with ptr := cfg.SIZEOF_TAINTOP }
        (buf0.data 0)
        (by rw [Machine.buf_set_buf]; exact hend0)
        (by rw [Machine.buf_set_buf]; exact hread0) hcall, httb]
      simp only [Machine.set_buf_set_buf, Machine.set_buf_with_shad, Machine.set_buf_shad]
      rfl
    have e2 := exec_exception cfg
      (Machine.set_buf
        { m with shad := { m.shad with current_frame := (m.shad.current_frame + 1) % U32 },
                 g := { m.g with next_step := RETURN } }
        (.entry t) { buf0 with ptr := cfg.SIZEOF_TAINTOP }) c fuel e hsz
      (by rw [Machine.ttbs_set_buf_entry_ne _ _ _ _ htc]; exact hsize)
      (by rw [Machine.ttbs_set_buf_entry_ne _ _ _ _ htc]; exact hfit)
      (by rw [Machine.ttbs_set_buf_entry_ne _ _ _ _ htc]; exact hmax)
      (by rw [Machine.ttbs_set_buf_entry_ne _ _ _ _ htc]; exact h0)
      (by rw [Machine.ttbs_set_buf_entry_ne _ _ _ _ htc]; exact hflag)
      (by rw [Machine.set_buf_log]; exact hrec) hkind
    rw [e2] at e1
    simp only at e1
    rw [loop_at_end cfg (fuel + 2) (.entry t) _
      (by
        rw [Machine.buf_with, Machine.buf_set_buf_entry_ne _ _ _ _ htc, Machine.buf_set_buf]
        exact hend1)] at e1
    simp only at e1
    rw [show fuel + 5 = fuel + 4 + 1 from rfl,
      succ_stop cfg (fuel + 4) t _ (Or.inr (by rw [Machine.set_buf_g]))] at e1
    exact ⟨_, e1, by rw [Machine.set_buf_g], by
      simp only [Machine.set_buf_shad]⟩

/-- C19 fails on the code.  The caller consists of `CALL{ttb = 1}`, the
callee of `INSN_START("load", 1)`, `COPY{UNK, LADDR(5,0)}` and `RET`;
`current_frame` is 0 and `MADDR(0x3000)` carries label 9.

The execute of the caller on a log that holds `EXCEPTIONENTRY` ends with
`next_step = EXCEPT` and `current_frame = 1`; on a log that holds
`ADDRENTRY{LOAD, MADDR(0x3000)}` instead it runs to the `RET` of the callee
and ends with `current_frame = 0`.

A subsequent execute, on a log that holds `ADDRENTRY{LOAD, MADDR(0x3000)}`,
does not operate as after the uninterrupted run.  The execute of a
translation block that loads into `LADDR(5,0)` ends normally in both cases,
but after the interrupted run it has written to register 5 of frame 1, so
register 5 of frame 0 is untainted, while after the uninterrupted run
register 5 of frame 0 has the members `[9]`.  The execute of the caller
itself ends normally after the uninterrupted run and fails on the frame
assertion of `tp_labelset_put` after the interrupted run, the `CALL` having
raised `current_frame` to 2. -/
theorem C19_exception_leaves_frame_of_call :
    (demo_call_tainted [demo_exception_entry]).shad.current_frame = 0 ∧
    (execute_taint_ops demo_cfg 8 0 (demo_call_tainted [demo_exception_entry])).final.map
        (fun m1 => (m1.g.next_step, m1.shad.current_frame)) = some (EXCEPT, 1) ∧
    (execute_taint_ops demo_cfg 12 0
        (demo_call_tainted [demo_addr_entry .LOAD (demo_maddr 12288 0)])).final.map
        (fun m1 => (m1.g.next_step, m1.shad.current_frame)) = some (RETURN, 0) ∧
    (execute_taint_ops demo_cfg 8 0 (demo_call_tainted [demo_exception_entry])).final.map
      (fun m1 => (execute_taint_ops demo_cfg 12 1
          { m1 with dynval_buf :=
              { entries := [demo_addr_entry .LOAD (demo_maddr 12288 0)], ptr := 0 } }).final.map
        (fun m2 => (m2.g.next_step, m2.shad.current_frame,
          members demo_cfg m2.shad (demo_laddr 5 0 .ZERO)))) =
      some (some (RETURN, 0, [])) ∧
    (execute_taint_ops demo_cfg 12 0
        (demo_call_tainted [demo_addr_entry .LOAD (demo_maddr 12288 0)])).final.map
      (fun m1 => (execute_taint_ops demo_cfg 12 1
          { m1 with dynval_buf :=
              { entries := [demo_addr_entry .LOAD (demo_maddr 12288 0)], ptr := 0 } }).final.map
        (fun m2 => (m2.g.next_step, m2.shad.current_frame,
          members demo_cfg m2.shad (demo_laddr 5 0 .ZERO)))) =
      some (some (RETURN, 0, [9])) ∧
    (execute_taint_ops demo_cfg 8 0 (demo_call_tainted [demo_exception_entry])).final.map
      (fun m1 => (execute_taint_ops demo_cfg 12 0
          { m1 with dynval_buf :=
              { entries := [demo_addr_entry .LOAD (demo_maddr 12288 0)], ptr := 0 } }).aborted) =
      some true ∧
    (execute_taint_ops demo_cfg 12 0
        (demo_call_tainted [demo_addr_entry .LOAD (demo_maddr 12288 0)])).final.map
      (fun m1 => (execute_taint_ops demo_cfg 12 0
          { m1 with dynval_buf :=
              { entries := [demo_addr_entry .LOAD (demo_maddr 12288 0)], ptr := 0 } }).final.map
        (fun m2 => (m2.g.next_step, m2.shad.current_frame))) =
      some (some (RETURN, 0)) := by
  refine ⟨rfl, by decide!, by decide!, by decide!, by decide!, by decide!, by decide!⟩

/-- One iteration of the loop of `tob_process` on a `RET` op. -/
theorem loop_ret (cfg : Config) (f : Nat) (r : BufRef) (m : Machine)
    (b : TaintOpBuffer) (op : TaintOp)
    (hend : tob_end (m.buf r) = false)
    (hread : tob_op_read cfg.SIZEOF_TAINTOP (m.buf r) = some (b, op))
    (ht : op.typ = .RETOP) :
    tob_process_loop cfg (f + 1) r m =
      if m.shad.current_frame > 0 then
        tob_process_loop cfg f r
          { m.set_buf r b with
            shad := { m.shad with current_frame := m.shad.current_frame - 1 } }
      else tob_process_loop cfg f r (m.set_buf r b) := by
  simp only [tob_process_loop, hend, hread, ht, Machine.set_buf_shad, Bool.false_eq_true,
    if_false]
  by_cases h : m.shad.current_frame > 0
  · simp only [h, if_true]
  · have h0 : m.shad.current_frame = 0 := by omega
    simp [h0]

/-- C20, as amended.  Processing a `RET` op decrements `current_frame` by one
when `current_frame > 0`; when `current_frame` is 0 it is not an error: the
state stays as it is and the loop of `tob_process` goes on with the next op.
(The assertion of the `RET` case tests `(int)current_frame < 0` in the branch
where `current_frame` is 0, and so never fails.) -/
theorem C20_ret_decrements_or_skips (cfg : Config) (f : Nat) (r : BufRef) (m : Machine)
    (b : TaintOpBuffer) (op : TaintOp)
    (hend : tob_end (m.buf r) = false)
    (hread : tob_op_read cfg.SIZEOF_TAINTOP (m.buf r) = some (b, op))
    (ht : op.typ = .RETOP) :
    (0 < m.shad.current_frame →
      tob_process_loop cfg (f + 1) r m =
        tob_process_loop cfg f r
          { m.set_buf r b with
            shad := { m.shad with current_frame := m.shad.current_frame - 1 } }) ∧
    (m.shad.current_frame = 0 →
      tob_process_loop cfg (f + 1) r m = tob_process_loop cfg f r (m.set_buf r b)) := by
  have h := loop_ret cfg f r m b op hend hread ht
  constructor
  · intro hpos
    rw [h, if_pos hpos]
  · intro h0
    rw [h, if_neg (by omega)]

/-- C20, as amended, on a block that consists of the one op `RET`: with
`current_frame = 1` the pass ends with `current_frame = 0`, and with
`current_frame = 0` it ends, too, with `current_frame = 0`. -/
theorem C20_ret_decrements_or_skips_witness :
    (tob_process_loop demo_cfg 2 (.entry 0) (demo_ret 1)).final.map
        (fun m1 => m1.shad.current_frame) = some 0 ∧
    (tob_process_loop demo_cfg 2 (.entry 0) (demo_ret 0)).final.map
        (fun m1 => m1.shad.current_frame) = some 0 := by
  have h1 := (C20_ret_decrements_or_skips demo_cfg 1 (.entry 0) (demo_ret 1)
    { demo_ops_buf [demo_ret_op] 80 with size := 80 } demo_ret_op
    (by decide) rfl rfl).1 (by decide)
  have h0 := (C20_ret_decrements_or_skips demo_cfg 1 (.entry 0) (demo_ret 0)
    { demo_ops_buf [demo_ret_op] 80 with size := 80 } demo_ret_op
    (by decide) rfl rfl).2 rfl
  constructor
  · refine Eq.trans (congrArg (fun o => (Outcome.final o).map
      (fun m1 => m1.shad.current_frame)) h1) ?_
    decide
  · refine Eq.trans (congrArg (fun o => (Outcome.final o).map
      (fun m1 => m1.shad.current_frame)) h0) ?_
    decide

/-- C20 fails on the code.  With `current_frame = 0`, executing a translation
block that consists of the one op `RET` is no error: `execute_taint_ops` ends
normally, with `next_step = RETURN` and `current_frame = 0`. -/
theorem C20_counterexample :
    (demo_ret 0).shad.current_frame = 0 ∧
    (execute_taint_ops demo_cfg 4 0 (demo_ret 0)).final.map
        (fun m1 => (m1.g.next_step, m1.shad.current_frame)) = some (RETURN, 0) := by
  refine ⟨rfl, by decide⟩

/-! ## Claims about the frame index -/

theorem demo_top_reachable : Reachable demo_cfg demo_top :=
  Reachable.frame 1
    (Reachable.label (demo_laddr 250 0 .ZERO) 7 (Reachable.init 64 65536 64 2000)
      (rfl : tp_label demo_cfg demo_shad (demo_laddr 250 0 .ZERO) 7 =
        some ((tp_label demo_cfg demo_shad (demo_laddr 250 0 .ZERO) 7).getD demo_shad)))

/-- With `FUNCTIONFRAMES ≤ current_frame`, the frame assertion of the `LADDR`
case of `tp_labelset_get` and of `tp_labelset_put` fails. -/
theorem laddr_frame_fail (cfg : Config) (s : Shad) (a : Addr) (p : Option Nat)
    (hf : FUNCTIONFRAMES ≤ s.current_frame) (hu : s.current_frame + 1 < U32)
    (ha : a.typ = .LADDR) :
    tp_labelset_get cfg s a = none ∧ tp_labelset_put cfg s a p = none := by
  have hn : next_frame s = s.current_frame + 1 := Nat.mod_eq_of_lt hu
  have hbad : ¬ get_ok s a := by
    intro h
    have h2 := h.2 ha
    rw [hn] at h2
    split at h2 <;> omega
  exact ⟨tp_labelset_get_fail cfg s a hbad,
    tp_labelset_put_fail cfg s a p (fun h => hbad h.2)⟩

/-- C21, as amended.  A `CALL` op increments `current_frame` (a `uint32_t`)
and executes the callee whatever the frame is: the loop of `tob_process`
continues from the state the callee leaves and checks no bound.  The bound is
checked where a slot of an LLVM register is read or written: in a state with
`FUNCTIONFRAMES ≤ current_frame` (and `current_frame + 1` representable),
`tp_labelset_get` and `tp_labelset_put` fail on every `LADDR` address. -/
theorem C21_call_increments_unchecked (cfg : Config) (f : Nat) (r : BufRef) (m : Machine)
    (b : TaintOpBuffer) (op : TaintOp)
    (hend : tob_end (m.buf r) = false)
    (hread : tob_op_read cfg.SIZEOF_TAINTOP (m.buf r) = some (b, op))
    (ht : op.typ = .CALLOP) :
    tob_process_loop cfg (f + 1) r m =
      (match execute_taint_ops cfg f op.call_ttb
        { m.set_buf r b with
          shad := { m.shad with current_frame := (m.shad.current_frame + 1) % U32 } } with
      | .done m2 => tob_process_loop cfg f r m2
      | o => o) ∧
    ∀ (s : Shad) (a : Addr) (p : Option Nat),
      FUNCTIONFRAMES ≤ s.current_frame → s.current_frame + 1 < U32 → a.typ = .LADDR →
      tp_labelset_get cfg s a = none ∧ tp_labelset_put cfg s a p = none :=
  ⟨loop_call cfg f r m b op hend hread ht,
    fun s a p hf hu ha => laddr_frame_fail cfg s a p hf hu ha⟩

/-- C21, as amended, on the three levels of calls: the pass over the block of
the first `CALL` ends normally with `current_frame = 2`, and in a state with
`current_frame = 2` the read and the write of `LADDR(5,0)` fail. -/
theorem C21_call_increments_unchecked_witness :
    (tob_process_loop demo_cfg 12 (.entry 0) demo_nested).final.map
        (fun m1 => m1.shad.current_frame) = some 2 ∧
    tp_labelset_get demo_cfg { demo_shad with current_frame := 2 } (demo_laddr 5 0 .ZERO) =
      none ∧
    tp_labelset_put demo_cfg { demo_shad with current_frame := 2 } (demo_laddr 5 0 .ZERO) none =
      none := by
  have h := C21_call_increments_unchecked demo_cfg 11 (.entry 0) demo_nested
    { demo_ops_buf [demo_call_op 1] 80 with size := 80 } (demo_call_op 1)
    (by decide) rfl rfl
  have h2 := h.2 { demo_shad with current_frame := 2 } (demo_laddr 5 0 .ZERO) none
    (by decide) (by decide) rfl
  refine ⟨?_, h2.1, h2.2⟩
  refine Eq.trans (congrArg (fun o => (Outcome.final o).map
    (fun m1 => m1.shad.current_frame)) h.1) ?_
  decide

/-- C21 fails on the code.  From the result of `tp_init`, the execute of a
translation block that calls a block that calls a third one ends normally,
with `next_step = RETURN`, in a state with `current_frame = 2 =
FUNCTIONFRAMES`; the third block has run in that frame and has labelled
`GREG(3,0)`. -/
theorem C21_counterexample :
    demo_nested.shad = tp_init demo_cfg 64 65536 64 2000 ∧ FUNCTIONFRAMES = 2 ∧
    (execute_taint_ops demo_cfg 12 0 demo_nested).final.map
        (fun m1 => (m1.g.next_step, m1.shad.current_frame,
          members demo_cfg m1.shad (demo_greg 3 0))) = some (RETURN, 2, [5]) := by
  refine ⟨rfl, rfl, by decide⟩

/-- C22 fails on the code.  In the reachable state `demo_top`, with
`current_frame = 1` and so `current_frame + 1 = FUNCTIONFRAMES`, the slot at
index 4000 of `llv` holds the label 7 (it is read as `LADDR(125,0)` in frame
1 and as `LADDR(250,0)` in frame 0).  On the address `LADDR(0,0)` with flag
`FUNCARG`, `tp_label` fails, and so do `tp_copy` and `tp_compute` from a
tainted source; but `tp_delete`, `tp_copy` from an untainted source and
`tp_compute` from untainted sources succeed, and each of them has emptied the
slot at index 4000. -/
theorem C22_delete_funcarg_unchecked :
    Reachable demo_cfg demo_top ∧ FUNCTIONFRAMES ≤ demo_top.current_frame + 1 ∧
    members demo_cfg demo_top (demo_laddr 125 0 .ZERO) = [7] ∧
    members demo_cfg { demo_top with current_frame := 0 } (demo_laddr 250 0 .ZERO) = [7] ∧
    tp_label demo_cfg demo_top (demo_laddr 0 0 .FUNCARG) 3 = none ∧
    tp_copy demo_cfg demo_top (demo_laddr 125 0 .ZERO) (demo_laddr 0 0 .FUNCARG) = none ∧
    tp_compute demo_cfg demo_top (demo_laddr 125 0 .ZERO) (demo_greg 1 0)
      (demo_laddr 0 0 .FUNCARG) = none ∧
    [tp_delete demo_cfg demo_top (demo_laddr 0 0 .FUNCARG),
     tp_copy demo_cfg demo_top (demo_greg 1 0) (demo_laddr 0 0 .FUNCARG),
     tp_compute demo_cfg demo_top (demo_greg 1 0) (demo_greg 2 0)
       (demo_laddr 0 0 .FUNCARG)].map
      (fun r => r.map (fun s1 => (s1.llv 4000, members demo_cfg s1 (demo_laddr 125 0 .ZERO),
        members demo_cfg { s1 with current_frame := 0 } (demo_laddr 250 0 .ZERO)))) =
      [some (none, [], []), some (none, [], []), some (none, [], [])] :=
  ⟨demo_top_reachable, by decide, by decide, by decide, rfl, rfl, rfl, by decide⟩

/-! ## Claims about the dispatch of the interpreter -/

/-- After a change of one slot that leaves the label sets alone, every address
of another slot has the members and the type tag it had. -/
theorem Upd.members_other {cfg : Config} {s s1 : Shad} {sl : Slot} {v : Option Nat}
    (u : Upd cfg s s1 sl v) (x : Addr) (h : slot_of cfg s x ≠ some sl) :
    members cfg s1 x = members cfg s x ∧ type_tag cfg s1 x = type_tag cfg s x := by
  by_cases ok : get_ok s x
  · exact members_congr cfg ok ((get_ok_congr u.frame x).2 ok) (ptr_of_other u.slots h)
      u.content
  · have ok1 : ¬ get_ok s1 x := fun h1 => ok ((get_ok_congr u.frame x).1 h1)
    simp only [members, type_tag, tp_labelset_get_fail cfg s x ok,
      tp_labelset_get_fail cfg s1 x ok1]
    exact ⟨trivial, trivial⟩

/-- One iteration of the loop of `tob_process` on a `COPY` op whose source is
flagged `IRRELEVANT`. -/
theorem loop_copy_irrelevant (cfg : Config) (f : Nat) (r : BufRef) (m : Machine)
    (b : TaintOpBuffer) (op : TaintOp) (s1 : Shad)
    (hend : tob_end (m.buf r) = false)
    (hread : tob_op_read cfg.SIZEOF_TAINTOP (m.buf r) = some (b, op))
    (ht : op.typ = .COPYOP) (ha : op.a.flag = .IRRELEVANT)
    (hd : tp_delete cfg m.shad op.b = some s1) :
    tob_process_loop cfg (f + 1) r m =
      tob_process_loop cfg f r { m.set_buf r b with shad := s1 } := by
  simp only [tob_process_loop, hend, hread, ht, ha, Machine.set_buf_shad, hd,
    Bool.false_eq_true, if_false, if_true]

/-- C23. Interpreter handling of a `COPY` whose source is `IRRELEVANT`.  Let
the loop of `tob_process` be at a `COPY` op whose source has the flag
`IRRELEVANT` (whatever its type, payload and offset) and whose destination `b`
is an in-range address of a tracked type, in any shadow state.  Then the
iteration succeeds and only changes the shadow state, to a state in which
`tp_query(b)` is false, whatever `b` held; every address that resolves to
another slot than `b` has the members and the type tag it had. -/
theorem C23_copy_irrelevant_source (cfg : Config) (f : Nat) (r : BufRef) (m : Machine)
    (b : TaintOpBuffer) (op : TaintOp)
    (hend : tob_end (m.buf r) = false)
    (hread : tob_op_read cfg.SIZEOF_TAINTOP (m.buf r) = some (b, op))
    (ht : op.typ = .COPYOP) (ha : op.a.flag = .IRRELEVANT)
    (hb : in_range cfg m.shad op.b) :
    ∃ s1, tob_process_loop cfg (f + 1) r m =
        tob_process_loop cfg f r { m.set_buf r b with shad := s1 } ∧
      (∃ s2, tp_query cfg s1 op.b = some (s2, false)) ∧
      (∀ x, slot_of cfg m.shad x ≠ slot_of cfg m.shad op.b →
        members cfg s1 x = members cfg m.shad x ∧
        type_tag cfg s1 x = type_tag cfg m.shad x) := by
  have ok := in_range_put_ok hb
  obtain ⟨s1, sl, e, hsl, u⟩ := tp_delete_spec cfg m.shad op.b ok.1
  have ok1 : get_ok s1 op.b := (get_ok_congr u.frame op.b).2 ok.2
  refine ⟨s1, loop_copy_irrelevant cfg f r m b op s1 hend hread ht ha e, ?_, ?_⟩
  · rw [query_false_iff cfg s1 op.b ok1, members_eq cfg s1 op.b ok1, ptr_of_at u.slots hsl]
    rfl
  · intro x hx
    exact u.members_other x (fun h => hx (by rw [h, hsl]))

/-- C23 on the state in which `GREG(2,0)` carries label 1 and a block that
consists of `COPY{UNK flagged IRRELEVANT, GREG(2,0)}`: after the iteration
`GREG(2,0)` is untainted, and the pass ends. -/
theorem C23_copy_irrelevant_source_witness :
    (∃ s1, tob_process_loop demo_cfg 2 (.entry 0)
        (demo_machine_on demo_tainted [] [demo_copy_op demo_irrelevant (demo_greg 2 0)] []) =
        tob_process_loop demo_cfg 1 (.entry 0)
          { (demo_machine_on demo_tainted [] [demo_copy_op demo_irrelevant (demo_greg 2 0)]
              []).set_buf (.entry 0)
              { demo_ops_buf [demo_copy_op demo_irrelevant (demo_greg 2 0)] 80 with size := 80 }
            with shad := s1 } ∧
      (∃ s2, tp_query demo_cfg s1 (demo_greg 2 0) = some (s2, false))) ∧
    members demo_cfg demo_tainted (demo_greg 2 0) = [1] ∧
    (tob_process_loop demo_cfg 2 (.entry 0)
        (demo_machine_on demo_tainted [] [demo_copy_op demo_irrelevant (demo_greg 2 0)] [])
      ).final.map (fun m1 => members demo_cfg m1.shad (demo_greg 2 0)) = some [] := by
  obtain ⟨s1, e, hq, _⟩ := C23_copy_irrelevant_source demo_cfg 1 (.entry 0)
    (demo_machine_on demo_tainted [] [demo_copy_op demo_irrelevant (demo_greg 2 0)] [])
    { demo_ops_buf [demo_copy_op demo_irrelevant (demo_greg 2 0)] 80 with size := 80 }
    (demo_copy_op demo_irrelevant (demo_greg 2 0))
    (by decide) rfl rfl rfl ⟨by decide, by decide, by decide, by decide⟩
  exact ⟨⟨s1, e, hq⟩, by decide, by decide⟩

/-- One iteration of the loop of `tob_process` on an op that is skipped. -/
theorem loop_skip (cfg : Config) (f : Nat) (r : BufRef) (m : Machine)
    (b : TaintOpBuffer) (op : TaintOp)
    (hend : tob_end (m.buf r) = false)
    (hread : tob_op_read cfg.SIZEOF_TAINTOP (m.buf r) = some (b, op))
    (hskip : (op.typ = .DELETEOP ∧ op.a.flag = .IRRELEVANT) ∨
      (op.typ = .COPYOP ∧ op.b.flag = .IRRELEVANT ∧ op.a.flag ≠ .IRRELEVANT) ∨
      (op.typ = .COMPUTEOP ∧ op.c.flag = .IRRELEVANT) ∨
      (op.typ = .COMPUTEOP ∧ cfg.TAINTED_POINTER = true ∧
        (op.c.typ = .GREG ∨ op.c.typ = .GSPEC))) :
    tob_process_loop cfg (f + 1) r m = tob_process_loop cfg f r (m.set_buf r b) := by
  rcases hskip with ⟨ht, h1⟩ | ⟨ht, h1, h2⟩ | ⟨ht, h1⟩ | ⟨ht, h1, h2⟩
  · simp only [tob_process_loop, hend, hread, ht, h1, Bool.false_eq_true, if_false, if_true]
  · simp only [tob_process_loop, hend, hread, ht, h1, h2, Bool.false_eq_true, if_false, if_true]
  · simp only [tob_process_loop, hend, hread, ht, h1, Bool.false_eq_true, if_false, if_true]
  · by_cases h3 : op.c.flag = .IRRELEVANT
    · simp only [tob_process_loop, hend, hread, ht, h3, Bool.false_eq_true, if_false, if_true]
    · simp only [tob_process_loop, hend, hread, ht, h1, h2, h3, Bool.false_eq_true, if_false,
        true_and, if_true]

/-- C24. Skipped ops are no-ops.  When the loop of `tob_process` is at a
`DELETE` whose target has the flag `IRRELEVANT`, at a `COPY` whose destination
has the flag `IRRELEVANT` and whose source has not, at a `COMPUTE` whose
destination has the flag `IRRELEVANT`, or in tainted-pointer mode at a
`COMPUTE` whose destination has the type `GREG` or `GSPEC`, the iteration only
moves the cursor behind the op: no function of the shadow-memory API is
called, the shadow state is the same, and the loop goes on with the next op.
Nothing is assumed about the types of the addresses of the op, so the
iteration raises no error when a flagged address has type `UNK`. -/
theorem C24_skipped_ops (cfg : Config) (f : Nat) (r : BufRef) (m : Machine)
    (b : TaintOpBuffer) (op : TaintOp)
    (hend : tob_end (m.buf r) = false)
    (hread : tob_op_read cfg.SIZEOF_TAINTOP (m.buf r) = some (b, op))
    (hskip : (op.typ = .DELETEOP ∧ op.a.flag = .IRRELEVANT) ∨
      (op.typ = .COPYOP ∧ op.b.flag = .IRRELEVANT ∧ op.a.flag ≠ .IRRELEVANT) ∨
      (op.typ = .COMPUTEOP ∧ op.c.flag = .IRRELEVANT) ∨
      (op.typ = .COMPUTEOP ∧ cfg.TAINTED_POINTER = true ∧
        (op.c.typ = .GREG ∨ op.c.typ = .GSPEC))) :
    tob_process_loop cfg (f + 1) r m = tob_process_loop cfg f r (m.set_buf r b) ∧
    (m.set_buf r b).shad = m.shad ∧ (m.set_buf r b).dynval_buf = m.dynval_buf ∧
    (m.set_buf r b).g = m.g :=
  ⟨loop_skip cfg f r m b op hend hread hskip, Machine.set_buf_shad m r b,
    Machine.set_buf_log m r b, Machine.set_buf_g m r b⟩

/-- C24 on the state in which `GREG(2,0)` carries label 1 and a block of the
four skipped ops `demo_skipped_ops`, whose flagged addresses have type `UNK`:
the first iteration leaves the shadow state alone, and the pass over the four
ops ends with `GREG(2,0)` still carrying label 1 and `GREG(3,0)` untainted. -/
theorem C24_skipped_ops_witness :
    (tob_process_loop demo_cfg 5 (.entry 0) (demo_machine_on demo_tainted [] demo_skipped_ops [])
        = tob_process_loop demo_cfg 4 (.entry 0)
          ((demo_machine_on demo_tainted [] demo_skipped_ops []).set_buf (.entry 0)
            { demo_ops_buf demo_skipped_ops 80 with size := 320 })) ∧
    (tob_process_loop demo_cfg 5 (.entry 0)
        (demo_machine_on demo_tainted [] demo_skipped_ops [])).final.map
        (fun m1 => (members demo_cfg m1.shad (demo_greg 2 0),
          members demo_cfg m1.shad (demo_greg 3 0))) = some ([1], []) := by
  have h := C24_skipped_ops demo_cfg 4 (.entry 0)
    (demo_machine_on demo_tainted [] demo_skipped_ops [])
    { demo_ops_buf demo_skipped_ops 80 with size := 320 } (demo_delete_op demo_irrelevant)
    (by decide) rfl (Or.inl ⟨rfl, rfl⟩)
  exact ⟨h.1, by decide⟩

/-! ## Claims about constant and unresolved addresses -/

theorem ptr_of_const (cfg : Config) (s : Shad) (k : Addr) (hk : k.typ = .CONST) :
    ptr_of cfg s k = none := by
  simp [ptr_of, slot_of, hk]

theorem get_ok_const (s : Shad) (k : Addr) (hk : k.typ = .CONST) : get_ok s k := by
  constructor
  · rw [hk]; decide
  · intro h; rw [hk] at h; cases h

theorem members_const (cfg : Config) (s : Shad) (k : Addr) (hk : k.typ = .CONST) :
    members cfg s k = [] := by
  rw [members_eq cfg s k (get_ok_const s k hk), ptr_of_const cfg s k hk]
  rfl

/-- C25. A `CONST` address reads as empty.

In every state, `tp_query` on an address of type `CONST` returns false and
leaves the state as it is.

In every state, `tp_copy` from a `CONST` source to an in-range address `b` of
a tracked type succeeds and leaves `b` untainted.

In every reachable state, for in-range tracked addresses `a` and `c`,
`tp_compute` with the `CONST` address as one source and `a` as the other
succeeds and gives `c` exactly the members of `a`. -/
theorem C25_const_reads_empty (cfg : Config) (s : Shad) (k : Addr) (hk : k.typ = .CONST) :
    tp_query cfg s k = some (s, false) ∧
    (∀ b, in_range cfg s b →
      ∃ s1, tp_copy cfg s k b = some s1 ∧ ∃ s2, tp_query cfg s1 b = some (s2, false)) ∧
    (∀ a c, Reachable cfg s → in_range cfg s a → in_range cfg s c →
      (∃ s1, tp_compute cfg s k a c = some s1 ∧
        ∀ x, x ∈ members cfg s1 c ↔ x ∈ members cfg s a) ∧
      (∃ s1, tp_compute cfg s a k c = some s1 ∧
        ∀ x, x ∈ members cfg s1 c ↔ x ∈ members cfg s a)) := by
  have okk := get_ok_const s k hk
  refine ⟨?_, ?_, ?_⟩
  · rw [tp_query_eq cfg s k okk, ptr_of_const cfg s k hk]
    rfl
  · intro b hb
    have okb := in_range_put_ok hb
    have heq : addrs_equal k b = some false := by
      unfold addrs_equal
      rw [if_pos]
      rw [hk]
      intro h
      exact okb.1.2 h.symm
    obtain ⟨s1, slb, e, hsl, u⟩ := tp_copy_spec cfg s k b heq okk okb
    rw [ptr_of_const cfg s k hk] at u
    have ok1 : get_ok s1 b := (get_ok_congr u.frame b).2 okb.2
    refine ⟨s1, e, ?_⟩
    rw [query_false_iff cfg s1 b ok1, members_eq cfg s1 b ok1, ptr_of_at u.slots hsl]
    rfl
  · intro a c hr ha hc
    have oka := in_range_put_ok ha
    have okc := in_range_put_ok hc
    constructor
    · obtain ⟨s1, e, _, hm, _⟩ := tp_compute_result cfg s k a c hr.inv okk oka.2 okc
      refine ⟨s1, e, fun x => ?_⟩
      rw [hm x, members_const cfg s k hk]
      simp
    · obtain ⟨s1, e, _, hm, _⟩ := tp_compute_result cfg s a k c hr.inv oka.2 okk okc
      refine ⟨s1, e, fun x => ?_⟩
      rw [hm x, members_const cfg s k hk]
      simp

/-- C25 on the state in which `GREG(2,0)` carries label 1: the query of the
`CONST` address is false, the copy from it untaints `GREG(2,0)`, and the
compute of it and `GREG(2,0)` gives `MADDR(0x2000)` the label 1. -/
theorem C25_const_reads_empty_witness :
    tp_query demo_cfg demo_tainted demo_const = some (demo_tainted, false) ∧
    (∃ s1, tp_copy demo_cfg demo_tainted demo_const (demo_greg 2 0) = some s1 ∧
      ∃ s2, tp_query demo_cfg s1 (demo_greg 2 0) = some (s2, false)) ∧
    (∃ s1, tp_compute demo_cfg demo_tainted demo_const (demo_greg 2 0) (demo_maddr 8192 0) =
        some s1 ∧ ∀ x, x ∈ members demo_cfg s1 (demo_maddr 8192 0) ↔ x ∈ [1]) := by
  have h := C25_const_reads_empty demo_cfg demo_tainted demo_const rfl
  refine ⟨h.1, h.2.1 (demo_greg 2 0) ⟨by decide, by decide, by decide, by decide⟩, ?_⟩
  obtain ⟨s1, e, hm⟩ := (h.2.2 (demo_greg 2 0) (demo_maddr 8192 0) demo_tainted_reachable
    ⟨by decide, by decide, by decide, by decide⟩ ⟨by decide, by decide, trivial⟩).1
  refine ⟨s1, e, fun x => ?_⟩
  rw [hm x]
  have hme : members demo_cfg demo_tainted (demo_greg 2 0) = [1] := by decide
  rw [hme]

/-- C26. Unresolved or constant addresses are rejected where a resolved
address is required.  In every state, for a destination `d` of type `CONST`
or `UNK` and a source `u` of type `UNK`, and whatever the other addresses
are: `tp_label`, `tp_delete`, `tp_copy` to `d` and `tp_compute` to `d` fail,
and so does `tp_labelset_put` on `d` in every state; `tp_query` of `u`,
`tp_copy` from `u` and `tp_compute` with `u` as first or as second source
fail.

No label set has changed when the assertion fails: `tp_delete` and
`tp_labelset_put` fail on `d` before they store anything, whatever state they
are called in, and the only calls that complete before are calls of
`tp_labelset_get` on the sources, each of which leaves the pointer of every
slot, the members and the type tag of every label set and the frame as they
were. -/
theorem C26_unresolved_rejected (cfg : Config) (s : Shad) (d u : Addr)
    (hd : d.typ = .CONST ∨ d.typ = .UNK) (hu : u.typ = .UNK) :
    (∀ l, tp_label cfg s d l = none) ∧ tp_delete cfg s d = none ∧
    (∀ a, tp_copy cfg s a d = none) ∧ (∀ a b, tp_compute cfg s a b d = none) ∧
    (∀ s0 p, tp_labelset_put cfg s0 d p = none) ∧
    tp_query cfg s u = none ∧ (∀ b, tp_copy cfg s u b = none) ∧
    (∀ b c, tp_compute cfg s u b c = none) ∧ (∀ a c, tp_compute cfg s a u c = none) ∧
    (∀ x s1 p, tp_labelset_get cfg s x = some (s1, p) →
      (∀ sl, slot_ptr cfg s1 sl = slot_ptr cfg s sl) ∧ same_content s.pool s1.pool ∧
      s1.current_frame = s.current_frame) := by
  have hdel : ¬ del_ok d := by
    intro h
    rcases hd with h1 | h1
    · exact h.2 h1
    · exact h.1 h1
  have hput : ∀ s0, ¬ put_ok s0 d := fun s0 h => hdel h.1
  have hget : ∀ s0, ¬ get_ok s0 u := fun s0 h => h.1 hu
  refine ⟨?_, tp_delete_fail cfg s d hdel, ?_, ?_,
    fun s0 p => tp_labelset_put_fail cfg s0 d p (hput s0), ?_, ?_, ?_, ?_, ?_⟩
  · intro l
    unfold tp_label
    cases hg : tp_labelset_get cfg s d with
    | none => rfl
    | some r =>
      obtain ⟨s1, ls⟩ := r
      simp only [tp_labelset_put_fail cfg _ d _ (hput _)]
  · intro a
    unfold tp_copy
    cases addrs_equal a d with
    | none => rfl
    | some t =>
      cases t with
      | true => rfl
      | false =>
        cases hg : tp_labelset_get cfg s a with
        | none => rfl
        | some r =>
          obtain ⟨s1, ls⟩ := r
          simp only [tp_labelset_put_fail cfg _ d _ (hput _), tp_delete_fail cfg _ d hdel]
          split <;> rfl
  · intro a b
    unfold tp_compute
    cases hg : tp_labelset_get cfg s a with
    | none => rfl
    | some r =>
      obtain ⟨s1, ls⟩ := r
      dsimp only
      cases hg2 : tp_labelset_get cfg s1 b with
      | none => rfl
      | some r2 =>
        obtain ⟨s2, ls2⟩ := r2
        simp only [tp_delete_fail cfg _ d hdel]
  · unfold tp_query
    rw [tp_labelset_get_fail cfg s u (hget s)]
  · intro b
    unfold tp_copy
    cases addrs_equal u b with
    | none => rfl
    | some t =>
      cases t with
      | true => rfl
      | false => simp only [tp_labelset_get_fail cfg s u (hget s)]
  · intro b c
    unfold tp_compute
    rw [tp_labelset_get_fail cfg s u (hget s)]
  · intro a c
    unfold tp_compute
    cases hg : tp_labelset_get cfg s a with
    | none => rfl
    | some r =>
      obtain ⟨s1, ls⟩ := r
      simp only [tp_labelset_get_fail cfg s1 u (hget s1)]
  · intro x s1 p hg
    by_cases ok : get_ok s x
    · rw [tp_labelset_get_eq cfg s x ok] at hg
      simp only [Option.some.injEq, Prod.mk.injEq] at hg
      obtain ⟨h1, _⟩ := hg
      subst h1
      exact ⟨fun sl => slot_ptr_pool cfg s _ sl, labelset_copy_content _ _, rfl⟩
    · rw [tp_labelset_get_fail cfg s x ok] at hg
      exact absurd hg (by simp)

/-- C26 on the state in which `GREG(2,0)` carries label 1, with the `CONST`
address as destination and the `UNK` address as source. -/
theorem C26_unresolved_rejected_witness :
    tp_label demo_cfg demo_tainted demo_const 3 = none ∧
    tp_delete demo_cfg demo_tainted demo_const = none ∧
    tp_copy demo_cfg demo_tainted (demo_greg 2 0) demo_const = none ∧
    tp_compute demo_cfg demo_tainted (demo_greg 2 0) (demo_greg 2 0) demo_const = none ∧
    tp_query demo_cfg demo_tainted demo_unk = none ∧
    tp_copy demo_cfg demo_tainted demo_unk (demo_greg 3 0) = none ∧
    tp_compute demo_cfg demo_tainted (demo_greg 2 0) demo_unk (demo_greg 3 0) = none := by
  have h := C26_unresolved_rejected demo_cfg demo_tainted demo_const demo_unk (Or.inl rfl) rfl
  exact ⟨h.1 3, h.2.1, h.2.2.1 _, h.2.2.2.1 _ _, h.2.2.2.2.2.1, h.2.2.2.2.2.2.1 _,
    h.2.2.2.2.2.2.2.2.1 _ _⟩

/-- C27. Log misalignment is fatal.  Let the next record of the log be `e`,
not an `EXCEPTIONENTRY`.  Then `process_insn_start_op` fails, whatever the
buffer and the globals are, for an `INSN_START` named `"load"` when `e` is not
an `ADDRENTRY` with op `LOAD` (an `ADDRENTRY` with op `STORE` included), named
`"store"` when `e` is not an `ADDRENTRY` with op `STORE` (an `ADDRENTRY` with
op `LOAD` included), named `"condbranch"` when `e` is not a `BRANCHENTRY`,
named `"switch"` when `e` is not a `SWITCHENTRY`, and named `"select"` when
`e` is not a `SELECTENTRY`.  The failure is the result of the test of the
kind, which stands before the patch of the ops and before the assignments to
`next_step` and `taken_branch`. -/
theorem C27_log_misalignment (cfg : Config) (op : TaintOp) (buf : TaintOpBuffer)
    (d : DynValBuffer) (g : Globals) (e : DynValEntry)
    (hrec : d.entries[d.ptr]? = some e) (hne : e.entrytype ≠ .EXCEPTIONENTRY) :
    (op.insn_start.name = "load" →
      (e.entrytype ≠ .ADDRENTRY ∨ e.memaccess_op ≠ .LOAD) →
      process_insn_start_op cfg op buf d g = none) ∧
    (op.insn_start.name = "store" →
      (e.entrytype ≠ .ADDRENTRY ∨ e.memaccess_op ≠ .STORE) →
      process_insn_start_op cfg op buf d g = none) ∧
    (op.insn_start.name = "condbranch" → e.entrytype ≠ .BRANCHENTRY →
      process_insn_start_op cfg op buf d g = none) ∧
    (op.insn_start.name = "switch" → e.entrytype ≠ .SWITCHENTRY →
      process_insn_start_op cfg op buf d g = none) ∧
    (op.insn_start.name = "select" → e.entrytype ≠ .SELECTENTRY →
      process_insn_start_op cfg op buf d g = none) := by
  by_cases hflag : op.insn_start.flag = INSNREADLOG
  · refine ⟨?_, ?_, ?_, ?_, ?_⟩ <;> intro hname hbad <;>
      unfold process_insn_start_op read_dynval_buffer <;> rw [hrec] <;>
      simp [hname, hflag, hne, hbad]
  · have hf := fixup_flag cfg op buf d g hflag
    exact ⟨fun _ _ => hf, fun _ _ => hf, fun _ _ => hf, fun _ _ => hf, fun _ _ => hf⟩

/-- C27 on the five names, each with a record of another kind: `"load"` with
`ADDRENTRY{STORE}`, `"store"` with `ADDRENTRY{LOAD}`, `"condbranch"` with
`SWITCHENTRY`, `"switch"` with `SELECTENTRY` and `"select"` with
`BRANCHENTRY`. -/
theorem C27_log_misalignment_witness :
    process_insn_start_op demo_cfg (demo_insn_op "load" 1 (0, 0) [] [] [] [])
        (demo_ops_buf demo_store_ops 80)
        { entries := [demo_addr_entry .STORE (demo_maddr 12288 0)], ptr := 0 }
        { next_step := RETURN, taken_branch := 0 } = none ∧
    process_insn_start_op demo_cfg (demo_insn_op "store" 3 (0, 0) [] [] [] [])
        (demo_ops_buf demo_store_ops 80)
        { entries := [demo_addr_entry .LOAD (demo_maddr 12288 0)], ptr := 0 }
        { next_step := RETURN, taken_branch := 0 } = none ∧
    process_insn_start_op demo_cfg (demo_insn_op "condbranch" 0 (11, 22) [] [] [] [])
        (demo_ops_buf demo_store_ops 80) { entries := [demo_switch_entry 9], ptr := 0 }
        { next_step := RETURN, taken_branch := 0 } = none ∧
    process_insn_start_op demo_cfg (demo_insn_op "switch" 0 (0, 0) [3] [40, 43] [] [])
        (demo_ops_buf demo_store_ops 80) { entries := [demo_select_entry true], ptr := 0 }
        { next_step := RETURN, taken_branch := 0 } = none ∧
    process_insn_start_op demo_cfg (demo_insn_op "select" 1 (-1, 4) [] [] [] [])
        (demo_ops_buf demo_store_ops 80) { entries := [demo_branch_entry true], ptr := 0 }
        { next_step := RETURN, taken_branch := 0 } = none :=
  ⟨(C27_log_misalignment demo_cfg (demo_insn_op "load" 1 (0, 0) [] [] [] [])
      (demo_ops_buf demo_store_ops 80)
      { entries := [demo_addr_entry .STORE (demo_maddr 12288 0)], ptr := 0 }
      { next_step := RETURN, taken_branch := 0 } (demo_addr_entry .STORE (demo_maddr 12288 0))
      rfl (by decide)).1 rfl (Or.inr (by decide)),
    (C27_log_misalignment demo_cfg (demo_insn_op "store" 3 (0, 0) [] [] [] [])
      (demo_ops_buf demo_store_ops 80)
      { entries := [demo_addr_entry .LOAD (demo_maddr 12288 0)], ptr := 0 }
      { next_step := RETURN, taken_branch := 0 } (demo_addr_entry .LOAD (demo_maddr 12288 0))
      rfl (by decide)).2.1 rfl (Or.inr (by decide)),
    (C27_log_misalignment demo_cfg (demo_insn_op "condbranch" 0 (11, 22) [] [] [] [])
      (demo_ops_buf demo_store_ops 80) { entries := [demo_switch_entry 9], ptr := 0 }
      { next_step := RETURN, taken_branch := 0 } (demo_switch_entry 9)
      rfl (by decide)).2.2.1 rfl (by decide),
    (C27_log_misalignment demo_cfg (demo_insn_op "switch" 0 (0, 0) [3] [40, 43] [] [])
      (demo_ops_buf demo_store_ops 80) { entries := [demo_select_entry true], ptr := 0 }
      { next_step := RETURN, taken_branch := 0 } (demo_select_entry true)
      rfl (by decide)).2.2.2.1 rfl (by decide),
    (C27_log_misalignment demo_cfg (demo_insn_op "select" 1 (-1, 4) [] [] [] [])
      (demo_ops_buf demo_store_ops 80) { entries := [demo_branch_entry true], ptr := 0 }
      { next_step := RETURN, taken_branch := 0 } (demo_branch_entry true)
      rfl (by decide)).2.2.2.2 rfl (by decide)⟩

/-- The loop of `execute_taint_ops` over the successor blocks finds nothing
when no block is labelled `taken`. -/
theorem find_tbb_none (tb : TaintTB) (taken : Int) :
    ∀ n k, (∀ j, k ≤ j → j < k + n → (tb.tbbs j).label ≠ taken) →
      find_tbb tb taken k n = none := by
  intro n
  induction n with
  | zero => intro k _; rfl
  | succ n ih =>
    intro k hall
    simp only [find_tbb]
    rw [if_neg (hall k (Nat.le_refl k) (by omega))]
    exact ih (k + 1) (fun j hj1 hj2 => hall j (by omega) (by omega))

/-- One iteration of the loop of `execute_taint_ops` that finds no block. -/
theorem succ_none (cfg : Config) (f t : Nat) (m : Machine)
    (h1 : m.g.next_step ≠ RETURN) (h2 : m.g.next_step ≠ EXCEPT)
    (hfind : find_tbb (m.ttbs t) m.g.taken_branch 0 ((m.ttbs t).numBBs - 1).toNat = none) :
    execute_succ cfg (f + 2) t m = .done { m with g := { m.g with next_step := RETURN } } := by
  have e : execute_succ cfg (f + 1 + 1) t m =
      execute_succ cfg (f + 1) t { m with g := { m.g with next_step := RETURN } } := by
    simp only [execute_succ, h1, h2, ne_eq, not_false_eq_true, and_self, if_true, hfind]
  rw [e]
  exact succ_stop cfg f t _ (Or.inl rfl)

/-- C28. Successor selection in `execute_taint_ops`.  Let the loop that
follows the entry block be entered with `next_step` neither `RETURN` nor
`EXCEPT`.

If `i` is the lowest index among the `numBBs - 1` non-entry blocks whose label
equals `taken_branch`, the iteration processes exactly the block `tbbs[i]`,
with `next_step` reset to `RETURN`, and the loop then goes on from the state
that block returned.

If no non-entry block has that label, `execute_taint_ops` ends without
processing any block and without error; only `next_step` has been reset to
`RETURN`. -/
theorem C28_successor_selection (cfg : Config) (f t : Nat) (m : Machine)
    (h1 : m.g.next_step ≠ RETURN) (h2 : m.g.next_step ≠ EXCEPT) :
    (∀ i, i < ((m.ttbs t).numBBs - 1).toNat →
      ((m.ttbs t).tbbs i).label = m.g.taken_branch →
      (∀ j, j < i → ((m.ttbs t).tbbs j).label ≠ m.g.taken_branch) →
      execute_succ cfg (f + 1) t m =
        match tob_process cfg f (.tbb t i) { m with g := { m.g with next_step := RETURN } } with
        | .done m3 => execute_succ cfg f t m3
        | o => o) ∧
    ((∀ j, j < ((m.ttbs t).numBBs - 1).toNat →
        ((m.ttbs t).tbbs j).label ≠ m.g.taken_branch) →
      execute_succ cfg (f + 2) t m =
        .done { m with g := { m.g with next_step := RETURN } }) := by
  constructor
  · intro i hi hlab hfirst
    exact succ_step cfg f t m i h1 h2
      (find_tbb_first _ _ i _ 0 (Nat.zero_le i) (by omega) hlab (fun j _ hj => hfirst j hj))
  · intro hall
    exact succ_none cfg f t m h1 h2
      (find_tbb_none _ _ _ 0 (fun j _ hj => hall j (by omega)))

/-- C28 on the blocks of scenario S4, entered with `next_step = BRANCH`: with
`taken_branch = 22` exactly the block labelled 22 runs (it labels
`GREG(2,0)`), and with `taken_branch = 33`, the label of no block, the loop
ends at once and nothing is labelled. -/
theorem C28_successor_selection_witness :
    (execute_succ demo_cfg 4 0 { demo_s4 with g := { next_step := BRANCH, taken_branch := 22 } }
      ).final.map (fun m1 => (m1.g.next_step, members demo_cfg m1.shad (demo_greg 2 0),
        members demo_cfg m1.shad (demo_greg 1 0))) = some (RETURN, [22], []) ∧
    (execute_succ demo_cfg 4 0 { demo_s4 with g := { next_step := BRANCH, taken_branch := 33 } }
      ).final.map (fun m1 => (m1.g.next_step, members demo_cfg m1.shad (demo_greg 2 0),
        members demo_cfg m1.shad (demo_greg 1 0))) = some (RETURN, [], []) := by
  have ha := (C28_successor_selection demo_cfg 3 0
    { demo_s4 with g := { next_step := BRANCH, taken_branch := 22 } }
    (by decide) (by decide)).1 1 (by decide) rfl
    (by
      intro j hj
      have hj0 : j = 0 := by omega
      subst hj0
      decide)
  have hb := (C28_successor_selection demo_cfg 2 0
    { demo_s4 with g := { next_step := BRANCH, taken_branch := 33 } }
    (by decide) (by decide)).2
    (by
      intro j hj
      have hj2 : j < 2 := hj
      match j, hj2 with
      | 0, _ => decide
      | 1, _ => decide)
  constructor
  · refine Eq.trans (congrArg (fun o => (Outcome.final o).map
      (fun m1 => (m1.g.next_step, members demo_cfg m1.shad (demo_greg 2 0),
        members demo_cfg m1.shad (demo_greg 1 0)))) ha) ?_
    decide
  · refine Eq.trans (congrArg (fun o => (Outcome.final o).map
      (fun m1 => (m1.g.next_step, members demo_cfg m1.shad (demo_greg 2 0),
        members demo_cfg m1.shad (demo_greg 1 0)))) hb) ?_
    decide

/-! ## Claims about the label sets that addresses share -/

theorem demo_copied_reachable : Reachable demo_cfg demo_copied :=
  Reachable.copy (demo_maddr 4096 0) (demo_maddr 8192 0) demo_ram_reachable
    (rfl : tp_copy demo_cfg demo_ram (demo_maddr 4096 0) (demo_maddr 8192 0) = some demo_copied)

/-- C29 fails on the code.  In the reachable state `demo_copied`, in which
`MADDR(0x2000)` has received its label set from `MADDR(0x1000)` through
`tp_copy`, the two addresses are different slots and both have the members
`[7]`; `tp_label(MADDR(0x1000), 8)` succeeds and afterwards `MADDR(0x2000)`
has the members `[8, 7]`, and `tp_label(MADDR(0x2000), 8)` succeeds and
afterwards `MADDR(0x1000)` has the members `[8, 7]`.  (The scenario S1 holds:
after `tp_label(MADDR(0x1000), 7)` on the result of `tp_init` the query of
`MADDR(0x1001)` returns false.) -/
theorem C29_label_reaches_shared_set :
    Reachable demo_cfg demo_copied ∧
    slot_of demo_cfg demo_copied (demo_maddr 4096 0) ≠
      slot_of demo_cfg demo_copied (demo_maddr 8192 0) ∧
    members demo_cfg demo_copied (demo_maddr 4096 0) = [7] ∧
    members demo_cfg demo_copied (demo_maddr 8192 0) = [7] ∧
    (tp_label demo_cfg demo_copied (demo_maddr 4096 0) 8).map
      (fun s1 => members demo_cfg s1 (demo_maddr 8192 0)) = some [8, 7] ∧
    (tp_label demo_cfg demo_copied (demo_maddr 8192 0) 8).map
      (fun s1 => members demo_cfg s1 (demo_maddr 4096 0)) = some [8, 7] ∧
    (tp_label demo_cfg demo_shad (demo_maddr 4096 0) 7).bind
      (fun s1 => query_val demo_cfg s1 (demo_maddr 4097 0)) = some false :=
  ⟨demo_copied_reachable, by decide, by decide, by decide, by decide, by decide, by decide⟩

/-! ## Claims about the frame of the fixup -/

/-- The loop of a fixup changes no record other than the `n` records it
visits. -/
theorem fix_ops_other (sz : Nat) (f : TaintOp → Option TaintOp) (n : Nat) :
    ∀ (data : Nat → TaintOp) (off : Nat) (data1 : Nat → TaintOp),
      fix_ops sz f data off n = some data1 →
      ∀ x, (∀ i, i < n → x ≠ off + i * sz) → data1 x = data x := by
  induction n with
  | zero =>
    intro data off data1 h x _
    simp only [fix_ops, Option.some.injEq] at h
    rw [← h]
  | succ n ih =>
    intro data off data1 h x hx
    simp only [fix_ops] at h
    cases h0 : f (data off) with
    | none =>
      rw [h0] at h
      exact absurd h (by simp)
    | some op1 =>
      rw [h0] at h
      simp only at h
      rw [ih _ _ _ h x (by
        intro i hi
        have := hx (i + 1) (Nat.succ_lt_succ hi)
        have e : off + sz + i * sz = off + (i + 1) * sz := by ring
        rw [e]
        exact this)]
      rw [Function.update_noteq]
      have := hx 0 (Nat.succ_pos n)
      simpa using this

/-- A fixup that runs the loop over the ops returns the buffer with the same
cursor and sizes, and with no record changed outside the `n` records. -/
theorem fixup_loop_frame (sz : Nat) (f : TaintOp → Option TaintOp) (n : Nat)
    (buf b : TaintOpBuffer) (d d1 : DynValBuffer) (g g1 : Globals)
    (h : (fix_ops sz f buf.data buf.ptr n).map
      (fun data => (({ buf with data := data } : TaintOpBuffer), d, g)) = some (b, d1, g1)) :
    b.ptr = buf.ptr ∧ b.size = buf.size ∧ b.max_size = buf.max_size ∧
    ∀ x, (∀ i, i < n → x ≠ buf.ptr + i * sz) → b.data x = buf.data x := by
  cases hf : fix_ops sz f buf.data buf.ptr n with
  | none =>
    rw [hf] at h
    exact absurd h (by simp)
  | some data1 =>
    rw [hf] at h
    simp only [Option.map_some', Option.some.injEq, Prod.mk.injEq] at h
    obtain ⟨hb, _, _⟩ := h
    subst hb
    exact ⟨rfl, rfl, rfl, fun x hx => fix_ops_other sz f n _ _ _ hf x hx⟩

/-- C30. Fixup does not move the op-buffer cursor and touches only the
announced ops.  Whenever `process_insn_start_op` returns, for whatever
`INSN_START` (any name, any `num_ops`), buffer, log and globals: the cursor of
the buffer on return equals the cursor on entry, `size` and `max_size` are
the same, and every record of the buffer other than the `num_ops` records
that follow the cursor (which stands right behind the `INSN_START`) is
unchanged. -/
theorem C30_fixup_keeps_cursor (cfg : Config) (op : TaintOp) (buf : TaintOpBuffer)
    (d : DynValBuffer) (g : Globals) (b : TaintOpBuffer) (d1 : DynValBuffer) (g1 : Globals)
    (h : process_insn_start_op cfg op buf d g = some (b, d1, g1)) :
    b.ptr = buf.ptr ∧ b.size = buf.size ∧ b.max_size = buf.max_size ∧
    ∀ x, (∀ i, i < op.insn_start.num_ops.toNat → x ≠ buf.ptr + i * cfg.SIZEOF_TAINTOP) →
      b.data x = buf.data x := by
  unfold process_insn_start_op at h
  repeat' split at h
  all_goals first
    | exact fixup_loop_frame _ _ _ buf b _ d1 _ g1 h
    | (cases h <;> exact ⟨rfl, rfl, rfl, fun _ _ => rfl⟩)

/-- C30 on the ops of a store, `INSN_START("store", 3)` followed by a `COPY`,
a `DELETE` and a `COMPUTE`, the cursor standing at byte 80 behind the
`INSN_START`: the fixup returns the buffer with the cursor at byte 80 and with
the record at byte 0 (the `INSN_START`) and the record at byte 320 (behind
the three ops) as they were. -/
theorem C30_fixup_keeps_cursor_witness :
    ∃ b d1 g1, process_insn_start_op demo_cfg (demo_insn_op "store" 3 (0, 0) [] [] [] [])
        (demo_ops_buf demo_store_ops 80)
        { entries := [demo_addr_entry .STORE (demo_maddr 12288 0)], ptr := 0 }
        { next_step := RETURN, taken_branch := 0 } = some (b, d1, g1) ∧
      b.ptr = 80 ∧ b.data 0 = demo_insn_op "store" 3 (0, 0) [] [] [] [] ∧
      b.data 320 = (demo_ops_buf demo_store_ops 80).data 320 := by
  obtain ⟨data1, e1, _, _⟩ := store_fixup_patch demo_cfg
    (demo_insn_op "store" 3 (0, 0) [] [] [] []) (demo_ops_buf demo_store_ops 80)
    { entries := [demo_addr_entry .STORE (demo_maddr 12288 0)], ptr := 0 }
    { next_step := RETURN, taken_branch := 0 } (demo_addr_entry .STORE (demo_maddr 12288 0))
    (by decide) rfl rfl rfl rfl rfl (by decide) (fun i hi => demo_store_ops_typ i hi)
  have h := C30_fixup_keeps_cursor demo_cfg _ _ _ _ _ _ _ e1
  have h3 : (demo_insn_op "store" 3 (0, 0) [] [] [] []).insn_start.num_ops.toNat = 3 := rfl
  refine ⟨_, _, _, e1, h.1, ?_, ?_⟩
  · rw [h.2.2.2 0 (by
      intro i _
      show 0 ≠ 80 + i * 80
      omega)]
    rfl
  · exact h.2.2.2 320 (by
      intro i hi
      rw [h3] at hi
      show 320 ≠ 80 + i * 80
      omega)

/-! ## Claims about the stored label sets -/

/-- C31. No empty label set is ever stored.  In every reachable state: every
slot (directory key or array index) in which a read finds a pointer holds a
label set with at least one member; the same holds of every entry of the RAM
directory itself (in the 32-bit configuration for every 32-bit key, whether
the presence bitmap is consulted or not); and for every address `a` on which
`tp_query` does not fail, `tp_query(a)` is true if and only if the slot of `a`
is occupied. -/
theorem C31_no_empty_set_stored (cfg : Config) (s : Shad) (hr : Reachable cfg s) :
    (∀ sl p, Slot.ok cfg sl → slot_ptr cfg s sl = some p → (s.pool.cells p).set ≠ []) ∧
    (∀ k p, cfg.TARGET_X86_64 = true ∨ k < U32 → s.ram.entries k = some p →
      (s.pool.cells p).set ≠ []) ∧
    (∀ a, get_ok s a →
      ((∃ s2, tp_query cfg s a = some (s2, true)) ↔ ptr_of cfg s a ≠ none)) := by
  have i := hr.inv
  refine ⟨i.nonempty, ?_, ?_⟩
  · intro k p hk he
    apply i.nonempty (.ram k) p hk
    cases hc : cfg.TARGET_X86_64 with
    | true => simp only [slot_ptr, hc, if_true]; exact he
    | false =>
      have hk32 : k < U32 := by
        rcases hk with h | h
        · rw [hc] at h; cases h
        · exact h
      have hb := (i.bitmap hc k hk32).2 (by rw [he]; simp)
      simp only [slot_ptr, hc, Bool.false_eq_true, if_false, hb, ne_eq, not_false_eq_true,
        if_true]
      exact he
  · intro a ok
    rw [query_true_iff cfg s a ok, ne_eq, i.members_nil ok]

/-- C31 on the state in which `GREG(2,0)` carries label 1: its query is true
and its slot is occupied, and the query of `GREG(3,0)` is not true. -/
theorem C31_no_empty_set_stored_witness :
    ((∃ s2, tp_query demo_cfg demo_tainted (demo_greg 2 0) = some (s2, true)) ↔
      ptr_of demo_cfg demo_tainted (demo_greg 2 0) ≠ none) ∧
    ptr_of demo_cfg demo_tainted (demo_greg 2 0) ≠ none ∧
    ((∃ s2, tp_query demo_cfg demo_tainted (demo_greg 3 0) = some (s2, true)) ↔
      ptr_of demo_cfg demo_tainted (demo_greg 3 0) ≠ none) ∧
    ptr_of demo_cfg demo_tainted (demo_greg 3 0) = none := by
  have h := (C31_no_empty_set_stored demo_cfg demo_tainted demo_tainted_reachable).2.2
  exact ⟨h (demo_greg 2 0) ⟨by decide, by decide⟩, by decide,
    h (demo_greg 3 0) ⟨by decide, by decide⟩, by decide⟩

/-! ## Claims about the capacity of the op buffer -/

/-- C32. Op-buffer capacity limit, for a buffer whose cursor is within its
capacity (`ptr ≤ max_size`, which every successful write and read keeps) and
whose `max_size` and `size` are `uint32_t` values, and a record of `sz <
2^32` bytes.  `tob_op_write` succeeds if and only if `max_size - ptr ≥ sz`; on
success the record is stored at the cursor, the cursor has advanced by `sz`,
`size` is the maximum of the previous `size` and the new cursor, and the new
cursor is within the capacity; otherwise `tob_op_write` fails and returns no
buffer. -/
theorem C32_write_capacity (sz : Nat) (buf : TaintOpBuffer) (op : TaintOp)
    (hsz : sz < U32) (hmax : buf.max_size < U32) (hsize : buf.size < U32)
    (hptr : buf.ptr ≤ buf.max_size) :
    ((tob_op_write sz buf op).isSome = true ↔ sz ≤ buf.max_size - buf.ptr) ∧
    (sz ≤ buf.max_size - buf.ptr →
      tob_op_write sz buf op =
        some { data := Function.update buf.data buf.ptr op, max_size := buf.max_size,
               size := max buf.size (buf.ptr + sz), ptr := buf.ptr + sz } ∧
      buf.ptr + sz ≤ buf.max_size) ∧
    (¬ sz ≤ buf.max_size - buf.ptr → tob_op_write sz buf op = none) := by
  have hU32 : U32 = 4294967296 := rfl
  have hU64 : U64 = 18446744073709551616 := rfl
  have e1 : sz % U32 = sz := Nat.mod_eq_of_lt hsz
  have e2 : buf.ptr % U64 = buf.ptr := Nat.mod_eq_of_lt (by omega)
  have e3 : (buf.max_size + (U64 - buf.ptr)) % U64 = buf.max_size - buf.ptr := by
    have : buf.max_size + (U64 - buf.ptr) = (buf.max_size - buf.ptr) + U64 := by omega
    rw [this, Nat.add_mod_right, Nat.mod_eq_of_lt (by omega)]
  have yes : sz ≤ buf.max_size - buf.ptr →
      tob_op_write sz buf op =
        some { data := Function.update buf.data buf.ptr op, max_size := buf.max_size,
               size := max buf.size (buf.ptr + sz), ptr := buf.ptr + sz } := by
    intro h
    have e4 : max (buf.ptr + sz) buf.size % U32 = max buf.size (buf.ptr + sz) := by
      rw [Nat.max_comm, Nat.mod_eq_of_lt]
      rw [Nat.max_lt]
      exact ⟨hsize, by omega⟩
    unfold tob_op_write
    simp only [e1, e2, e3, e4]
    rw [if_pos h]
  have no : ¬ sz ≤ buf.max_size - buf.ptr → tob_op_write sz buf op = none := by
    intro h
    unfold tob_op_write
    simp only [e1, e2, e3]
    rw [if_neg h]
  refine ⟨?_, fun h => ⟨yes h, by omega⟩, no⟩
  constructor
  · intro h
    by_contra hn
    rw [no hn] at h
    cases h
  · intro h
    rw [yes h]
    rfl

/-- C32 on a cleared buffer of 160 bytes and records of 80 bytes: the first
and the second write succeed, the cursor and `size` advance to 80 and to 160,
and the third write fails. -/
theorem C32_write_capacity_witness :
    (tob_op_write 80 (tob_clear (demo_buf 160)) demo_ret_op).map
      (fun b => (b.ptr, b.size, b.max_size, b.data 0)) = some (80, 80, 160, demo_ret_op) ∧
    tob_op_write 80 { tob_clear (demo_buf 160) with ptr := 160, size := 160 } demo_ret_op =
      none := by
  have h1 := (C32_write_capacity 80 (tob_clear (demo_buf 160)) demo_ret_op
    (by decide) (by decide) (by decide) (by decide)).2.1 (by decide)
  have h2 := (C32_write_capacity 80 { tob_clear (demo_buf 160) with ptr := 160, size := 160 }
    demo_ret_op (by decide) (by decide) (by decide) (by decide)).2.2 (by decide)
  refine ⟨?_, h2⟩
  rw [h1.1]
  decide

/-! ## Claims about the slots that addresses designate -/

/-- C33 fails on the code.  With `num_vals = 2000`, the index of `llv` for
frame 1, register 0, offset 0 is `2000*1 + 0*16 + 0 = 2000`, and so is the
index for frame 0, register 125, offset 0 (`2000*0 + 125*16 + 0`): the frames
are `num_vals` slots apart, while a frame has `num_vals * MAXREGSIZE` slots.
In the result of `tp_init`, with `current_frame = 0`, register 125 is
untainted; after `tp_label(LADDR(0,0) with FUNCARG, 9)`, a write to register 0
of frame 1, register 125 of frame 0 has the members `[9]`; and so it has after
`tp_label(LADDR(0,0), 9)` made with `current_frame = 1`. -/
theorem C33_frames_alias :
    demo_shad.num_vals = 2000 ∧ demo_shad.current_frame = 0 ∧
    llv_index demo_shad 1 (demo_laddr 0 0 .ZERO) = 2000 ∧
    llv_index demo_shad 0 (demo_laddr 125 0 .ZERO) = 2000 ∧
    members demo_cfg demo_shad (demo_laddr 125 0 .ZERO) = [] ∧
    (tp_label demo_cfg demo_shad (demo_laddr 0 0 .FUNCARG) 9).map
      (fun s1 => members demo_cfg s1 (demo_laddr 125 0 .ZERO)) = some [9] ∧
    (tp_label demo_cfg { demo_shad with current_frame := 1 } (demo_laddr 0 0 .ZERO) 9).map
      (fun s1 => members demo_cfg { s1 with current_frame := 0 } (demo_laddr 125 0 .ZERO)) =
      some [9] :=
  ⟨rfl, rfl, by decide, by decide, by decide, by decide, by decide⟩

/-- C34 fails on the code.  In the result of `tp_init` with `num_vals = 2000`
and `current_frame = 0`, the addresses `LADDR(125,0)` and `LADDR(0,0)` with
flag `FUNCARG` are both in range and `addrs_equal` returns false for them, but
they resolve to the same slot, index 2000 of `llv`; `LADDR(0,0)` with
`FUNCARG` is untainted, and after `tp_label(LADDR(125,0), 7)` it has the
members `[7]`. -/
theorem C34_addrs_equal_misses_alias :
    in_range demo_cfg demo_shad (demo_laddr 125 0 .ZERO) ∧
    in_range demo_cfg demo_shad (demo_laddr 0 0 .FUNCARG) ∧
    addrs_equal (demo_laddr 125 0 .ZERO) (demo_laddr 0 0 .FUNCARG) = some false ∧
    slot_of demo_cfg demo_shad (demo_laddr 125 0 .ZERO) = some (.llv 2000) ∧
    slot_of demo_cfg demo_shad (demo_laddr 0 0 .FUNCARG) = some (.llv 2000) ∧
    members demo_cfg demo_shad (demo_laddr 0 0 .FUNCARG) = [] ∧
    (tp_label demo_cfg demo_shad (demo_laddr 125 0 .ZERO) 7).map
      (fun s1 => members demo_cfg s1 (demo_laddr 0 0 .FUNCARG)) = some [7] :=
  ⟨⟨by decide, by decide, by decide, by decide⟩, ⟨by decide, by decide, by decide, by decide⟩,
    by decide, by decide, by decide, by decide, by decide⟩

/-! ## Claims about fixups applied again to the same buffer -/

/-- C35 fails on the code.  The body of the select fixup applied for the
outcome `sel1` and then for the outcome `sel2` gives what the body applied
for `sel2` alone gives, except that the op has the type `DELETEOP` whenever
the operand selected by `sel1` is the constant `-1`: the type, once
overwritten, is not written back.

On the buffer `INSN_START("select", 1, branch_labels = [-1, 4])`,
`COPY{UNK, LADDR(7,2)}`: the fixup for `SELECTENTRY{true}` alone leaves
`COPY{LADDR(4,0), LADDR(7,2)}`, and the fixup for `SELECTENTRY{false}`
followed by the fixup for `SELECTENTRY{true}` leaves `DELETE{LADDR(4,0)}`.

On a translation block `LABEL{LADDR(4,0), 9}`, `INSN_START("select", ...)`,
`COPY{UNK, LADDR(7,0)}`, `RET` that is called twice, the select taking
register 4 the second time: when it took register 4 the first time too,
registers 4 and 7 of the callee's frame end with the members `[9]`; when it
took the constant the first time, both end untainted. -/
theorem C35_select_fixup_keeps_delete :
    (∀ (sel1 sel2 : Bool) (labels : Int × Int) (op : TaintOp),
      (select_fix sel1 labels op).bind (select_fix sel2 labels) =
        (select_fix sel2 labels op).map (fun r =>
          if (if sel1 then labels.2 else labels.1) = -1 then { r with typ := .DELETEOP }
          else r)) ∧
    (process_insn_start_op demo_cfg (demo_insn_op "select" 1 (-1, 4) [] [] [] [])
        (demo_ops_buf demo_select_ops 80)
        { entries := [demo_select_entry true], ptr := 0 }
        { next_step := RETURN, taken_branch := 0 }).map (fun r => r.1.data 80) =
      some (demo_copy_op (demo_laddr 4 0 .ZERO) (demo_laddr 7 2 .ZERO)) ∧
    ((process_insn_start_op demo_cfg (demo_insn_op "select" 1 (-1, 4) [] [] [] [])
        (demo_ops_buf demo_select_ops 80)
        { entries := [demo_select_entry false, demo_select_entry true], ptr := 0 }
        { next_step := RETURN, taken_branch := 0 }).bind
      (fun r => process_insn_start_op demo_cfg (demo_insn_op "select" 1 (-1, 4) [] [] [] [])
        r.1 r.2.1 r.2.2)).map (fun r => r.1.data 80) =
      some { demo_copy_op (demo_laddr 4 0 .ZERO) (demo_laddr 7 2 .ZERO) with typ := .DELETEOP } ∧
    (execute_taint_ops demo_cfg 12 0 (demo_select_twice true)).final.map
      (fun m1 => (m1.dynval_buf.ptr,
        members demo_cfg { m1.shad with current_frame := 1 } (demo_laddr 4 0 .ZERO),
        members demo_cfg { m1.shad with current_frame := 1 } (demo_laddr 7 0 .ZERO))) =
      some (2, [9], [9]) ∧
    (execute_taint_ops demo_cfg 12 0 (demo_select_twice false)).final.map
      (fun m1 => (m1.dynval_buf.ptr,
        members demo_cfg { m1.shad with current_frame := 1 } (demo_laddr 4 0 .ZERO),
        members demo_cfg { m1.shad with current_frame := 1 } (demo_laddr 7 0 .ZERO))) =
      some (2, [], []) := by
  refine ⟨?_, by decide, by decide, by decide!, by decide!⟩
  intro sel1 sel2 labels op
  simp only [select_fix]
  by_cases h1 : (if sel1 then labels.2 else labels.1) = -1 <;>
    by_cases h2 : (if sel2 then labels.2 else labels.1) = -1 <;>
    simp [h1, h2]

/-- C37 fails on the code.  The caller consists of `CALL` and
`LABEL{GREG(3,0), 5}`, the callee begins with `INSN_START("load", 1)`, and the
next record of the log is `EXCEPTIONENTRY`: the execute of the caller ends
with `next_step = EXCEPT`, and `GREG(3,0)`, untainted before, has the members
`[5]`: the op that follows the `CALL` has been applied.  When the caller's
`CALL` is followed by `INSN_START("condbranch")` and the log continues with
`BRANCHENTRY`, the execute ends with `next_step = RETURN` and the successor
block of the caller has labelled `GREG(4,0)`. -/
theorem C37_caller_continues_after_exception :
    members demo_cfg demo_call_label.shad (demo_greg 3 0) = [] ∧
    (execute_taint_ops demo_cfg 8 0 demo_call_label).final.map
      (fun m1 => (m1.g.next_step, m1.dynval_buf.ptr, members demo_cfg m1.shad (demo_greg 3 0))) =
      some (EXCEPT, 1, [5]) ∧
    (execute_taint_ops demo_cfg 8 2 demo_call_label).final.map
      (fun m1 => (m1.g.next_step, m1.dynval_buf.ptr, members demo_cfg m1.shad (demo_greg 4 0))) =
      some (RETURN, 2, [6]) := by
  refine ⟨by decide, by decide, by decide!⟩

/-! ## Claims about the termination of an execute -/

theorem branch_upto_mono (es : List DynValEntry) {p q : Nat} (h : p ≤ q) :
    branch_upto es p ≤ branch_upto es q := by
  unfold branch_upto
  have e : es.take p = (es.take q).take p := by
    rw [List.take_take, Nat.min_eq_left h]
  rw [e]
  exact (List.take_sublist p (es.take q)).countP_le _

theorem branch_records_eq (es : List DynValEntry) (lo hi : Nat) :
    branch_records es lo hi = branch_upto es hi - branch_upto es lo := by
  have h := List.take_append_drop lo (es.take hi)
  have hc : branch_upto es hi =
      ((es.take hi).take lo).countP is_branch_record + branch_records es lo hi := by
    unfold branch_upto branch_records
    rw [← List.countP_append, h]
  rw [List.take_take] at hc
  by_cases hle : lo ≤ hi
  · rw [Nat.min_eq_left hle] at hc
    have : branch_upto es lo = (es.take lo).countP is_branch_record := rfl
    omega
  · have hhi : hi ≤ lo := by omega
    rw [Nat.min_eq_right hhi] at hc
    have h1 : branch_upto es hi = (es.take hi).countP is_branch_record := rfl
    have h2 := branch_upto_mono es hhi
    omega

theorem branch_upto_step (es : List DynValEntry) (p : Nat) (e : DynValEntry)
    (h : es[p]? = some e) :
    branch_upto es (p + 1) = branch_upto es p + (if is_branch_record e then 1 else 0) := by
  unfold branch_upto
  rw [List.take_succ, h, List.countP_append]
  simp [List.countP_cons]

theorem branch_upto_le_all (es : List DynValEntry) (p : Nat) :
    branch_upto es p ≤ branch_upto es es.length := by
  unfold branch_upto
  rw [List.take_length]
  exact (List.take_sublist p es).countP_le _

theorem no_call_buf {n t : Nat} {m : Machine} (h : no_call n t m) (r : BufRef)
    (hr : r.ttb = t) : buf_no_call n (m.buf r) := by
  cases r with
  | entry c =>
    have hc : c = t := hr
    subst hc
    exact h.1
  | tbb c i =>
    have hc : c = t := hr
    subst hc
    exact h.2 i

theorem no_call_set_buf {n t : Nat} {m : Machine} (h : no_call n t m) (r : BufRef)
    (hr : r.ttb = t) (b : TaintOpBuffer) (hb : buf_no_call n b) :
    no_call n t (m.set_buf r b) := by
  cases r with
  | entry c =>
    have hc : c = t := hr
    subst hc
    unfold no_call Machine.set_buf
    simp only [Function.update_same]
    exact ⟨hb, h.2⟩
  | tbb c i =>
    have hc : c = t := hr
    subst hc
    unfold no_call Machine.set_buf
    simp only [Function.update_same]
    refine ⟨h.1, fun j => ?_⟩
    by_cases hj : j = i
    · subst hj
      simp only [Function.update_same]
      exact hb
    · simp only [Function.update_noteq hj]
      exact h.2 j

/-- The loop of a fixup keeps a property of the ops that its body keeps. -/
theorem fix_ops_keep (sz : Nat) (f : TaintOp → Option TaintOp) (P : TaintOp → Prop)
    (hf : ∀ op op1, f op = some op1 → P op → P op1) (n : Nat) :
    ∀ (data : Nat → TaintOp) (off : Nat) (data1 : Nat → TaintOp),
      fix_ops sz f data off n = some data1 → (∀ x, P (data x)) → ∀ x, P (data1 x) := by
  induction n with
  | zero =>
    intro data off data1 h hp x
    simp only [fix_ops, Option.some.injEq] at h
    rw [← h]
    exact hp x
  | succ n ih =>
    intro data off data1 h hp x
    simp only [fix_ops] at h
    cases h0 : f (data off) with
    | none =>
      rw [h0] at h
      exact absurd h (by simp)
    | some op1 =>
      rw [h0] at h
      simp only at h
      refine ih _ _ _ h (fun y => ?_) x
      by_cases hy : y = off
      · subst hy
        rw [Function.update_same]
        exact hf _ _ h0 (hp y)
      · rw [Function.update_noteq hy]
        exact hp y

theorem load_fix_typ (addr : Addr) (op op1 : TaintOp) (h : load_fix addr op = some op1) :
    op1.typ = op.typ := by
  unfold load_fix at h
  split at h
  · cases hx : fix_addr addr op.a with
    | none => rw [hx] at h; exact absurd h (by simp)
    | some x =>
      rw [hx] at h
      simp only [Option.map_some', Option.some.injEq] at h
      rw [← h]
  · exact absurd h (by simp)

theorem phi_fix_typ (addr : Addr) (s : Int) (op op1 : TaintOp)
    (h : phi_fix addr s op = some op1) : op1.typ = op.typ := by
  unfold phi_fix at h
  split at h
  · split at h
    · simp only [Option.some.injEq] at h
      rw [← h]
    · exact absurd h (by simp)
  · exact absurd h (by simp)

theorem store_fix_typ (cfg : Config) (addr : Addr) (op op1 : TaintOp)
    (h : store_fix cfg addr op = some op1) : op1.typ = op.typ := by
  unfold store_fix at h
  split at h
  · cases hx : fix_addr addr op.b with
    | none => rw [hx] at h; exact absurd h (by simp)
    | some x =>
      rw [hx] at h
      simp only [Option.map_some', Option.some.injEq] at h
      rw [← h]
  · repeat' split at h
    all_goals (cases h <;> rfl)
  · cases hx : fix_addr addr op.a with
    | none => rw [hx] at h; exact absurd h (by simp)
    | some x =>
      rw [hx] at h
      simp only [Option.map_some', Option.some.injEq] at h
      rw [← h]
  · exact absurd h (by simp)

theorem select_fix_typ (sel : Bool) (labels : Int × Int) (op op1 : TaintOp)
    (h : select_fix sel labels op = some op1) : op1.typ = op.typ ∨ op1.typ = .DELETEOP := by
  unfold select_fix at h
  dsimp only at h
  by_cases h1 : (if sel = true then labels.2 else labels.1) = -1
  · rw [if_pos h1] at h
    cases h
    exact Or.inr rfl
  · rw [if_neg h1] at h
    cases h
    exact Or.inl rfl

/-- A fixup that runs the loop over the ops with a body that makes no `CALL`
op returns a buffer without `CALL` ops. -/
theorem fixup_loop_pass (sz : Nat) (f : TaintOp → Option TaintOp) (n : Nat)
    (hf : ∀ op op1, f op = some op1 → op.typ ≠ .CALLOP → op1.typ ≠ .CALLOP)
    (buf b : TaintOpBuffer) (d d1 : DynValBuffer) (g g1 : Globals)
    (h : (fix_ops sz f buf.data buf.ptr n).map
      (fun data => (({ buf with data := data } : TaintOpBuffer), d, g)) = some (b, d1, g1)) :
    b.ptr = buf.ptr ∧ b.max_size = buf.max_size ∧
    ((∀ x, (buf.data x).typ ≠ .CALLOP) → ∀ x, (b.data x).typ ≠ .CALLOP) ∧
    d1 = d ∧ g1 = g := by
  cases hfo : fix_ops sz f buf.data buf.ptr n with
  | none =>
    rw [hfo] at h
    exact absurd h (by simp)
  | some data1 =>
    rw [hfo] at h
    simp only [Option.map_some', Option.some.injEq, Prod.mk.injEq] at h
    obtain ⟨hb, hd, hg⟩ := h
    subst hb
    exact ⟨rfl, rfl,
      fun hp => fix_ops_keep sz f (fun op => op.typ ≠ .CALLOP) hf n _ _ _ hfo hp,
      hd.symm, hg.symm⟩

/-- What a fixup does to the buffer, the log and `next_step`: the cursor and
the capacity of the buffer are kept and no `CALL` op is made; one record of
the log is consumed; and `next_step` is kept, or set to `EXCEPT`, or the
record consumed is of kind `BRANCHENTRY` or `SWITCHENTRY`. -/
theorem fixup_pass (cfg : Config) (op : TaintOp) (buf : TaintOpBuffer)
    (d : DynValBuffer) (g : Globals) (b : TaintOpBuffer) (d1 : DynValBuffer) (g1 : Globals)
    (h : process_insn_start_op cfg op buf d g = some (b, d1, g1)) :
    b.ptr = buf.ptr ∧ b.max_size = buf.max_size ∧
    ((∀ x, (buf.data x).typ ≠ .CALLOP) → ∀ x, (b.data x).typ ≠ .CALLOP) ∧
    d1.entries = d.entries ∧ d1.ptr = d.ptr + 1 ∧
    (g1.next_step = g.next_step ∨ g1.next_step = EXCEPT ∨
      ∃ e, d.entries[d.ptr]? = some e ∧ is_branch_record e = true) := by
  unfold process_insn_start_op read_dynval_buffer at h
  by_cases hfl : op.insn_start.flag ≠ INSNREADLOG
  · rw [if_pos hfl] at h
    exact absurd h (by simp)
  rw [if_neg hfl] at h
  cases hrec : d.entries[d.ptr]? with
  | none =>
    rw [hrec] at h
    exact absurd h (by simp)
  | some e =>
    rw [hrec] at h
    dsimp only at h
    have loop : ∀ (f : TaintOp → Option TaintOp) (n : Nat),
        (∀ op op1, f op = some op1 → op.typ ≠ .CALLOP → op1.typ ≠ .CALLOP) →
        (fix_ops cfg.SIZEOF_TAINTOP f buf.data buf.ptr n).map
          (fun data => (({ buf with data := data } : TaintOpBuffer),
            ({ d with ptr := d.ptr + 1 } : DynValBuffer), g)) = some (b, d1, g1) →
        b.ptr = buf.ptr ∧ b.max_size = buf.max_size ∧
        ((∀ x, (buf.data x).typ ≠ .CALLOP) → ∀ x, (b.data x).typ ≠ .CALLOP) ∧
        d1.entries = d.entries ∧ d1.ptr = d.ptr + 1 ∧
        (g1.next_step = g.next_step ∨ g1.next_step = EXCEPT ∨
          ∃ e1, some e = some e1 ∧ is_branch_record e1 = true) := by
      intro f n hf hh
      obtain ⟨h1, h2, h3, h4, h5⟩ := fixup_loop_pass _ f n hf buf b _ d1 g g1 hh
      subst h4
      subst h5
      exact ⟨h1, h2, h3, rfl, rfl, Or.inl rfl⟩
    have plain : ∀ (g2 : Globals),
        (g2.next_step = g.next_step ∨ g2.next_step = EXCEPT ∨ is_branch_record e = true) →
        some (buf, ({ d with ptr := d.ptr + 1 } : DynValBuffer), g2) = some (b, d1, g1) →
        b.ptr = buf.ptr ∧ b.max_size = buf.max_size ∧
        ((∀ x, (buf.data x).typ ≠ .CALLOP) → ∀ x, (b.data x).typ ≠ .CALLOP) ∧
        d1.entries = d.entries ∧ d1.ptr = d.ptr + 1 ∧
        (g1.next_step = g.next_step ∨ g1.next_step = EXCEPT ∨
          ∃ e1, some e = some e1 ∧ is_branch_record e1 = true) := by
      intro g2 hg hh
      simp only [Option.some.injEq, Prod.mk.injEq] at hh
      obtain ⟨h1, h2, h3⟩ := hh
      subst h1
      subst h2
      subst h3
      refine ⟨rfl, rfl, fun hp => hp, rfl, rfl, ?_⟩
      rcases hg with hg | hg | hg
      · exact Or.inl hg
      · exact Or.inr (Or.inl hg)
      · exact Or.inr (Or.inr ⟨e, rfl, hg⟩)
    by_cases hex : e.entrytype = .EXCEPTIONENTRY
    · rw [if_pos hex] at h
      exact plain _ (Or.inr (Or.inl rfl)) h
    rw [if_neg hex] at h
    by_cases hl : op.insn_start.name = "load"
    · rw [if_pos hl] at h
      split at h
      · exact absurd h (by simp)
      · exact loop _ _ (fun o o1 ho hp => by rw [load_fix_typ _ _ _ ho]; exact hp) h
    rw [if_neg hl] at h
    by_cases hs : op.insn_start.name = "store"
    · rw [if_pos hs] at h
      split at h
      · exact absurd h (by simp)
      · exact loop _ _ (fun o o1 ho hp => by rw [store_fix_typ _ _ _ _ ho]; exact hp) h
    rw [if_neg hs] at h
    by_cases hc : op.insn_start.name = "condbranch"
    · rw [if_pos hc] at h
      by_cases hk : e.entrytype ≠ .BRANCHENTRY
      · rw [if_pos hk] at h
        exact absurd h (by simp)
      · rw [if_neg hk] at h
        exact plain _ (Or.inr (Or.inr (by simp [is_branch_record, not_not.mp hk]))) h
    rw [if_neg hc] at h
    by_cases hw : op.insn_start.name = "switch"
    · rw [if_pos hw] at h
      by_cases hk : e.entrytype ≠ .SWITCHENTRY
      · rw [if_pos hk] at h
        exact absurd h (by simp)
      · rw [if_neg hk] at h
        exact plain _ (Or.inr (Or.inr (by simp [is_branch_record, not_not.mp hk]))) h
    rw [if_neg hw] at h
    by_cases hse : op.insn_start.name = "select"
    · rw [if_pos hse] at h
      split at h
      · exact absurd h (by simp)
      · refine loop _ _ (fun o o1 ho hp => ?_) h
        rcases select_fix_typ _ _ _ _ ho with h1 | h1
        · rw [h1]; exact hp
        · rw [h1]; decide
    rw [if_neg hse] at h
    by_cases hp : op.insn_start.name = "phi"
    · rw [if_pos hp] at h
      exact loop _ _ (fun o o1 ho hq => by rw [phi_fix_typ _ _ _ _ ho]; exact hq) h
    rw [if_neg hp] at h
    exact plain _ (Or.inl rfl) h

theorem Pass.chain {n t : Nat} {m m1 m2 : Machine} (h1 : Pass n t m m1)
    (h2 : Pass n t m1 m2) : Pass n t m m2 := by
  have he := h1.entries
  have mono2 := branch_upto_mono m.dynval_buf.entries h2.ptr
  refine ⟨h2.nc, h2.entries.trans h1.entries, le_trans h1.ptr h2.ptr, ?_⟩
  rcases h2.step with s | s | s
  · rcases h1.step with q | q | q
    · exact Or.inl (s.trans q)
    · exact Or.inr (Or.inl (s.trans q))
    · exact Or.inr (Or.inr (by omega))
  · exact Or.inr (Or.inl s)
  · rw [he] at s
    have mono1 := branch_upto_mono m.dynval_buf.entries h1.ptr
    exact Or.inr (Or.inr (by omega))

theorem pass_from_abort (n t : Nat) (m : Machine) (enough : Prop) :
    pass_from n t m enough .abort :=
  ⟨(fun _ h => by cases h), (fun _ h => by cases h)⟩

theorem pass_from_done {n t : Nat} {m m2 : Machine} (enough : Prop) (h : Pass n t m m2) :
    pass_from n t m enough (.done m2) := by
  refine ⟨(fun _ h => by cases h), fun m1 h1 => ?_⟩
  cases h1
  exact h

theorem Machine.buf_ttbs (m m2 : Machine) (h : m2.ttbs = m.ttbs) (r : BufRef) :
    m2.buf r = m.buf r := by
  cases r <;> simp [Machine.buf, h]

/-- Function `tob_op_read` on a buffer whose cursor is within its capacity:
the record under the cursor, the cursor one record further and still within
the capacity. -/
theorem tob_op_read_step (sz n : Nat) (buf b : TaintOpBuffer) (op : TaintOp)
    (hsz2 : sz < U32) (hn : n < U32) (hmax : buf.max_size ≤ n)
    (hptr : buf.ptr ≤ buf.max_size) (h : tob_op_read sz buf = some (b, op)) :
    b.data = buf.data ∧ op = buf.data buf.ptr ∧ b.max_size = buf.max_size ∧
    b.ptr = buf.ptr + sz ∧ b.ptr ≤ b.max_size := by
  have hU32 : U32 = 4294967296 := rfl
  have hU64 : U64 = 18446744073709551616 := rfl
  have e1 : sz % U32 = sz := Nat.mod_eq_of_lt hsz2
  have e2 : buf.ptr % U64 = buf.ptr := Nat.mod_eq_of_lt (by omega)
  have e3 : (buf.max_size + (U64 - buf.ptr)) % U64 = buf.max_size - buf.ptr := by
    have : buf.max_size + (U64 - buf.ptr) = (buf.max_size - buf.ptr) + U64 := by omega
    rw [this, Nat.add_mod_right, Nat.mod_eq_of_lt (by omega)]
  unfold tob_op_read at h
  simp only [e1, e2, e3] at h
  by_cases hfit : buf.max_size - buf.ptr ≥ sz
  · rw [if_pos hfit] at h
    cases h
    exact ⟨rfl, rfl, rfl, rfl, by show buf.ptr + sz ≤ buf.max_size; omega⟩
  · rw [if_neg hfit] at h
    exact absurd h (by simp)

/-- The loop of `tob_process` on a block of a translation block without
`CALL` ops: with more fuel than bytes between the cursor and the capacity of
the buffer it gives a result, and a machine it ends with is related to the
one it started from by `Pass`. -/
theorem loop_pass (cfg : Config) (n t : Nat) (hsz : 0 < cfg.SIZEOF_TAINTOP)
    (hsz2 : cfg.SIZEOF_TAINTOP < U32) (hn : n < U32) :
    ∀ (fuel : Nat) (r : BufRef) (m : Machine), r.ttb = t → no_call n t m →
      (m.buf r).ptr ≤ (m.buf r).max_size →
      pass_from n t m ((m.buf r).max_size - (m.buf r).ptr < fuel)
        (tob_process_loop cfg fuel r m) := by
  intro fuel
  induction fuel with
  | zero =>
    intro r m _ _ _
    refine ⟨fun h => absurd h (Nat.not_lt_zero _), fun m1 h => ?_⟩
    simp only [tob_process_loop] at h
    cases h
  | succ f ih =>
    intro r m hr hnc hp
    have hb := no_call_buf hnc r hr
    cases hend : tob_end (m.buf r) with
    | true =>
      rw [loop_at_end cfg f r m hend]
      exact pass_from_done _ ⟨no_call_set_buf hnc r hr _ ⟨hb.1, hb.2⟩,
        by rw [Machine.set_buf_log], by rw [Machine.set_buf_log],
        Or.inl (by rw [Machine.set_buf_g])⟩
    | false =>
      cases hread : tob_op_read cfg.SIZEOF_TAINTOP (m.buf r) with
      | none =>
        have e : tob_process_loop cfg (f + 1) r m = .abort := by
          simp only [tob_process_loop, hend, hread, Bool.false_eq_true, if_false]
        rw [e]
        exact pass_from_abort _ _ _ _
      | some x =>
        obtain ⟨b, op⟩ := x
        obtain ⟨hd, hop, hm, hpt, hle⟩ :=
          tob_op_read_step _ n _ _ _ hsz2 hn hb.1 hp hread
        have hbb : buf_no_call n b := ⟨by rw [hm]; exact hb.1, by rw [hd]; exact hb.2⟩
        have nc1 : no_call n t (m.set_buf r b) := no_call_set_buf hnc r hr b hbb
        have p1 : Pass n t m (m.set_buf r b) :=
          ⟨nc1, by rw [Machine.set_buf_log], by rw [Machine.set_buf_log],
            Or.inl (by rw [Machine.set_buf_g])⟩
        have cont : ∀ m2 : Machine, (m2.buf r).max_size = (m.buf r).max_size →
            (m2.buf r).ptr = (m.buf r).ptr + cfg.SIZEOF_TAINTOP → Pass n t m m2 →
            pass_from n t m ((m.buf r).max_size - (m.buf r).ptr < f + 1)
              (tob_process_loop cfg f r m2) := by
          intro m2 h2 h3 h4
          have hi := ih r m2 hr h4.nc (by rw [h2, h3, ← hpt, ← hm]; exact hle)
          refine ⟨fun hA => hi.1 ?_, fun m1 h => h4.chain (hi.2 m1 h)⟩
          rw [h2, h3]
          omega
        have hbuf : ((m.set_buf r b).buf r) = b := Machine.buf_set_buf m r b
        have cont0 : pass_from n t m ((m.buf r).max_size - (m.buf r).ptr < f + 1)
            (tob_process_loop cfg f r (m.set_buf r b)) :=
          cont _ (by rw [hbuf, hm]) (by rw [hbuf, hpt]) p1
        have conts : ∀ s : Shad,
            pass_from n t m ((m.buf r).max_size - (m.buf r).ptr < f + 1)
              (tob_process_loop cfg f r { m.set_buf r b with shad := s }) := by
          intro s
          have eb : Machine.buf { m.set_buf r b with shad := s } r = b :=
            (Machine.buf_ttbs (m.set_buf r b) _ rfl r).trans hbuf
          exact cont _ (by rw [eb, hm]) (by rw [eb, hpt])
            ⟨nc1, p1.entries, p1.ptr, p1.step⟩
        have ab := pass_from_abort n t m ((m.buf r).max_size - (m.buf r).ptr < f + 1)
        simp only [tob_process_loop, hend, hread, Bool.false_eq_true, if_false]
        cases ht : op.typ with
        | LABELOP =>
          dsimp only
          split
          · exact ab
          · exact conts _
        | DELETEOP =>
          dsimp only
          split
          · exact cont0
          · split
            · exact ab
            · exact conts _
        | COPYOP =>
          dsimp only
          split
          · split
            · exact ab
            · exact conts _
          · split
            · exact cont0
            · split
              · exact ab
              · exact conts _
        | COMPUTEOP =>
          dsimp only
          split
          · exact cont0
          · split
            · exact cont0
            · split
              · exact ab
              · exact conts _
        | INSNSTARTOP =>
          dsimp only
          cases hfix : process_insn_start_op cfg op ((m.set_buf r b).buf r)
              (m.set_buf r b).dynval_buf (m.set_buf r b).g with
          | none => exact ab
          | some y =>
            obtain ⟨b2, d, g⟩ := y
            dsimp only
            obtain ⟨f1, f2, f3, f4, f5, f6⟩ := fixup_pass cfg op _ _ _ _ _ _ hfix
            rw [hbuf] at f1 f2 f3
            rw [Machine.set_buf_log] at f4 f5 f6
            rw [Machine.set_buf_g] at f6
            have eb : Machine.buf
                { (m.set_buf r b).set_buf r b2 with dynval_buf := d, g := g } r = b2 :=
              (Machine.buf_ttbs ((m.set_buf r b).set_buf r b2) _ rfl r).trans
                (Machine.buf_set_buf _ r b2)
            have p2 : Pass n t m
                { (m.set_buf r b).set_buf r b2 with dynval_buf := d, g := g } := by
              refine ⟨no_call_set_buf nc1 r hr b2 ⟨by rw [f2]; exact hbb.1, f3 hbb.2⟩,
                f4, by show m.dynval_buf.ptr ≤ d.ptr; omega, ?_⟩
              rcases f6 with q | q | ⟨e, he, hbr⟩
              · exact Or.inl q
              · exact Or.inr (Or.inl q)
              · refine Or.inr (Or.inr ?_)
                show _ ≤ branch_upto m.dynval_buf.entries d.ptr
                rw [f5, branch_upto_step _ _ e he, hbr]
                simp
            split
            · exact pass_from_done _ p2
            · exact cont _ (by rw [eb, f2, hm]) (by rw [eb, f1, hpt]) p2
        | CALLOP =>
          exact absurd ht (by rw [hop]; exact hb.2 _)
        | RETOP =>
          dsimp only
          split
          · exact conts _
          · split
            · exact ab
            · exact cont0

/-- Function `tob_process` on a block of a translation block without `CALL`
ops: with fuel `n + 2` it gives a result. -/
theorem process_pass (cfg : Config) (n t : Nat) (hsz : 0 < cfg.SIZEOF_TAINTOP)
    (hsz2 : cfg.SIZEOF_TAINTOP < U32) (hn : n < U32) (fuel : Nat) (r : BufRef) (m : Machine)
    (hr : r.ttb = t) (hnc : no_call n t m) :
    pass_from n t m (n + 2 ≤ fuel) (tob_process cfg fuel r m) := by
  cases fuel with
  | zero =>
    refine ⟨fun h => ?_, fun m1 h => ?_⟩
    · omega
    · simp only [tob_process] at h
      cases h
  | succ f =>
    have hb := no_call_buf hnc r hr
    have nc0 : no_call n t (m.set_buf r (tob_rewind (m.buf r))) :=
      no_call_set_buf hnc r hr _ ⟨hb.1, hb.2⟩
    have p0 : Pass n t m (m.set_buf r (tob_rewind (m.buf r))) :=
      ⟨nc0, by rw [Machine.set_buf_log], by rw [Machine.set_buf_log],
        Or.inl (by rw [Machine.set_buf_g])⟩
    have hl := loop_pass cfg n t hsz hsz2 hn f r _ hr nc0
      (by rw [Machine.buf_set_buf]; exact Nat.zero_le _)
    rw [Machine.buf_set_buf] at hl
    have e : tob_process cfg (f + 1) r m =
        tob_process_loop cfg f r (m.set_buf r (tob_rewind (m.buf r))) := by
      simp only [tob_process]
    rw [e]
    refine ⟨fun h => hl.1 ?_, fun m1 h => p0.chain (hl.2 m1 h)⟩
    have h1 : (tob_rewind (m.buf r)).max_size ≤ n := hb.1
    have h2 : (tob_rewind (m.buf r)).ptr = 0 := rfl
    omega

/-- The `while` loop of `execute_taint_ops` on a translation block without
`CALL` ops.  With fuel `k + n + 3`, where `k` bounds the number of records of
kind `BRANCHENTRY` or `SWITCHENTRY` that are left in the log, it gives a
result; and the number of blocks it has processed when it ends is at most
the number of such records it has consumed, plus one if it was entered with
`next_step` neither `RETURN` nor `EXCEPT`. -/
theorem succ_pass (cfg : Config) (n t : Nat) (hsz : 0 < cfg.SIZEOF_TAINTOP)
    (hsz2 : cfg.SIZEOF_TAINTOP < U32) (hn : n < U32) :
    ∀ (fuel : Nat) (m : Machine), no_call n t m →
      (∀ k, branch_upto m.dynval_buf.entries m.dynval_buf.entries.length -
          branch_upto m.dynval_buf.entries m.dynval_buf.ptr ≤ k →
        k + n + 3 ≤ fuel → execute_succ cfg fuel t m ≠ .out_of_fuel) ∧
      (∀ m1, execute_succ cfg fuel t m = .done m1 →
        m1.dynval_buf.entries = m.dynval_buf.entries ∧
        m.dynval_buf.ptr ≤ m1.dynval_buf.ptr ∧
        succ_blocks cfg fuel t m + branch_upto m.dynval_buf.entries m.dynval_buf.ptr ≤
          branch_upto m.dynval_buf.entries m1.dynval_buf.ptr +
            (if m.g.next_step ≠ RETURN ∧ m.g.next_step ≠ EXCEPT then 1 else 0)) := by
  intro fuel
  induction fuel with
  | zero =>
    intro m _
    refine ⟨fun k _ h => ?_, fun m1 h => ?_⟩
    · omega
    · simp only [execute_succ] at h
      cases h
  | succ f ih =>
    intro m hnc
    by_cases hc : m.g.next_step ≠ RETURN ∧ m.g.next_step ≠ EXCEPT
    · obtain ⟨h1, h2⟩ := hc
      have nc' : no_call n t { m with g := { m.g with next_step := RETURN } } := hnc
      cases hfind : find_tbb (m.ttbs t) m.g.taken_branch 0 ((m.ttbs t).numBBs - 1).toNat with
      | none =>
        have e : execute_succ cfg (f + 1) t m =
            execute_succ cfg f t { m with g := { m.g with next_step := RETURN } } := by
          simp only [execute_succ, h1, h2, ne_eq, not_false_eq_true, and_self, if_true, hfind]
        have eb : succ_blocks cfg (f + 1) t m =
            succ_blocks cfg f t { m with g := { m.g with next_step := RETURN } } := by
          simp only [succ_blocks, h1, h2, ne_eq, not_false_eq_true, and_self, if_true, hfind]
        rw [e, eb]
        cases f with
        | zero =>
          refine ⟨fun k _ h => ?_, fun m1 h => ?_⟩
          · omega
          · simp only [execute_succ] at h
            cases h
        | succ f1 =>
          rw [succ_stop cfg f1 t _ (Or.inl rfl)]
          refine ⟨(fun _ _ _ h => by cases h), fun m1 h => ?_⟩
          cases h
          refine ⟨rfl, Nat.le_refl _, ?_⟩
          have z : succ_blocks cfg (f1 + 1) t
              { m with g := { m.g with next_step := RETURN } } = 0 := by
            simp [succ_blocks]
          rw [z]
          show 0 + branch_upto m.dynval_buf.entries m.dynval_buf.ptr ≤
            branch_upto m.dynval_buf.entries m.dynval_buf.ptr + _
          omega
      | some i =>
        have e := succ_step cfg f t m i h1 h2 hfind
        have eb : succ_blocks cfg (f + 1) t m =
            match tob_process cfg f (.tbb t i)
              { m with g := { m.g with next_step := RETURN } } with
            | .done m3 => 1 + succ_blocks cfg f t m3
            | _ => 1 := by
          simp only [succ_blocks, h1, h2, ne_eq, not_false_eq_true, and_self, if_true, hfind]
        have hp := process_pass cfg n t hsz hsz2 hn f (.tbb t i)
          { m with g := { m.g with next_step := RETURN } } rfl nc'
        rw [e, eb]
        cases ho : tob_process cfg f (.tbb t i)
            { m with g := { m.g with next_step := RETURN } } with
        | abort =>
          exact ⟨(fun _ _ _ h => by cases h), (fun m1 h => by cases h)⟩
        | out_of_fuel =>
          refine ⟨fun k _ hk _ => ?_, fun m1 h => by cases h⟩
          rw [ho] at hp
          exact hp.1 (by omega) rfl
        | done m3 =>
          rw [ho] at hp
          have p3 : Pass n t { m with g := { m.g with next_step := RETURN } } m3 :=
            hp.2 m3 rfl
          have he3 : m3.dynval_buf.entries = m.dynval_buf.entries := p3.entries
          have hp3 : m.dynval_buf.ptr ≤ m3.dynval_buf.ptr := p3.ptr
          have mono := branch_upto_mono m.dynval_buf.entries hp3
          have hall := branch_upto_le_all m.dynval_buf.entries m3.dynval_buf.ptr
          have hstep : (m3.g.next_step ≠ RETURN ∧ m3.g.next_step ≠ EXCEPT) →
              branch_upto m.dynval_buf.entries m.dynval_buf.ptr + 1 ≤
                branch_upto m.dynval_buf.entries m3.dynval_buf.ptr := by
            intro hc3
            rcases p3.step with q | q | q
            · exact absurd q hc3.1
            · exact absurd q hc3.2
            · exact q
          have hi := ih m3 p3.nc
          rw [he3] at hi
          dsimp only
          refine ⟨fun k hk hf => ?_, fun m1 h => ?_⟩
          · by_cases hc3 : m3.g.next_step ≠ RETURN ∧ m3.g.next_step ≠ EXCEPT
            · have := hstep hc3
              exact hi.1 (k - 1) (by omega) (by omega)
            · have hstop : m3.g.next_step = RETURN ∨ m3.g.next_step = EXCEPT := by
                by_cases hr : m3.g.next_step = RETURN
                · exact Or.inl hr
                · by_cases hx : m3.g.next_step = EXCEPT
                  · exact Or.inr hx
                  · exact absurd ⟨hr, hx⟩ hc3
              obtain ⟨f1, hf1⟩ : ∃ f1, f = f1 + 1 := ⟨f - 1, by omega⟩
              subst hf1
              rw [succ_stop cfg f1 t m3 hstop]
              intro h
              cases h
          · obtain ⟨q1, q2, q3⟩ := hi.2 m1 h
            refine ⟨q1, le_trans hp3 q2, ?_⟩
            show 1 + succ_blocks cfg f t m3 +
                branch_upto m.dynval_buf.entries m.dynval_buf.ptr ≤
              branch_upto m.dynval_buf.entries m1.dynval_buf.ptr +
                (if m.g.next_step ≠ RETURN ∧ m.g.next_step ≠ EXCEPT then 1 else 0)
            rw [if_pos ⟨h1, h2⟩]
            by_cases hc3 : m3.g.next_step ≠ RETURN ∧ m3.g.next_step ≠ EXCEPT
            · have := hstep hc3
              rw [if_pos hc3] at q3
              omega
            · rw [if_neg hc3] at q3
              omega
    · have hstop : m.g.next_step = RETURN ∨ m.g.next_step = EXCEPT := by
        by_cases hr : m.g.next_step = RETURN
        · exact Or.inl hr
        · by_cases hx : m.g.next_step = EXCEPT
          · exact Or.inr hx
          · exact absurd ⟨hr, hx⟩ hc
      rw [succ_stop cfg f t m hstop]
      refine ⟨(fun _ _ _ h => by cases h), fun m1 h => ?_⟩
      cases h
      refine ⟨rfl, Nat.le_refl _, ?_⟩
      have z : succ_blocks cfg (f + 1) t m = 0 := by
        simp only [succ_blocks, if_neg hc]
      rw [z, if_neg hc]
      omega

theorem demo_ops_buf_no_call (ops : List TaintOp) (p n : Nat) (hlen : 80 * ops.length ≤ n)
    (h : ∀ op ∈ ops, op.typ ≠ .CALLOP) : buf_no_call n (demo_ops_buf ops p) := by
  refine ⟨hlen, fun x => ?_⟩
  unfold demo_ops_buf
  dsimp only
  split
  · rw [List.getD_eq_getElem?_getD]
    cases hg : ops[x / 80]? with
    | none => simp
    | some op =>
      simp only [Option.getD_some]
      exact h op (List.getElem?_mem hg)
  · simp

theorem demo_machine_no_call (log : List DynValEntry) (entry : List TaintOp)
    (succs : List (Int × List TaintOp)) (n t : Nat) (he : 80 * entry.length ≤ n)
    (hentry : ∀ op ∈ entry, op.typ ≠ .CALLOP)
    (hs : ∀ s ∈ succs, 80 * s.2.length ≤ n ∧ ∀ op ∈ s.2, op.typ ≠ .CALLOP) :
    no_call n t (demo_machine log entry succs) := by
  refine ⟨demo_ops_buf_no_call entry 0 n he hentry, fun i => ?_⟩
  show buf_no_call n (demo_ops_buf (succs.getD i (0, [])).2 0)
  rw [List.getD_eq_getElem?_getD]
  cases hg : succs[i]? with
  | none =>
    exact demo_ops_buf_no_call [] 0 n (Nat.zero_le _) (fun op h => by cases h)
  | some s =>
    have hm := hs s (List.getElem?_mem hg)
    exact demo_ops_buf_no_call s.2 0 n hm.1 hm.2

/-- C38. An execute of a translation block without `CALL` ops terminates, for
records of `0 < sizeof(TaintOp) < 2^32` bytes and buffers of the translation
block of at most `n < 2^32` bytes that hold no `CALL` op.

Let `k` be the number of records of kind `BRANCHENTRY` or `SWITCHENTRY` the
log holds from its cursor on.  With fuel `k + n + 4` or more, that is with at
most `k + 1` iterations of the loop over the successor blocks and `n + 1`
iterations of the loop over the ops of a block, `execute_taint_ops` gives a
result (it returns, or an assertion fails).

Whenever it returns, the records of the log are the same, the cursor of the
log has not moved back, and the number of successor blocks processed is at
most the number of records of kind `BRANCHENTRY` or `SWITCHENTRY` consumed
during the execute. -/
theorem C38_execute_terminates (cfg : Config) (n t : Nat) (m : Machine)
    (hsz : 0 < cfg.SIZEOF_TAINTOP) (hsz2 : cfg.SIZEOF_TAINTOP < U32) (hn : n < U32)
    (hnc : no_call n t m) :
    (∀ fuel,
      branch_records m.dynval_buf.entries m.dynval_buf.ptr m.dynval_buf.entries.length +
        n + 4 ≤ fuel →
      execute_taint_ops cfg fuel t m ≠ .out_of_fuel) ∧
    (∀ fuel m1, execute_taint_ops cfg fuel t m = .done m1 →
      m1.dynval_buf.entries = m.dynval_buf.entries ∧
      m.dynval_buf.ptr ≤ m1.dynval_buf.ptr ∧
      execute_blocks cfg fuel t m ≤
        branch_records m.dynval_buf.entries m.dynval_buf.ptr m1.dynval_buf.ptr) := by
  have nc0 : no_call n t { m with g := { m.g with next_step := RETURN } } := hnc
  have key : ∀ f m2, tob_process cfg f (.entry t)
      { m with g := { m.g with next_step := RETURN } } = .done m2 →
      no_call n t m2 ∧ m2.dynval_buf.entries = m.dynval_buf.entries ∧
      m.dynval_buf.ptr ≤ m2.dynval_buf.ptr ∧
      branch_upto m.dynval_buf.entries m.dynval_buf.ptr +
          (if m2.g.next_step ≠ RETURN ∧ m2.g.next_step ≠ EXCEPT then 1 else 0) ≤
        branch_upto m.dynval_buf.entries m2.dynval_buf.ptr := by
    intro f m2 ho
    have p2 : Pass n t { m with g := { m.g with next_step := RETURN } } m2 :=
      (process_pass cfg n t hsz hsz2 hn f (.entry t) _ rfl nc0).2 m2 ho
    refine ⟨p2.nc, p2.entries, p2.ptr, ?_⟩
    have mono := branch_upto_mono m.dynval_buf.entries p2.ptr
    by_cases hc : m2.g.next_step ≠ RETURN ∧ m2.g.next_step ≠ EXCEPT
    · rw [if_pos hc]
      rcases p2.step with q | q | q
      · exact absurd q hc.1
      · exact absurd q hc.2
      · exact q
    · rw [if_neg hc]
      exact mono
  constructor
  · intro fuel hf
    rw [branch_records_eq] at hf
    cases fuel with
    | zero => omega
    | succ f =>
      have hp := process_pass cfg n t hsz hsz2 hn f (.entry t) _ rfl nc0
      simp only [execute_taint_ops]
      cases ho : tob_process cfg f (.entry t)
          { m with g := { m.g with next_step := RETURN } } with
      | abort =>
        intro h
        cases h
      | out_of_fuel =>
        rw [ho] at hp
        exact absurd rfl (hp.1 (by omega))
      | done m2 =>
        obtain ⟨k1, k2, k3, k4⟩ := key f m2 ho
        have hs := (succ_pass cfg n t hsz hsz2 hn f m2 k1).1
        rw [k2] at hs
        have mono := branch_upto_mono m.dynval_buf.entries k3
        exact hs _ (Nat.le_refl _) (by omega)
  · intro fuel m1 h
    rw [branch_records_eq]
    cases fuel with
    | zero =>
      simp only [execute_taint_ops] at h
      cases h
    | succ f =>
      simp only [execute_taint_ops] at h
      simp only [execute_blocks]
      cases ho : tob_process cfg f (.entry t)
          { m with g := { m.g with next_step := RETURN } } with
      | abort =>
        rw [ho] at h
        cases h
      | out_of_fuel =>
        rw [ho] at h
        cases h
      | done m2 =>
        rw [ho] at h
        dsimp only at h
        dsimp only
        obtain ⟨k1, k2, k3, k4⟩ := key f m2 ho
        obtain ⟨q1, q2, q3⟩ := (succ_pass cfg n t hsz hsz2 hn f m2 k1).2 m1 h
        rw [k2] at q1 q3
        refine ⟨q1, le_trans k3 q2, ?_⟩
        omega

/-- C38 on blocks that branch in a cycle, with the log `BRANCHENTRY{true}`,
`BRANCHENTRY{true}`, `BRANCHENTRY{false}`: the execute gives a result with
fuel 167; it returns with the three records consumed, having processed the
block labelled 11 twice. -/
theorem C38_execute_terminates_witness :
    execute_taint_ops demo_cfg 167 0 demo_cycle ≠ .out_of_fuel ∧
    branch_records demo_cycle.dynval_buf.entries 0 3 = 3 ∧
    (execute_taint_ops demo_cfg 10 0 demo_cycle).final.map
      (fun m1 => (m1.dynval_buf.ptr, m1.g.next_step,
        members demo_cfg m1.shad (demo_greg 1 0))) = some (3, RETURN, [11]) ∧
    execute_blocks demo_cfg 10 0 demo_cycle = 2 := by
  have h := C38_execute_terminates demo_cfg 160 0 demo_cycle (by decide) (by decide)
    (by decide)
    (demo_machine_no_call _ _ _ 160 0 (by decide) (by decide) (by decide))
  exact ⟨h.1 167 (by decide), by decide, by decide!, by decide!⟩

/-! ## Claims about the bounds of the presence bitmap and of the buffer -/

/-- C39 fails on the code.  For `mem_size = 0xffffffff`, the value the plugin
passes to `tp_init`, the bitmap has `0x1fffffff` bytes, and the RAM address
`0xfffffff8`, which is smaller than `mem_size`, has the byte index
`0x1fffffff`, the first index beyond the bitmap.  `tp_label` of that address
sets the byte at that index to 1, and `get_ram_bit` reads it. -/
theorem C39_bitmap_index_out_of_bounds :
    ram_bitmap_len 4294967295 = 536870911 ∧ 4294967288 < 4294967295 ∧
    ram_bitmap_index 4294967288 = 536870911 ∧
    (tp_init demo_cfg 64 4294967295 64 2000).ram_bitmap 536870911 = 0 ∧
    (tp_label demo_cfg (tp_init demo_cfg 64 4294967295 64 2000) (demo_maddr 4294967288 0) 7).map
      (fun s1 => (s1.ram_bitmap 536870911, get_ram_bit s1 4294967288)) = some (1, 1) ∧
    (tp_label demo_cfg (tp_init demo_cfg 64 4294967295 64 2000) (demo_maddr 4294967288 0) 7).map
      (fun s1 => get_ram_bit { s1 with ram_bitmap := Function.update s1.ram_bitmap 536870911 0 }
        4294967288) = some 0 := by
  refine ⟨by decide, by decide, by decide, by decide, by decide, by decide⟩

/-- C40 fails on the code.  A cleared buffer of 160 bytes has `size = 0` and
the cursor at 0, so that a record of 80 bytes fits between the cursor and
`max_size`, and `tob_end` is true.  `tob_op_read` advances the cursor to 80
and leaves the stored records alone, but it sets `size` to 80; after
`tob_rewind`, `tob_end`, which was true for the cleared buffer, is false. -/
theorem C40_read_grows_size :
    (tob_clear (demo_ops_buf [demo_ret_op, demo_ret_op] 0)).size = 0 ∧
    (tob_clear (demo_ops_buf [demo_ret_op, demo_ret_op] 0)).ptr = 0 ∧
    (tob_clear (demo_ops_buf [demo_ret_op, demo_ret_op] 0)).max_size = 160 ∧
    tob_end (tob_rewind (tob_clear (demo_ops_buf [demo_ret_op, demo_ret_op] 0))) = true ∧
    (tob_op_read 80 (tob_clear (demo_ops_buf [demo_ret_op, demo_ret_op] 0))).map
      (fun r => (r.1.ptr, r.1.size, r.1.max_size, r.1.data 0, tob_end (tob_rewind r.1))) =
      some (80, 80, 160, demo_ret_op, false) := by
  refine ⟨rfl, rfl, by decide, by decide, by decide⟩

end Panda
